import Mathlib

/-!
# Dissection core: uTP and RTP decoders over a bounds-checked buffer

A shallow embedding of `epan/dissectors/packet-bt-utp.c` and
`epan/dissectors/packet-rtp.c`.  The decoders are translated statement by
statement.  The engine they run on (byte buffer, protocol tree builder,
conversation tracker) lives in other files of the repository; each engine
primitive is modelled from the specification and says so in its doc comment.

Conventions.  A byte is a `Nat` read modulo 256.  Offsets and buffer lengths
are natural numbers: a captured frame is far shorter than `2^31` bytes, so the
C casts between `guint` and `int` on offsets are the identity.  Lengths handed
to the tree builder are integers because the decoders pass `-1` ("to the end
of the buffer") and may compute a negative length.
-/

namespace Epan

/-! ## Field and subtree identifiers -/

/-- Registered protocol and header-field handles (the `static int hf_...`
and `proto_...` variables of the two decoders, plus the engine's text-only
field and the raw `data` protocol). -/
inductive hf_id where
  | proto_bt_utp
  | hf_bt_utp_ver
  | hf_bt_utp_type
  | hf_bt_utp_flags
  | hf_bt_utp_extension
  | hf_bt_utp_next_extension_type
  | hf_bt_utp_extension_len
  | hf_bt_utp_extension_bitmask
  | hf_bt_utp_extension_unknown
  | hf_bt_utp_connection_id_v0
  | hf_bt_utp_connection_id_v1
  | hf_bt_utp_timestamp_sec
  | hf_bt_utp_timestamp_us
  | hf_bt_utp_timestamp_diff_us
  | hf_bt_utp_wnd_size_v0
  | hf_bt_utp_wnd_size_v1
  | hf_bt_utp_seq_nr
  | hf_bt_utp_ack_nr
  | proto_rtp
  | hf_rtp_version
  | hf_rtp_padding
  | hf_rtp_extension
  | hf_rtp_csrc_count
  | hf_rtp_marker
  | hf_rtp_payload_type
  | hf_rtp_seq_nr
  | hf_rtp_timestamp
  | hf_rtp_ssrc
  | hf_rtp_csrc_item
  | hf_rtp_data
  | hf_rtp_padding_data
  | hf_rtp_padding_count
  | hf_rtp_prof_define
  | hf_rtp_length
  | hf_rtp_hdr_ext
  | hf_rtp_setup
  | hf_rtp_setup_frame
  | hf_rtp_setup_method
  | hf_text_only
  | proto_data
  deriving DecidableEq, Repr

/-- Subtree type handles (the `static gint ett_...` variables). -/
inductive ett_id where
  | ett_bt_utp
  | ett_bt_utp_extension
  | ett_rtp
  | ett_csrc_list
  | ett_hdr_ext
  | ett_rtp_setup
  deriving DecidableEq, Repr

/-! ## Byte buffer -/

/-- Modelled from the spec: the `tvbuff_t` byte buffer of the engine (§3
ByteBuffer): the captured bytes and the reported length, which may exceed the
number of captured bytes for a truncated capture. -/
structure tvbuff_t where
  data : List Nat
  reported_length : Nat
  deriving DecidableEq, Repr

/-- Conditions that end a decoder early.  `OutOfBounds` is the recoverable
engine condition of spec §7.  `OutOfFuel` is not an engine condition: it is
what a fuel-bounded loop of this embedding yields when its fuel runs out, and
it is proved never to occur.  `NullPointer` stands for the C code
dereferencing a `NULL` pointer, `BufferOverrun` for the C code writing past
the end of an array: C gives neither a defined result, and the state paired
with such a condition carries no meaning. -/
inductive exn where
  | OutOfBounds
  | OutOfFuel
  | NullPointer
  | BufferOverrun
  deriving DecidableEq, Repr

/-- Modelled from the spec: `tvb_length`, the captured length (§4.1
`captured_length()`). -/
def tvb_length (tvb : tvbuff_t) : Nat := tvb.data.length

/-- Modelled from the spec: `tvb_reported_length`, the length the wire format
claims (§3 ByteBuffer). -/
def tvb_reported_length (tvb : tvbuff_t) : Nat := tvb.reported_length

/-- Modelled from the spec: `tvb_get_guint8` (§4.1 `read_u8`, §8 bounds
safety): the byte at `offset`, or `OutOfBounds` when `offset + 1` exceeds the
captured length. -/
def tvb_get_guint8 (tvb : tvbuff_t) (offset : Nat) : Except exn Nat :=
  match tvb.data[offset]? with
  | some b => .ok (b % 256)
  | none => .error .OutOfBounds

/-! ## Protocol tree -/

/-- Value carried by a tree node: read from the wire bytes of the node's
range (`from_tvb`), or handed over by the decoder. -/
inductive fvalue_t where
  | from_tvb
  | uinteger (n : Nat)
  | boolean (n : Nat)
  | string (s : String)
  | none
  deriving DecidableEq, Repr

/-- Modelled from the spec: a node of the protocol tree (§3 ProtocolTreeNode):
field identity, byte range, parent (children are the nodes naming this node
as parent, in emission order), label text, subtree type, and the truncation
and generated flags of §4.3. -/
structure proto_node where
  parent : Nat
  hfindex : hf_id
  start : Nat
  length : Int
  value : fvalue_t
  text : String
  tree_type : Option ett_id
  truncated : Bool
  generated : Bool
  deriving DecidableEq, Repr

/-- Modelled from the spec: a network address as the conversation key uses
it (§3 ConversationKey): address type, length and bytes. -/
structure address where
  type : Nat
  len : Nat
  data : List Nat
  deriving DecidableEq, Repr

/-- Per-flow RTP metadata, `struct _rtp_conversation_info`: the signalling
method and the frame that set the flow up. -/
structure rtp_conversation_info where
  method : String
  frame_number : Nat
  deriving DecidableEq, Repr

/-- Modelled from the spec: a conversation record (§3 ConversationRecord):
the key (two addresses, port type, two ports), the wildcard options it was
created with, the per-protocol data attached to it and the decoder that
continues the flow. -/
structure conversation_t where
  addr1 : address
  addr2 : address
  ptype : Nat
  port1 : Nat
  port2 : Nat
  options : Nat
  proto_data : List (hf_id × rtp_conversation_info)
  dissector : Option hf_id
  deriving DecidableEq, Repr

/-- The tap record of the RTP decoder, `struct _rtp_info` of `packet-rtp.h`.
The payload offset and the payload length are `size_t` there, unsigned.  The
offset stored is an offset into the buffer, never negative; the length stored
is the `int` result of `tvb_length_remaining`, which is -1 past the end of
the buffer, and is taken modulo the range of `size_t` (`to_size_t`). -/
structure rtp_info_t where
  info_padding_set : Nat
  info_padding_count : Nat
  info_marker_set : Nat
  info_payload_type : Nat
  info_seq_num : Nat
  info_timestamp : Nat
  info_sync_src : Nat
  info_all_data_present : Bool
  info_data_len : Int
  info_data : Option (List Nat)
  info_payload_offset : Nat
  info_payload_len : Nat
  deriving DecidableEq, Repr

/-- The protocol and info summary columns. -/
structure column_info where
  protocol : String
  info : String
  deriving DecidableEq, Repr

/-- The mutable state a decoder call works on: the protocol tree arena, the
summary columns (absent when no columns are requested), the conversation
table, the per-packet protocol data (keyed by frame number and protocol), the
decoder's static `rtp_info` record and the queue of tap records. -/
structure epan_state where
  tree : List proto_node
  cinfo : Option column_info
  conversations : List conversation_t
  pfd : List (Nat × hf_id × rtp_conversation_info)
  rtp_info : rtp_info_t
  tap_queue : List rtp_info_t
  deriving DecidableEq, Repr

/-- A decoder step: runs on the state and either yields a value or stops
with a recoverable condition; the state reached (the tree decoded so far) is
kept in both cases. -/
def Dissect (α : Type) : Type := epan_state → Except exn α × epan_state

/-- Sequencing of decoder steps: a recoverable condition skips the rest. -/
def Dissect.bind {α β : Type} (m : Dissect α) (f : α → Dissect β) : Dissect β :=
  fun s =>
    match m s with
    | (.ok a, s1) => f a s1
    | (.error e, s1) => (.error e, s1)

instance : Monad Dissect where
  pure a := fun s => (.ok a, s)
  bind := Dissect.bind

/-- A bounds-checked read inside a decoder: the state is untouched. -/
def liftE {α : Type} (r : Except exn α) : Dissect α := fun s => (r, s)

/-- Appends one node to the arena and returns its index. -/
def add_node (n : proto_node) : Dissect (Option Nat) :=
  fun s => (.ok (some s.tree.length), { s with tree := s.tree ++ [n] })

/-- Appends a node flagged as truncated and stops with `OutOfBounds`. -/
def add_truncated_node (n : proto_node) : Dissect (Option Nat) :=
  fun s => (.error .OutOfBounds, { s with tree := s.tree ++ [{ n with truncated := true }] })

/-- Applies `f` to the node with index `i`, if there is one. -/
def update_node (f : proto_node → proto_node) : Nat → List proto_node → List proto_node
  | _, [] => []
  | 0, x :: xs => f x :: xs
  | i + 1, x :: xs => x :: update_node f i xs

/-- Modelled from the spec: the tree builder's `add_field` (§4.3) behind
`proto_tree_add_item` and its typed variants.  With no tree (`NULL`) nothing
is recorded.  Otherwise the byte range is validated against the captured
length: inside, a node with that range is recorded; outside, a node is still
recorded but flagged as truncated, and the recoverable `OutOfBounds`
condition ends the current decoder (§7).  Length `-1` stands for "to the end
of the captured bytes". -/
def proto_tree_add (tree : Option Nat) (hfindex : hf_id) (tvb : tvbuff_t)
    (start : Nat) (length : Int) (value : fvalue_t) : Dissect (Option Nat) :=
  match tree with
  | none => pure none
  | some p =>
    if length = -1 then
      if start ≤ tvb_length tvb then
        add_node ⟨p, hfindex, start, (tvb_length tvb : Int) - start, value, "", none, false, false⟩
      else
        add_truncated_node ⟨p, hfindex, start, length, value, "", none, false, false⟩
    else if 0 ≤ length ∧ (start : Int) + length ≤ tvb_length tvb then
      add_node ⟨p, hfindex, start, length, value, "", none, false, false⟩
    else
      add_truncated_node ⟨p, hfindex, start, length, value, "", none, false, false⟩

/-- Modelled from the spec: `proto_tree_add_item`, `add_field` with the value
decoded from the bytes of the range. -/
def proto_tree_add_item (tree : Option Nat) (hfindex : hf_id) (tvb : tvbuff_t)
    (start : Nat) (length : Int) : Dissect (Option Nat) :=
  proto_tree_add tree hfindex tvb start length .from_tvb

/-- Modelled from the spec: `proto_item_add_subtree` (§4.3 `add_subtree`):
turns an item into a subtree of the given type and returns it as a tree. -/
def proto_item_add_subtree (ti : Option Nat) (ett : ett_id) : Dissect (Option Nat) :=
  match ti with
  | none => pure none
  | some i => fun s =>
    (.ok (some i), { s with tree := update_node (fun n => { n with tree_type := some ett }) i s.tree })

/-- Modelled from the spec: `proto_item_append_text` (§4.3 `append_text`). -/
def proto_item_append_text (ti : Option Nat) (txt : String) : Dissect Unit :=
  match ti with
  | none => pure ()
  | some i => fun s =>
    (.ok (), { s with tree := update_node (fun n => { n with text := n.text ++ txt }) i s.tree })

/-- Modelled from the spec: `proto_item_set_len` (§4.3 `set_node_length`). -/
def proto_item_set_len (ti : Option Nat) (length : Int) : Dissect Unit :=
  match ti with
  | none => pure ()
  | some i => fun s =>
    (.ok (), { s with tree := update_node (fun n => { n with length := length }) i s.tree })

/-- Modelled from the spec: `check_col`: whether summary columns are being
built for this packet (§6 summary text). -/
def check_col (s : epan_state) : Bool := s.cinfo.isSome

/-- Modelled from the spec: `col_set_str` on the protocol column (§6); does
nothing when no columns are requested. -/
def col_set_protocol (str : String) : Dissect Unit :=
  fun s => (.ok (), { s with cinfo := s.cinfo.map (fun c => { c with protocol := str }) })

/-- Modelled from the spec: `col_set_str` / `col_add_fstr` on the info column
(§6); does nothing when no columns are requested. -/
def col_set_info (str : String) : Dissect Unit :=
  fun s => (.ok (), { s with cinfo := s.cinfo.map (fun c => { c with info := str }) })

/-! ## uTP: `packet-bt-utp.c` -/

def ST_NUM_STATES : Nat := 5

def EXT_SELECTION_ACKS : Nat := 1
def EXT_EXTENSION_BITS : Nat := 2
def EXT_NUM_EXT : Nat := 3

def V1_FIXED_HDR_SIZE : Nat := 20

/-- The function `utp_is_v1`: the V0/V1 layout selector. -/
def utp_is_v1 (tvb : tvbuff_t) : Except exn Bool := do
  let v1_ver_type ← tvb_get_guint8 tvb 0
  let v1_ext ← tvb_get_guint8 tvb 1
  if v1_ver_type &&& 0x0f ≠ 1 ∨ v1_ver_type >>> 4 ≥ ST_NUM_STATES ∨ v1_ext ≥ EXT_NUM_EXT then
    pure false
  else
    let len := tvb_reported_length tvb
    if len < V1_FIXED_HDR_SIZE then
      pure true
    else
      let len := len - V1_FIXED_HDR_SIZE
      if len = 0 ∨ len = 6 ∨ len = 10 ∨ len = 14 ∨ (len > 14 ∧ len % 2 = 0) then
        pure true
      else
        pure false

/-- The V0 ("original") branch of `dissect_utp_header`: the fixed-header
fields; yields the carried extension type and the offset after the header. -/
def dissect_utp_header_v0 (tvb : tvbuff_t) (tree : Option Nat) : Dissect (Nat × Nat) := do
  let offset := 0
  let _ ← proto_tree_add_item tree .hf_bt_utp_connection_id_v0 tvb offset 4
  let offset := offset + 4
  let _ ← proto_tree_add_item tree .hf_bt_utp_timestamp_sec tvb offset 4
  let offset := offset + 4
  let _ ← proto_tree_add_item tree .hf_bt_utp_timestamp_us tvb offset 4
  let offset := offset + 4
  let _ ← proto_tree_add_item tree .hf_bt_utp_timestamp_diff_us tvb offset 4
  let offset := offset + 4
  let _ ← proto_tree_add_item tree .hf_bt_utp_wnd_size_v0 tvb offset 1
  let offset := offset + 1
  let _ ← proto_tree_add_item tree .hf_bt_utp_next_extension_type tvb offset 1
  let extension_type ← liftE (tvb_get_guint8 tvb offset)
  let offset := offset + 1
  let _ ← proto_tree_add_item tree .hf_bt_utp_flags tvb offset 1
  let offset := offset + 1
  let _ ← proto_tree_add_item tree .hf_bt_utp_seq_nr tvb offset 2
  let offset := offset + 2
  let _ ← proto_tree_add_item tree .hf_bt_utp_ack_nr tvb offset 2
  let offset := offset + 2
  pure (extension_type, offset)

/-- The V1 branch of `dissect_utp_header`: the fixed-header fields; yields
the carried extension type and the offset after the header. -/
def dissect_utp_header_v1 (tvb : tvbuff_t) (tree : Option Nat) : Dissect (Nat × Nat) := do
  let offset := 0
  let _ ← proto_tree_add_item tree .hf_bt_utp_ver tvb offset 1
  let _ ← proto_tree_add_item tree .hf_bt_utp_type tvb offset 1
  let offset := offset + 1
  let _ ← proto_tree_add_item tree .hf_bt_utp_next_extension_type tvb offset 1
  let extension_type ← liftE (tvb_get_guint8 tvb offset)
  let offset := offset + 1
  let _ ← proto_tree_add_item tree .hf_bt_utp_connection_id_v1 tvb offset 2
  let offset := offset + 2
  let _ ← proto_tree_add_item tree .hf_bt_utp_timestamp_us tvb offset 4
  let offset := offset + 4
  let _ ← proto_tree_add_item tree .hf_bt_utp_timestamp_diff_us tvb offset 4
  let offset := offset + 4
  let _ ← proto_tree_add_item tree .hf_bt_utp_wnd_size_v1 tvb offset 4
  let offset := offset + 4
  let _ ← proto_tree_add_item tree .hf_bt_utp_seq_nr tvb offset 2
  let offset := offset + 2
  let _ ← proto_tree_add_item tree .hf_bt_utp_ack_nr tvb offset 2
  let offset := offset + 2
  pure (extension_type, offset)

/-- One pass through the body of the `while` loop of `dissect_utp_header`
(the `switch` on the carried extension type); yields the next carried type
and the advanced offset. -/
def dissect_utp_extension (tvb : tvbuff_t) (tree : Option Nat)
    (extension_type offset : Nat) : Dissect (Nat × Nat) :=
  if extension_type = EXT_SELECTION_ACKS then do
    let ti ← proto_tree_add_item tree .hf_bt_utp_extension tvb offset (-1)
    let ext_tree ← proto_item_add_subtree ti .ett_bt_utp_extension
    let _ ← proto_tree_add_item ext_tree .hf_bt_utp_next_extension_type tvb offset 1
    let extension_type ← liftE (tvb_get_guint8 tvb offset)
    let offset := offset + 1
    let _ ← proto_tree_add_item ext_tree .hf_bt_utp_extension_len tvb offset 1
    let extension_length ← liftE (tvb_get_guint8 tvb offset)
    proto_item_append_text ti (" Selection Acks, Len=" ++ toString extension_length)
    let offset := offset + 1
    let _ ← proto_tree_add_item ext_tree .hf_bt_utp_extension_bitmask tvb offset extension_length
    let offset := offset + extension_length
    proto_item_set_len ti (1 + 1 + extension_length)
    pure (extension_type, offset)
  else if extension_type = EXT_EXTENSION_BITS then do
    let ti ← proto_tree_add_item tree .hf_bt_utp_extension tvb offset (-1)
    let ext_tree ← proto_item_add_subtree ti .ett_bt_utp_extension
    let _ ← proto_tree_add_item ext_tree .hf_bt_utp_next_extension_type tvb offset 1
    let extension_type ← liftE (tvb_get_guint8 tvb offset)
    let offset := offset + 1
    let _ ← proto_tree_add_item ext_tree .hf_bt_utp_extension_len tvb offset 1
    let extension_length ← liftE (tvb_get_guint8 tvb offset)
    proto_item_append_text ti (" Extension Bits, Len=" ++ toString extension_length)
    let offset := offset + 1
    let _ ← proto_tree_add_item ext_tree .hf_bt_utp_extension_bitmask tvb offset extension_length
    let offset := offset + extension_length
    proto_item_set_len ti (1 + 1 + extension_length)
    pure (extension_type, offset)
  else do
    let ti ← proto_tree_add_item tree .hf_bt_utp_extension tvb offset (-1)
    let ext_tree ← proto_item_add_subtree ti .ett_bt_utp_extension
    let _ ← proto_tree_add_item ext_tree .hf_bt_utp_next_extension_type tvb offset 1
    let extension_type ← liftE (tvb_get_guint8 tvb offset)
    let offset := offset + 1
    let _ ← proto_tree_add_item ext_tree .hf_bt_utp_extension_len tvb offset 1
    let extension_length ← liftE (tvb_get_guint8 tvb offset)
    proto_item_append_text ti (" Unknown, Len=" ++ toString extension_length)
    let offset := offset + 1
    let _ ← proto_tree_add_item ext_tree .hf_bt_utp_extension_unknown tvb offset extension_length
    let offset := offset + extension_length
    proto_item_set_len ti (1 + 1 + extension_length)
    pure (extension_type, offset)

/-- The `while (offset < (int)tvb_reported_length(tvb))` loop of
`dissect_utp_header`; `fuel` bounds the number of passes through the body. -/
def dissect_utp_extensions (tvb : tvbuff_t) (tree : Option Nat) :
    Nat → Nat → Nat → Dissect Nat
  | 0, _, offset =>
    if offset < tvb_reported_length tvb then liftE (.error .OutOfFuel) else pure offset
  | fuel + 1, extension_type, offset =>
    if offset < tvb_reported_length tvb then do
      let r ← dissect_utp_extension tvb tree extension_type offset
      dissect_utp_extensions tvb tree fuel r.1 r.2
    else
      pure offset

/-- The function `dissect_utp_header`: fixed header of the layout `utp_is_v1` selects, then
the extension chain; returns the final offset.  The loop is given one unit of
fuel per reported byte. -/
def dissect_utp_header (tvb : tvbuff_t) (tree : Option Nat) : Dissect Nat := do
  let is_v1 ← liftE (utp_is_v1 tvb)
  let hdr ← if !is_v1 then dissect_utp_header_v0 tvb tree else dissect_utp_header_v1 tvb tree
  dissect_utp_extensions tvb tree (tvb_reported_length tvb) hdr.1 hdr.2

/-- The function `dissect_bt_utp`: sets the columns, adds the protocol node when a tree is
requested, and decodes the header below it. -/
def dissect_bt_utp (tvb : tvbuff_t) (tree : Option Nat) : Dissect Nat := do
  col_set_protocol "BT-uTP"
  col_set_info "uTorrent Transport Protocol"
  let sub_tree ←
    match tree with
    | some _ => do
      let ti ← proto_tree_add_item tree .proto_bt_utp tvb 0 (-1)
      proto_item_add_subtree ti .ett_bt_utp
    | none => pure none
  let decoded_length ← dissect_utp_header tvb sub_tree
  pure decoded_length

/-! ## Engine primitives used by the RTP decoder -/

/-- Modelled from the spec: `tvb_get_ntohs` (§4.1 `read_u16`, big-endian):
`OutOfBounds` when `offset + 2` exceeds the captured length. -/
def tvb_get_ntohs (tvb : tvbuff_t) (offset : Nat) : Except exn Nat :=
  match tvb.data[offset]?, tvb.data[offset + 1]? with
  | some b0, some b1 => .ok (b0 % 256 * 256 + b1 % 256)
  | _, _ => .error .OutOfBounds

/-- Modelled from the spec: `tvb_get_ntohl` (§4.1 `read_u32`, big-endian):
`OutOfBounds` when `offset + 4` exceeds the captured length. -/
def tvb_get_ntohl (tvb : tvbuff_t) (offset : Nat) : Except exn Nat :=
  match tvb.data[offset]?, tvb.data[offset + 1]?, tvb.data[offset + 2]?, tvb.data[offset + 3]? with
  | some b0, some b1, some b2, some b3 =>
    .ok (((b0 % 256 * 256 + b1 % 256) * 256 + b2 % 256) * 256 + b3 % 256)
  | _, _, _, _ => .error .OutOfBounds

/-- Modelled from the spec: `tvb_length_remaining`: the captured bytes from
`offset` to the end, or -1 when `offset` lies past the captured bytes. -/
def tvb_length_remaining (tvb : tvbuff_t) (offset : Nat) : Int :=
  if offset ≤ tvb_length tvb then (tvb_length tvb : Int) - offset else -1

/-- Modelled from the spec: `tvb_reported_length_remaining` (§4.1
`reported_length_remaining(offset)`): the reported bytes from `offset` to the
end, or -1 when `offset` lies past the reported length. -/
def tvb_reported_length_remaining (tvb : tvbuff_t) (offset : Nat) : Int :=
  if offset ≤ tvb_reported_length tvb then (tvb_reported_length tvb : Int) - offset else -1

/-- Modelled from the spec: `tvb_new_subset` (§4.1 `sub_view(offset, length,
reported_length)`): a window on the same bytes.  Length -1 asks for the
remainder and is clamped to the captured bytes; reported length -1 takes the
parent's reported remainder.  A window that does not lie inside the captured
bytes is refused with `OutOfBounds`. -/
def tvb_new_subset (tvb : tvbuff_t) (offset : Nat) (length : Int) (reported_length : Int) :
    Except exn tvbuff_t :=
  if tvb_length tvb < offset then .error .OutOfBounds
  else
    let len : Int := if length = -1 then (tvb_length tvb : Int) - offset else length
    if len < 0 ∨ (tvb_length tvb : Int) < offset + len then .error .OutOfBounds
    else
      .ok ⟨(tvb.data.drop offset).take len.toNat,
        if reported_length = -1 then tvb_reported_length tvb - offset else reported_length.toNat⟩

/-- Conversion of a C `int` to `unsigned int` (32 bits). -/
def to_guint (i : Int) : Nat := (i % 4294967296).toNat

/-- Conversion of a C `unsigned int` to `int` (32 bits). -/
def to_gint (n : Nat) : Int :=
  if n % 4294967296 < 2147483648 then (n % 4294967296 : Nat) else (n % 4294967296 : Nat) - 4294967296

/-- Modelled from the spec: `proto_tree_add_uint`, `add_field` with a value
handed over by the decoder. -/
def proto_tree_add_uint (tree : Option Nat) (hfindex : hf_id) (tvb : tvbuff_t)
    (start : Nat) (length : Int) (value : Nat) : Dissect (Option Nat) :=
  proto_tree_add tree hfindex tvb start length (.uinteger value)

/-- Modelled from the spec: `proto_tree_add_boolean`. -/
def proto_tree_add_boolean (tree : Option Nat) (hfindex : hf_id) (tvb : tvbuff_t)
    (start : Nat) (length : Int) (value : Nat) : Dissect (Option Nat) :=
  proto_tree_add tree hfindex tvb start length (.boolean value)

/-- Modelled from the spec: `proto_tree_add_string`. -/
def proto_tree_add_string (tree : Option Nat) (hfindex : hf_id) (tvb : tvbuff_t)
    (start : Nat) (length : Int) (value : String) : Dissect (Option Nat) :=
  proto_tree_add tree hfindex tvb start length (.string value)

/-- Modelled from the spec: `proto_tree_add_text`: a text-only grouping node
with the given label (§4.3 `add_subtree(parent, label)`).  A grouping decodes
no value and its range is not validated: a range that lies outside the
captured bytes is recorded as given, the node is flagged as truncated, and
dissection continues.  Length `-1` stands for "to the end of the captured
bytes". -/
def proto_tree_add_text (tree : Option Nat) (tvb : tvbuff_t) (start : Nat) (length : Int)
    (text : String) : Dissect (Option Nat) :=
  match tree with
  | none => pure none
  | some p =>
    if length = -1 ∧ start ≤ tvb_length tvb then
      add_node ⟨p, .hf_text_only, start, (tvb_length tvb : Int) - start, .none, text, none,
        false, false⟩
    else
      add_node ⟨p, .hf_text_only, start, length, .none, text, none,
        decide (length < 0 ∨ (tvb_length tvb : Int) < (start : Int) + length), false⟩

/-- Modelled from the spec: `proto_tree_add_uint_format`: a value node with
the given label. -/
def proto_tree_add_uint_format (tree : Option Nat) (hfindex : hf_id) (tvb : tvbuff_t)
    (start : Nat) (length : Int) (value : Nat) (text : String) : Dissect (Option Nat) := do
  let ti ← proto_tree_add tree hfindex tvb start length (.uinteger value)
  proto_item_append_text ti text
  pure ti

/-- Modelled from the spec: `proto_tree_add_string_format`: a string node
with the given label. -/
def proto_tree_add_string_format (tree : Option Nat) (hfindex : hf_id) (tvb : tvbuff_t)
    (start : Nat) (length : Int) (value : String) (text : String) : Dissect (Option Nat) := do
  let ti ← proto_tree_add tree hfindex tvb start length (.string value)
  proto_item_append_text ti text
  pure ti

/-- Modelled from the spec: `PROTO_ITEM_SET_GENERATED` (§4.3 "generated"
node tag). -/
def PROTO_ITEM_SET_GENERATED (ti : Option Nat) : Dissect Unit :=
  match ti with
  | none => pure ()
  | some i => fun s =>
    (.ok (), { s with tree := update_node (fun n => { n with generated := true }) i s.tree })

/-- Frame data of a packet: its number in the capture and whether it has
been processed before. -/
structure frame_data where
  num : Nat
  visited : Bool
  deriving DecidableEq, Repr

/-- Modelled from the spec: the per-packet metadata handed to a decoder (§6):
addresses, port type, ports, frame data and the error-packet flag. -/
structure packet_info where
  fd : frame_data
  net_src : address
  net_dst : address
  ptype : Nat
  srcport : Nat
  destport : Nat
  in_error_pkt : Bool
  deriving DecidableEq, Repr

/-! ## Conversation tracker -/

def NO_ADDR2 : Nat := 1
def NO_PORT2 : Nat := 2
def NO_ADDR_B : Nat := 1
def NO_PORT_B : Nat := 2
def PT_UDP : Nat := 3

/-- The `ADDRESSES_EQUAL` comparison: same type, same length, same bytes. -/
def ADDRESSES_EQUAL (a b : address) : Bool :=
  a.type = b.type && a.len = b.len && a.data.take a.len = b.data.take b.len

/-- Index of the first element satisfying `f`, counting from `i`. -/
def find_index {α : Type} (f : α → Bool) : List α → Nat → Option Nat
  | [], _ => none
  | x :: xs, i => if f x then some i else find_index f xs (i + 1)

/-- Modelled from the spec: whether a record created with wildcard options
`opts` has `(a1, p1)` as its first address and port and, where it is not
wildcarded, `(a2, p2)` as its second (§3 ConversationKey). -/
def conversation_matches (opts : Nat) (a1 : address) (p1 : Nat) (a2 : address) (p2 : Nat)
    (ptype : Nat) (c : conversation_t) : Bool :=
  c.options = opts && c.ptype = ptype && ADDRESSES_EQUAL c.addr1 a1 && c.port1 = p1 &&
    (opts &&& NO_ADDR2 ≠ 0 || ADDRESSES_EQUAL c.addr2 a2) &&
    (opts &&& NO_PORT2 ≠ 0 || c.port2 = p2)

/-- Modelled from the spec: the first record of the table created with
options `opts` that matches. -/
def conversation_lookup (table : List conversation_t) (opts : Nat) (a1 : address) (p1 : Nat)
    (a2 : address) (p2 : Nat) (ptype : Nat) : Option Nat :=
  find_index (conversation_matches opts a1 p1 a2 p2 ptype) table 0

/-- Modelled from the spec: `find_conversation`, the tracker's `lookup`
(§3, §4.6).  An exact two-sided match is preferred over wildcarded records;
each kind of record is tried with the observed key as given and with its two
sides swapped, so that the lookup is symmetric.  `NO_ADDR_B` / `NO_PORT_B`
say that the second address / port of the observed key is not to be used. -/
def find_conversation (table : List conversation_t) (addr_a addr_b : address) (ptype : Nat)
    (port_a port_b : Nat) (options : Nat) : Option Nat :=
  (if options &&& (NO_ADDR_B ||| NO_PORT_B) = 0 then
      (conversation_lookup table 0 addr_a port_a addr_b port_b ptype).orElse fun _ =>
        conversation_lookup table 0 addr_b port_b addr_a port_a ptype
    else none).orElse fun _ =>
  (if options &&& NO_PORT_B = 0 then
      (conversation_lookup table NO_ADDR2 addr_a port_a addr_b port_b ptype).orElse fun _ =>
        if options &&& NO_ADDR_B = 0 then
          conversation_lookup table NO_ADDR2 addr_b port_b addr_a port_a ptype
        else none
    else none).orElse fun _ =>
  (if options &&& NO_ADDR_B = 0 then
      (conversation_lookup table NO_PORT2 addr_a port_a addr_b port_b ptype).orElse fun _ =>
        if options &&& NO_PORT_B = 0 then
          conversation_lookup table NO_PORT2 addr_b port_b addr_a port_a ptype
        else none
    else none).orElse fun _ =>
  (conversation_lookup table (NO_ADDR2 ||| NO_PORT2) addr_a port_a addr_b port_b ptype).orElse
    fun _ => conversation_lookup table (NO_ADDR2 ||| NO_PORT2) addr_b port_b addr_a port_a ptype

/-- Applies `f` to the conversation with index `i`, if there is one. -/
def update_conversation (f : conversation_t → conversation_t) :
    Nat → List conversation_t → List conversation_t
  | _, [] => []
  | 0, x :: xs => f x :: xs
  | i + 1, x :: xs => x :: update_conversation f i xs

/-- Modelled from the spec: `conversation_new`, the tracker's `register`
(§4.6): appends a record and returns its index. -/
def conversation_new (addr1 addr2 : address) (ptype port1 port2 options : Nat) : Dissect Nat :=
  fun s => (.ok s.conversations.length,
    { s with conversations := s.conversations ++
        [⟨addr1, addr2, ptype, port1, port2, options, [], none⟩] })

/-- Modelled from the spec: `conversation_add_proto_data`: attaches
per-protocol data to a record. -/
def conversation_add_proto_data (conv : Nat) (proto : hf_id) (data : rtp_conversation_info) :
    Dissect Unit :=
  fun s => (.ok (), { s with conversations :=
    (update_conversation (fun c => { c with proto_data := (proto, data) :: c.proto_data }) conv
      s.conversations) })

/-- Modelled from the spec: `conversation_get_proto_data`: the data a
protocol attached to a record, if any. -/
def conversation_get_proto_data (table : List conversation_t) (conv : Nat) (proto : hf_id) :
    Option rtp_conversation_info :=
  match table[conv]? with
  | none => none
  | some c => (c.proto_data.find? (fun d => d.1 = proto)).map (fun d => d.2)

/-- A write through the pointer `conversation_get_proto_data` returned:
replaces the data the protocol attached to the record. -/
def conversation_store_proto_data (conv : Nat) (proto : hf_id) (data : rtp_conversation_info) :
    Dissect Unit :=
  fun s => (.ok (), { s with conversations :=
    (update_conversation
      (fun c => { c with proto_data :=
        (c.proto_data.map (fun d => if d.1 = proto then (proto, data) else d)) }) conv
      s.conversations) })

/-- Modelled from the spec: `conversation_set_dissector`: names the decoder
that continues the flow. -/
def conversation_set_dissector (conv : Nat) (handle : hf_id) : Dissect Unit :=
  fun s => (.ok (), { s with conversations :=
    (update_conversation (fun c => { c with dissector := some handle }) conv s.conversations) })

/-- Modelled from the spec: `p_get_proto_data`: the data memoized against a
packet (§4.6 per-packet caching), keyed by frame and protocol. -/
def p_get_proto_data (s : epan_state) (fd : frame_data) (proto : hf_id) :
    Option rtp_conversation_info :=
  (s.pfd.find? (fun d => d.1 = fd.num ∧ d.2.1 = proto)).map (fun d => d.2.2)

/-- Modelled from the spec: `p_add_proto_data`: memoizes data against a
packet. -/
def p_add_proto_data (fd : frame_data) (proto : hf_id) (data : rtp_conversation_info) :
    Dissect Unit :=
  fun s => (.ok (), { s with pfd := s.pfd ++ [(fd.num, proto, data)] })

/-! ## RTP: `packet-rtp.c` -/

/-- What the RTP decoder takes from its surroundings: the size constant of
`packet-rtp.h`, the largest value of `size_t` (the type `packet-rtp.h` gives
the payload offset and length of the tap record), the two preferences, and
the payload-type dissector table (a registered sub-decoder reports whether it
accepted the payload). -/
structure rtp_config where
  MAX_RTP_SETUP_METHOD_SIZE : Nat
  SIZE_MAX : Nat
  global_rtp_show_setup_info : Bool
  global_rtp_heur : Bool
  rtp_pt_dissector_table : Nat → Option (tvbuff_t → packet_info → Option Nat → Dissect Bool)

/-- Conversion of a C `int` to `size_t`: the value modulo `SIZE_MAX + 1`. -/
def to_size_t (cfg : rtp_config) (i : Int) : Nat := (i % ((cfg.SIZE_MAX : Int) + 1)).toNat

def RTP_VERSION (octet : Nat) : Nat := octet >>> 6
def RTP_PADDING (octet : Nat) : Nat := octet &&& 0x20
def RTP_EXTENSION (octet : Nat) : Nat := octet &&& 0x10
def RTP_CSRC_COUNT (octet : Nat) : Nat := octet &&& 0xF
def RTP_MARKER (octet : Nat) : Nat := octet &&& 0x80
def RTP_PAYLOAD_TYPE (octet : Nat) : Nat := octet &&& 0x7F

/-- Payload type codes of `rtp_pt.h` (the RFC 1890 static assignments). -/
def PT_PCMU : Nat := 0
def PT_1016 : Nat := 1
def PT_G721 : Nat := 2
def PT_GSM : Nat := 3
def PT_G723 : Nat := 4
def PT_DVI4_8000 : Nat := 5
def PT_DVI4_16000 : Nat := 6
def PT_LPC : Nat := 7
def PT_PCMA : Nat := 8
def PT_G722 : Nat := 9
def PT_L16_STEREO : Nat := 10
def PT_L16_MONO : Nat := 11
def PT_QCELP : Nat := 12
def PT_CN : Nat := 13
def PT_MPA : Nat := 14
def PT_G728 : Nat := 15
def PT_DVI4_11025 : Nat := 16
def PT_DVI4_22050 : Nat := 17
def PT_G729 : Nat := 18
def PT_CN_OLD : Nat := 19
def PT_CELB : Nat := 25
def PT_JPEG : Nat := 26
def PT_NV : Nat := 28
def PT_H261 : Nat := 31
def PT_MPV : Nat := 32
def PT_MP2T : Nat := 33
def PT_H263 : Nat := 34

def rtp_payload_type_vals : List (Nat × String) :=
  [(PT_PCMU, "ITU-T G.711 PCMU"),
   (PT_1016, "USA Federal Standard FS-1016"),
   (PT_G721, "ITU-T G.721"),
   (PT_GSM, "GSM 06.10"),
   (PT_G723, "ITU-T G.723"),
   (PT_DVI4_8000, "DVI4 8000 samples/s"),
   (PT_DVI4_16000, "DVI4 16000 samples/s"),
   (PT_LPC, "Experimental linear predictive encoding from Xerox PARC"),
   (PT_PCMA, "ITU-T G.711 PCMA"),
   (PT_G722, "ITU-T G.722"),
   (PT_L16_STEREO, "16-bit uncompressed audio, stereo"),
   (PT_L16_MONO, "16-bit uncompressed audio, monaural"),
   (PT_QCELP, "Qualcomm Code Excited Linear Predictive coding"),
   (PT_CN, "Comfort noise"),
   (PT_MPA, "MPEG-I/II Audio"),
   (PT_G728, "ITU-T G.728"),
   (PT_DVI4_11025, "DVI4 11025 samples/s"),
   (PT_DVI4_22050, "DVI4 22050 samples/s"),
   (PT_G729, "ITU-T G.729"),
   (PT_CN_OLD, "Comfort noise (old)"),
   (PT_CELB, "Sun CellB video encoding"),
   (PT_JPEG, "JPEG-compressed video"),
   (PT_NV, "'nv' program"),
   (PT_H261, "ITU-T H.261"),
   (PT_MPV, "MPEG-I/II Video"),
   (PT_MP2T, "MPEG-II transport streams"),
   (PT_H263, "ITU-T H.263")]

/-- Modelled from the spec: `val_to_str` with the format `"Unknown (%u)"`:
the label of the value in the table, or the formatted fallback. -/
def val_to_str (val : Nat) (vs : List (Nat × String)) : String :=
  match vs.find? (fun v => v.1 = val) with
  | some v => v.2
  | none => "Unknown (" ++ toString val ++ ")"

/-- The `strncpy` of `rtp_add_address` followed by the terminating
`method[MAX_RTP_SETUP_METHOD_SIZE] = 0`: copies `strlen + 1` characters when
that fits in `MAX_RTP_SETUP_METHOD_SIZE`, else `MAX_RTP_SETUP_METHOD_SIZE`
characters. -/
def rtp_copy_setup_method (cfg : rtp_config) (setup_method : String) : String :=
  String.mk (setup_method.data.take
    (if setup_method.length + 1 ≤ cfg.MAX_RTP_SETUP_METHOD_SIZE then
      setup_method.length + 1
    else cfg.MAX_RTP_SETUP_METHOD_SIZE))

/-- The function `rtp_add_address`: sets up an RTP conversation.  The method
of a new conversation is copied with the bounded `strncpy`.  The method of an
existing conversation is overwritten with `strcpy`, into the array `method`
of `MAX_RTP_SETUP_METHOD_SIZE + 1` characters (the create path writes its last
element, index `MAX_RTP_SETUP_METHOD_SIZE`): a method of at most
`MAX_RTP_SETUP_METHOD_SIZE` characters is stored whole with its terminator; a
longer one is written past the end of the array, the `BufferOverrun`
condition. -/
def rtp_add_address (cfg : rtp_config) (pinfo : packet_info) (ip_addr : List Nat)
    (port other_port : Nat) (setup_method : String) (setup_frame_number : Nat) : Dissect Unit :=
  fun s =>
    if pinfo.fd.visited then (.ok (), s)
    else
      let src_addr : address := ⟨pinfo.net_src.type, pinfo.net_src.len, ip_addr⟩
      let p_conv := find_conversation s.conversations src_addr src_addr PT_UDP port other_port
        (NO_ADDR_B ||| (if other_port = 0 then NO_PORT_B else 0))
      match p_conv with
      | none =>
        (do
          let p_conv_data : rtp_conversation_info :=
            ⟨rtp_copy_setup_method cfg setup_method, setup_frame_number⟩
          let p_conv ← conversation_new src_addr src_addr PT_UDP port other_port
            (NO_ADDR2 ||| (if other_port = 0 then NO_PORT2 else 0))
          conversation_add_proto_data p_conv .proto_rtp p_conv_data
          conversation_set_dissector p_conv .proto_rtp) s
      | some p_conv =>
        match conversation_get_proto_data s.conversations p_conv .proto_rtp with
        | none => (.error .NullPointer, s)
        | some _ =>
          if setup_method.length ≤ cfg.MAX_RTP_SETUP_METHOD_SIZE then
            conversation_store_proto_data p_conv .proto_rtp ⟨setup_method, setup_frame_number⟩ s
          else (.error .BufferOverrun, s)

/-- The first half of `show_setup_info`: the setup info memoized against the
packet or, failing that, the info of the conversation the packet belongs to,
which is then memoized against the packet. -/
def show_setup_info_lookup (pinfo : packet_info) (s : epan_state) :
    Option rtp_conversation_info × epan_state :=
  match p_get_proto_data s pinfo.fd .proto_rtp with
  | some d => (some d, s)
  | none =>
    match find_conversation s.conversations pinfo.net_dst pinfo.net_src pinfo.ptype
        pinfo.destport pinfo.srcport NO_ADDR_B with
    | none => (none, s)
    | some p_conv =>
      match conversation_get_proto_data s.conversations p_conv .proto_rtp with
      | none => (none, s)
      | some d => (some d, (p_add_proto_data pinfo.fd .proto_rtp d s).2)

/-- The second half of `show_setup_info`: the generated "Stream setup by"
subtree with its frame and method fields. -/
def show_setup_info_display (tvb : tvbuff_t) (tree : Option Nat)
    (p_conv_data : rtp_conversation_info) : Dissect Unit := do
  let ti ← proto_tree_add_string_format tree .hf_rtp_setup tvb 0 0 ""
    ("Stream setup by " ++ p_conv_data.method ++ " (frame " ++
      toString (to_gint p_conv_data.frame_number) ++ ")")
  PROTO_ITEM_SET_GENERATED ti
  let rtp_setup_tree ← proto_item_add_subtree ti .ett_rtp_setup
  if rtp_setup_tree.isSome then do
    let item ← proto_tree_add_uint rtp_setup_tree .hf_rtp_setup_frame tvb 0 0
      p_conv_data.frame_number
    PROTO_ITEM_SET_GENERATED item
    let item ← proto_tree_add_string rtp_setup_tree .hf_rtp_setup_method tvb 0 0
      p_conv_data.method
    PROTO_ITEM_SET_GENERATED item
  else pure ()

/-- The function `show_setup_info`: looks for conversation info and displays any setup
info found. -/
def show_setup_info (tvb : tvbuff_t) (pinfo : packet_info) (tree : Option Nat) : Dissect Unit :=
  fun s =>
    match (show_setup_info_lookup pinfo s).1 with
    | none => (.ok (), (show_setup_info_lookup pinfo s).2)
    | some p_conv_data =>
      show_setup_info_display tvb tree p_conv_data (show_setup_info_lookup pinfo s).2

/-- Modelled from the spec: `dissector_try_port` (§2 Dissector Dispatch): runs
the decoder registered for the value, if any, and tells whether one accepted
the payload. -/
def dissector_try_port (table : Nat → Option (tvbuff_t → packet_info → Option Nat → Dissect Bool))
    (port : Nat) (tvb : tvbuff_t) (pinfo : packet_info) (tree : Option Nat) : Dissect Bool :=
  match table port with
  | none => pure false
  | some d => d tvb pinfo tree

/-- Modelled from the spec: the raw `data` decoder reached through
`call_dissector(data_handle, ...)`: an opaque node over the whole buffer
(§7 UnknownDiscriminant). -/
def call_data_dissector (tvb : tvbuff_t) (tree : Option Nat) : Dissect Unit := do
  let _ ← proto_tree_add tree .proto_data tvb 0 (-1) .none
  pure ()

/-- The function `dissect_rtp_data`: hands the payload to the decoder registered for the
payload type, or shows it as raw bytes. -/
def dissect_rtp_data (cfg : rtp_config) (tvb : tvbuff_t) (pinfo : packet_info)
    (tree rtp_tree : Option Nat) (offset : Nat) (data_len data_reported_len : Int)
    (payload_type : Nat) : Dissect Unit := do
  let newtvb ← liftE (tvb_new_subset tvb offset data_len data_reported_len)
  let handled ← dissector_try_port cfg.rtp_pt_dissector_table payload_type newtvb pinfo tree
  if !handled then
    let _ ← proto_tree_add_item rtp_tree .hf_rtp_data newtvb 0 (-1)
    pure ()
  else pure ()

/-- Updates the decoder's static `rtp_info` record. -/
def set_rtp_info (f : rtp_info_t → rtp_info_t) : Dissect Unit :=
  fun s => (.ok (), { s with rtp_info := f s.rtp_info })

/-- Modelled from the spec: `tap_queue_packet` (§6 tap records): queues the
current content of the static record. -/
def tap_queue_packet : Dissect Unit :=
  fun s => (.ok (), { s with tap_queue := s.tap_queue ++ [s.rtp_info] })

/-- The "unknown version" branch of `dissect_rtp`. -/
def dissect_rtp_unknown_version (tvb : tvbuff_t) (tree : Option Nat) (octet1 version : Nat) :
    Dissect Unit := fun s =>
  (do
    if check_col s then col_set_protocol "RTP" else pure ()
    if check_col s then col_set_info ("Unknown RTP version " ++ toString version) else pure ()
    if tree.isSome then do
      let ti ← proto_tree_add_item tree .proto_rtp tvb 0 (-1)
      let rtp_tree ← proto_item_add_subtree ti .ett_rtp
      let _ ← proto_tree_add_uint rtp_tree .hf_rtp_version tvb 0 1 octet1
      pure ()
    else pure ()) s

/-- The part of `dissect_rtp` that fills in the `rtp_info` structure,
including the "do we have all the data?" test. -/
def dissect_rtp_fill_info (tvb : tvbuff_t) (padding_set marker_set payload_type seq_num
    timestamp sync_src : Nat) : Dissect Unit := do
  set_rtp_info (fun r => { r with
    info_padding_set := padding_set, info_padding_count := 0, info_marker_set := marker_set,
    info_payload_type := payload_type, info_seq_num := seq_num, info_timestamp := timestamp,
    info_sync_src := sync_src })
  let length := tvb_length_remaining tvb 0
  let reported_length := tvb_reported_length_remaining tvb 0
  if reported_length ≥ 0 ∧ length ≥ reported_length then
    set_rtp_info (fun r => { r with
      info_all_data_present := true, info_data_len := reported_length,
      info_data := some tvb.data })
  else
    set_rtp_info (fun r => { r with
      info_all_data_present := false, info_data_len := 0, info_data := none })

/-- The part of `dissect_rtp` that sets the protocol and info columns. -/
def dissect_rtp_columns (payload_type sync_src seq_num timestamp marker_set : Nat) :
    Dissect Unit := fun s =>
  (do
    if check_col s then col_set_protocol "RTP" else pure ()
    if check_col s then
      col_set_info ("Payload type=" ++ val_to_str payload_type rtp_payload_type_vals ++
        ", SSRC=" ++ toString sync_src ++ ", Seq=" ++ toString seq_num ++
        ", Time=" ++ toString timestamp ++ (if marker_set ≠ 0 then ", Mark" else ""))
    else pure ()) s

/-- The fixed-header part of `dissect_rtp` (`if ( tree ) ... else offset += 12`):
yields the RTP subtree and the offset after the fixed header. -/
def dissect_rtp_fixed_header (cfg : rtp_config) (tvb : tvbuff_t) (pinfo : packet_info)
    (tree : Option Nat) (octet1 octet2 seq_num timestamp sync_src : Nat) :
    Dissect (Option Nat × Nat) :=
  if tree.isSome then do
    let offset := 0
    let ti ← proto_tree_add_item tree .proto_rtp tvb offset (-1)
    let rtp_tree ← proto_item_add_subtree ti .ett_rtp
    if cfg.global_rtp_show_setup_info then show_setup_info tvb pinfo rtp_tree else pure ()
    let _ ← proto_tree_add_uint rtp_tree .hf_rtp_version tvb offset 1 octet1
    let _ ← proto_tree_add_boolean rtp_tree .hf_rtp_padding tvb offset 1 octet1
    let _ ← proto_tree_add_boolean rtp_tree .hf_rtp_extension tvb offset 1 octet1
    let _ ← proto_tree_add_uint rtp_tree .hf_rtp_csrc_count tvb offset 1 octet1
    let offset := offset + 1
    let _ ← proto_tree_add_boolean rtp_tree .hf_rtp_marker tvb offset 1 octet2
    let _ ← proto_tree_add_uint rtp_tree .hf_rtp_payload_type tvb offset 1 octet2
    let offset := offset + 1
    let _ ← proto_tree_add_uint rtp_tree .hf_rtp_seq_nr tvb offset 2 seq_num
    let offset := offset + 2
    let _ ← proto_tree_add_uint rtp_tree .hf_rtp_timestamp tvb offset 4 timestamp
    let offset := offset + 4
    let _ ← proto_tree_add_uint rtp_tree .hf_rtp_ssrc tvb offset 4 sync_src
    let offset := offset + 4
    pure (rtp_tree, offset)
  else
    pure (none, 0 + 12)

/-- The `for` loop over the CSRC items; `n` items remain, `i` is the index of
the next one. -/
def dissect_rtp_csrc_items (tvb : tvbuff_t) (tree rtp_csrc_tree : Option Nat) :
    Nat → Nat → Nat → Dissect Nat
  | 0, _, offset => pure offset
  | n + 1, i, offset => do
    let csrc_item ← liftE (tvb_get_ntohl tvb offset)
    if tree.isSome then
      let _ ← proto_tree_add_uint_format rtp_csrc_tree .hf_rtp_csrc_item tvb offset 4 csrc_item
        ("CSRC item " ++ toString i ++ ": " ++ toString csrc_item)
      pure ()
    else pure ()
    dissect_rtp_csrc_items tvb tree rtp_csrc_tree n (i + 1) (offset + 4)

/-- The CSRC list part of `dissect_rtp`; yields the offset after the list. -/
def dissect_rtp_csrc (tvb : tvbuff_t) (tree rtp_tree : Option Nat) (csrc_count offset : Nat) :
    Dissect Nat :=
  if csrc_count > 0 then do
    let rtp_csrc_tree ←
      if tree.isSome then do
        let ti ← proto_tree_add_text rtp_tree tvb offset (csrc_count * 4 : Nat)
          "Contributing Source identifiers"
        proto_item_add_subtree ti .ett_csrc_list
      else pure none
    dissect_rtp_csrc_items tvb tree rtp_csrc_tree csrc_count 0 offset
  else pure offset

/-- The `for` loop over the 32-bit header extension words; `n` words remain. -/
def dissect_rtp_hdr_ext_items (tvb : tvbuff_t) (tree rtp_csrc_tree : Option Nat) :
    Nat → Nat → Dissect Nat
  | 0, offset => pure offset
  | n + 1, offset => do
    if tree.isSome then
      let v ← liftE (tvb_get_ntohl tvb offset)
      let _ ← proto_tree_add_uint rtp_csrc_tree .hf_rtp_hdr_ext tvb offset 4 v
      pure ()
    else pure ()
    dissect_rtp_hdr_ext_items tvb tree rtp_csrc_tree n (offset + 4)

/-- The optional header extension part of `dissect_rtp`; yields the offset
after it. -/
def dissect_rtp_hdr_extension (tvb : tvbuff_t) (tree rtp_tree : Option Nat)
    (extension_set csrc_count offset : Nat) : Dissect Nat :=
  if extension_set ≠ 0 then do
    if tree.isSome then
      let v ← liftE (tvb_get_ntohs tvb offset)
      let _ ← proto_tree_add_uint rtp_tree .hf_rtp_prof_define tvb offset 2 v
      pure ()
    else pure ()
    let offset := offset + 2
    let hdr_extension ← liftE (tvb_get_ntohs tvb offset)
    if tree.isSome then
      let _ ← proto_tree_add_uint rtp_tree .hf_rtp_length tvb offset 2 hdr_extension
      pure ()
    else pure ()
    let offset := offset + 2
    if hdr_extension > 0 then do
      let rtp_csrc_tree ←
        if tree.isSome then do
          let ti ← proto_tree_add_text rtp_tree tvb offset (csrc_count * 4 : Nat)
            "Header extensions"
          proto_item_add_subtree ti .ett_hdr_ext
        else pure none
      dissect_rtp_hdr_ext_items tvb tree rtp_csrc_tree hdr_extension offset
    else pure offset
  else pure offset

/-- The padding branch of `dissect_rtp` once the last octet is known to be
captured: payload, padding data, padding count. -/
def dissect_rtp_padding (cfg : rtp_config) (tvb : tvbuff_t) (pinfo : packet_info)
    (tree rtp_tree : Option Nat) (payload_type offset : Nat) : Dissect Unit := do
  let padding_count ← liftE (tvb_get_guint8 tvb
    ((tvb_reported_length tvb + 4294967296 - 1) % 4294967296))
  let data_len : Int := tvb_reported_length_remaining tvb offset - padding_count
  set_rtp_info (fun r => { r with
    info_payload_offset := offset,
    info_payload_len := to_size_t cfg (tvb_length_remaining tvb offset),
    info_padding_count := padding_count })
  let st : Nat × Nat ←
    if data_len > 0 then do
      dissect_rtp_data cfg tvb pinfo tree rtp_tree offset data_len data_len payload_type
      pure (offset + data_len.toNat, padding_count)
    else if data_len < 0 then
      pure (offset, to_guint (tvb_reported_length_remaining tvb offset))
    else
      pure (offset, padding_count)
  let offset := st.1
  let padding_count := st.2
  let offset ←
    if padding_count > 1 then do
      if tree.isSome then
        let _ ← proto_tree_add_item rtp_tree .hf_rtp_padding_data tvb offset
          ((padding_count : Int) - 1)
        pure ()
      else pure ()
      pure ((offset + (padding_count - 1)) % 4294967296)
    else pure offset
  if tree.isSome then
    let _ ← proto_tree_add_item rtp_tree .hf_rtp_padding_count tvb offset 1
    pure ()
  else pure ()

/-- The last part of `dissect_rtp`: the padding test, the payload, and the
tap record. -/
def dissect_rtp_payload (cfg : rtp_config) (tvb : tvbuff_t) (pinfo : packet_info)
    (tree rtp_tree : Option Nat) (padding_set payload_type offset : Nat) : Dissect Unit :=
  if padding_set ≠ 0 then
    if tvb_length tvb < tvb_reported_length tvb then do
      if tree.isSome then
        let _ ← proto_tree_add_text rtp_tree tvb 0 0
          "Frame has padding, but not all the frame data was captured"
        pure ()
      else pure ()
      let sub ← liftE (tvb_new_subset tvb offset (-1) (-1))
      call_data_dissector sub rtp_tree
    else do
      dissect_rtp_padding cfg tvb pinfo tree rtp_tree payload_type offset
      if !pinfo.in_error_pkt then tap_queue_packet else pure ()
  else do
    dissect_rtp_data cfg tvb pinfo tree rtp_tree offset (tvb_length_remaining tvb offset)
      (tvb_reported_length_remaining tvb offset) payload_type
    set_rtp_info (fun r => { r with
      info_payload_offset := offset,
      info_payload_len := to_size_t cfg (tvb_length_remaining tvb offset) })
    if !pinfo.in_error_pkt then tap_queue_packet else pure ()

/-- The part of `dissect_rtp` after the header fields have been read from a
version-2 packet: `rtp_info`, columns, tree of the fixed header, CSRC list,
header extension, payload. -/
def dissect_rtp_v2 (cfg : rtp_config) (tvb : tvbuff_t) (pinfo : packet_info) (tree : Option Nat)
    (octet1 octet2 seq_num timestamp sync_src : Nat) : Dissect Unit := do
  let padding_set := RTP_PADDING octet1
  let extension_set := RTP_EXTENSION octet1
  let csrc_count := RTP_CSRC_COUNT octet1
  let marker_set := RTP_MARKER octet2
  let payload_type := RTP_PAYLOAD_TYPE octet2
  dissect_rtp_fill_info tvb padding_set marker_set payload_type seq_num timestamp sync_src
  dissect_rtp_columns payload_type sync_src seq_num timestamp marker_set
  let hdr ← dissect_rtp_fixed_header cfg tvb pinfo tree octet1 octet2 seq_num timestamp sync_src
  let rtp_tree := hdr.1
  let offset ← dissect_rtp_csrc tvb tree rtp_tree csrc_count hdr.2
  let offset ← dissect_rtp_hdr_extension tvb tree rtp_tree extension_set csrc_count offset
  dissect_rtp_payload cfg tvb pinfo tree rtp_tree padding_set payload_type offset

/-- The function `dissect_rtp`: reads the first octet and tests the version; for version 2
reads the rest of the fixed header and decodes the packet. -/
def dissect_rtp (cfg : rtp_config) (tvb : tvbuff_t) (pinfo : packet_info) (tree : Option Nat) :
    Dissect Unit := do
  let offset := 0
  let octet1 ← liftE (tvb_get_guint8 tvb offset)
  let version := RTP_VERSION octet1
  if version ≠ 2 then
    dissect_rtp_unknown_version tvb tree octet1 version
  else
    let octet2 ← liftE (tvb_get_guint8 tvb (offset + 1))
    let seq_num ← liftE (tvb_get_ntohs tvb (offset + 2))
    let timestamp ← liftE (tvb_get_ntohl tvb (offset + 4))
    let sync_src ← liftE (tvb_get_ntohl tvb (offset + 8))
    dissect_rtp_v2 cfg tvb pinfo tree octet1 octet2 seq_num timestamp sync_src

/-- The function `dissect_rtp_heur`: the heuristic entry point. -/
def dissect_rtp_heur (cfg : rtp_config) (tvb : tvbuff_t) (pinfo : packet_info)
    (tree : Option Nat) : Dissect Bool := do
  let offset := 0
  if !cfg.global_rtp_heur then
    pure false
  else
    let octet1 ← liftE (tvb_get_guint8 tvb offset)
    let version := RTP_VERSION octet1
    if version ≠ 2 then
      pure false
    else
      let octet2 ← liftE (tvb_get_guint8 tvb (offset + 1))
      let payload_type := RTP_PAYLOAD_TYPE octet2
      if payload_type ≤ PT_H263 then do
        dissect_rtp cfg tvb pinfo tree
        pure true
      else
        pure false

/-! ## Reference descriptions used by the statements about uTP -/

/-- Fixed-header size of the layout `utp_is_v1` selects: 20 bytes for V1,
23 bytes for V0. -/
def utp_fixed_hdr_size (is_v1 : Bool) : Nat := if is_v1 then 20 else 23

/-- An extension record on the wire: next-extension-type byte, length byte,
payload bytes. -/
structure utp_ext_record where
  next_type : Nat
  len : Nat
  payload : List Nat
  deriving DecidableEq, Repr

/-- A record is well formed when its payload has the declared length. -/
def utp_ext_record.wf (r : utp_ext_record) : Prop := r.payload.length = r.len % 256

/-- Size of a record on the wire: 2 + declared length. -/
def utp_ext_record.size (r : utp_ext_record) : Nat := 2 + r.len % 256

/-- The bytes of a chain of extension records. -/
def utp_ext_chain_bytes : List utp_ext_record → List Nat
  | [] => []
  | r :: rs => r.next_type :: r.len :: (r.payload ++ utp_ext_chain_bytes rs)

/-- Label text of an extension node, by the carried type that selected the
`switch` case. -/
def utp_ext_label (extension_type len : Nat) : String :=
  if extension_type = EXT_SELECTION_ACKS then " Selection Acks, Len=" ++ toString len
  else if extension_type = EXT_EXTENSION_BITS then " Extension Bits, Len=" ++ toString len
  else " Unknown, Len=" ++ toString len

/-- Payload field of an extension record, by the carried type: the bitmask
field for types 1 and 2, the opaque "Extension Unknown" field otherwise. -/
def utp_ext_payload_hf (extension_type : Nat) : hf_id :=
  if extension_type = EXT_SELECTION_ACKS ∨ extension_type = EXT_EXTENSION_BITS then
    .hf_bt_utp_extension_bitmask
  else
    .hf_bt_utp_extension_unknown

/-- The four nodes of one completed extension record at `offset`: the
extension node under `p` (arena index `base`) and its three fields. -/
def utp_ext_nodes (p base extension_type offset len : Nat) : List proto_node :=
  [⟨p, .hf_bt_utp_extension, offset, 2 + (len : Int), .from_tvb,
      utp_ext_label extension_type len, some .ett_bt_utp_extension, false, false⟩,
   ⟨base, .hf_bt_utp_next_extension_type, offset, 1, .from_tvb, "", none, false, false⟩,
   ⟨base, .hf_bt_utp_extension_len, offset + 1, 1, .from_tvb, "", none, false, false⟩,
   ⟨base, utp_ext_payload_hf extension_type, offset + 2, len, .from_tvb, "", none, false, false⟩]

/-- The nodes of a chain of completed extension records: the k-th record is
read with the type carried from record k-1. -/
def utp_ext_chain_nodes (p : Nat) : Nat → Nat → Nat → List utp_ext_record → List proto_node
  | _, _, _, [] => []
  | base, extension_type, offset, r :: rs =>
    utp_ext_nodes p base extension_type offset (r.len % 256) ++
      utp_ext_chain_nodes p (base + 4) (r.next_type % 256) (offset + 2 + r.len % 256) rs

/-- The nodes of an extension record at `offset` whose payload runs past the
captured bytes: the extension node keeps its provisional length `rest` (the
captured remainder), and the payload field is recorded as truncated. -/
def utp_truncated_ext_nodes (p base extension_type offset len : Nat) (rest : Int) :
    List proto_node :=
  [⟨p, .hf_bt_utp_extension, offset, rest, .from_tvb,
      utp_ext_label extension_type len, some .ett_bt_utp_extension, false, false⟩,
   ⟨base, .hf_bt_utp_next_extension_type, offset, 1, .from_tvb, "", none, false, false⟩,
   ⟨base, .hf_bt_utp_extension_len, offset + 1, 1, .from_tvb, "", none, false, false⟩,
   ⟨base, utp_ext_payload_hf extension_type, offset + 2, len, .from_tvb, "", none, true, false⟩]

/-- A plain field node read from the wire. -/
def item_node (p : Nat) (hf : hf_id) (start : Nat) (length : Int) : proto_node :=
  ⟨p, hf, start, length, .from_tvb, "", none, false, false⟩

/-- The V1 fixed-header fields, in emission order. -/
def utp_v1_hdr_nodes (p : Nat) : List proto_node :=
  [item_node p .hf_bt_utp_ver 0 1,
   item_node p .hf_bt_utp_type 0 1,
   item_node p .hf_bt_utp_next_extension_type 1 1,
   item_node p .hf_bt_utp_connection_id_v1 2 2,
   item_node p .hf_bt_utp_timestamp_us 4 4,
   item_node p .hf_bt_utp_timestamp_diff_us 8 4,
   item_node p .hf_bt_utp_wnd_size_v1 12 4,
   item_node p .hf_bt_utp_seq_nr 16 2,
   item_node p .hf_bt_utp_ack_nr 18 2]

/-- The V0 fixed-header fields, in emission order. -/
def utp_v0_hdr_nodes (p : Nat) : List proto_node :=
  [item_node p .hf_bt_utp_connection_id_v0 0 4,
   item_node p .hf_bt_utp_timestamp_sec 4 4,
   item_node p .hf_bt_utp_timestamp_us 8 4,
   item_node p .hf_bt_utp_timestamp_diff_us 12 4,
   item_node p .hf_bt_utp_wnd_size_v0 16 1,
   item_node p .hf_bt_utp_next_extension_type 17 1,
   item_node p .hf_bt_utp_flags 18 1,
   item_node p .hf_bt_utp_seq_nr 19 2,
   item_node p .hf_bt_utp_ack_nr 21 2]

/-- The fixed-header fields of the selected layout. -/
def utp_hdr_nodes (is_v1 : Bool) (p : Nat) : List proto_node :=
  if is_v1 then utp_v1_hdr_nodes p else utp_v0_hdr_nodes p

/-- Offset of the next-extension-type byte in the fixed header. -/
def utp_hdr_ext_offset (is_v1 : Bool) : Nat := if is_v1 then 1 else 17

/-- The extension nodes among a list of nodes. -/
def extension_nodes (l : List proto_node) : List proto_node :=
  l.filter (fun n => n.hfindex = hf_id.hf_bt_utp_extension)

/-- The carried extension type the fixed header hands to the loop: the
next-extension-type byte of the selected layout. -/
def utp_hdr_ext_type (is_v1 : Bool) (tvb : tvbuff_t) : Nat :=
  (tvb.data[utp_hdr_ext_offset is_v1]?).getD 0 % 256

/-- A decoder step is `safe` with postcondition `Q` when every normal result
satisfies `Q` and the only condition it can stop with is `OutOfBounds`. -/
def safe {α : Type} (m : Dissect α) (Q : α → Prop) : Prop :=
  ∀ s, match m s with
    | (.ok a, _) => Q a
    | (.error e, _) => e = exn.OutOfBounds

/-- A fresh decoder state: empty tree, empty columns, no conversations. -/
def epan_state.init : epan_state :=
  { tree := [], cinfo := some ⟨"", ""⟩, conversations := [], pfd := [],
    rtp_info := ⟨0, 0, 0, 0, 0, 0, 0, false, 0, none, 0, 0⟩, tap_queue := [] }

/-- A V1 fixed header (type Data, version 1) announcing extension type `ext`. -/
def utp_v1_hdr_bytes (ext : Nat) : List Nat :=
  [0x01, ext, 0x12, 0x34, 0, 0, 0, 1, 0, 0, 0, 2, 0, 0, 0x10, 0, 0, 7, 0, 6]

/-- Two extension records: a 4-byte selective-ack bitmask announcing type 9,
then an 8-byte record announcing type 0. -/
def utp_two_records : List utp_ext_record :=
  [⟨9, 4, [0xff, 0, 0xff, 0]⟩, ⟨0, 8, [1, 2, 3, 4, 5, 6, 7, 8]⟩]

/-- A fully captured 36-byte V1 packet: fixed header announcing type 1 and
the two records of `utp_two_records`. -/
def utp_two_ext_tvb : tvbuff_t :=
  ⟨utp_v1_hdr_bytes 1 ++ utp_ext_chain_bytes utp_two_records, 36⟩

/-- Two buffers that agree on their first two bytes and reported length but
differ afterwards. -/
def utp_same_start_a : tvbuff_t := ⟨[0x21, 2, 1, 2, 3], 36⟩

def utp_same_start_b : tvbuff_t := ⟨[0x21, 2, 9, 9, 9, 9, 9, 9], 36⟩

/-- A fully captured 20-byte V1 Data packet without extensions. -/
def utp_plain_v1_tvb : tvbuff_t := ⟨utp_v1_hdr_bytes 0, 20⟩

/-- A V1 packet whose header announces a selective-ack extension of declared
length 4 of which only 2 payload bytes were captured (reported length 26). -/
def utp_truncated_tvb : tvbuff_t := ⟨utp_v1_hdr_bytes 1 ++ [0, 4, 0xaa, 0xbb], 26⟩

/-! ## Reference descriptions used by the statements about RTP -/

/-- A node with a value handed over by the decoder. -/
def value_node (p : Nat) (hf : hf_id) (start : Nat) (length : Int) (v : fvalue_t) : proto_node :=
  ⟨p, hf, start, length, v, "", none, false, false⟩

/-- A text-only subtree node. -/
def text_node (p : Nat) (start : Nat) (length : Int) (text : String) (ett : Option ett_id)
    (truncated : Bool) : proto_node :=
  ⟨p, .hf_text_only, start, length, .none, text, ett, truncated, false⟩

/-- The three generated nodes `show_setup_info` adds below `r` for the setup
info `d`; `base` is the arena index of the first of them. -/
def rtp_setup_nodes (r base : Nat) (d : rtp_conversation_info) : List proto_node :=
  [⟨r, .hf_rtp_setup, 0, 0, .string "",
      "Stream setup by " ++ d.method ++ " (frame " ++ toString (to_gint d.frame_number) ++ ")",
      some .ett_rtp_setup, false, true⟩,
   ⟨base, .hf_rtp_setup_frame, 0, 0, .uinteger d.frame_number, "", none, false, true⟩,
   ⟨base, .hf_rtp_setup_method, 0, 0, .string d.method, "", none, false, true⟩]

/-- The nodes `show_setup_info` adds: the setup subtree when setup info is
found, nothing otherwise. -/
def rtp_setup_nodes_opt (r base : Nat) : Option rtp_conversation_info → List proto_node
  | none => []
  | some d => rtp_setup_nodes r base d

/-- The state after the optional setup annotation: `show_setup_info` runs
only when the preference asks for it. -/
def rtp_after_setup (cfg : rtp_config) (tvb : tvbuff_t) (pinfo : packet_info) (rtp_tree : Nat)
    (s : epan_state) : epan_state :=
  if cfg.global_rtp_show_setup_info then (show_setup_info tvb pinfo (some rtp_tree) s).2 else s

/-- The nine fixed-header fields of RTP below the subtree `r`. -/
def rtp_fixed_field_nodes (r octet1 octet2 seq_num timestamp sync_src : Nat) : List proto_node :=
  [value_node r .hf_rtp_version 0 1 (.uinteger octet1),
   value_node r .hf_rtp_padding 0 1 (.boolean octet1),
   value_node r .hf_rtp_extension 0 1 (.boolean octet1),
   value_node r .hf_rtp_csrc_count 0 1 (.uinteger octet1),
   value_node r .hf_rtp_marker 1 1 (.boolean octet2),
   value_node r .hf_rtp_payload_type 1 1 (.uinteger octet2),
   value_node r .hf_rtp_seq_nr 2 2 (.uinteger seq_num),
   value_node r .hf_rtp_timestamp 4 4 (.uinteger timestamp),
   value_node r .hf_rtp_ssrc 8 4 (.uinteger sync_src)]

/-- The 32-bit big-endian value at `offset`, 0 when it is not captured. -/
def ntohl_at (tvb : tvbuff_t) (offset : Nat) : Nat :=
  match tvb_get_ntohl tvb offset with
  | .ok v => v
  | .error _ => 0

/-- The 16-bit big-endian value at `offset`, 0 when it is not captured. -/
def ntohs_at (tvb : tvbuff_t) (offset : Nat) : Nat :=
  match tvb_get_ntohs tvb offset with
  | .ok v => v
  | .error _ => 0

/-- The CSRC item nodes below subtree `c`: `n` items starting with item `i`
at `offset`. -/
def rtp_csrc_item_nodes (tvb : tvbuff_t) (c : Nat) : Nat → Nat → Nat → List proto_node
  | 0, _, _ => []
  | n + 1, i, offset =>
    ⟨c, .hf_rtp_csrc_item, offset, 4, .uinteger (ntohl_at tvb offset),
      "CSRC item " ++ toString i ++ ": " ++ toString (ntohl_at tvb offset), none, false, false⟩ ::
      rtp_csrc_item_nodes tvb c n (i + 1) (offset + 4)

/-- The nodes of the CSRC list: the "Contributing Source identifiers" subtree
below `r` (arena index `base`) and its items. -/
def rtp_csrc_nodes (tvb : tvbuff_t) (r base csrc_count offset : Nat) : List proto_node :=
  if csrc_count > 0 then
    text_node r offset ((csrc_count * 4 : Nat) : Int) "Contributing Source identifiers"
        (some .ett_csrc_list) false ::
      rtp_csrc_item_nodes tvb base csrc_count 0 offset
  else []

/-- The "Header extension" word nodes below subtree `c`: `n` words starting
at `offset`. -/
def rtp_hdr_ext_word_nodes (tvb : tvbuff_t) (c : Nat) : Nat → Nat → List proto_node
  | 0, _ => []
  | n + 1, offset =>
    value_node c .hf_rtp_hdr_ext offset 4 (.uinteger (ntohl_at tvb offset)) ::
      rtp_hdr_ext_word_nodes tvb c n (offset + 4)

/-- The nodes of a header extension at `offset` that decodes to completion:
profile and length fields below `r`, then, when the length is not zero, the
"Header extensions" subtree (arena index `base + 2`, declared with the length
`csrc_count * 4` the code passes, and flagged as truncated when that range
runs past the captured bytes) and the extension words. -/
def rtp_hdr_ext_nodes (tvb : tvbuff_t) (r base csrc_count offset : Nat) : List proto_node :=
  [value_node r .hf_rtp_prof_define offset 2 (.uinteger (ntohs_at tvb offset)),
   value_node r .hf_rtp_length (offset + 2) 2 (.uinteger (ntohs_at tvb (offset + 2)))] ++
    (if ntohs_at tvb (offset + 2) > 0 then
      text_node r (offset + 4) ((csrc_count * 4 : Nat) : Int) "Header extensions"
          (some .ett_hdr_ext) (decide (tvb_length tvb < offset + 4 + csrc_count * 4)) ::
        rtp_hdr_ext_word_nodes tvb (base + 2) (ntohs_at tvb (offset + 2)) (offset + 4)
    else [])

/-- The state `dissect_rtp_v2` has reached, with a tree requested below `p`,
once the fixed header and the CSRC list are decoded: `rtp_info` filled in,
columns set, then the protocol node, the optional setup annotation, the nine
fixed-header fields and the CSRC nodes appended to the tree. -/
def rtp_csrc_state (cfg : rtp_config) (tvb : tvbuff_t) (pinfo : packet_info) (p : Nat)
    (octet1 octet2 : Nat) (s : epan_state) : epan_state :=
  let s1 := (dissect_rtp_columns (RTP_PAYLOAD_TYPE octet2) (ntohl_at tvb 8) (ntohs_at tvb 2)
    (ntohl_at tvb 4) (RTP_MARKER octet2)
    (dissect_rtp_fill_info tvb (RTP_PADDING octet1) (RTP_MARKER octet2) (RTP_PAYLOAD_TYPE octet2)
      (ntohs_at tvb 2) (ntohl_at tvb 4) (ntohl_at tvb 8) s).2).2
  let s2 := rtp_after_setup cfg tvb pinfo s.tree.length
    { s1 with tree := s1.tree ++
      [⟨p, .proto_rtp, 0, tvb_length tvb, .from_tvb, "", some .ett_rtp, false, false⟩] }
  { s2 with tree := s2.tree ++
    (rtp_fixed_field_nodes s.tree.length octet1 octet2 (ntohs_at tvb 2) (ntohl_at tvb 4)
        (ntohl_at tvb 8) ++
      rtp_csrc_nodes tvb s.tree.length (s2.tree.length + 9) (RTP_CSRC_COUNT octet1) 12) }

/-- What holds of every node the header part of `dissect_rtp` adds when it
decodes to completion: it is none of the payload or padding fields, its
length is not negative, and it is not truncated unless it is a text-only
grouping. -/
def rtp_header_node_ok (n : proto_node) : Prop :=
  n.hfindex ≠ .hf_rtp_data ∧ n.hfindex ≠ .hf_rtp_padding_data ∧
    n.hfindex ≠ .hf_rtp_padding_count ∧ 0 ≤ n.length ∧
    (n.truncated = true → n.hfindex = .hf_text_only)

/-- The offset at which the RTP header ends: 12 bytes, the CSRC list, and the
header extension when the extension bit is set. -/
def rtp_header_end (tvb : tvbuff_t) (octet1 : Nat) : Nat :=
  12 + 4 * RTP_CSRC_COUNT octet1 +
    (if RTP_EXTENSION octet1 ≠ 0 then
      4 + 4 * ntohs_at tvb (12 + 4 * RTP_CSRC_COUNT octet1 + 2)
    else 0)

/-- The padding fields below subtree `r` when `R` bytes remain at `offset`
and all of them are padding: `R - 1` bytes of padding data (none when
`R = 1`), then the 1-byte padding count. -/
def rtp_padding_nodes (r offset R : Nat) : List proto_node :=
  (if R > 1 then [item_node r .hf_rtp_padding_data offset ((R : Int) - 1)] else []) ++
    [item_node r .hf_rtp_padding_count (offset + (R - 1)) 1]

/-- The state of the padding branch after the clip: the padding fields are
appended and `rtp_info` holds the payload offset, the remaining length and
the padding count read from the last byte. -/
def rtp_padding_clip_state (cfg : rtp_config) (tvb : tvbuff_t) (r o b : Nat) (s : epan_state) :
    epan_state :=
  { s with
    rtp_info := { s.rtp_info with
      info_payload_offset := o,
      info_payload_len := to_size_t cfg ((tvb.data.length : Int) - o),
      info_padding_count := b % 256 },
    tree := s.tree ++ rtp_padding_nodes r o (tvb.data.length - o) }

/-- Queues the tap record unless the packet is inside an error packet. -/
def rtp_tap_state (pinfo : packet_info) (s : epan_state) : epan_state :=
  if pinfo.in_error_pkt then s else { s with tap_queue := s.tap_queue ++ [s.rtp_info] }

/-! ## Concrete inputs for RTP -/

/-- A configuration with a 64-bit `size_t`, the setup annotations shown, no
heuristic decoding and no payload decoder registered. -/
def rtp_config.plain : rtp_config :=
  { MAX_RTP_SETUP_METHOD_SIZE := 7, SIZE_MAX := 18446744073709551615,
    global_rtp_show_setup_info := true, global_rtp_heur := false,
    rtp_pt_dissector_table := fun _ => none }

/-- A first-pass UDP packet from 10.0.0.1:5060 to 10.0.0.2:5060, frame `num`. -/
def sip_pinfo (num : Nat) : packet_info :=
  { fd := ⟨num, false⟩, net_src := ⟨2, 4, [10, 0, 0, 1]⟩, net_dst := ⟨2, 4, [10, 0, 0, 2]⟩,
    ptype := PT_UDP, srcport := 5060, destport := 5060, in_error_pkt := false }

/-- The address `rtp_add_address` builds from the packet and `ip_addr`. -/
def rtp_src_addr (pinfo : packet_info) (ip_addr : List Nat) : address :=
  ⟨pinfo.net_src.type, pinfo.net_src.len, ip_addr⟩

/-- The search options `rtp_add_address` passes to `find_conversation`. -/
def rtp_find_options (other_port : Nat) : Nat :=
  NO_ADDR_B ||| (if other_port = 0 then NO_PORT_B else 0)

/-- A first-pass UDP packet from 10.0.0.1:4000 to 10.0.0.2:4002, frame `num`. -/
def rtp_pinfo (num : Nat) : packet_info :=
  { fd := ⟨num, false⟩, net_src := ⟨2, 4, [10, 0, 0, 1]⟩, net_dst := ⟨2, 4, [10, 0, 0, 2]⟩,
    ptype := PT_UDP, srcport := 4000, destport := 4002, in_error_pkt := false }

/-- A fully captured 29-byte RTP version-2 packet with the padding and
extension bits set, two CSRC items, one header extension word, and a last
byte (padding count) of 255: one reported byte remains after the header. -/
def rtp_csrc_ext_padding_tvb : tvbuff_t :=
  ⟨[0xB2, 0, 0, 5, 0, 0, 3, 0x84, 0, 0, 4, 0xD2,
    0, 0, 0, 1, 0, 0, 0, 2,
    0xBE, 0xDE, 0, 1,
    1, 2, 3, 4,
    255], 29⟩

/-- A fully captured 22-byte RTP version-2 packet with the padding bit set,
no CSRC, no extension, and a last byte (padding count) of 255: 10 reported
bytes remain after the header. -/
def rtp_padding_255_tvb : tvbuff_t :=
  ⟨[0xA0, 0, 0, 5, 0, 0, 3, 0x84, 0, 0, 4, 0xD2,
    1, 2, 3, 4, 5, 6, 7, 8, 9, 255], 22⟩

/-! ## Concrete inputs for the conversation and payload statements -/

/-- The packet seen again on a later pass: same frame, visited flag set. -/
def revisit (pinfo : packet_info) : packet_info :=
  { pinfo with fd := { pinfo.fd with visited := true } }

/-- A state whose table holds one RTP conversation: 10.0.0.2 port 4002 with
any second address and port, set up by "SDP" in frame 7. -/
def rtp_registered_state : epan_state :=
  { epan_state.init with conversations :=
      [⟨⟨2, 4, [10, 0, 0, 2]⟩, ⟨2, 4, [10, 0, 0, 2]⟩, PT_UDP, 4002, 0, NO_ADDR2 ||| NO_PORT2,
        [(.proto_rtp, ⟨"SDP", 7⟩)], some .proto_rtp⟩] }

/-- A 16-byte buffer: a 12-byte version-2 RTP header and four payload bytes. -/
def rtp_plain_tvb : tvbuff_t :=
  ⟨[0x80, 0, 0, 5, 0, 0, 3, 0x84, 0, 0, 4, 0xD2, 1, 2, 3, 4], 16⟩

/-! ## Frame conditions and reference descriptions for the whole RTP decoder -/

/-- The decoder step leaves the part `proj` of the state as it was, whether
it returns or stops with a condition. -/
structure keeps {α β : Type} (proj : epan_state → β) (m : Dissect α) : Prop where
  out : ∀ s, proj (m s).2 = proj s

/-- The part `proj` of the state does not depend on the tree or on the
per-packet data. -/
def tree_blind {β : Type} (proj : epan_state → β) : Prop :=
  ∀ (s : epan_state) (t : List proto_node) (pfd : List (Nat × hf_id × rtp_conversation_info)),
    proj { s with tree := t, pfd := pfd } = proj s

/-- Every payload decoder registered in the table leaves the part `proj` of
the state as it was. -/
def sub_decoders_keep {β : Type} (cfg : rtp_config) (proj : epan_state → β) : Prop :=
  ∀ pt d, cfg.rtp_pt_dissector_table pt = some d → ∀ tvb pinfo tree, keeps proj (d tvb pinfo tree)

/-- Whenever the decoder step returns, the value it returns satisfies `P`. -/
structure yields {α : Type} (m : Dissect α) (P : α → Prop) : Prop where
  out : ∀ s a, (m s).1 = .ok a → P a

/-- The static `rtp_info` record and the tap queue. -/
def tap_part (s : epan_state) : rtp_info_t × List rtp_info_t := (s.rtp_info, s.tap_queue)

/-- The summary columns. -/
def column_part (s : epan_state) : Option column_info := s.cinfo

/-- The header part of `dissect_rtp_v2`: fixed header, CSRC list and header
extension; yields the RTP subtree and the offset of the payload. -/
def dissect_rtp_header (cfg : rtp_config) (tvb : tvbuff_t) (pinfo : packet_info)
    (tree : Option Nat) (octet1 octet2 seq_num timestamp sync_src : Nat) :
    Dissect (Option Nat × Nat) := do
  let hdr ← dissect_rtp_fixed_header cfg tvb pinfo tree octet1 octet2 seq_num timestamp sync_src
  let offset ← dissect_rtp_csrc tvb tree hdr.1 (RTP_CSRC_COUNT octet1) hdr.2
  let offset ← dissect_rtp_hdr_extension tvb tree hdr.1 (RTP_EXTENSION octet1)
    (RTP_CSRC_COUNT octet1) offset
  pure (hdr.1, offset)

/-- The tap record the specification describes for a version-2 packet with
first octets `octet1` and `octet2`, given the padding count recorded. -/
def rtp_tap_record (cfg : rtp_config) (tvb : tvbuff_t) (octet1 octet2 padding_count : Nat) :
    rtp_info_t :=
  { info_padding_set := RTP_PADDING octet1,
    info_padding_count := padding_count,
    info_marker_set := RTP_MARKER octet2,
    info_payload_type := RTP_PAYLOAD_TYPE octet2,
    info_seq_num := ntohs_at tvb 2,
    info_timestamp := ntohl_at tvb 4,
    info_sync_src := ntohl_at tvb 8,
    info_all_data_present := decide (tvb_reported_length tvb ≤ tvb_length tvb),
    info_data_len := (if tvb_reported_length tvb ≤ tvb_length tvb then tvb_reported_length tvb else 0),
    info_data := (if tvb_reported_length tvb ≤ tvb_length tvb then some tvb.data else none),
    info_payload_offset := rtp_header_end tvb octet1,
    info_payload_len := to_size_t cfg (tvb_length_remaining tvb (rtp_header_end tvb octet1)) }

/-- A version-2 packet with the padding bit set of which 13 of 20 reported
bytes were captured. -/
def rtp_cut_padding_tvb : tvbuff_t :=
  ⟨[0xA0, 0, 0, 5, 0, 0, 3, 0x84, 0, 0, 4, 0xD2, 1], 20⟩

/-- A version-2 packet without padding of which 13 of 20 reported bytes were
captured. -/
def rtp_cut_tvb : tvbuff_t :=
  ⟨[0x80, 0, 0, 5, 0, 0, 3, 0x84, 0, 0, 4, 0xD2, 1], 20⟩

/-- The sub-view request (offset, length, reported length) that the payload
part of `dissect_rtp` hands to `dissect_rtp_data` when the header ends at
`offset`: in the padding branch, once the last octet is known to be captured
and data is left over when the padding is taken out; in the no-padding branch
always.  No request is made on the other paths. -/
def rtp_payload_request (tvb : tvbuff_t) (padding_set offset : Nat) : Option (Nat × Int × Int) :=
  if padding_set ≠ 0 then
    if tvb_length tvb < tvb_reported_length tvb then none
    else
      match tvb_get_guint8 tvb ((tvb_reported_length tvb + 4294967296 - 1) % 4294967296) with
      | .error _ => none
      | .ok padding_count =>
        let data_len : Int := tvb_reported_length_remaining tvb offset - padding_count
        if data_len > 0 then some (offset, data_len, data_len) else none
  else
    some (offset, tvb_length_remaining tvb offset, tvb_reported_length_remaining tvb offset)

/-- A fully captured 16-byte version-2 packet with the extension bit set
whose extension header announces 100 extension words: the header would end at
offset 416. -/
def rtp_ext_overrun_tvb : tvbuff_t :=
  ⟨[0x90, 0, 0, 5, 0, 0, 3, 0x84, 0, 0, 4, 0xD2, 0xBE, 0xDE, 0, 100], 16⟩

/-- Whether a sub-view request (offset, captured length, reported length)
keeps the buffer invariant: the captured length lies between 0 and the
reported length, and both ends lie inside the parent, the captured end within
its captured bytes and the reported end within its reported range. -/
def rtp_subview_in_range (tvb : tvbuff_t) (o : Nat) (l r : Int) : Prop :=
  0 ≤ l ∧ l ≤ r ∧ (o : Int) + l ≤ tvb_length tvb ∧ (o : Int) + r ≤ tvb_reported_length tvb

instance (tvb : tvbuff_t) (o : Nat) (l r : Int) : Decidable (rtp_subview_in_range tvb o l r) := by
  unfold rtp_subview_in_range
  infer_instance

/-- The padding branch of `dissect_rtp` (`dissect_rtp_padding`) with its
callee abstracted: `data offset data_len data_reported_len` stands for the
call `dissect_rtp_data(tvb, pinfo, tree, rtp_tree, offset, data_len,
data_reported_len, payload_type)`. -/
def dissect_rtp_padding_with (cfg : rtp_config) (data : Nat → Int → Int → Dissect Unit)
    (tvb : tvbuff_t) (tree rtp_tree : Option Nat) (offset : Nat) : Dissect Unit := do
  let padding_count ← liftE (tvb_get_guint8 tvb
    ((tvb_reported_length tvb + 4294967296 - 1) % 4294967296))
  let data_len : Int := tvb_reported_length_remaining tvb offset - padding_count
  set_rtp_info (fun r => { r with
    info_payload_offset := offset,
    info_payload_len := to_size_t cfg (tvb_length_remaining tvb offset),
    info_padding_count := padding_count })
  let st : Nat × Nat ←
    if data_len > 0 then do
      data offset data_len data_len
      pure (offset + data_len.toNat, padding_count)
    else if data_len < 0 then
      pure (offset, to_guint (tvb_reported_length_remaining tvb offset))
    else
      pure (offset, padding_count)
  let offset := st.1
  let padding_count := st.2
  let offset ←
    if padding_count > 1 then do
      if tree.isSome then
        let _ ← proto_tree_add_item rtp_tree .hf_rtp_padding_data tvb offset
          ((padding_count : Int) - 1)
        pure ()
      else pure ()
      pure ((offset + (padding_count - 1)) % 4294967296)
    else pure offset
  if tree.isSome then
    let _ ← proto_tree_add_item rtp_tree .hf_rtp_padding_count tvb offset 1
    pure ()
  else pure ()

/-- The last part of `dissect_rtp` (`dissect_rtp_payload`) with its callee
abstracted in the same way. -/
def dissect_rtp_payload_with (cfg : rtp_config) (data : Nat → Int → Int → Dissect Unit)
    (tvb : tvbuff_t) (pinfo : packet_info) (tree rtp_tree : Option Nat)
    (padding_set offset : Nat) : Dissect Unit :=
  if padding_set ≠ 0 then
    if tvb_length tvb < tvb_reported_length tvb then do
      if tree.isSome then
        let _ ← proto_tree_add_text rtp_tree tvb 0 0
          "Frame has padding, but not all the frame data was captured"
        pure ()
      else pure ()
      let sub ← liftE (tvb_new_subset tvb offset (-1) (-1))
      call_data_dissector sub rtp_tree
    else do
      dissect_rtp_padding_with cfg data tvb tree rtp_tree offset
      if !pinfo.in_error_pkt then tap_queue_packet else pure ()
  else do
    data offset (tvb_length_remaining tvb offset) (tvb_reported_length_remaining tvb offset)
    set_rtp_info (fun r => { r with
      info_payload_offset := offset,
      info_payload_len := to_size_t cfg (tvb_length_remaining tvb offset) })
    if !pinfo.in_error_pkt then tap_queue_packet else pure ()
/-! ## uTP: byte ranges of the extension nodes -/

/-- Byte range of a node: start offset and length. -/
def node_range (n : proto_node) : Nat × Int := (n.start, n.length)

/-- A time value as `timestats.c` uses it: seconds and nanoseconds
(`nstime_t`; the fields are declared in `epan/nstime.h`). -/
structure nstime_t where
  secs : Int
  nsecs : Int
  deriving DecidableEq, Repr

/-- The statistics record `time_stat_update` maintains (`timestat_t`): the
number of samples, the frame numbers of the minimum and the maximum, the
minimum, the maximum and the total. -/
structure timestat_t where
  num : Nat
  min_num : Nat
  max_num : Nat
  min : nstime_t
  max : nstime_t
  tot : nstime_t
  deriving DecidableEq, Repr

/-- The function `time_stat_update`: takes one sample `delta` seen in the frame of `pinfo`
into the statistics.  The sample counter is a `guint32` and wraps. -/
def time_stat_update (stats : timestat_t) (delta : nstime_t) (pinfo : packet_info) :
    timestat_t :=
  let stats :=
    if stats.num = 0 then
      { stats with max := ⟨delta.secs, delta.nsecs⟩, max_num := pinfo.fd.num }
    else stats
  let stats :=
    if stats.num = 0 then
      { stats with min := ⟨delta.secs, delta.nsecs⟩, min_num := pinfo.fd.num }
    else stats
  let stats :=
    if delta.secs < stats.min.secs ∨
        (delta.secs = stats.min.secs ∧ delta.nsecs < stats.min.nsecs) then
      { stats with min := ⟨delta.secs, delta.nsecs⟩, min_num := pinfo.fd.num }
    else stats
  let stats :=
    if delta.secs > stats.max.secs ∨
        (delta.secs = stats.max.secs ∧ delta.nsecs > stats.max.nsecs) then
      { stats with max := ⟨delta.secs, delta.nsecs⟩, max_num := pinfo.fd.num }
    else stats
  let stats := { stats with tot := { stats.tot with secs := stats.tot.secs + delta.secs } }
  let stats := { stats with tot := { stats.tot with nsecs := stats.tot.nsecs + delta.nsecs } }
  let stats :=
    if stats.tot.nsecs > 1000000000 then
      { stats with tot := ⟨stats.tot.secs + 1, stats.tot.nsecs - 1000000000⟩ }
    else stats
  { stats with num := (stats.num + 1) % 4294967296 }

/-- The statistics after `time_stat_update` has been applied to the samples
in turn, each with the packet it was seen in. -/
def time_stat_updates (stats : timestat_t) (samples : List (nstime_t × packet_info)) :
    timestat_t :=
  samples.foldl (fun st x => time_stat_update st x.1 x.2) stats

/-- The lexicographic order on (seconds, nanoseconds). -/
def nstime_lt (a b : nstime_t) : Prop :=
  a.secs < b.secs ∨ (a.secs = b.secs ∧ a.nsecs < b.nsecs)

instance (a b : nstime_t) : Decidable (nstime_lt a b) := by
  unfold nstime_lt
  infer_instance

/-- The value `m` is the least of the samples and `num` is the frame number
of the first sample that has this value. -/
structure first_min (samples : List (nstime_t × packet_info)) (m : nstime_t) (num : Nat) :
    Prop where
  lower : ∀ x ∈ samples, ¬ nstime_lt x.1 m
  attained : ∃ (i : Nat) (x : nstime_t × packet_info), samples[i]? = some x ∧ x.1 = m ∧
    x.2.fd.num = num ∧
    ∀ (j : Nat) (y : nstime_t × packet_info), j < i → samples[j]? = some y → y.1 ≠ m

/-- The value `m` is the greatest of the samples and `num` is the frame
number of the first sample that has this value. -/
structure first_max (samples : List (nstime_t × packet_info)) (m : nstime_t) (num : Nat) :
    Prop where
  upper : ∀ x ∈ samples, ¬ nstime_lt m x.1
  attained : ∃ (i : Nat) (x : nstime_t × packet_info), samples[i]? = some x ∧ x.1 = m ∧
    x.2.fd.num = num ∧
    ∀ (j : Nat) (y : nstime_t × packet_info), j < i → samples[j]? = some y → y.1 ≠ m

/-- The invariant of a run of `time_stat_update` over the samples `seen` so
far (at least one, fewer than 2^32). -/
structure time_stat_inv (stats : timestat_t) (seen : List (nstime_t × packet_info)) : Prop where
  count : stats.num = seen.length
  some_seen : 0 < seen.length
  min_ok : first_min seen stats.min stats.min_num
  max_ok : first_max seen stats.max stats.max_num

/-- A time value in nanoseconds. -/
def nstime_nsec (t : nstime_t) : Int := t.secs * 1000000000 + t.nsecs

/-- A sample as C27 assumes it: seconds not negative, nanoseconds below one
second. -/
def nstime_normal (t : nstime_t) : Prop := 0 ≤ t.secs ∧ 0 ≤ t.nsecs ∧ t.nsecs < 1000000000

/-- Statistics with no sample taken in and a zero total. -/
def timestat_zero : timestat_t := ⟨0, 0, 0, ⟨0, 0⟩, ⟨0, 0⟩, ⟨0, 0⟩⟩

/-- Three samples seen in frames 7, 9 and 12: 2.5 s, 1.25 s and again 1.25 s. -/
def timestat_samples : List (nstime_t × packet_info) :=
  [(⟨2, 500000000⟩, rtp_pinfo 7), (⟨1, 250000000⟩, rtp_pinfo 9), (⟨1, 250000000⟩, rtp_pinfo 12)]

/-- Two samples of half a second each, seen in frames 1 and 2. -/
def timestat_half_seconds : List (nstime_t × packet_info) :=
  [(⟨0, 500000000⟩, rtp_pinfo 1), (⟨0, 500000000⟩, rtp_pinfo 2)]

/-! ## uTP: binding the decoder to its UDP port -/

/-- Modelled from the spec: `dissector_add_uint` on a table of the dispatch
registry (§2 Dissector Dispatch, §6 registry lookup keyed by port), a list of
bindings of a value to a decoder handle with at most one binding per value:
binds the handle to the value, in place of what the value was bound to. -/
def dissector_add_uint (table : List (Nat × Nat)) (pattern handle : Nat) : List (Nat × Nat) :=
  (pattern, handle) :: table.filter (fun e => e.1 ≠ pattern)

/-- Modelled from the spec: `dissector_delete_uint`: removes the binding of
the value. -/
def dissector_delete_uint (table : List (Nat × Nat)) (pattern _handle : Nat) :
    List (Nat × Nat) :=
  table.filter (fun e => e.1 ≠ pattern)

/-- The state `proto_reg_handoff_bt_utp` works on: its three statics, the
`udp_port` preference (`global_bt_utp_udp_port`), the "udp.port" table and
the number of decoder handles created so far. -/
structure bt_utp_handoff_state where
  bt_utp_prefs_initialized : Bool
  bt_utp_handle : Nat
  bt_utp_udp_port : Nat
  global_bt_utp_udp_port : Nat
  udp_port : List (Nat × Nat)
  handles : Nat
  deriving DecidableEq, Repr

/-- Modelled from the spec: `new_create_dissector_handle`: a handle that no
table refers to yet. -/
def new_create_dissector_handle (s : bt_utp_handoff_state) : Nat × bt_utp_handoff_state :=
  (s.handles, { s with handles := s.handles + 1 })

/-- The function `proto_reg_handoff_bt_utp`: creates the handle on the first call, removes
the binding of the previous port on later calls, then binds the handle to the
port the preference holds. -/
def proto_reg_handoff_bt_utp (s : bt_utp_handoff_state) : bt_utp_handoff_state :=
  let s :=
    if !s.bt_utp_prefs_initialized then
      let r := new_create_dissector_handle s
      { r.2 with bt_utp_handle := r.1, bt_utp_prefs_initialized := true }
    else
      { s with udp_port := dissector_delete_uint s.udp_port s.bt_utp_udp_port s.bt_utp_handle }
  let s := { s with bt_utp_udp_port := s.global_bt_utp_udp_port }
  { s with udp_port := dissector_add_uint s.udp_port s.global_bt_utp_udp_port s.bt_utp_handle }

/-- What can happen to the uTP port binding: the user changes the `udp_port`
preference, or `proto_reg_handoff_bt_utp` is called. -/
inductive bt_utp_event where
  | set_udp_port (port : Nat)
  | handoff
  deriving DecidableEq, Repr

/-- One event applied to the state. -/
def bt_utp_step (s : bt_utp_handoff_state) : bt_utp_event → bt_utp_handoff_state
  | .set_udp_port port => { s with global_bt_utp_udp_port := port }
  | .handoff => proto_reg_handoff_bt_utp s

/-- A sequence of events applied in turn. -/
def bt_utp_run (s : bt_utp_handoff_state) (events : List bt_utp_event) : bt_utp_handoff_state :=
  events.foldl bt_utp_step s

/-- The value the preference held at the latest `handoff` of the sequence,
if there was one; `pref` is the value before the sequence and `latest` the
answer so far. -/
def bt_utp_latest_call_port : Nat → Option Nat → List bt_utp_event → Option Nat
  | _, latest, [] => latest
  | _, latest, .set_udp_port port :: es => bt_utp_latest_call_port port latest es
  | pref, _, .handoff :: es => bt_utp_latest_call_port pref (some pref) es

/-- The ports a table binds to the handle. -/
def ports_bound_to (handle : Nat) (table : List (Nat × Nat)) : List Nat :=
  (table.filter (fun e => e.2 = handle)).map (fun e => e.1)

/-- The invariant of the port binding: every handle in the table has been
created, and once the statics are initialised the uTP handle is one of them
and is bound to exactly the remembered port. -/
structure bt_utp_inv (s : bt_utp_handoff_state) : Prop where
  created : ∀ e ∈ s.udp_port, e.2 < s.handles
  bound : s.bt_utp_prefs_initialized = true →
    s.bt_utp_handle < s.handles ∧ ports_bound_to s.bt_utp_handle s.udp_port = [s.bt_utp_udp_port]

/-- The state before the first call: nothing initialised, the preference at
`DEFAULT_UDP_PORT`, and a "udp.port" table that binds port 53 to some other
decoder (handle 0 of 1 created so far). -/
def bt_utp_start : bt_utp_handoff_state :=
  ⟨false, 0, 0, 55627, [(53, 0)], 1⟩

/-- A call with the default port, a change of the preference to 6881 and a
call, then a change to 53 and a call. -/
def bt_utp_events : List bt_utp_event :=
  [.handoff, .set_udp_port 6881, .handoff, .set_udp_port 53, .handoff]

/-! ## RTP: inputs for the heuristic entry point -/

/-- The plain configuration with heuristic decoding enabled. -/
def rtp_config.heuristic : rtp_config :=
  { rtp_config.plain with global_rtp_heur := true }

/-- A fully captured 2-byte buffer: version 2, payload type 0, nothing else. -/
def rtp_two_byte_tvb : tvbuff_t := ⟨[0x80, 0], 2⟩

/-! ## RTP: reference descriptions of the padding count and the tap queue -/

/-- The padding count `dissect_rtp` reads in the padding branch: the byte at
`tvb_reported_length(tvb) - 1`, 0 when it is not captured. -/
def rtp_last_byte (tvb : tvbuff_t) : Nat :=
  match tvb_get_guint8 tvb ((tvb_reported_length tvb + 4294967296 - 1) % 4294967296) with
  | .ok v => v
  | .error _ => 0

/-- The padding count the padding branch of `dissect_rtp` works with when it
shows the padding fields at payload offset `offset`: the count read from the
last byte, clipped to the reported remainder when it exceeds it. -/
def rtp_effective_padding (tvb : tvbuff_t) (offset padding_count : Nat) : Nat :=
  if tvb_reported_length_remaining tvb offset - padding_count < 0 then
    to_guint (tvb_reported_length_remaining tvb offset)
  else padding_count

/-- The tap records a returning call of `dissect_rtp` on a version-2 packet
queues: none inside an error packet or through the "padding, but not all the
frame data was captured" exit, else the one record of the packet, with the
padding count read from the last byte when the padding bit is set. -/
def rtp_tap_expected (cfg : rtp_config) (tvb : tvbuff_t) (pinfo : packet_info)
    (octet1 octet2 : Nat) : List rtp_info_t :=
  if pinfo.in_error_pkt = true ∨
      (RTP_PADDING octet1 ≠ 0 ∧ tvb_length tvb < tvb_reported_length tvb) then []
  else [rtp_tap_record cfg tvb octet1 octet2
    (if RTP_PADDING octet1 ≠ 0 then rtp_last_byte tvb else 0)]

/-- The ranges of the fields `hf` in the tree, in the order they were added. -/
def fields_where (hf : hf_id) (s : epan_state) : List (Nat × Int) :=
  (s.tree.filter (fun n => n.hfindex = hf)).map node_range

/-- The ranges of the text-only subtree nodes of type `ett` in the tree. -/
def subtrees_where (ett : ett_id) (s : epan_state) : List (Nat × Int) :=
  (s.tree.filter (fun n => n.hfindex = hf_id.hf_text_only ∧ n.tree_type = some ett)).map
    node_range

/-- What holds of the nodes `dissect_rtp` adds before the CSRC list (the
protocol node, the setup annotation and the nine fixed-header fields): none is
a text-only node, a CSRC item or a header extension word. -/
def rtp_fixed_node (n : proto_node) : Prop :=
  n.hfindex ≠ .hf_text_only ∧ n.hfindex ≠ .hf_rtp_csrc_item ∧ n.hfindex ≠ .hf_rtp_hdr_ext

/-- A fully captured 13-byte version-2 packet with the padding bit set whose
last byte, the padding count, is 0: one byte follows the 12-byte header. -/
def rtp_padding_zero_tvb : tvbuff_t :=
  ⟨[0xA0, 0, 0, 5, 0, 0, 3, 0x84, 0, 0, 4, 0xD2, 0], 13⟩

/-- A fully captured 29-byte version-2 packet with the extension bit set, one
CSRC item, two header extension words and one payload byte. -/
def rtp_csrc_two_ext_tvb : tvbuff_t :=
  ⟨[0x91, 0, 0, 5, 0, 0, 3, 0x84, 0, 0, 4, 0xD2,
    0, 0, 0, 1,
    0xBE, 0xDE, 0, 2,
    1, 2, 3, 4, 5, 6, 7, 8,
    9], 29⟩

/-- A fully captured 16-byte version-2 packet with the padding and extension
bits set whose header extension declares one word that the buffer does not
hold: the buffer ends after the extension length. -/
def rtp_ext_word_cut_tvb : tvbuff_t :=
  ⟨[0xB0, 0, 0, 5, 0, 0, 3, 0x84, 0, 0, 4, 0xD2, 0xBE, 0xDE, 0, 1], 16⟩

/-- The end of the padding branch of `dissect_rtp` (the last lines of
`dissect_rtp_padding`): all but the last byte of the padding shown as padding
data when there is more than one byte, then the padding count field. -/
def rtp_padding_fields (tvb : tvbuff_t) (tree rtp_tree : Option Nat)
    (offset padding_count : Nat) : Dissect Unit := do
  let offset ←
    if padding_count > 1 then do
      if tree.isSome then
        let _ ← proto_tree_add_item rtp_tree .hf_rtp_padding_data tvb offset
          ((padding_count : Int) - 1)
        pure ()
      else pure ()
      pure ((offset + (padding_count - 1)) % 4294967296)
    else pure offset
  if tree.isSome then
    let _ ← proto_tree_add_item rtp_tree .hf_rtp_padding_count tvb offset 1
    pure ()
  else pure ()

/-! ## Engine lemmas -/

@[simp] theorem bind_apply {α β : Type} (m : Dissect α) (f : α → Dissect β) (s : epan_state) :
    (m >>= f) s = Dissect.bind m f s := rfl

@[simp] theorem pure_apply {α : Type} (a : α) (s : epan_state) :
    (pure a : Dissect α) s = (.ok a, s) := rfl

theorem bind_ok {α β : Type} (m : Dissect α) (f : α → Dissect β) (s s1 : epan_state) (a : α)
    (h : m s = (.ok a, s1)) : Dissect.bind m f s = f a s1 := by
  simp [Dissect.bind, h]

theorem bind_error {α β : Type} (m : Dissect α) (f : α → Dissect β) (s s1 : epan_state) (e : exn)
    (h : m s = (.error e, s1)) : Dissect.bind m f s = (.error e, s1) := by
  simp [Dissect.bind, h]

theorem update_node_append (f : proto_node → proto_node) (l : List proto_node) (x : proto_node)
    (r : List proto_node) : update_node f l.length (l ++ x :: r) = l ++ f x :: r := by
  induction l with
  | nil => rfl
  | cons a l ih => simp [update_node, ih]

theorem tvb_get_guint8_ok (tvb : tvbuff_t) (offset b : Nat) (h : tvb.data[offset]? = some b) :
    tvb_get_guint8 tvb offset = .ok (b % 256) := by
  simp [tvb_get_guint8, h]

theorem tvb_get_guint8_lt (tvb : tvbuff_t) (offset b : Nat) (h : tvb.data[offset]? = some b) :
    offset < tvb_length tvb := by
  unfold tvb_length
  by_contra hc
  rw [List.getElem?_eq_none (by omega)] at h
  cases h

theorem proto_tree_add_item_ok (p : Nat) (hf : hf_id) (tvb : tvbuff_t) (start : Nat) (length : Int)
    (s : epan_state) (h0 : 0 ≤ length) (h : (start : Int) + length ≤ tvb_length tvb) :
    proto_tree_add_item (some p) hf tvb start length s =
      (.ok (some s.tree.length), { s with tree := s.tree ++ [item_node p hf start length] }) := by
  have h1 : ¬ (length = -1) := by omega
  simp [proto_tree_add_item, proto_tree_add, h1, h0, h, add_node, item_node]

theorem proto_tree_add_item_rest (p : Nat) (hf : hf_id) (tvb : tvbuff_t) (start : Nat)
    (s : epan_state) (h : start ≤ tvb_length tvb) :
    proto_tree_add_item (some p) hf tvb start (-1) s =
      (.ok (some s.tree.length),
        { s with tree := s.tree ++ [item_node p hf start ((tvb_length tvb : Int) - start)] }) := by
  simp [proto_tree_add_item, proto_tree_add, h, add_node, item_node]

/-! ## uTP: one pass of the extension loop -/

theorem dissect_utp_extension_ok (tvb : tvbuff_t) (p et offset t l : Nat) (s : epan_state)
    (ht : tvb.data[offset]? = some t) (hl : tvb.data[offset + 1]? = some l)
    (h : offset + 2 + l % 256 ≤ tvb_length tvb) :
    dissect_utp_extension tvb (some p) et offset s =
      (.ok (t % 256, offset + 2 + l % 256),
        { s with tree := s.tree ++ utp_ext_nodes p s.tree.length et offset (l % 256) }) := by
  have e1 := proto_tree_add_item_rest p .hf_bt_utp_extension tvb offset s (by omega)
  unfold dissect_utp_extension
  have key : ∀ (txt : String) (hfp : hf_id),
      (do
        let ti ← proto_tree_add_item (some p) .hf_bt_utp_extension tvb offset (-1)
        let ext_tree ← proto_item_add_subtree ti .ett_bt_utp_extension
        let _ ← proto_tree_add_item ext_tree .hf_bt_utp_next_extension_type tvb offset 1
        let extension_type ← liftE (tvb_get_guint8 tvb offset)
        let offset := offset + 1
        let _ ← proto_tree_add_item ext_tree .hf_bt_utp_extension_len tvb offset 1
        let extension_length ← liftE (tvb_get_guint8 tvb offset)
        proto_item_append_text ti (txt ++ toString extension_length)
        let offset := offset + 1
        let _ ← proto_tree_add_item ext_tree hfp tvb offset extension_length
        let offset := offset + extension_length
        proto_item_set_len ti (1 + 1 + extension_length)
        pure (extension_type, offset) : Dissect (Nat × Nat)) s =
      (.ok (t % 256, offset + 2 + l % 256),
        { s with tree := s.tree ++
          [⟨p, .hf_bt_utp_extension, offset, 2 + ((l % 256 : Nat) : Int), .from_tvb,
              txt ++ toString (l % 256), some .ett_bt_utp_extension, false, false⟩,
           item_node s.tree.length .hf_bt_utp_next_extension_type offset 1,
           item_node s.tree.length .hf_bt_utp_extension_len (offset + 1) 1,
           item_node s.tree.length hfp (offset + 2) ((l % 256 : Nat) : Int)] }) := by
    intro txt hfp
    simp only [bind_apply]
    rw [bind_ok _ _ _ _ _ e1]
    simp (disch := omega) [proto_item_add_subtree, proto_item_append_text, proto_item_set_len,
      Dissect.bind, liftE, tvb_get_guint8_ok _ _ _ ht, tvb_get_guint8_ok _ _ _ hl,
      update_node_append, proto_tree_add_item_ok, item_node]
  split_ifs with h1 h2
  · rw [key]; simp [utp_ext_nodes, utp_ext_label, utp_ext_payload_hf, h1, item_node]
  · rw [key]; simp [utp_ext_nodes, utp_ext_label, utp_ext_payload_hf, h2, item_node,
      EXT_EXTENSION_BITS, EXT_SELECTION_ACKS]
  · rw [key]; simp [utp_ext_nodes, utp_ext_label, utp_ext_payload_hf, h1, h2, item_node]

/-! ## uTP: fixed header -/

theorem dissect_utp_header_v1_ok (tvb : tvbuff_t) (p e : Nat) (s : epan_state)
    (he : tvb.data[1]? = some e) (h : 20 ≤ tvb_length tvb) :
    dissect_utp_header_v1 tvb (some p) s =
      (.ok (e % 256, 20), { s with tree := s.tree ++ utp_v1_hdr_nodes p }) := by
  unfold dissect_utp_header_v1
  simp (disch := omega) [Dissect.bind, liftE, tvb_get_guint8_ok _ _ _ he, proto_tree_add_item_ok,
    utp_v1_hdr_nodes]

theorem dissect_utp_header_v0_ok (tvb : tvbuff_t) (p e : Nat) (s : epan_state)
    (he : tvb.data[17]? = some e) (h : 23 ≤ tvb_length tvb) :
    dissect_utp_header_v0 tvb (some p) s =
      (.ok (e % 256, 23), { s with tree := s.tree ++ utp_v0_hdr_nodes p }) := by
  unfold dissect_utp_header_v0
  simp (disch := omega) [Dissect.bind, liftE, tvb_get_guint8_ok _ _ _ he, proto_tree_add_item_ok,
    utp_v0_hdr_nodes]

/-! ## uTP: the extension loop on a well-formed chain -/

theorem getElem?_append_cons (pre : List Nat) (x : Nat) (rest : List Nat) :
    (pre ++ x :: rest)[pre.length]? = some x := by
  rw [List.getElem?_append_right (Nat.le_refl _)]
  simp

theorem getElem?_append_cons_succ (pre : List Nat) (x y : Nat) (rest : List Nat) :
    (pre ++ x :: y :: rest)[pre.length + 1]? = some y := by
  rw [List.getElem?_append_right (Nat.le_add_right _ _)]
  simp

theorem dissect_utp_extensions_wf (tvb : tvbuff_t) (p : Nat) (recs : List utp_ext_record) :
    ∀ (fuel et offset : Nat) (s : epan_state) (pre : List Nat),
      tvb.data = pre ++ utp_ext_chain_bytes recs → pre.length = offset →
      tvb.reported_length = tvb.data.length → (∀ r ∈ recs, r.wf) → recs.length ≤ fuel →
      dissect_utp_extensions tvb (some p) fuel et offset s =
        (.ok (tvb_reported_length tvb),
          { s with tree := s.tree ++ utp_ext_chain_nodes p s.tree.length et offset recs }) := by
  induction recs with
  | nil =>
    intro fuel et offset s pre hd hp hr _ _
    have : ¬ offset < tvb_reported_length tvb := by
      simp [tvb_reported_length, hr, hd, utp_ext_chain_bytes, hp]
    have h2 : offset = tvb_reported_length tvb := by
      simp [tvb_reported_length, hr, hd, utp_ext_chain_bytes, hp]
    cases fuel <;> simp [dissect_utp_extensions, this, utp_ext_chain_nodes, h2]
  | cons r rs ih =>
    intro fuel et offset s pre hd hp hr hwf hfuel
    have hwr : r.payload.length = r.len % 256 := hwf r (by simp)
    have hlt : offset < tvb_reported_length tvb := by
      simp [tvb_reported_length, hr, hd, utp_ext_chain_bytes, hp]
    cases fuel with
    | zero => simp at hfuel
    | succ fuel =>
      have ht : tvb.data[offset]? = some r.next_type := by
        rw [hd, ← hp]; exact getElem?_append_cons _ _ _
      have hl : tvb.data[offset + 1]? = some r.len := by
        rw [hd, ← hp]; exact getElem?_append_cons_succ _ _ _ _
      have hb : offset + 2 + r.len % 256 ≤ tvb_length tvb := by
        simp [tvb_length, hd, utp_ext_chain_bytes, hp, hwr]; omega
      have hstep := dissect_utp_extension_ok tvb p et offset r.next_type r.len s ht hl hb
      have hrec := ih fuel (r.next_type % 256) (offset + 2 + r.len % 256)
        { s with tree := s.tree ++ utp_ext_nodes p s.tree.length et offset (r.len % 256) }
        (pre ++ r.next_type :: r.len :: r.payload)
        (by simp [hd, utp_ext_chain_bytes]) (by simp [hp, hwr]; omega) hr
        (fun x hx => hwf x (by simp [hx])) (by simpa using hfuel)
      simp only [dissect_utp_extensions, hlt, if_true, bind_apply]
      rw [bind_ok _ _ _ _ _ hstep, hrec]
      simp [utp_ext_chain_nodes, utp_ext_nodes]

theorem utp_ext_chain_bytes_length (recs : List utp_ext_record) :
    2 * recs.length ≤ (utp_ext_chain_bytes recs).length := by
  induction recs with
  | nil => simp [utp_ext_chain_bytes]
  | cons r rs ih => simp [utp_ext_chain_bytes]; omega

theorem utp_ext_chain_bytes_length_wf (recs : List utp_ext_record) (hwf : ∀ r ∈ recs, r.wf) :
    (utp_ext_chain_bytes recs).length = (recs.map utp_ext_record.size).sum := by
  induction recs with
  | nil => simp [utp_ext_chain_bytes]
  | cons r rs ih =>
    have h1 : r.payload.length = r.len % 256 := hwf r (by simp)
    have h2 := ih (fun x hx => hwf x (by simp [hx]))
    simp [utp_ext_chain_bytes, utp_ext_record.size, h1, h2]; omega

/-- On a fully captured buffer made of a fixed header and a well-formed chain
of records, `dissect_utp_header` returns the reported length and appends the
fixed-header fields followed by the nodes of the chain. -/
theorem dissect_utp_header_wf (tvb : tvbuff_t) (p : Nat) (s : epan_state) (is_v1 : Bool)
    (hdr : List Nat) (recs : List utp_ext_record)
    (hv : utp_is_v1 tvb = .ok is_v1)
    (hd : tvb.data = hdr ++ utp_ext_chain_bytes recs)
    (hh : hdr.length = utp_fixed_hdr_size is_v1)
    (hr : tvb.reported_length = tvb.data.length)
    (hwf : ∀ r ∈ recs, r.wf) :
    dissect_utp_header tvb (some p) s =
      (.ok (tvb_reported_length tvb),
        { s with tree := s.tree ++ (utp_hdr_nodes is_v1 p ++
            utp_ext_chain_nodes p (s.tree.length + 9) (utp_hdr_ext_type is_v1 tvb)
              (utp_fixed_hdr_size is_v1) recs) }) := by
  have hlen : utp_fixed_hdr_size is_v1 ≤ tvb_length tvb := by
    simp [tvb_length, hd, hh]
  have hfuel : recs.length ≤ tvb_reported_length tvb := by
    have := utp_ext_chain_bytes_length recs
    simp [tvb_reported_length, hr, hd]; omega
  have hex : ∃ e, tvb.data[utp_hdr_ext_offset is_v1]? = some e := by
    have : utp_hdr_ext_offset is_v1 < tvb.data.length := by
      unfold tvb_length at hlen
      cases is_v1 <;> simp [utp_hdr_ext_offset, utp_fixed_hdr_size] at * <;> omega
    exact ⟨_, List.getElem?_eq_getElem this⟩
  obtain ⟨e, he⟩ := hex
  have het : utp_hdr_ext_type is_v1 tvb = e % 256 := by simp [utp_hdr_ext_type, he]
  unfold dissect_utp_header
  simp only [bind_apply]
  rw [bind_ok _ _ s s is_v1 (by simp [liftE, hv])]
  cases is_v1 with
  | true =>
    simp only [utp_fixed_hdr_size, utp_hdr_ext_offset, if_true] at hlen he hh
    simp only [Bool.not_true, Bool.false_eq_true, if_false]
    rw [bind_apply, bind_ok _ _ _ _ _ (dissect_utp_header_v1_ok tvb p e s he hlen)]
    rw [dissect_utp_extensions_wf tvb p recs _ _ _ _ hdr hd (by simpa using hh) hr hwf hfuel]
    simp [utp_hdr_nodes, het, utp_v1_hdr_nodes, utp_fixed_hdr_size]
  | false =>
    simp only [utp_fixed_hdr_size, utp_hdr_ext_offset, Bool.false_eq_true, if_false] at hlen he hh
    simp only [Bool.not_false, if_true]
    rw [bind_apply, bind_ok _ _ _ _ _ (dissect_utp_header_v0_ok tvb p e s he hlen)]
    rw [dissect_utp_extensions_wf tvb p recs _ _ _ _ hdr hd (by simpa using hh) hr hwf hfuel]
    simp [utp_hdr_nodes, het, utp_v0_hdr_nodes, utp_fixed_hdr_size]

theorem extension_nodes_hdr (is_v1 : Bool) (p : Nat) :
    extension_nodes (utp_hdr_nodes is_v1 p) = [] := by
  cases is_v1 <;> simp [extension_nodes, utp_hdr_nodes, utp_v1_hdr_nodes, utp_v0_hdr_nodes, item_node]

theorem extension_nodes_chain (p : Nat) (recs : List utp_ext_record) :
    ∀ base et offset,
      (extension_nodes (utp_ext_chain_nodes p base et offset recs)).map (fun n => n.length) =
        recs.map (fun r => (r.size : Int)) := by
  induction recs with
  | nil => intro base et offset; simp [utp_ext_chain_nodes, extension_nodes]
  | cons r rs ih =>
    intro base et offset
    have h := ih (base + 4) (r.next_type % 256) (offset + 2 + r.len % 256)
    unfold extension_nodes at h ⊢
    have hp : utp_ext_payload_hf et ≠ hf_id.hf_bt_utp_extension := by
      unfold utp_ext_payload_hf; split <;> simp
    simp [utp_ext_chain_nodes, utp_ext_nodes, List.filter_cons, hp, h, utp_ext_record.size]

/-- On a well-formed chain the extension nodes added are one per record, of
length 2 + declared length. -/
theorem dissect_utp_header_wf_ext_nodes (tvb : tvbuff_t) (p : Nat) (s : epan_state)
    (is_v1 : Bool) (hdr : List Nat) (recs : List utp_ext_record)
    (hv : utp_is_v1 tvb = .ok is_v1)
    (hd : tvb.data = hdr ++ utp_ext_chain_bytes recs)
    (hh : hdr.length = utp_fixed_hdr_size is_v1)
    (hr : tvb.reported_length = tvb.data.length)
    (hwf : ∀ r ∈ recs, r.wf) :
    (extension_nodes ((dissect_utp_header tvb (some p) s).2.tree.drop s.tree.length)).map
        (fun n => n.length) = recs.map (fun r => (r.size : Int)) := by
  rw [dissect_utp_header_wf tvb p s is_v1 hdr recs hv hd hh hr hwf]
  simp only [List.drop_left]
  unfold extension_nodes
  rw [List.filter_append]
  have h1 := extension_nodes_hdr is_v1 p
  have h2 := extension_nodes_chain p recs (s.tree.length + 9) (utp_hdr_ext_type is_v1 tvb)
    (utp_fixed_hdr_size is_v1)
  unfold extension_nodes at h1 h2
  rw [h1, List.nil_append, h2]

/-! ## Safety: a pass of the loop advances or stops on a bounds error -/

theorem safe_bind {α β : Type} (m : Dissect α) (f : α → Dissect β) (Q : β → Prop)
    (hm : safe m (fun _ => True)) (hf : ∀ a, safe (f a) Q) : safe (m >>= f) Q := by
  intro s
  have h1 := hm s
  simp only [bind_apply, Dissect.bind]
  rcases hms : m s with ⟨r, s1⟩
  rw [hms] at h1
  cases r with
  | error e => simpa using h1
  | ok a => exact hf a s1

theorem safe_pure {α : Type} (a : α) (Q : α → Prop) (h : Q a) : safe (pure a : Dissect α) Q := by
  intro s; exact h

theorem safe_proto_tree_add (tree : Option Nat) (hf : hf_id) (tvb : tvbuff_t) (start : Nat)
    (length : Int) (v : fvalue_t) : safe (proto_tree_add tree hf tvb start length v) (fun _ => True) := by
  intro s
  unfold proto_tree_add
  cases tree with
  | none => simp
  | some p => simp only []; split_ifs <;> simp [add_node, add_truncated_node]

theorem safe_proto_tree_add_item (tree : Option Nat) (hf : hf_id) (tvb : tvbuff_t) (start : Nat)
    (length : Int) : safe (proto_tree_add_item tree hf tvb start length) (fun _ => True) :=
  safe_proto_tree_add tree hf tvb start length .from_tvb

theorem safe_tvb_get_guint8 (tvb : tvbuff_t) (offset : Nat) :
    safe (liftE (tvb_get_guint8 tvb offset)) (fun _ => True) := by
  intro s
  unfold liftE tvb_get_guint8
  cases tvb.data[offset]? <;> simp

theorem safe_proto_item_add_subtree (ti : Option Nat) (ett : ett_id) :
    safe (proto_item_add_subtree ti ett) (fun _ => True) := by
  intro s; cases ti <;> simp [proto_item_add_subtree]

theorem safe_proto_item_append_text (ti : Option Nat) (txt : String) :
    safe (proto_item_append_text ti txt) (fun _ => True) := by
  intro s; cases ti <;> simp [proto_item_append_text]

theorem safe_proto_item_set_len (ti : Option Nat) (length : Int) :
    safe (proto_item_set_len ti length) (fun _ => True) := by
  intro s; cases ti <;> simp [proto_item_set_len]

theorem dissect_utp_extension_safe (tvb : tvbuff_t) (tree : Option Nat) (et offset : Nat) :
    safe (dissect_utp_extension tvb tree et offset) (fun r => offset + 2 ≤ r.2) := by
  unfold dissect_utp_extension
  split_ifs <;>
  · refine safe_bind _ _ _ (safe_proto_tree_add_item _ _ _ _ _) (fun ti => ?_)
    refine safe_bind _ _ _ (safe_proto_item_add_subtree _ _) (fun ext_tree => ?_)
    refine safe_bind _ _ _ (safe_proto_tree_add_item _ _ _ _ _) (fun _ => ?_)
    refine safe_bind _ _ _ (safe_tvb_get_guint8 _ _) (fun extension_type => ?_)
    refine safe_bind _ _ _ (safe_proto_tree_add_item _ _ _ _ _) (fun _ => ?_)
    refine safe_bind _ _ _ (safe_tvb_get_guint8 _ _) (fun extension_length => ?_)
    refine safe_bind _ _ _ (safe_proto_item_append_text _ _) (fun _ => ?_)
    refine safe_bind _ _ _ (safe_proto_tree_add_item _ _ _ _ _) (fun _ => ?_)
    refine safe_bind _ _ _ (safe_proto_item_set_len _ _) (fun _ => ?_)
    exact safe_pure _ _ (by simp only []; omega)

theorem dissect_utp_extensions_fuel (tvb : tvbuff_t) (tree : Option Nat) :
    ∀ (fuel et offset : Nat) (s : epan_state) (extra : Nat),
      (tvb_reported_length tvb - offset + 1) / 2 ≤ fuel →
      dissect_utp_extensions tvb tree (fuel + extra) et offset s =
          dissect_utp_extensions tvb tree fuel et offset s ∧
        (dissect_utp_extensions tvb tree fuel et offset s).1 ≠ .error .OutOfFuel := by
  intro fuel
  induction fuel with
  | zero =>
    intro et offset s extra h
    have hn : ¬ offset < tvb_reported_length tvb := by omega
    cases extra <;> simp [dissect_utp_extensions, hn]
  | succ fuel ih =>
    intro et offset s extra h
    have hadd : fuel + 1 + extra = (fuel + extra) + 1 := by omega
    rw [hadd]
    by_cases hlt : offset < tvb_reported_length tvb
    · simp only [dissect_utp_extensions, hlt, if_true, bind_apply, Dissect.bind]
      have hs := dissect_utp_extension_safe tvb tree et offset s
      rcases hb : dissect_utp_extension tvb tree et offset s with ⟨r, s1⟩
      rw [hb] at hs
      cases r with
      | error e =>
        simp only [] at hs
        simp [hs]
      | ok a =>
        simp only [] at hs
        exact ih a.1 a.2 s1 extra (by omega)
    · simp [dissect_utp_extensions, hlt]

theorem safe_ne_fuel {α : Type} (m : Dissect α) (Q : α → Prop) (h : safe m Q) (s : epan_state) :
    (m s).1 ≠ .error .OutOfFuel := by
  have := h s
  rcases hm : m s with ⟨r, s1⟩
  rw [hm] at this
  cases r with
  | error e => simp only [] at this; simp [this]
  | ok a => simp

theorem safe_utp_is_v1 (tvb : tvbuff_t) : safe (liftE (utp_is_v1 tvb)) (fun _ => True) := by
  intro s
  unfold liftE utp_is_v1 tvb_get_guint8
  cases tvb.data[0]? with
  | none => rfl
  | some b0 =>
    cases tvb.data[1]? with
    | none => rfl
    | some b1 =>
      simp only [bind, Except.bind, pure, Except.pure]
      split_ifs <;> trivial

theorem safe_dissect_utp_header_v0 (tvb : tvbuff_t) (tree : Option Nat) :
    safe (dissect_utp_header_v0 tvb tree) (fun _ => True) := by
  unfold dissect_utp_header_v0
  refine safe_bind _ _ _ (safe_proto_tree_add_item _ _ _ _ _) (fun _ => ?_)
  refine safe_bind _ _ _ (safe_proto_tree_add_item _ _ _ _ _) (fun _ => ?_)
  refine safe_bind _ _ _ (safe_proto_tree_add_item _ _ _ _ _) (fun _ => ?_)
  refine safe_bind _ _ _ (safe_proto_tree_add_item _ _ _ _ _) (fun _ => ?_)
  refine safe_bind _ _ _ (safe_proto_tree_add_item _ _ _ _ _) (fun _ => ?_)
  refine safe_bind _ _ _ (safe_proto_tree_add_item _ _ _ _ _) (fun _ => ?_)
  refine safe_bind _ _ _ (safe_tvb_get_guint8 _ _) (fun _ => ?_)
  refine safe_bind _ _ _ (safe_proto_tree_add_item _ _ _ _ _) (fun _ => ?_)
  refine safe_bind _ _ _ (safe_proto_tree_add_item _ _ _ _ _) (fun _ => ?_)
  refine safe_bind _ _ _ (safe_proto_tree_add_item _ _ _ _ _) (fun _ => ?_)
  exact safe_pure _ _ trivial

theorem safe_dissect_utp_header_v1 (tvb : tvbuff_t) (tree : Option Nat) :
    safe (dissect_utp_header_v1 tvb tree) (fun _ => True) := by
  unfold dissect_utp_header_v1
  refine safe_bind _ _ _ (safe_proto_tree_add_item _ _ _ _ _) (fun _ => ?_)
  refine safe_bind _ _ _ (safe_proto_tree_add_item _ _ _ _ _) (fun _ => ?_)
  refine safe_bind _ _ _ (safe_proto_tree_add_item _ _ _ _ _) (fun _ => ?_)
  refine safe_bind _ _ _ (safe_tvb_get_guint8 _ _) (fun _ => ?_)
  refine safe_bind _ _ _ (safe_proto_tree_add_item _ _ _ _ _) (fun _ => ?_)
  refine safe_bind _ _ _ (safe_proto_tree_add_item _ _ _ _ _) (fun _ => ?_)
  refine safe_bind _ _ _ (safe_proto_tree_add_item _ _ _ _ _) (fun _ => ?_)
  refine safe_bind _ _ _ (safe_proto_tree_add_item _ _ _ _ _) (fun _ => ?_)
  refine safe_bind _ _ _ (safe_proto_tree_add_item _ _ _ _ _) (fun _ => ?_)
  refine safe_bind _ _ _ (safe_proto_tree_add_item _ _ _ _ _) (fun _ => ?_)
  exact safe_pure _ _ trivial

theorem dissect_utp_header_ne_fuel (tvb : tvbuff_t) (tree : Option Nat) (s : epan_state) :
    (dissect_utp_header tvb tree s).1 ≠ .error .OutOfFuel := by
  unfold dissect_utp_header
  simp only [bind_apply, Dissect.bind]
  have h1 := safe_utp_is_v1 tvb s
  rcases hb : liftE (utp_is_v1 tvb) s with ⟨r, s1⟩
  rw [hb] at h1
  cases r with
  | error e => simp only [] at h1; simp [h1]
  | ok is_v1 =>
    have hloop : ∀ (hdr : Nat × Nat) (s2 : epan_state),
        (dissect_utp_extensions tvb tree (tvb_reported_length tvb) hdr.1 hdr.2 s2).1 ≠
          .error .OutOfFuel := by
      intro hdr s2
      have hk : (tvb_reported_length tvb - hdr.2 + 1) / 2 ≤ tvb_reported_length tvb := by omega
      exact (dissect_utp_extensions_fuel tvb tree (tvb_reported_length tvb) hdr.1 hdr.2 s2 0 hk).2
    cases is_v1 with
    | false =>
      simp only [Bool.not_false, if_true, bind_apply, Dissect.bind]
      have h3 := safe_dissect_utp_header_v0 tvb tree s1
      rcases hc : dissect_utp_header_v0 tvb tree s1 with ⟨r2, s2⟩
      rw [hc] at h3
      cases r2 with
      | error e => simp only [] at h3; simp [h3]
      | ok hdr => exact hloop hdr s2
    | true =>
      simp only [Bool.not_true, Bool.false_eq_true, if_false, bind_apply, Dissect.bind]
      have h3 := safe_dissect_utp_header_v1 tvb tree s1
      rcases hc : dissect_utp_header_v1 tvb tree s1 with ⟨r2, s2⟩
      rw [hc] at h3
      cases r2 with
      | error e => simp only [] at h3; simp [h3]
      | ok hdr => exact hloop hdr s2

/-! ## The tree is append-only -/

theorem proto_tree_add_item_truncated (p : Nat) (hf : hf_id) (tvb : tvbuff_t) (start : Nat)
    (length : Int) (s : epan_state) (h0 : 0 ≤ length)
    (h : (tvb_length tvb : Int) < (start : Int) + length) :
    proto_tree_add_item (some p) hf tvb start length s =
      (.error .OutOfBounds,
        { s with tree := s.tree ++ [⟨p, hf, start, length, .from_tvb, "", none, true, false⟩] }) := by
  have h1 : ¬ (length = -1) := by omega
  have h2 : ¬ (0 ≤ length ∧ (start : Int) + length ≤ tvb_length tvb) := by omega
  simp [proto_tree_add_item, proto_tree_add, h1, h2, add_truncated_node]

theorem dissect_utp_extension_truncated (tvb : tvbuff_t) (p et offset t l : Nat) (s : epan_state)
    (ht : tvb.data[offset]? = some t) (hl : tvb.data[offset + 1]? = some l)
    (h : tvb_length tvb < offset + 2 + l % 256) :
    dissect_utp_extension tvb (some p) et offset s =
      (.error .OutOfBounds,
        { s with tree := s.tree ++ (utp_truncated_ext_nodes p s.tree.length et offset (l % 256)
            ((tvb_length tvb : Int) - offset)) }) := by
  have hlt := tvb_get_guint8_lt tvb (offset + 1) l hl
  have e1 := proto_tree_add_item_rest p .hf_bt_utp_extension tvb offset s (by omega)
  have e4 := fun s' => proto_tree_add_item_truncated s.tree.length
    (utp_ext_payload_hf et) tvb (offset + 1 + 1) ((l : Int) % 256) s' (by omega) (by omega)
  unfold dissect_utp_extension
  have key : ∀ (txt : String) (hfp : hf_id), hfp = utp_ext_payload_hf et →
      (do
        let ti ← proto_tree_add_item (some p) .hf_bt_utp_extension tvb offset (-1)
        let ext_tree ← proto_item_add_subtree ti .ett_bt_utp_extension
        let _ ← proto_tree_add_item ext_tree .hf_bt_utp_next_extension_type tvb offset 1
        let extension_type ← liftE (tvb_get_guint8 tvb offset)
        let offset := offset + 1
        let _ ← proto_tree_add_item ext_tree .hf_bt_utp_extension_len tvb offset 1
        let extension_length ← liftE (tvb_get_guint8 tvb offset)
        proto_item_append_text ti (txt ++ toString extension_length)
        let offset := offset + 1
        let _ ← proto_tree_add_item ext_tree hfp tvb offset extension_length
        let offset := offset + extension_length
        proto_item_set_len ti (1 + 1 + extension_length)
        pure (extension_type, offset) : Dissect (Nat × Nat)) s =
      (.error .OutOfBounds,
        { s with tree := s.tree ++
          [⟨p, .hf_bt_utp_extension, offset, (tvb_length tvb : Int) - offset, .from_tvb,
              txt ++ toString (l % 256), some .ett_bt_utp_extension, false, false⟩,
           item_node s.tree.length .hf_bt_utp_next_extension_type offset 1,
           item_node s.tree.length .hf_bt_utp_extension_len (offset + 1) 1,
           ⟨s.tree.length, utp_ext_payload_hf et, offset + 2, ((l % 256 : Nat) : Int), .from_tvb,
              "", none, true, false⟩] }) := by
    intro txt hfp hhf
    subst hhf
    simp only [bind_apply]
    rw [bind_ok _ _ _ _ _ e1]
    simp (disch := omega) [proto_item_add_subtree, proto_item_append_text, proto_item_set_len,
      Dissect.bind, liftE, tvb_get_guint8_ok _ _ _ ht, tvb_get_guint8_ok _ _ _ hl,
      update_node_append, proto_tree_add_item_ok, item_node, e4]
  split_ifs with h1 h2
  · rw [key _ _ (by simp [utp_ext_payload_hf, h1])]
    simp [utp_truncated_ext_nodes, utp_ext_label, utp_ext_payload_hf, h1, item_node]
  · rw [key _ _ (by simp [utp_ext_payload_hf, h2])]
    simp [utp_truncated_ext_nodes, utp_ext_label, utp_ext_payload_hf, h2, item_node,
      EXT_EXTENSION_BITS, EXT_SELECTION_ACKS]
  · rw [key _ _ (by simp [utp_ext_payload_hf, h1, h2])]
    simp [utp_truncated_ext_nodes, utp_ext_label, utp_ext_payload_hf, h1, h2, item_node]

theorem dissect_utp_fixed_header_ok (tvb : tvbuff_t) (p : Nat) (s : epan_state) (is_v1 : Bool)
    (f : Nat × Nat → Dissect Nat)
    (hv : utp_is_v1 tvb = .ok is_v1) (hlen : utp_fixed_hdr_size is_v1 ≤ tvb_length tvb) :
    ((do
        let is_v1 ← liftE (utp_is_v1 tvb)
        let hdr ← if !is_v1 then dissect_utp_header_v0 tvb (some p)
          else dissect_utp_header_v1 tvb (some p)
        f hdr) : Dissect Nat) s =
      f (utp_hdr_ext_type is_v1 tvb, utp_fixed_hdr_size is_v1)
        { s with tree := s.tree ++ utp_hdr_nodes is_v1 p } := by
  have hex : ∃ e, tvb.data[utp_hdr_ext_offset is_v1]? = some e := by
    have : utp_hdr_ext_offset is_v1 < tvb.data.length := by
      unfold tvb_length at hlen
      cases is_v1 <;> simp [utp_hdr_ext_offset, utp_fixed_hdr_size] at * <;> omega
    exact ⟨_, List.getElem?_eq_getElem this⟩
  obtain ⟨e, he⟩ := hex
  have het : utp_hdr_ext_type is_v1 tvb = e % 256 := by simp [utp_hdr_ext_type, he]
  simp only [bind_apply]
  rw [bind_ok _ _ s s is_v1 (by simp [liftE, hv])]
  cases is_v1 with
  | true =>
    simp only [utp_fixed_hdr_size, utp_hdr_ext_offset, if_true] at hlen he
    simp only [Bool.not_true, Bool.false_eq_true, if_false]
    rw [bind_apply, bind_ok _ _ _ _ _ (dissect_utp_header_v1_ok tvb p e s he hlen)]
    simp [utp_hdr_nodes, het, utp_fixed_hdr_size]
  | false =>
    simp only [utp_fixed_hdr_size, utp_hdr_ext_offset, Bool.false_eq_true, if_false] at hlen he
    simp only [Bool.not_false, if_true]
    rw [bind_apply, bind_ok _ _ _ _ _ (dissect_utp_header_v0_ok tvb p e s he hlen)]
    simp [utp_hdr_nodes, het, utp_fixed_hdr_size]

theorem utp_hdr_nodes_length (is_v1 : Bool) (p : Nat) : (utp_hdr_nodes is_v1 p).length = 9 := by
  cases is_v1 <;> rfl

theorem dissect_utp_header_truncated (tvb : tvbuff_t) (p : Nat) (s : epan_state) (is_v1 : Bool)
    (t l : Nat)
    (hv : utp_is_v1 tvb = .ok is_v1)
    (ht : tvb.data[utp_fixed_hdr_size is_v1]? = some t)
    (hl : tvb.data[utp_fixed_hdr_size is_v1 + 1]? = some l)
    (htr : tvb_length tvb < utp_fixed_hdr_size is_v1 + 2 + l % 256)
    (hrep : tvb_length tvb ≤ tvb_reported_length tvb) :
    dissect_utp_header tvb (some p) s =
      (.error .OutOfBounds,
        { s with tree := s.tree ++ (utp_hdr_nodes is_v1 p ++
            utp_truncated_ext_nodes p (s.tree.length + 9) (utp_hdr_ext_type is_v1 tvb)
              (utp_fixed_hdr_size is_v1) (l % 256)
              ((tvb_length tvb : Int) - utp_fixed_hdr_size is_v1)) }) := by
  have hlt := tvb_get_guint8_lt tvb _ l hl
  unfold dissect_utp_header
  rw [dissect_utp_fixed_header_ok tvb p s is_v1 _ hv (by omega)]
  obtain ⟨fuel, hfuel⟩ : ∃ fuel, tvb_reported_length tvb = fuel + 1 :=
    ⟨tvb_reported_length tvb - 1, by omega⟩
  rw [hfuel]
  unfold dissect_utp_extensions
  simp only []
  rw [if_pos (by omega), bind_apply]
  rw [bind_error _ _ _ _ _ (dissect_utp_extension_truncated tvb p _ _ t l _ ht hl htr)]
  simp [utp_hdr_nodes_length]

/-! ## Claims -/

/-- C1. Extension loop, well-formed case: on a fully captured buffer
(captured length = reported length) made of the fixed header of the layout
`utp_is_v1` selects (`H` = 20 bytes for V1, 23 for V0) followed by records
`r_1..r_n` whose payloads have their declared lengths, `dissect_utp_header`
returns `H + L` with `L` the sum of the record sizes `2 + len_i`, this is the
reported length, and the extension nodes it emits are exactly `n`, the i-th of
length `2 + len_i`. -/
theorem utp_wellformed_chain_lengths (tvb : tvbuff_t) (p : Nat) (s : epan_state) (is_v1 : Bool)
    (hdr : List Nat) (recs : List utp_ext_record)
    (hv : utp_is_v1 tvb = .ok is_v1)
    (hd : tvb.data = hdr ++ utp_ext_chain_bytes recs)
    (hh : hdr.length = utp_fixed_hdr_size is_v1)
    (hr : tvb.reported_length = tvb.data.length)
    (hwf : ∀ r ∈ recs, r.wf) :
    (dissect_utp_header tvb (some p) s).1 =
        .ok (utp_fixed_hdr_size is_v1 + (recs.map utp_ext_record.size).sum) ∧
      utp_fixed_hdr_size is_v1 + (recs.map utp_ext_record.size).sum = tvb_reported_length tvb ∧
      tvb_length tvb = tvb_reported_length tvb ∧
      (extension_nodes ((dissect_utp_header tvb (some p) s).2.tree.drop s.tree.length)).map
          (fun n => n.length) = recs.map (fun r => (r.size : Int)) ∧
      (extension_nodes ((dissect_utp_header tvb (some p) s).2.tree.drop s.tree.length)).length =
          recs.length := by
  have hsum : utp_fixed_hdr_size is_v1 + (recs.map utp_ext_record.size).sum =
      tvb_reported_length tvb := by
    simp [tvb_reported_length, hr, hd, hh, utp_ext_chain_bytes_length_wf recs hwf]
  have hnodes := dissect_utp_header_wf_ext_nodes tvb p s is_v1 hdr recs hv hd hh hr hwf
  refine ⟨?_, hsum, ?_, hnodes, ?_⟩
  · rw [dissect_utp_header_wf tvb p s is_v1 hdr recs hv hd hh hr hwf, hsum]
  · simp [tvb_length, tvb_reported_length, hr]
  · have := congrArg List.length hnodes
    simpa using this

/-- C1 at a concrete input: the 36-byte V1 packet with two records of
declared lengths 4 and 8. -/
theorem utp_wellformed_chain_lengths_witness :
    (dissect_utp_header utp_two_ext_tvb (some 0) epan_state.init).1 =
        .ok (utp_fixed_hdr_size true + (utp_two_records.map utp_ext_record.size).sum) ∧
      utp_fixed_hdr_size true + (utp_two_records.map utp_ext_record.size).sum =
        tvb_reported_length utp_two_ext_tvb ∧
      tvb_length utp_two_ext_tvb = tvb_reported_length utp_two_ext_tvb ∧
      (extension_nodes ((dissect_utp_header utp_two_ext_tvb (some 0) epan_state.init).2.tree.drop
          epan_state.init.tree.length)).map (fun n => n.length) =
        utp_two_records.map (fun r => (r.size : Int)) ∧
      (extension_nodes ((dissect_utp_header utp_two_ext_tvb (some 0) epan_state.init).2.tree.drop
          epan_state.init.tree.length)).length = utp_two_records.length :=
  utp_wellformed_chain_lengths utp_two_ext_tvb 0 epan_state.init true (utp_v1_hdr_bytes 1)
    utp_two_records rfl rfl rfl rfl
    (by intro r hr; simp [utp_two_records] at hr; rcases hr with rfl | rfl <;> rfl)

/-- C3. The extension loop terminates on every buffer.  One pass of the loop
body either stops on a bounds error or returns an offset advanced by at least
2; so from any offset the loop never needs more than
`ceil((reported_length - offset) / 2)` passes: with that much fuel it does
not run out, any further fuel leaves the outcome unchanged, and
`dissect_utp_header` as a whole never runs out of fuel. -/
theorem utp_extension_loop_bound (tvb : tvbuff_t) (tree : Option Nat) (et offset : Nat)
    (s : epan_state) (extra : Nat) :
    safe (dissect_utp_extension tvb tree et offset) (fun r => offset + 2 ≤ r.2) ∧
      (dissect_utp_extensions tvb tree ((tvb_reported_length tvb - offset + 1) / 2)
          et offset s).1 ≠ .error .OutOfFuel ∧
      dissect_utp_extensions tvb tree ((tvb_reported_length tvb - offset + 1) / 2 + extra)
          et offset s =
        dissect_utp_extensions tvb tree ((tvb_reported_length tvb - offset + 1) / 2)
          et offset s ∧
      (dissect_utp_header tvb tree s).1 ≠ .error .OutOfFuel := by
  have h := dissect_utp_extensions_fuel tvb tree ((tvb_reported_length tvb - offset + 1) / 2)
    et offset s extra (Nat.le_refl _)
  exact ⟨dissect_utp_extension_safe tvb tree et offset, h.2, h.1,
    dissect_utp_header_ne_fuel tvb tree s⟩

/-- C4 fails for short buffers: on the empty buffer `utp_is_v1` stops with a
bounds error instead of returning a layout. -/
theorem utp_is_v1_short_buffer_raises :
    utp_is_v1 ⟨[], 0⟩ = .error .OutOfBounds ∧ utp_is_v1 ⟨[0x01], 1⟩ = .error .OutOfBounds ∧
      ¬ (∀ tvb : tvbuff_t, ∃ b, utp_is_v1 tvb = .ok b) := by
  refine ⟨rfl, rfl, ?_⟩
  intro h
  obtain ⟨b, hb⟩ := h ⟨[], 0⟩
  cases hb

/-- C4 (amended). `utp_is_v1` returns one of the two layouts for every buffer
with at least 2 captured bytes; with fewer than 2 captured bytes it stops with
the recoverable bounds error. -/
theorem utp_is_v1_total_from_two_bytes (tvb : tvbuff_t) :
    if 2 ≤ tvb_length tvb then (utp_is_v1 tvb = .ok true ∨ utp_is_v1 tvb = .ok false)
    else utp_is_v1 tvb = .error .OutOfBounds := by
  obtain ⟨data, rl⟩ := tvb
  match data with
  | [] => simp [tvb_length]; rfl
  | [b] => simp [tvb_length]; rfl
  | b0 :: b1 :: rest =>
    simp only [tvb_length, List.length_cons]
    rw [if_pos (by omega)]
    simp only [utp_is_v1, tvb_get_guint8, List.getElem?_cons_zero, List.getElem?_cons_succ,
      bind, Except.bind, pure, Except.pure]
    split_ifs <;> simp

/-- C5. Heuristic determinism: `utp_is_v1` is a function of the buffer alone
(no decoder state is an argument), and it depends only on the first two bytes
and the reported length: buffers that agree on those get the same answer. -/
theorem utp_is_v1_deterministic (tvb1 tvb2 : tvbuff_t)
    (h0 : tvb1.data[0]? = tvb2.data[0]?) (h1 : tvb1.data[1]? = tvb2.data[1]?)
    (hr : tvb1.reported_length = tvb2.reported_length) :
    utp_is_v1 tvb1 = utp_is_v1 tvb2 := by
  simp only [utp_is_v1, tvb_get_guint8, tvb_reported_length, h0, h1, hr]

/-- C5 at a concrete input: two buffers with the same first two bytes and
reported length but different later bytes and captured lengths. -/
theorem utp_is_v1_deterministic_witness :
    utp_is_v1 utp_same_start_a = utp_is_v1 utp_same_start_b :=
  utp_is_v1_deterministic utp_same_start_a utp_same_start_b rfl rfl rfl

/-- C2 fails as stated: at the witness (V1 header announcing a selective-ack
extension of declared length 4, two payload bytes captured) the decoder stops
with the bounds condition, the one extension node is left unmarked, and the
node carrying the truncation mark is the bitmask field below it. -/
theorem utp_truncated_extension_node_unmarked :
    (dissect_utp_header utp_truncated_tvb (some 0) epan_state.init).1 = .error .OutOfBounds ∧
      (extension_nodes (dissect_utp_header utp_truncated_tvb (some 0) epan_state.init).2.tree).map
          (fun n => (n.start, n.length, n.truncated)) = [(20, 4, false)] ∧
      ((dissect_utp_header utp_truncated_tvb (some 0) epan_state.init).2.tree.filter
          (fun n => n.truncated)).map (fun n => (n.hfindex, n.start, n.length)) =
        [(hf_id.hf_bt_utp_extension_bitmask, 22, 4)] := by
  rw [dissect_utp_header_truncated utp_truncated_tvb 0 epan_state.init true 0 4 rfl rfl rfl
    (by decide) (by decide)]
  have h1 : utp_hdr_ext_type true utp_truncated_tvb = 1 := rfl
  have h2 : ((tvb_length utp_truncated_tvb : Int) - utp_fixed_hdr_size true) = 4 := by decide
  rw [h1, h2]
  refine ⟨rfl, ?_, ?_⟩ <;>
    simp [extension_nodes, utp_hdr_nodes, utp_v1_hdr_nodes, item_node, utp_truncated_ext_nodes,
      utp_ext_payload_hf, EXT_SELECTION_ACKS, epan_state.init, utp_fixed_hdr_size]

/-- C2 (amended). For a buffer made of a fixed header plus one extension
record whose two leading bytes are captured and whose declared length runs
past the captured bytes, `dissect_utp_header` stops the extension loop in its
first pass with the recoverable out-of-bounds condition and keeps the tree
decoded so far: the fixed-header fields, fully decoded, then the one
extension node, left incomplete (its length stays the provisional captured
remainder), with its next-type and length fields and with its payload field
recorded as truncated. -/
theorem utp_truncated_extension (tvb : tvbuff_t) (p : Nat) (s : epan_state) (is_v1 : Bool)
    (t l : Nat)
    (hv : utp_is_v1 tvb = .ok is_v1)
    (ht : tvb.data[utp_fixed_hdr_size is_v1]? = some t)
    (hl : tvb.data[utp_fixed_hdr_size is_v1 + 1]? = some l)
    (htr : tvb_length tvb < utp_fixed_hdr_size is_v1 + 2 + l % 256)
    (hrep : tvb_length tvb ≤ tvb_reported_length tvb) :
    dissect_utp_header tvb (some p) s =
      (.error .OutOfBounds,
        { s with tree := s.tree ++ (utp_hdr_nodes is_v1 p ++
            utp_truncated_ext_nodes p (s.tree.length + 9) (utp_hdr_ext_type is_v1 tvb)
              (utp_fixed_hdr_size is_v1) (l % 256)
              ((tvb_length tvb : Int) - utp_fixed_hdr_size is_v1)) }) :=
  dissect_utp_header_truncated tvb p s is_v1 t l hv ht hl htr hrep

/-- C2 (amended) at the witness of the claim: V1 header, extension type 1,
declared length 4, two payload bytes captured. -/
theorem utp_truncated_extension_witness :
    dissect_utp_header utp_truncated_tvb (some 0) epan_state.init =
      (.error .OutOfBounds,
        { epan_state.init with tree := epan_state.init.tree ++ (utp_hdr_nodes true 0 ++
            utp_truncated_ext_nodes 0 (epan_state.init.tree.length + 9)
              (utp_hdr_ext_type true utp_truncated_tvb) (utp_fixed_hdr_size true) (4 % 256)
              ((tvb_length utp_truncated_tvb : Int) - utp_fixed_hdr_size true)) }) :=
  utp_truncated_extension utp_truncated_tvb 0 epan_state.init true 0 4 rfl rfl rfl
    (by decide) (by decide)

/-- C7. The carried type selects the interpretation, and unknown types are
decoded generically.  In any buffer, a record whose 2 + declared-length bytes
are captured is decoded by one pass of the loop body for every carried type
`et`: the pass is never refused, consumes exactly 2 + length bytes, hands the
record's own next-type byte to the following pass, and emits the extension
node with its next-type, length and payload fields, the payload field being
the bitmask for types 1 and 2 and the opaque "Extension Unknown" field for
every other type.  On a fully captured well-formed chain the whole tree is the
fixed header followed by the records decoded that way, the k-th with the type
carried from record k-1 (from the fixed header for the first). -/
theorem utp_carried_type_selects_decoding (tvb : tvbuff_t) (p : Nat) (s : epan_state)
    (is_v1 : Bool) (hdr : List Nat) (recs : List utp_ext_record)
    (hv : utp_is_v1 tvb = .ok is_v1)
    (hd : tvb.data = hdr ++ utp_ext_chain_bytes recs)
    (hh : hdr.length = utp_fixed_hdr_size is_v1)
    (hr : tvb.reported_length = tvb.data.length)
    (hwf : ∀ r ∈ recs, r.wf) :
    dissect_utp_header tvb (some p) s =
        (.ok (tvb_reported_length tvb),
          { s with tree := s.tree ++ (utp_hdr_nodes is_v1 p ++
              utp_ext_chain_nodes p (s.tree.length + 9) (utp_hdr_ext_type is_v1 tvb)
                (utp_fixed_hdr_size is_v1) recs) }) ∧
      (∀ (et offset t l : Nat) (s1 : epan_state),
        tvb.data[offset]? = some t → tvb.data[offset + 1]? = some l →
        offset + 2 + l % 256 ≤ tvb_length tvb →
        dissect_utp_extension tvb (some p) et offset s1 =
          (.ok (t % 256, offset + 2 + l % 256),
            { s1 with tree := s1.tree ++ utp_ext_nodes p s1.tree.length et offset (l % 256) })) ∧
      (∀ (base et offset len : Nat), et ≠ 1 → et ≠ 2 →
        utp_ext_nodes p base et offset len =
          [⟨p, .hf_bt_utp_extension, offset, 2 + (len : Int), .from_tvb,
              " Unknown, Len=" ++ toString len, some .ett_bt_utp_extension, false, false⟩,
           item_node base .hf_bt_utp_next_extension_type offset 1,
           item_node base .hf_bt_utp_extension_len (offset + 1) 1,
           item_node base .hf_bt_utp_extension_unknown (offset + 2) len]) := by
  refine ⟨dissect_utp_header_wf tvb p s is_v1 hdr recs hv hd hh hr hwf, ?_, ?_⟩
  · intro et offset t l s1 ht hl hb
    exact dissect_utp_extension_ok tvb p et offset t l s1 ht hl hb
  · intro base et offset len h1 h2
    simp [utp_ext_nodes, utp_ext_label, utp_ext_payload_hf, EXT_SELECTION_ACKS,
      EXT_EXTENSION_BITS, h1, h2, item_node]

/-- C7 at a concrete input: the 36-byte V1 packet whose second record is read
with the carried type 9, an undefined type. -/
theorem utp_carried_type_selects_decoding_witness :
    dissect_utp_header utp_two_ext_tvb (some 0) epan_state.init =
        (.ok (tvb_reported_length utp_two_ext_tvb),
          { epan_state.init with tree := epan_state.init.tree ++ (utp_hdr_nodes true 0 ++
              utp_ext_chain_nodes 0 (epan_state.init.tree.length + 9)
                (utp_hdr_ext_type true utp_two_ext_tvb) (utp_fixed_hdr_size true)
                utp_two_records) }) ∧
      (∀ (et offset t l : Nat) (s1 : epan_state),
        utp_two_ext_tvb.data[offset]? = some t → utp_two_ext_tvb.data[offset + 1]? = some l →
        offset + 2 + l % 256 ≤ tvb_length utp_two_ext_tvb →
        dissect_utp_extension utp_two_ext_tvb (some 0) et offset s1 =
          (.ok (t % 256, offset + 2 + l % 256),
            { s1 with tree := s1.tree ++ utp_ext_nodes 0 s1.tree.length et offset (l % 256) })) ∧
      (∀ (base et offset len : Nat), et ≠ 1 → et ≠ 2 →
        utp_ext_nodes 0 base et offset len =
          [⟨0, .hf_bt_utp_extension, offset, 2 + (len : Int), .from_tvb,
              " Unknown, Len=" ++ toString len, some .ett_bt_utp_extension, false, false⟩,
           item_node base .hf_bt_utp_next_extension_type offset 1,
           item_node base .hf_bt_utp_extension_len (offset + 1) 1,
           item_node base .hf_bt_utp_extension_unknown (offset + 2) len]) :=
  utp_carried_type_selects_decoding utp_two_ext_tvb 0 epan_state.init true (utp_v1_hdr_bytes 1)
    utp_two_records rfl rfl rfl rfl
    (by intro r hr; simp [utp_two_records] at hr; rcases hr with rfl | rfl <;> rfl)

/-- C8. For every fully captured 20-byte buffer whose byte 0 has version
nibble 1 and type nibble 0 and whose extension byte is 0, with a tree
requested, `dissect_bt_utp` selects the V1 layout, returns 20, and adds
exactly the protocol node followed by the nine V1 fixed-header fields below
it; no extension node is added. -/
theorem utp_plain_v1_packet (b0 e : Nat) (rest : List Nat) (p : Nat) (s : epan_state)
    (hver : b0 % 256 &&& 0x0f = 1) (htype : (b0 % 256) >>> 4 = 0) (hext : e % 256 = 0)
    (hlen : rest.length = 18) :
    utp_is_v1 ⟨b0 :: e :: rest, 20⟩ = .ok true ∧
      (dissect_bt_utp ⟨b0 :: e :: rest, 20⟩ (some p) s).1 = .ok 20 ∧
      (dissect_bt_utp ⟨b0 :: e :: rest, 20⟩ (some p) s).2.tree =
        s.tree ++ (⟨p, .proto_bt_utp, 0, 20, .from_tvb, "", some .ett_bt_utp, false, false⟩ ::
          utp_v1_hdr_nodes s.tree.length) ∧
      extension_nodes ((dissect_bt_utp ⟨b0 :: e :: rest, 20⟩ (some p) s).2.tree.drop
        s.tree.length) = [] := by
  have hv : utp_is_v1 ⟨b0 :: e :: rest, 20⟩ = .ok true := by
    simp [utp_is_v1, tvb_get_guint8, hver, htype, hext, ST_NUM_STATES, EXT_NUM_EXT,
      tvb_reported_length, V1_FIXED_HDR_SIZE, bind, Except.bind, pure, Except.pure]
  have hcap : tvb_length ⟨b0 :: e :: rest, 20⟩ = 20 := by simp [tvb_length, hlen]
  have hrun : dissect_bt_utp ⟨b0 :: e :: rest, 20⟩ (some p) s =
      (.ok 20, { s with
        cinfo := (s.cinfo.map (fun c => { c with protocol := "BT-uTP" })).map
          (fun c => { c with info := "uTorrent Transport Protocol" }),
        tree := s.tree ++ (⟨p, .proto_bt_utp, 0, 20, .from_tvb, "", some .ett_bt_utp, false, false⟩ ::
          utp_v1_hdr_nodes s.tree.length) }) := by
    unfold dissect_bt_utp
    simp only [bind_apply, Dissect.bind, col_set_protocol, col_set_info]
    rw [proto_tree_add_item_rest _ _ _ _ _ (by simp [hcap])]
    simp only [proto_item_add_subtree, update_node_append]
    rw [dissect_utp_header_wf ⟨b0 :: e :: rest, 20⟩ s.tree.length _ true (b0 :: e :: rest) [] hv
      (by simp [utp_ext_chain_bytes]) (by simp [utp_fixed_hdr_size, hlen]) (by simp [hlen])
      (by simp)]
    simp [utp_ext_chain_nodes, utp_hdr_nodes, tvb_reported_length, item_node, hcap]
  rw [hrun]
  refine ⟨hv, rfl, rfl, ?_⟩
  simp [extension_nodes, utp_v1_hdr_nodes, item_node]

/-- C8 at a concrete input: a 20-byte V1 Data packet. -/
theorem utp_plain_v1_packet_witness :
    utp_is_v1 ⟨0x01 :: 0 :: (utp_v1_hdr_bytes 0).drop 2, 20⟩ = .ok true ∧
      (dissect_bt_utp ⟨0x01 :: 0 :: (utp_v1_hdr_bytes 0).drop 2, 20⟩ (some 0)
        epan_state.init).1 = .ok 20 ∧
      (dissect_bt_utp ⟨0x01 :: 0 :: (utp_v1_hdr_bytes 0).drop 2, 20⟩ (some 0)
          epan_state.init).2.tree =
        epan_state.init.tree ++
          (⟨0, .proto_bt_utp, 0, 20, .from_tvb, "", some .ett_bt_utp, false, false⟩ ::
            utp_v1_hdr_nodes epan_state.init.tree.length) ∧
      extension_nodes ((dissect_bt_utp ⟨0x01 :: 0 :: (utp_v1_hdr_bytes 0).drop 2, 20⟩ (some 0)
        epan_state.init).2.tree.drop epan_state.init.tree.length) = [] :=
  utp_plain_v1_packet 0x01 0 ((utp_v1_hdr_bytes 0).drop 2) 0 epan_state.init
    (by decide) (by decide) (by decide) (by decide)

/-! ## Conversation tracker lemmas -/

theorem find_index_append_none {α : Type} (f : α → Bool) (l : List α) (c : α) :
    ∀ i, find_index f l i = none → f c = true → find_index f (l ++ [c]) i = some (i + l.length) := by
  induction l with
  | nil => intro i _ hc; simp [find_index, hc]
  | cons x xs ih =>
    intro i h hc
    simp only [find_index] at h
    split_ifs at h with hx
    have h2 := ih (i + 1) h hc
    simp [find_index, hx, h2]; omega

theorem find_index_append_not {α : Type} (f : α → Bool) (l : List α) (c : α) :
    ∀ i, find_index f l i = none → f c = false → find_index f (l ++ [c]) i = none := by
  induction l with
  | nil => intro i _ hc; simp [find_index, hc]
  | cons x xs ih =>
    intro i h hc
    simp only [find_index] at h
    split_ifs at h with hx
    have h2 := ih (i + 1) h hc
    simp [find_index, hx, h2]

theorem update_conversation_append (f : conversation_t → conversation_t)
    (l : List conversation_t) (x : conversation_t) (r : List conversation_t) :
    update_conversation f l.length (l ++ x :: r) = l ++ f x :: r := by
  induction l with
  | nil => rfl
  | cons a l ih => simp [update_conversation, ih]

theorem ADDRESSES_EQUAL_refl (a : address) : ADDRESSES_EQUAL a a = true := by
  simp [ADDRESSES_EQUAL]

/-- The record `rtp_add_address` creates for a flow. -/
theorem rtp_add_address_creates (cfg : rtp_config) (pinfo : packet_info) (ip_addr : List Nat)
    (port other_port : Nat) (m : String) (f : Nat) (s : epan_state)
    (hv : pinfo.fd.visited = false)
    (hnew : find_conversation s.conversations (rtp_src_addr pinfo ip_addr)
      (rtp_src_addr pinfo ip_addr) PT_UDP port other_port (rtp_find_options other_port) = none) :
    rtp_add_address cfg pinfo ip_addr port other_port m f s =
      (.ok (), { s with conversations := s.conversations ++
        [⟨rtp_src_addr pinfo ip_addr, rtp_src_addr pinfo ip_addr, PT_UDP, port, other_port,
          NO_ADDR2 ||| (if other_port = 0 then NO_PORT2 else 0), [(.proto_rtp, ⟨rtp_copy_setup_method cfg m, f⟩)],
          some .proto_rtp⟩] }) := by
  unfold rtp_src_addr rtp_find_options at hnew
  unfold rtp_add_address
  simp only [hv, Bool.false_eq_true, if_false, hnew]
  simp [Dissect.bind, conversation_new, conversation_add_proto_data, conversation_set_dissector,
    update_conversation_append, rtp_src_addr]

/-- Once a flow is registered at the end of the table and was not found
before, the lookup of `rtp_add_address` finds that record. -/
theorem find_conversation_registered (table : List conversation_t) (a : address)
    (port other_port : Nat) (pd : List (hf_id × rtp_conversation_info)) (h : Option hf_id)
    (hnew : find_conversation table a a PT_UDP port other_port (rtp_find_options other_port) =
      none) :
    find_conversation (table ++ [⟨a, a, PT_UDP, port, other_port,
        NO_ADDR2 ||| (if other_port = 0 then NO_PORT2 else 0), pd, h⟩]) a a PT_UDP port other_port
        (rtp_find_options other_port) = some table.length := by
  by_cases h0 : other_port = 0
  · subst h0
    simp only [find_conversation, rtp_find_options, NO_ADDR_B, NO_PORT_B, NO_ADDR2, NO_PORT2,
      if_true] at hnew ⊢
    have e1 : (1 ||| 2 : Nat) = 3 := by decide
    have e2 : (3 &&& 3 : Nat) = 3 := by decide
    have e3 : (3 &&& 2 : Nat) = 2 := by decide
    have e4 : (3 &&& 1 : Nat) = 1 := by decide
    simp only [e1, e2, e3, e4] at hnew ⊢
    simp only [show ¬ (3 : Nat) = 0 by decide, show ¬ (2 : Nat) = 0 by decide,
      show ¬ (1 : Nat) = 0 by decide, if_false, Option.orElse] at hnew ⊢
    unfold conversation_lookup at hnew ⊢
    cases hl : find_index (conversation_matches 3 a port a 0 PT_UDP) table 0 with
    | some i => rw [hl] at hnew; simp at hnew
    | none =>
      have := find_index_append_none (conversation_matches 3 a port a 0 PT_UDP) table
        ⟨a, a, PT_UDP, port, 0, 3, pd, h⟩ 0 hl
        (by simp [conversation_matches, ADDRESSES_EQUAL_refl, NO_ADDR2])
      rw [this]; simp
  · simp only [find_conversation, rtp_find_options, NO_ADDR_B, NO_PORT_B, NO_ADDR2, NO_PORT2,
      h0, if_false] at hnew ⊢
    have e1 : (1 ||| 0 : Nat) = 1 := by decide
    have e2 : (1 &&& (1 ||| 2) : Nat) = 1 := by decide
    have e3 : (1 &&& 2 : Nat) = 0 := by decide
    have e4 : (1 &&& 1 : Nat) = 1 := by decide
    simp only [e1, e2, e3, e4] at hnew ⊢
    simp only [show ¬ (1 : Nat) = 0 by decide, if_false, if_true, Option.orElse] at hnew ⊢
    unfold conversation_lookup at hnew ⊢
    cases hl : find_index (conversation_matches 1 a port a other_port PT_UDP) table 0 with
    | some i => rw [hl] at hnew; simp at hnew
    | none =>
      have := find_index_append_none (conversation_matches 1 a port a other_port PT_UDP) table
        ⟨a, a, PT_UDP, port, other_port, 1, pd, h⟩ 0 hl
        (by simp [conversation_matches, ADDRESSES_EQUAL_refl, NO_ADDR2])
      rw [this]; simp

theorem getElem?_length_append {α : Type} (l : List α) (x : α) (r : List α) :
    (l ++ x :: r)[l.length]? = some x := by
  rw [List.getElem?_append_right (Nat.le_refl _)]
  simp

/-- Two registrations of the same flow, the flow not being registered before:
the table after both calls, in full. -/
theorem rtp_add_address_twice (cfg : rtp_config) (pinfo1 pinfo2 : packet_info)
    (ip_addr : List Nat) (port other_port : Nat) (m1 m2 : String) (f1 f2 : Nat) (s : epan_state)
    (hv1 : pinfo1.fd.visited = false) (hv2 : pinfo2.fd.visited = false)
    (ha : rtp_src_addr pinfo2 ip_addr = rtp_src_addr pinfo1 ip_addr)
    (hnew : find_conversation s.conversations (rtp_src_addr pinfo1 ip_addr)
      (rtp_src_addr pinfo1 ip_addr) PT_UDP port other_port (rtp_find_options other_port) = none)
    (hm : m2.length ≤ cfg.MAX_RTP_SETUP_METHOD_SIZE) :
    rtp_add_address cfg pinfo2 ip_addr port other_port m2 f2
        (rtp_add_address cfg pinfo1 ip_addr port other_port m1 f1 s).2 =
      (.ok (), { s with conversations := s.conversations ++
        [⟨rtp_src_addr pinfo1 ip_addr, rtp_src_addr pinfo1 ip_addr, PT_UDP, port, other_port,
          NO_ADDR2 ||| (if other_port = 0 then NO_PORT2 else 0), [(.proto_rtp, ⟨m2, f2⟩)],
          some .proto_rtp⟩] }) := by
  rw [rtp_add_address_creates cfg pinfo1 ip_addr port other_port m1 f1 s hv1 hnew]
  have hfind := find_conversation_registered s.conversations (rtp_src_addr pinfo1 ip_addr) port
    other_port [(.proto_rtp, ⟨rtp_copy_setup_method cfg m1, f1⟩)] (some .proto_rtp) hnew
  unfold rtp_src_addr at ha hfind
  unfold rtp_find_options at hfind
  unfold rtp_add_address
  simp only [hv2, Bool.false_eq_true, if_false]
  rw [ha]
  simp only [rtp_src_addr, hfind]
  simp [conversation_get_proto_data, getElem?_length_append, conversation_store_proto_data,
    update_conversation_append, hm]

/-- A second registration of a flow with a method longer than
`MAX_RTP_SETUP_METHOD_SIZE` characters: the update path copies it past the
end of the `method` array. -/
theorem rtp_add_address_twice_overrun (cfg : rtp_config) (pinfo1 pinfo2 : packet_info)
    (ip_addr : List Nat) (port other_port : Nat) (m1 m2 : String) (f1 f2 : Nat) (s : epan_state)
    (hv1 : pinfo1.fd.visited = false) (hv2 : pinfo2.fd.visited = false)
    (ha : rtp_src_addr pinfo2 ip_addr = rtp_src_addr pinfo1 ip_addr)
    (hnew : find_conversation s.conversations (rtp_src_addr pinfo1 ip_addr)
      (rtp_src_addr pinfo1 ip_addr) PT_UDP port other_port (rtp_find_options other_port) = none)
    (hm : cfg.MAX_RTP_SETUP_METHOD_SIZE < m2.length) :
    (rtp_add_address cfg pinfo2 ip_addr port other_port m2 f2
        (rtp_add_address cfg pinfo1 ip_addr port other_port m1 f1 s).2).1 =
      .error .BufferOverrun := by
  rw [rtp_add_address_creates cfg pinfo1 ip_addr port other_port m1 f1 s hv1 hnew]
  have hfind := find_conversation_registered s.conversations (rtp_src_addr pinfo1 ip_addr) port
    other_port [(.proto_rtp, ⟨rtp_copy_setup_method cfg m1, f1⟩)] (some .proto_rtp) hnew
  unfold rtp_src_addr at ha hfind
  unfold rtp_find_options at hfind
  unfold rtp_add_address
  simp only [hv2, Bool.false_eq_true, if_false]
  rw [ha]
  simp only [rtp_src_addr, hfind]
  simp [conversation_get_proto_data, getElem?_length_append, Nat.not_le.mpr hm]

/-- C10 fails as stated: frames 7 and 9 register the flow 10.1.1.1 port 4000
with the methods "SDP" and "Megaco/H.248"; with
`MAX_RTP_SETUP_METHOD_SIZE` = 7 the second method, 12 characters long, does
not fit the `method` array of the conversation: the second call does not
leave it there, it copies it past the end of the array. -/
theorem rtp_add_address_second_method_overruns :
    rtp_config.plain.MAX_RTP_SETUP_METHOD_SIZE = 7 ∧ "Megaco/H.248".length = 12 ∧
      (rtp_add_address rtp_config.plain (sip_pinfo 7) [10, 1, 1, 1] 4000 0 "SDP" 7
        epan_state.init).1 = .ok () ∧
      (rtp_add_address rtp_config.plain (sip_pinfo 9) [10, 1, 1, 1] 4000 0 "Megaco/H.248" 9
        (rtp_add_address rtp_config.plain (sip_pinfo 7) [10, 1, 1, 1] 4000 0 "SDP" 7
          epan_state.init).2).1 = .error .BufferOverrun := by
  refine ⟨rfl, by decide, ?_, ?_⟩
  · rw [rtp_add_address_creates rtp_config.plain (sip_pinfo 7) [10, 1, 1, 1] 4000 0 "SDP" 7
      epan_state.init rfl rfl]
  · exact rtp_add_address_twice_overrun rtp_config.plain (sip_pinfo 7) (sip_pinfo 9) [10, 1, 1, 1]
      4000 0 "SDP" "Megaco/H.248" 7 9 epan_state.init rfl rfl rfl rfl (by decide)

/-- C10, amended.  Registration is idempotent.  Two calls of
`rtp_add_address` on unvisited packets with the same address (the address the
function builds from the packet's network-source type and length and
`ip_addr`), port and `other_port`, the flow not being registered before the
first call and the second call's setup method having at most
`MAX_RTP_SETUP_METHOD_SIZE` characters, leave exactly one more conversation in
the table than there was; the lookup then resolves to that conversation, and
its RTP metadata holds the second call's setup method and setup frame
number. -/
theorem rtp_add_address_idempotent (cfg : rtp_config) (pinfo1 pinfo2 : packet_info)
    (ip_addr : List Nat) (port other_port : Nat) (m1 m2 : String) (f1 f2 : Nat) (s : epan_state)
    (hv1 : pinfo1.fd.visited = false) (hv2 : pinfo2.fd.visited = false)
    (ha : rtp_src_addr pinfo2 ip_addr = rtp_src_addr pinfo1 ip_addr)
    (hnew : find_conversation s.conversations (rtp_src_addr pinfo1 ip_addr)
      (rtp_src_addr pinfo1 ip_addr) PT_UDP port other_port (rtp_find_options other_port) = none)
    (hm : m2.length ≤ cfg.MAX_RTP_SETUP_METHOD_SIZE) :
    (rtp_add_address cfg pinfo1 ip_addr port other_port m1 f1 s).2.conversations.length =
        s.conversations.length + 1 ∧
      (rtp_add_address cfg pinfo2 ip_addr port other_port m2 f2
        (rtp_add_address cfg pinfo1 ip_addr port other_port m1 f1 s).2).1 = .ok () ∧
      (rtp_add_address cfg pinfo2 ip_addr port other_port m2 f2
        (rtp_add_address cfg pinfo1 ip_addr port other_port m1 f1 s).2).2.conversations.length =
        s.conversations.length + 1 ∧
      find_conversation (rtp_add_address cfg pinfo2 ip_addr port other_port m2 f2
          (rtp_add_address cfg pinfo1 ip_addr port other_port m1 f1 s).2).2.conversations
          (rtp_src_addr pinfo1 ip_addr) (rtp_src_addr pinfo1 ip_addr) PT_UDP port other_port
          (rtp_find_options other_port) = some s.conversations.length ∧
      conversation_get_proto_data (rtp_add_address cfg pinfo2 ip_addr port other_port m2 f2
          (rtp_add_address cfg pinfo1 ip_addr port other_port m1 f1 s).2).2.conversations
          s.conversations.length .proto_rtp = some ⟨m2, f2⟩ := by
  rw [rtp_add_address_twice cfg pinfo1 pinfo2 ip_addr port other_port m1 m2 f1 f2 s hv1 hv2 ha hnew
    hm]
  rw [rtp_add_address_creates cfg pinfo1 ip_addr port other_port m1 f1 s hv1 hnew]
  refine ⟨by simp, rfl, by simp, ?_, ?_⟩
  · exact find_conversation_registered s.conversations (rtp_src_addr pinfo1 ip_addr) port
      other_port _ _ hnew
  · simp [conversation_get_proto_data, getElem?_length_append]

/-- C10 (amended) at a concrete input: a fresh table, the flow 10.1.1.1 port
4000 registered by frames 7 and 9 with methods "SDP" and "H245". -/
theorem rtp_add_address_idempotent_witness :
    (rtp_add_address rtp_config.plain (sip_pinfo 7) [10, 1, 1, 1] 4000 0 "SDP" 7
        epan_state.init).2.conversations.length = epan_state.init.conversations.length + 1 ∧
      (rtp_add_address rtp_config.plain (sip_pinfo 9) [10, 1, 1, 1] 4000 0 "H245" 9
        (rtp_add_address rtp_config.plain (sip_pinfo 7) [10, 1, 1, 1] 4000 0 "SDP" 7
          epan_state.init).2).1 = .ok () ∧
      (rtp_add_address rtp_config.plain (sip_pinfo 9) [10, 1, 1, 1] 4000 0 "H245" 9
        (rtp_add_address rtp_config.plain (sip_pinfo 7) [10, 1, 1, 1] 4000 0 "SDP" 7
          epan_state.init).2).2.conversations.length =
        epan_state.init.conversations.length + 1 ∧
      find_conversation (rtp_add_address rtp_config.plain (sip_pinfo 9) [10, 1, 1, 1] 4000 0
          "H245" 9 (rtp_add_address rtp_config.plain (sip_pinfo 7) [10, 1, 1, 1] 4000 0 "SDP" 7
            epan_state.init).2).2.conversations
          (rtp_src_addr (sip_pinfo 7) [10, 1, 1, 1]) (rtp_src_addr (sip_pinfo 7) [10, 1, 1, 1])
          PT_UDP 4000 0 (rtp_find_options 0) = some epan_state.init.conversations.length ∧
      conversation_get_proto_data (rtp_add_address rtp_config.plain (sip_pinfo 9) [10, 1, 1, 1]
          4000 0 "H245" 9 (rtp_add_address rtp_config.plain (sip_pinfo 7) [10, 1, 1, 1] 4000 0
            "SDP" 7 epan_state.init).2).2.conversations
          epan_state.init.conversations.length .proto_rtp = some ⟨"H245", 9⟩ :=
  rtp_add_address_idempotent rtp_config.plain (sip_pinfo 7) (sip_pinfo 9) [10, 1, 1, 1] 4000 0
    "SDP" "H245" 7 9 epan_state.init rfl rfl rfl rfl (by decide)

/-! ## Engine lemmas for the RTP decoder -/

theorem proto_tree_add_ok (p : Nat) (hf : hf_id) (tvb : tvbuff_t) (start : Nat) (length : Int)
    (v : fvalue_t) (s : epan_state) (h0 : 0 ≤ length)
    (h : (start : Int) + length ≤ tvb_length tvb) :
    proto_tree_add (some p) hf tvb start length v s =
      (.ok (some s.tree.length), { s with tree := s.tree ++ [value_node p hf start length v] }) := by
  have h1 : ¬ (length = -1) := by omega
  simp [proto_tree_add, h1, h0, h, add_node, value_node]

theorem proto_tree_add_overrun (p : Nat) (hf : hf_id) (tvb : tvbuff_t) (start : Nat)
    (length : Int) (v : fvalue_t) (s : epan_state) (h0 : 0 ≤ length)
    (h : (tvb_length tvb : Int) < (start : Int) + length) :
    proto_tree_add (some p) hf tvb start length v s =
      (.error .OutOfBounds,
        { s with tree := s.tree ++ [⟨p, hf, start, length, v, "", none, true, false⟩] }) := by
  have h1 : ¬ (length = -1) := by omega
  have h2 : ¬ (0 ≤ length ∧ (start : Int) + length ≤ tvb_length tvb) := by omega
  simp [proto_tree_add, h1, h2, add_truncated_node]

/-- A grouping node is recorded whatever its range; it is flagged as
truncated when the range runs past the captured bytes. -/
theorem proto_tree_add_text_any (p : Nat) (tvb : tvbuff_t) (start : Nat) (length : Int)
    (txt : String) (s : epan_state) (h0 : 0 ≤ length) :
    proto_tree_add_text (some p) tvb start length txt s =
      (.ok (some s.tree.length),
        { s with tree := s.tree ++ [text_node p start length txt none
          (decide ((tvb_length tvb : Int) < (start : Int) + length))] }) := by
  have h1 : ¬ (length = -1 ∧ start ≤ tvb_length tvb) := by omega
  have h2 : ¬ length < 0 := by omega
  simp [proto_tree_add_text, h1, h2, add_node, text_node]

theorem proto_tree_add_text_ok (p : Nat) (tvb : tvbuff_t) (start : Nat) (length : Int)
    (txt : String) (s : epan_state) (h0 : 0 ≤ length)
    (h : (start : Int) + length ≤ tvb_length tvb) :
    proto_tree_add_text (some p) tvb start length txt s =
      (.ok (some s.tree.length),
        { s with tree := s.tree ++ [text_node p start length txt none false] }) := by
  rw [proto_tree_add_text_any p tvb start length txt s h0]
  have : ¬ ((tvb_length tvb : Int) < (start : Int) + length) := by omega
  simp [this]

theorem tvb_get_ntohs_ok (tvb : tvbuff_t) (offset : Nat) (h : offset + 2 ≤ tvb_length tvb) :
    tvb_get_ntohs tvb offset = .ok (ntohs_at tvb offset) := by
  unfold tvb_length at h
  have h0 : offset < tvb.data.length := by omega
  have h1 : offset + 1 < tvb.data.length := by omega
  simp [ntohs_at, tvb_get_ntohs, List.getElem?_eq_getElem h0, List.getElem?_eq_getElem h1]

theorem tvb_get_ntohl_ok (tvb : tvbuff_t) (offset : Nat) (h : offset + 4 ≤ tvb_length tvb) :
    tvb_get_ntohl tvb offset = .ok (ntohl_at tvb offset) := by
  unfold tvb_length at h
  have h0 : offset < tvb.data.length := by omega
  have h1 : offset + 1 < tvb.data.length := by omega
  have h2 : offset + 2 < tvb.data.length := by omega
  have h3 : offset + 3 < tvb.data.length := by omega
  simp [ntohl_at, tvb_get_ntohl, List.getElem?_eq_getElem h0, List.getElem?_eq_getElem h1,
    List.getElem?_eq_getElem h2, List.getElem?_eq_getElem h3]

theorem set_rtp_info_apply (f : rtp_info_t → rtp_info_t) (s : epan_state) :
    set_rtp_info f s = (.ok (), { s with rtp_info := f s.rtp_info }) := rfl

/-! ## RTP: the padding branch -/

/-- The padding branch clips a padding count that exceeds the remaining
bytes: no payload is shown, the padding data covers all remaining bytes but
the last, and the padding count is the last byte. -/
theorem dissect_rtp_padding_clip (cfg : rtp_config) (tvb : tvbuff_t) (pinfo : packet_info)
    (p r pt o b : Nat) (s : epan_state)
    (hfull : tvb.reported_length = tvb.data.length)
    (hlen : tvb.data.length < 4294967296)
    (ho : o < tvb.data.length)
    (hb : tvb.data[tvb.data.length - 1]? = some b)
    (hpc : tvb.data.length - o < b % 256) :
    dissect_rtp_padding cfg tvb pinfo (some p) (some r) pt o s =
      (.ok (), { s with
        rtp_info := { s.rtp_info with
          info_payload_offset := o,
          info_payload_len := to_size_t cfg ((tvb.data.length : Int) - o),
          info_padding_count := b % 256 },
        tree := s.tree ++ rtp_padding_nodes r o (tvb.data.length - o) }) := by
  show _ = (Except.ok (), rtp_padding_clip_state cfg tvb r o b s)
  unfold rtp_padding_clip_state
  have hidx : (tvb_reported_length tvb + 4294967296 - 1) % 4294967296 = tvb.data.length - 1 := by
    simp only [tvb_reported_length, hfull]; omega
  have hrem : tvb_reported_length_remaining tvb o = (tvb.data.length : Int) - o := by
    simp only [tvb_reported_length_remaining, tvb_reported_length, hfull]
    rw [if_pos (by omega)]
  have hrem2 : tvb_length_remaining tvb o = (tvb.data.length : Int) - o := by
    simp only [tvb_length_remaining, tvb_length]
    rw [if_pos (by omega)]
  have hg : to_guint ((tvb.data.length : Int) - o) = tvb.data.length - o := by
    unfold to_guint; omega
  have hneg : ¬ ((tvb.data.length : Int) - o - ((b % 256 : Nat) : Int) > 0) := by omega
  have hneg2 : (tvb.data.length : Int) - o - ((b % 256 : Nat) : Int) < 0 := by omega
  unfold dissect_rtp_padding
  simp only [bind_apply, hidx]
  rw [bind_ok _ _ s s (b % 256) (by simp [liftE, tvb_get_guint8_ok _ _ _ hb])]
  simp only [hrem, hrem2, Dissect.bind, set_rtp_info_apply, hneg, hneg2, if_false, if_true,
    pure_apply, hg, Option.isSome_some]
  by_cases hR : tvb.data.length - o > 1
  · simp only [hR, if_true, bind_apply, Dissect.bind, pure_apply, set_rtp_info_apply]
    have hmod : (o + (tvb.data.length - o - 1)) % 4294967296 = o + (tvb.data.length - o - 1) := by
      omega
    rw [proto_tree_add_item_ok _ _ _ _ _ _ (by omega) (by simp [tvb_length]; omega)]
    simp only [hmod]
    rw [proto_tree_add_item_ok _ _ _ _ _ _ (by omega) (by simp [tvb_length]; omega)]
    simp [rtp_padding_nodes, hR]
  · simp only [hR, if_false, bind_apply, Dissect.bind, pure_apply, set_rtp_info_apply]
    rw [proto_tree_add_item_ok _ _ _ _ _ _ (by omega) (by simp [tvb_length]; omega)]
    have : tvb.data.length - o - 1 = 0 := by omega
    simp [rtp_padding_nodes, hR, this]

/-! ## RTP: the header part -/

theorem dissect_rtp_fill_info_frame (tvb : tvbuff_t) (a b c d e f : Nat) (s : epan_state) :
    dissect_rtp_fill_info tvb a b c d e f s =
      (.ok (), { s with rtp_info := (dissect_rtp_fill_info tvb a b c d e f s).2.rtp_info }) := by
  unfold dissect_rtp_fill_info
  simp only [bind_apply, Dissect.bind, set_rtp_info_apply]
  split_ifs <;> rfl

theorem dissect_rtp_columns_frame (a b c d e : Nat) (s : epan_state) :
    dissect_rtp_columns a b c d e s =
      (.ok (), { s with cinfo := (dissect_rtp_columns a b c d e s).2.cinfo }) := by
  unfold dissect_rtp_columns
  simp only [bind_apply, Dissect.bind, col_set_protocol, col_set_info]
  split_ifs <;> rfl

theorem show_setup_info_lookup_frame (pinfo : packet_info) (s : epan_state) :
    (show_setup_info_lookup pinfo s).2 =
      { s with pfd := (show_setup_info_lookup pinfo s).2.pfd } := by
  unfold show_setup_info_lookup
  split
  · rfl
  · split
    · rfl
    · split <;> rfl

theorem update_node_append_add (f : proto_node → proto_node) (l r : List proto_node) (k : Nat) :
    update_node f (l.length + k) (l ++ r) = l ++ update_node f k r := by
  induction l with
  | nil => simp
  | cons a l ih =>
    have : (a :: l).length + k = (l.length + k) + 1 := by simp; omega
    rw [this]
    simp [update_node, ih]

theorem show_setup_info_display_ok (tvb : tvbuff_t) (r : Nat) (d : rtp_conversation_info)
    (s : epan_state) :
    show_setup_info_display tvb (some r) d s =
      (.ok (), { s with tree := s.tree ++ rtp_setup_nodes r s.tree.length d }) := by
  unfold show_setup_info_display proto_tree_add_string_format proto_tree_add_uint
    proto_tree_add_string
  simp (disch := omega) [Dissect.bind, proto_tree_add_ok, proto_item_append_text,
    PROTO_ITEM_SET_GENERATED, proto_item_add_subtree, update_node_append, value_node,
    rtp_setup_nodes, update_node_append_add, update_node]

theorem show_setup_info_ok (tvb : tvbuff_t) (pinfo : packet_info) (r : Nat) (s : epan_state) :
    show_setup_info tvb pinfo (some r) s =
      (.ok (), { s with
        pfd := (show_setup_info_lookup pinfo s).2.pfd,
        tree := s.tree ++ rtp_setup_nodes_opt r s.tree.length (show_setup_info_lookup pinfo s).1 }) := by
  unfold show_setup_info
  have hf := show_setup_info_lookup_frame pinfo s
  cases hl : (show_setup_info_lookup pinfo s).1 with
  | none =>
    simp only [rtp_setup_nodes_opt, List.append_nil]
    rw [hf]
  | some d =>
    simp only [rtp_setup_nodes_opt]
    rw [show_setup_info_display_ok, hf]

theorem rtp_after_setup_eq (cfg : rtp_config) (tvb : tvbuff_t) (pinfo : packet_info) (r : Nat)
    (s : epan_state) :
    ∃ l, rtp_after_setup cfg tvb pinfo r s =
        { s with pfd := (rtp_after_setup cfg tvb pinfo r s).pfd, tree := s.tree ++ l } ∧
      ∀ n ∈ l, n.length = 0 ∧ n.truncated = false ∧ n.generated = true ∧
        (n.hfindex = .hf_rtp_setup ∨ n.hfindex = .hf_rtp_setup_frame ∨
          n.hfindex = .hf_rtp_setup_method) := by
  unfold rtp_after_setup
  split_ifs
  · rw [show_setup_info_ok]
    refine ⟨_, rfl, ?_⟩
    intro n hn
    cases hl : (show_setup_info_lookup pinfo s).1 with
    | none => rw [hl] at hn; simp [rtp_setup_nodes_opt] at hn
    | some d =>
      rw [hl] at hn
      simp only [rtp_setup_nodes_opt, rtp_setup_nodes, List.mem_cons, List.mem_singleton,
        List.not_mem_nil, or_false] at hn
      rcases hn with rfl | rfl | rfl <;> simp
  · exact ⟨[], by simp, by simp⟩

theorem dissect_rtp_fixed_header_ok (cfg : rtp_config) (tvb : tvbuff_t) (pinfo : packet_info)
    (p o1 o2 seq ts ssrc : Nat) (s : epan_state) (h : 12 ≤ tvb_length tvb) :
    dissect_rtp_fixed_header cfg tvb pinfo (some p) o1 o2 seq ts ssrc s =
      (.ok (some s.tree.length, 12),
        { (rtp_after_setup cfg tvb pinfo s.tree.length
            { s with tree := s.tree ++
              [⟨p, .proto_rtp, 0, tvb_length tvb, .from_tvb, "", some .ett_rtp, false, false⟩] }) with
          tree := (rtp_after_setup cfg tvb pinfo s.tree.length
            { s with tree := s.tree ++
              [⟨p, .proto_rtp, 0, tvb_length tvb, .from_tvb, "", some .ett_rtp, false, false⟩] }).tree ++
            rtp_fixed_field_nodes s.tree.length o1 o2 seq ts ssrc }) := by
  unfold dissect_rtp_fixed_header
  simp only [Option.isSome_some, if_true, bind_apply]
  rw [bind_ok _ _ _ _ _ (proto_tree_add_item_rest p .proto_rtp tvb 0 s (by omega))]
  by_cases hc : cfg.global_rtp_show_setup_info = true
  · simp (disch := omega) [hc, rtp_after_setup, show_setup_info_ok, Dissect.bind,
      proto_item_add_subtree, update_node_append, item_node, proto_tree_add_uint,
      proto_tree_add_boolean, proto_tree_add_ok, rtp_fixed_field_nodes]
  · simp (disch := omega) [hc, rtp_after_setup, Dissect.bind,
      proto_item_add_subtree, update_node_append, item_node, proto_tree_add_uint,
      proto_tree_add_boolean, proto_tree_add_ok, rtp_fixed_field_nodes]

theorem dissect_rtp_csrc_items_ok (tvb : tvbuff_t) (p c : Nat) :
    ∀ (n i offset : Nat) (s : epan_state), offset + 4 * n ≤ tvb_length tvb →
      dissect_rtp_csrc_items tvb (some p) (some c) n i offset s =
        (.ok (offset + 4 * n),
          { s with tree := s.tree ++ rtp_csrc_item_nodes tvb c n i offset }) := by
  intro n
  induction n with
  | zero => intro i offset s _; simp [dissect_rtp_csrc_items, rtp_csrc_item_nodes]
  | succ n ih =>
    intro i offset s h
    unfold dissect_rtp_csrc_items
    have hr := tvb_get_ntohl_ok tvb offset (by omega)
    have hi := fun s1 => ih (i + 1) (offset + 4) s1 (by omega)
    simp (disch := omega) [Dissect.bind, liftE, hr, proto_tree_add_uint_format,
      proto_tree_add_ok, proto_item_append_text, update_node_append, hi, rtp_csrc_item_nodes,
      value_node]
    omega

theorem dissect_rtp_csrc_ok (tvb : tvbuff_t) (p r cc offset : Nat) (s : epan_state)
    (h : offset + 4 * cc ≤ tvb_length tvb) :
    dissect_rtp_csrc tvb (some p) (some r) cc offset s =
      (.ok (offset + 4 * cc),
        { s with tree := s.tree ++ rtp_csrc_nodes tvb r s.tree.length cc offset }) := by
  unfold dissect_rtp_csrc rtp_csrc_nodes
  by_cases hcc : cc > 0
  · have hi := fun s1 => dissect_rtp_csrc_items_ok tvb p s.tree.length cc 0 offset s1 h
    have ht := proto_tree_add_text_ok r tvb offset ((cc : Int) * 4)
      "Contributing Source identifiers" s (by omega) (by omega)
    simp [hcc, Dissect.bind, ht, proto_item_add_subtree, update_node_append, hi, text_node]
  · have : cc = 0 := by omega
    subst this
    simp

theorem dissect_rtp_hdr_ext_items_ok (tvb : tvbuff_t) (p c : Nat) :
    ∀ (n offset : Nat) (s : epan_state), offset + 4 * n ≤ tvb_length tvb →
      dissect_rtp_hdr_ext_items tvb (some p) (some c) n offset s =
        (.ok (offset + 4 * n),
          { s with tree := s.tree ++ rtp_hdr_ext_word_nodes tvb c n offset }) := by
  intro n
  induction n with
  | zero => intro offset s _; simp [dissect_rtp_hdr_ext_items, rtp_hdr_ext_word_nodes]
  | succ n ih =>
    intro offset s h
    unfold dissect_rtp_hdr_ext_items
    have hr := tvb_get_ntohl_ok tvb offset (by omega)
    have hi := fun s1 => ih (offset + 4) s1 (by omega)
    simp (disch := omega) [Dissect.bind, liftE, hr, proto_tree_add_uint,
      proto_tree_add_ok, hi, rtp_hdr_ext_word_nodes]
    omega

/-- No header extension: the offset is unchanged. -/
theorem dissect_rtp_hdr_extension_none (tvb : tvbuff_t) (tree rtp_tree : Option Nat)
    (cc offset : Nat) (s : epan_state) :
    dissect_rtp_hdr_extension tvb tree rtp_tree 0 cc offset s = (.ok offset, s) := by
  simp [dissect_rtp_hdr_extension]

/-- A header extension that decodes to completion. -/
theorem dissect_rtp_hdr_extension_ok (tvb : tvbuff_t) (p r x cc offset : Nat) (s : epan_state)
    (hx : x ≠ 0)
    (h : offset + 4 + 4 * ntohs_at tvb (offset + 2) ≤ tvb_length tvb) :
    dissect_rtp_hdr_extension tvb (some p) (some r) x cc offset s =
      (.ok (offset + 4 + 4 * ntohs_at tvb (offset + 2)),
        { s with tree := s.tree ++ rtp_hdr_ext_nodes tvb r s.tree.length cc offset }) := by
  unfold dissect_rtp_hdr_extension rtp_hdr_ext_nodes
  have h1 := tvb_get_ntohs_ok tvb offset (by omega)
  have h2 := tvb_get_ntohs_ok tvb (offset + 2) (by omega)
  by_cases hn : ntohs_at tvb (offset + 2) > 0
  · have hi := fun c s1 => dissect_rtp_hdr_ext_items_ok tvb p c (ntohs_at tvb (offset + 2))
      (offset + 2 + 2) s1 (by omega)
    have ht := fun s1 => proto_tree_add_text_any r tvb (offset + 2 + 2) ((cc : Int) * 4)
      "Header extensions" s1 (by omega)
    simp (disch := omega) [hx, hn, Dissect.bind, liftE, h1, h2, proto_tree_add_uint,
      proto_tree_add_ok, ht, proto_item_add_subtree, update_node_append, hi, text_node,
      update_node_append_add, update_node, Nat.add_assoc]
    omega
  · have h0 : ntohs_at tvb (offset + 2) = 0 := by omega
    simp (disch := omega) [hx, h0, Dissect.bind, liftE, h1, h2, proto_tree_add_uint,
      proto_tree_add_ok]

/-! ## RTP: the whole decoder with a tree -/

theorem dissect_rtp_eq_v2 (cfg : rtp_config) (tvb : tvbuff_t) (pinfo : packet_info)
    (tree : Option Nat) (b0 b1 : Nat) (s : epan_state)
    (h0 : tvb.data[0]? = some b0) (h1 : tvb.data[1]? = some b1)
    (hv : RTP_VERSION (b0 % 256) = 2) (h12 : 12 ≤ tvb_length tvb) :
    dissect_rtp cfg tvb pinfo tree s =
      dissect_rtp_v2 cfg tvb pinfo tree (b0 % 256) (b1 % 256) (ntohs_at tvb 2) (ntohl_at tvb 4)
        (ntohl_at tvb 8) s := by
  unfold dissect_rtp
  have r2 := tvb_get_ntohs_ok tvb 2 (by omega)
  have r4 := tvb_get_ntohl_ok tvb 4 (by omega)
  have r8 := tvb_get_ntohl_ok tvb 8 (by omega)
  simp [Dissect.bind, liftE, tvb_get_guint8_ok _ _ _ h0, tvb_get_guint8_ok _ _ _ h1, hv, r2, r4,
    r8]

theorem dissect_rtp_fill_info_ok (tvb : tvbuff_t) (a b c d e f : Nat) (s : epan_state) :
    dissect_rtp_fill_info tvb a b c d e f s =
      (.ok (), (dissect_rtp_fill_info tvb a b c d e f s).2) := by
  have h := dissect_rtp_fill_info_frame tvb a b c d e f s
  exact Prod.ext (by rw [h]) rfl

theorem dissect_rtp_columns_ok (a b c d e : Nat) (s : epan_state) :
    dissect_rtp_columns a b c d e s = (.ok (), (dissect_rtp_columns a b c d e s).2) := by
  have h := dissect_rtp_columns_frame a b c d e s
  exact Prod.ext (by rw [h]) rfl

theorem rtp_prologue_tree (tvb : tvbuff_t) (a b c d e f : Nat) (s : epan_state) :
    (dissect_rtp_columns c f d e b (dissect_rtp_fill_info tvb a b c d e f s).2).2.tree = s.tree ∧
      (dissect_rtp_columns c f d e b (dissect_rtp_fill_info tvb a b c d e f s).2).2.tap_queue =
        s.tap_queue := by
  rw [dissect_rtp_columns_frame, dissect_rtp_fill_info_frame]
  exact ⟨rfl, rfl⟩

theorem dissect_rtp_v2_header (cfg : rtp_config) (tvb : tvbuff_t) (pinfo : packet_info)
    (p o1 o2 : Nat) (s : epan_state) (h : 12 + 4 * RTP_CSRC_COUNT o1 ≤ tvb_length tvb) :
    dissect_rtp_v2 cfg tvb pinfo (some p) o1 o2 (ntohs_at tvb 2) (ntohl_at tvb 4)
        (ntohl_at tvb 8) s =
      Dissect.bind
        (dissect_rtp_hdr_extension tvb (some p) (some s.tree.length) (RTP_EXTENSION o1)
          (RTP_CSRC_COUNT o1) (12 + 4 * RTP_CSRC_COUNT o1))
        (fun offset => dissect_rtp_payload cfg tvb pinfo (some p) (some s.tree.length)
          (RTP_PADDING o1) (RTP_PAYLOAD_TYPE o2) offset)
        (rtp_csrc_state cfg tvb pinfo p o1 o2 s) := by
  have ht := (rtp_prologue_tree tvb (RTP_PADDING o1) (RTP_MARKER o2) (RTP_PAYLOAD_TYPE o2)
    (ntohs_at tvb 2) (ntohl_at tvb 4) (ntohl_at tvb 8) s).1
  unfold dissect_rtp_v2
  simp only []
  rw [bind_apply, bind_ok _ _ _ _ _ (dissect_rtp_fill_info_ok tvb _ _ _ _ _ _ s)]
  rw [bind_apply, bind_ok _ _ _ _ _ (dissect_rtp_columns_ok _ _ _ _ _ _)]
  rw [bind_apply,
    bind_ok _ _ _ _ _ (dissect_rtp_fixed_header_ok cfg tvb pinfo p _ _ _ _ _ _ (by omega))]
  simp only []
  rw [bind_apply, bind_ok _ _ _ _ _ (dissect_rtp_csrc_ok tvb p _ _ 12 _ (by omega))]
  rw [bind_apply]
  simp only [rtp_csrc_state, ht, List.append_assoc, List.length_append]
  congr 1

theorem rtp_csrc_item_nodes_ok (tvb : tvbuff_t) (c : Nat) :
    ∀ (n i offset : Nat), ∀ x ∈ rtp_csrc_item_nodes tvb c n i offset, rtp_header_node_ok x := by
  intro n
  induction n with
  | zero => intro i offset x hx; simp [rtp_csrc_item_nodes] at hx
  | succ n ih =>
    intro i offset x hx
    simp only [rtp_csrc_item_nodes, List.mem_cons] at hx
    rcases hx with rfl | hx
    · simp [rtp_header_node_ok]
    · exact ih _ _ x hx

theorem rtp_hdr_ext_word_nodes_ok (tvb : tvbuff_t) (c : Nat) :
    ∀ (n offset : Nat), ∀ x ∈ rtp_hdr_ext_word_nodes tvb c n offset, rtp_header_node_ok x := by
  intro n
  induction n with
  | zero => intro offset x hx; simp [rtp_hdr_ext_word_nodes] at hx
  | succ n ih =>
    intro offset x hx
    simp only [rtp_hdr_ext_word_nodes, List.mem_cons] at hx
    rcases hx with rfl | hx
    · simp [rtp_header_node_ok, value_node]
    · exact ih _ x hx

theorem rtp_hdr_ext_nodes_ok (tvb : tvbuff_t) (r base cc offset : Nat) :
    ∀ x ∈ rtp_hdr_ext_nodes tvb r base cc offset, rtp_header_node_ok x := by
  intro x hx
  unfold rtp_hdr_ext_nodes at hx
  simp only [List.mem_append, List.mem_cons, List.mem_singleton, List.not_mem_nil, or_false] at hx
  rcases hx with (rfl | rfl) | hx
  · simp [rtp_header_node_ok, value_node]
  · simp [rtp_header_node_ok, value_node]
  · split_ifs at hx
    · simp only [List.mem_cons] at hx
      rcases hx with rfl | hx
      · simp [rtp_header_node_ok, text_node]
      · exact rtp_hdr_ext_word_nodes_ok tvb _ _ _ x hx
    · simp at hx

theorem rtp_csrc_state_tree (cfg : rtp_config) (tvb : tvbuff_t) (pinfo : packet_info)
    (p o1 o2 : Nat) (s : epan_state) :
    (∃ l, (rtp_csrc_state cfg tvb pinfo p o1 o2 s).tree = s.tree ++ l ∧
        ∀ n ∈ l, rtp_header_node_ok n) ∧
      (rtp_csrc_state cfg tvb pinfo p o1 o2 s).tap_queue = s.tap_queue := by
  have ht := rtp_prologue_tree tvb (RTP_PADDING o1) (RTP_MARKER o2) (RTP_PAYLOAD_TYPE o2)
    (ntohs_at tvb 2) (ntohl_at tvb 4) (ntohl_at tvb 8) s
  simp only [rtp_csrc_state]
  obtain ⟨l, hl, hq⟩ := rtp_after_setup_eq cfg tvb pinfo s.tree.length
    { (dissect_rtp_columns (RTP_PAYLOAD_TYPE o2) (ntohl_at tvb 8) (ntohs_at tvb 2)
        (ntohl_at tvb 4) (RTP_MARKER o2)
        (dissect_rtp_fill_info tvb (RTP_PADDING o1) (RTP_MARKER o2) (RTP_PAYLOAD_TYPE o2)
          (ntohs_at tvb 2) (ntohl_at tvb 4) (ntohl_at tvb 8) s).2).2 with
      tree := (dissect_rtp_columns (RTP_PAYLOAD_TYPE o2) (ntohl_at tvb 8) (ntohs_at tvb 2)
        (ntohl_at tvb 4) (RTP_MARKER o2)
        (dissect_rtp_fill_info tvb (RTP_PADDING o1) (RTP_MARKER o2) (RTP_PAYLOAD_TYPE o2)
          (ntohs_at tvb 2) (ntohl_at tvb 4) (ntohl_at tvb 8) s).2).2.tree ++
        [⟨p, .proto_rtp, 0, tvb_length tvb, .from_tvb, "", some .ett_rtp, false, false⟩] }
  rw [hl]
  simp only [ht.1, ht.2, List.append_assoc]
  refine ⟨⟨_, rfl, ?_⟩, trivial⟩
  intro n hn
  simp only [List.mem_append, List.mem_cons, List.mem_singleton, List.not_mem_nil, or_false,
    List.singleton_append] at hn
  rcases hn with rfl | hn | hn | hn
  · simp [rtp_header_node_ok]
  · obtain ⟨h1, h2, _, h4⟩ := hq n hn
    refine ⟨?_, ?_, ?_, by omega, by simp [h2]⟩ <;> rcases h4 with h | h | h <;> simp [h]
  · simp only [rtp_fixed_field_nodes, List.mem_cons, List.mem_singleton, List.not_mem_nil,
      or_false] at hn
    rcases hn with rfl | rfl | rfl | rfl | rfl | rfl | rfl | rfl | rfl <;>
      simp [rtp_header_node_ok, value_node]
  · unfold rtp_csrc_nodes at hn
    split_ifs at hn
    · simp only [List.mem_cons] at hn
      rcases hn with rfl | hn
      · simp [rtp_header_node_ok, text_node]
      · exact rtp_csrc_item_nodes_ok tvb _ _ _ _ n hn
    · simp at hn

theorem dissect_rtp_payload_padding_clip (cfg : rtp_config) (tvb : tvbuff_t)
    (pinfo : packet_info) (p r ps pt o b : Nat) (s : epan_state) (hps : ps ≠ 0)
    (hfull : tvb.reported_length = tvb.data.length)
    (hlen : tvb.data.length < 4294967296)
    (ho : o < tvb.data.length)
    (hb : tvb.data[tvb.data.length - 1]? = some b)
    (hpc : tvb.data.length - o < b % 256) :
    dissect_rtp_payload cfg tvb pinfo (some p) (some r) ps pt o s =
      (.ok (), rtp_tap_state pinfo (rtp_padding_clip_state cfg tvb r o b s)) := by
  unfold dissect_rtp_payload
  have hnot : ¬ tvb_length tvb < tvb_reported_length tvb := by
    simp [tvb_length, tvb_reported_length, hfull]
  simp only [hps, ne_eq, not_false_eq_true, if_true, hnot, if_false, bind_apply]
  rw [bind_ok _ _ _ _ _ (dissect_rtp_padding_clip cfg tvb pinfo p r pt o b s hfull hlen ho hb hpc)]
  unfold rtp_tap_state rtp_padding_clip_state
  cases pinfo.in_error_pkt <;> simp [tap_queue_packet]

/-- With a tree requested, on a fully captured version-2 packet with the
padding bit set whose padding count exceeds the `R >= 1` bytes left after the
header, `dissect_rtp` completes, adds after the header nodes exactly the
clipped padding fields and no payload, and no node it adds has a negative
length. -/
theorem dissect_rtp_padding_clip_of_header (cfg : rtp_config) (tvb : tvbuff_t)
    (pinfo : packet_info) (p b0 b1 b : Nat) (s : epan_state)
    (h0 : tvb.data[0]? = some b0) (h1 : tvb.data[1]? = some b1)
    (hv : RTP_VERSION (b0 % 256) = 2) (hps : RTP_PADDING (b0 % 256) ≠ 0)
    (hfull : tvb.reported_length = tvb.data.length)
    (hlen : tvb.data.length < 4294967296)
    (ho : rtp_header_end tvb (b0 % 256) < tvb.data.length)
    (hb : tvb.data[tvb.data.length - 1]? = some b)
    (hpc : tvb.data.length - rtp_header_end tvb (b0 % 256) < b % 256) :
    (dissect_rtp cfg tvb pinfo (some p) s).1 = .ok () ∧
      (∃ pre, (dissect_rtp cfg tvb pinfo (some p) s).2.tree =
          s.tree ++ pre ++ rtp_padding_nodes s.tree.length (rtp_header_end tvb (b0 % 256))
            (tvb.data.length - rtp_header_end tvb (b0 % 256)) ∧
        ∀ n ∈ pre, rtp_header_node_ok n) ∧
      (dissect_rtp cfg tvb pinfo (some p) s).2.rtp_info.info_padding_count = b % 256 ∧
      (dissect_rtp cfg tvb pinfo (some p) s).2.tap_queue =
        if pinfo.in_error_pkt then s.tap_queue
        else s.tap_queue ++ [(dissect_rtp cfg tvb pinfo (some p) s).2.rtp_info] := by
  have hend : 12 + 4 * RTP_CSRC_COUNT (b0 % 256) ≤ rtp_header_end tvb (b0 % 256) := by
    unfold rtp_header_end; omega
  have hcap : tvb_length tvb = tvb.data.length := rfl
  rw [dissect_rtp_eq_v2 cfg tvb pinfo (some p) b0 b1 s h0 h1 hv (by omega)]
  rw [dissect_rtp_v2_header cfg tvb pinfo p _ _ s (by omega)]
  obtain ⟨⟨l, hl, hq⟩, htap⟩ := rtp_csrc_state_tree cfg tvb pinfo p (b0 % 256) (b1 % 256) s
  by_cases hx : RTP_EXTENSION (b0 % 256) = 0
  · have he : rtp_header_end tvb (b0 % 256) = 12 + 4 * RTP_CSRC_COUNT (b0 % 256) := by
      simp [rtp_header_end, hx]
    rw [hx, bind_ok _ _ _ _ _ (dissect_rtp_hdr_extension_none tvb _ _ _ _ _)]
    rw [← he]
    rw [dissect_rtp_payload_padding_clip cfg tvb pinfo p _ _ _ _ b _ hps hfull hlen ho hb hpc]
    unfold rtp_tap_state rtp_padding_clip_state
    refine ⟨rfl, ⟨l, ?_, hq⟩, ?_, ?_⟩
    · cases pinfo.in_error_pkt <;> simp [hl]
    · cases pinfo.in_error_pkt <;> simp
    · cases pinfo.in_error_pkt <;> simp [htap]
  · have he : rtp_header_end tvb (b0 % 256) = 12 + 4 * RTP_CSRC_COUNT (b0 % 256) + 4 +
        4 * ntohs_at tvb (12 + 4 * RTP_CSRC_COUNT (b0 % 256) + 2) := by
      simp [rtp_header_end, hx]; omega
    rw [bind_ok _ _ _ _ _ (dissect_rtp_hdr_extension_ok tvb p _ _ _ _ _ hx (by omega))]
    rw [← he]
    rw [dissect_rtp_payload_padding_clip cfg tvb pinfo p _ _ _ _ b _ hps hfull hlen ho hb hpc]
    unfold rtp_tap_state rtp_padding_clip_state
    refine ⟨rfl, ⟨l ++ rtp_hdr_ext_nodes tvb s.tree.length
      (rtp_csrc_state cfg tvb pinfo p (b0 % 256) (b1 % 256) s).tree.length
      (RTP_CSRC_COUNT (b0 % 256)) (12 + 4 * RTP_CSRC_COUNT (b0 % 256)), ?_, ?_⟩, ?_, ?_⟩
    · cases pinfo.in_error_pkt <;> simp [hl]
    · intro n hn
      rcases List.mem_append.mp hn with hn | hn
      · exact hq n hn
      · exact rtp_hdr_ext_nodes_ok tvb _ _ _ _ n hn
    · cases pinfo.in_error_pkt <;> simp
    · cases pinfo.in_error_pkt <;> simp [htap]

/-- The padding clip at the example of the specification: padding count
255 with 10 bytes left after a 12-byte header gives 9 bytes of padding data
at offset 12 and the padding count at offset 21. -/
theorem dissect_rtp_padding_255 (p : Nat) (s : epan_state) :
    (dissect_rtp rtp_config.plain rtp_padding_255_tvb (rtp_pinfo 1) (some p) s).1 = .ok () ∧
      ∃ pre, (dissect_rtp rtp_config.plain rtp_padding_255_tvb (rtp_pinfo 1) (some p) s).2.tree =
          s.tree ++ pre ++
            [item_node s.tree.length .hf_rtp_padding_data 12 9,
             item_node s.tree.length .hf_rtp_padding_count 21 1] ∧
        ∀ n ∈ pre, rtp_header_node_ok n := by
  have hend : rtp_header_end rtp_padding_255_tvb (0xA0 % 256) = 12 := by
    have hx : RTP_EXTENSION (0xA0 % 256) = 0 := by decide
    have hcc : RTP_CSRC_COUNT (0xA0 % 256) = 0 := by decide
    simp [rtp_header_end, hcc, hx]
  have hx : ¬ RTP_EXTENSION (0xA0 % 256) ≠ 0 := by decide
  have h := dissect_rtp_padding_clip_of_header rtp_config.plain rtp_padding_255_tvb (rtp_pinfo 1)
    p 0xA0 0 255 s rfl rfl (by decide) (by decide) rfl (by decide) (by rw [hend]; decide)
    rfl (by rw [hend]; decide)
  rw [hend] at h
  obtain ⟨h1, ⟨pre, h2, h3⟩, _, _⟩ := h
  refine ⟨h1, pre, ?_, h3⟩
  rw [h2]
  rfl

/-! ## Claims about RTP -/

/-- C9. RTP padding clip.  For every fully captured RTP version-2 buffer with
the padding bit set whose last byte, the padding count, is larger than the
number `R >= 1` of bytes remaining after the header, `dissect_rtp`, called
with a tree, returns; the nodes it adds are header nodes (none of them a
payload or padding field) followed by exactly the padding fields clipped to
`R`: a padding-data field of length `R - 1` at the end of the header (none
when `R = 1`) and then the 1-byte padding-count field at the last byte; no
payload field is added and no node added has a negative length. -/
theorem rtp_padding_clip (cfg : rtp_config) (tvb : tvbuff_t)
    (pinfo : packet_info) (p b0 b1 b : Nat) (s : epan_state)
    (h0 : tvb.data[0]? = some b0) (h1 : tvb.data[1]? = some b1)
    (hv : RTP_VERSION (b0 % 256) = 2) (hps : RTP_PADDING (b0 % 256) ≠ 0)
    (hfull : tvb.reported_length = tvb.data.length)
    (hlen : tvb.data.length < 4294967296)
    (ho : rtp_header_end tvb (b0 % 256) < tvb.data.length)
    (hb : tvb.data[tvb.data.length - 1]? = some b)
    (hpc : tvb.data.length - rtp_header_end tvb (b0 % 256) < b % 256) :
    (dissect_rtp cfg tvb pinfo (some p) s).1 = .ok () ∧
      (∃ pre, (dissect_rtp cfg tvb pinfo (some p) s).2.tree =
          s.tree ++ pre ++
            ((if tvb.data.length - rtp_header_end tvb (b0 % 256) > 1 then
                [item_node s.tree.length .hf_rtp_padding_data (rtp_header_end tvb (b0 % 256))
                  ((tvb.data.length - rtp_header_end tvb (b0 % 256) : Nat) - 1)]
              else []) ++
              [item_node s.tree.length .hf_rtp_padding_count (tvb.data.length - 1) 1]) ∧
        ∀ n ∈ pre, n.hfindex ≠ .hf_rtp_data ∧ n.hfindex ≠ .hf_rtp_padding_data ∧
          n.hfindex ≠ .hf_rtp_padding_count ∧ 0 ≤ n.length) ∧
      fields_where .hf_rtp_data (dissect_rtp cfg tvb pinfo (some p) s).2 =
        fields_where .hf_rtp_data s ∧
      ∀ n ∈ ((dissect_rtp cfg tvb pinfo (some p) s).2.tree.drop s.tree.length), 0 ≤ n.length := by
  obtain ⟨hok, ⟨pre, htree, hpre⟩, _, _⟩ := dissect_rtp_padding_clip_of_header cfg tvb pinfo p b0
    b1 b s h0 h1 hv hps hfull hlen ho hb hpc
  have hR : rtp_header_end tvb (b0 % 256) + (tvb.data.length - rtp_header_end tvb (b0 % 256) - 1) =
      tvb.data.length - 1 := by omega
  have hnodes : rtp_padding_nodes s.tree.length (rtp_header_end tvb (b0 % 256))
      (tvb.data.length - rtp_header_end tvb (b0 % 256)) =
      (if tvb.data.length - rtp_header_end tvb (b0 % 256) > 1 then
          [item_node s.tree.length .hf_rtp_padding_data (rtp_header_end tvb (b0 % 256))
            ((tvb.data.length - rtp_header_end tvb (b0 % 256) : Nat) - 1)]
        else []) ++
        [item_node s.tree.length .hf_rtp_padding_count (tvb.data.length - 1) 1] := by
    unfold rtp_padding_nodes
    rw [hR]
  rw [hnodes] at htree
  refine ⟨hok, ⟨pre, htree, fun n hn => ⟨(hpre n hn).1, (hpre n hn).2.1, (hpre n hn).2.2.1,
    (hpre n hn).2.2.2.1⟩⟩, ?_, ?_⟩
  · unfold fields_where
    rw [htree]
    have hd : pre.filter (fun n => n.hfindex = hf_id.hf_rtp_data) = [] := by
      rw [List.filter_eq_nil_iff]
      intro n hn
      simpa using (hpre n hn).1
    simp only [List.filter_append, hd, List.append_nil]
    split_ifs <;> simp [item_node]
  · rw [htree]
    intro n hn
    simp only [List.append_assoc, List.drop_left] at hn
    rcases List.mem_append.mp hn with hn | hn
    · exact (hpre n hn).2.2.2.1
    · rcases List.mem_append.mp hn with hn | hn
      · split_ifs at hn
        · simp only [List.mem_singleton] at hn
          subst hn
          simp only [item_node]
          omega
        · simp at hn
      · simp only [List.mem_singleton] at hn
        subst hn
        simp [item_node]

/-- C9 at a concrete input: the fully captured 29-byte packet with two CSRC
items, one header extension word and last byte 255, where `R = 1`: no padding
data, and the padding count field is the byte at offset 28. -/
theorem rtp_padding_clip_witness :
    (dissect_rtp rtp_config.plain rtp_csrc_ext_padding_tvb (rtp_pinfo 1) (some 0)
        epan_state.init).1 = .ok () ∧
      (∃ pre, (dissect_rtp rtp_config.plain rtp_csrc_ext_padding_tvb (rtp_pinfo 1) (some 0)
          epan_state.init).2.tree =
          epan_state.init.tree ++ pre ++
            ((if rtp_csrc_ext_padding_tvb.data.length -
                  rtp_header_end rtp_csrc_ext_padding_tvb (0xB2 % 256) > 1 then
                [item_node epan_state.init.tree.length .hf_rtp_padding_data
                  (rtp_header_end rtp_csrc_ext_padding_tvb (0xB2 % 256))
                  ((rtp_csrc_ext_padding_tvb.data.length -
                    rtp_header_end rtp_csrc_ext_padding_tvb (0xB2 % 256) : Nat) - 1)]
              else []) ++
              [item_node epan_state.init.tree.length .hf_rtp_padding_count
                (rtp_csrc_ext_padding_tvb.data.length - 1) 1]) ∧
        ∀ n ∈ pre, n.hfindex ≠ .hf_rtp_data ∧ n.hfindex ≠ .hf_rtp_padding_data ∧
          n.hfindex ≠ .hf_rtp_padding_count ∧ 0 ≤ n.length) ∧
      fields_where .hf_rtp_data (dissect_rtp rtp_config.plain rtp_csrc_ext_padding_tvb
          (rtp_pinfo 1) (some 0) epan_state.init).2 =
        fields_where .hf_rtp_data epan_state.init ∧
      ∀ n ∈ ((dissect_rtp rtp_config.plain rtp_csrc_ext_padding_tvb (rtp_pinfo 1) (some 0)
          epan_state.init).2.tree.drop epan_state.init.tree.length), 0 ≤ n.length :=
  rtp_padding_clip rtp_config.plain rtp_csrc_ext_padding_tvb (rtp_pinfo 1) 0 0xB2 0 255
    epan_state.init rfl rfl (by decide) (by decide) rfl (by decide) (by decide) rfl (by decide)

/-! ## uTP: the layout selector in closed form -/

/-- C20. Exact characterisation of the V1 heuristic.  On a buffer whose first
two captured bytes are `b0` and `b1` and whose reported length is `n`,
`utp_is_v1` returns normally, and it returns true exactly when
`(b0 & 0x0F) = 1`, `(b0 >> 4) < 5`, `b1 < 3` and `n < 20` or `n` is one of 20,
26, 30, 34 or `n >= 36` is even.  In particular a header passing the nibble
test with `n < 20` is taken for V1, and one with odd `n >= 21` for V0. -/
theorem utp_is_v1_characterisation (tvb : tvbuff_t) (b0 b1 : Nat)
    (h0 : tvb.data[0]? = some b0) (h1 : tvb.data[1]? = some b1) :
    utp_is_v1 tvb =
        .ok (decide ((b0 % 256) &&& 0x0f = 1 ∧ (b0 % 256) >>> 4 < 5 ∧ b1 % 256 < 3 ∧
          (tvb.reported_length < 20 ∨ tvb.reported_length = 20 ∨ tvb.reported_length = 26 ∨
            tvb.reported_length = 30 ∨ tvb.reported_length = 34 ∨
            (tvb.reported_length ≥ 36 ∧ tvb.reported_length % 2 = 0)))) ∧
      ((b0 % 256) &&& 0x0f = 1 ∧ (b0 % 256) >>> 4 < 5 ∧ b1 % 256 < 3 ∧
          tvb.reported_length < 20 → utp_is_v1 tvb = .ok true) ∧
      (tvb.reported_length ≥ 21 ∧ tvb.reported_length % 2 = 1 → utp_is_v1 tvb = .ok false) := by
  have key : utp_is_v1 tvb =
      .ok (decide ((b0 % 256) &&& 0x0f = 1 ∧ (b0 % 256) >>> 4 < 5 ∧ b1 % 256 < 3 ∧
        (tvb.reported_length < 20 ∨ tvb.reported_length = 20 ∨ tvb.reported_length = 26 ∨
          tvb.reported_length = 30 ∨ tvb.reported_length = 34 ∨
          (tvb.reported_length ≥ 36 ∧ tvb.reported_length % 2 = 0)))) := by
    simp only [utp_is_v1, tvb_get_guint8, h0, h1, bind, Except.bind, pure, Except.pure,
      tvb_reported_length, ST_NUM_STATES, EXT_NUM_EXT, V1_FIXED_HDR_SIZE]
    split_ifs with a b c
    · exact congrArg _ (decide_eq_false (by omega)).symm
    · exact congrArg _ (decide_eq_true (by omega)).symm
    · exact congrArg _ (decide_eq_true (by omega)).symm
    · exact congrArg _ (decide_eq_false (by omega)).symm
  refine ⟨key, ?_, ?_⟩
  · rintro ⟨c1, c2, c3, c4⟩
    rw [key]; simp [c1, c2, c3, c4]
  · rintro ⟨c1, c2⟩
    rw [key]
    have : ¬ (tvb.reported_length < 20 ∨ tvb.reported_length = 20 ∨ tvb.reported_length = 26 ∨
          tvb.reported_length = 30 ∨ tvb.reported_length = 34 ∨
          (tvb.reported_length ≥ 36 ∧ tvb.reported_length % 2 = 0)) := by omega
    simp [this]

/-- C20 at a concrete input: the plain 20-byte V1 packet (first bytes 0x01
and 0x00, reported length 20). -/
theorem utp_is_v1_characterisation_witness :
    utp_is_v1 utp_plain_v1_tvb =
        .ok (decide ((1 % 256) &&& 0x0f = 1 ∧ (1 % 256) >>> 4 < 5 ∧ 0 % 256 < 3 ∧
          (utp_plain_v1_tvb.reported_length < 20 ∨ utp_plain_v1_tvb.reported_length = 20 ∨
            utp_plain_v1_tvb.reported_length = 26 ∨ utp_plain_v1_tvb.reported_length = 30 ∨
            utp_plain_v1_tvb.reported_length = 34 ∨
            (utp_plain_v1_tvb.reported_length ≥ 36 ∧
              utp_plain_v1_tvb.reported_length % 2 = 0)))) ∧
      ((1 % 256) &&& 0x0f = 1 ∧ (1 % 256) >>> 4 < 5 ∧ 0 % 256 < 3 ∧
          utp_plain_v1_tvb.reported_length < 20 → utp_is_v1 utp_plain_v1_tvb = .ok true) ∧
      (utp_plain_v1_tvb.reported_length ≥ 21 ∧ utp_plain_v1_tvb.reported_length % 2 = 1 →
        utp_is_v1 utp_plain_v1_tvb = .ok false) :=
  utp_is_v1_characterisation utp_plain_v1_tvb 1 0 rfl rfl

/-! ## RTP: registration, setup annotation and raw payload -/

/-- C11. First-pass-only registration.  On a packet whose visited flag is
set, `rtp_add_address` returns at once: the whole state, and with it the
conversation table (no record created, no metadata of a record changed), is
what it was, whatever the address, ports, method and frame number are. -/
theorem rtp_add_address_visited (cfg : rtp_config) (pinfo : packet_info) (ip_addr : List Nat)
    (port other_port : Nat) (setup_method : String) (setup_frame_number : Nat) (s : epan_state)
    (hv : pinfo.fd.visited = true) :
    rtp_add_address cfg pinfo ip_addr port other_port setup_method setup_frame_number s =
        (.ok (), s) ∧
      (rtp_add_address cfg pinfo ip_addr port other_port setup_method setup_frame_number
        s).2.conversations = s.conversations := by
  have h : rtp_add_address cfg pinfo ip_addr port other_port setup_method setup_frame_number s =
      (.ok (), s) := by
    simp [rtp_add_address, hv]
  exact ⟨h, by rw [h]⟩

/-- C11 at a concrete input: frame 9 seen again tries to register the flow
10.0.0.2 port 4002, which the table already holds with method "SDP"; nothing
changes. -/
theorem rtp_add_address_visited_witness :
    rtp_add_address rtp_config.plain (revisit (sip_pinfo 9)) [10, 0, 0, 2] 4002 0 "H245" 9
        rtp_registered_state = (.ok (), rtp_registered_state) ∧
      (rtp_add_address rtp_config.plain (revisit (sip_pinfo 9)) [10, 0, 0, 2] 4002 0 "H245" 9
        rtp_registered_state).2.conversations = rtp_registered_state.conversations :=
  rtp_add_address_visited rtp_config.plain (revisit (sip_pinfo 9)) [10, 0, 0, 2] 4002 0 "H245" 9
    rtp_registered_state rfl

theorem show_setup_info_display_none (tvb : tvbuff_t) (d : rtp_conversation_info)
    (s : epan_state) : show_setup_info_display tvb none d s = (.ok (), s) := by
  simp [show_setup_info_display, proto_tree_add_string_format, proto_tree_add,
    proto_item_append_text, PROTO_ITEM_SET_GENERATED, proto_item_add_subtree, Dissect.bind]

/-- The tree after `show_setup_info`, with or without a tree requested. -/
theorem show_setup_info_tree (tvb : tvbuff_t) (pinfo : packet_info) (tree : Option Nat)
    (s : epan_state) :
    show_setup_info tvb pinfo tree s =
      (.ok (), { s with
        pfd := (show_setup_info_lookup pinfo s).2.pfd,
        tree := s.tree ++
          (match tree with
           | none => []
           | some r => rtp_setup_nodes_opt r s.tree.length (show_setup_info_lookup pinfo s).1) }) := by
  cases tree with
  | some r => exact show_setup_info_ok tvb pinfo r s
  | none =>
    unfold show_setup_info
    have hf := show_setup_info_lookup_frame pinfo s
    cases hl : (show_setup_info_lookup pinfo s).1 with
    | none => simp only [List.append_nil]; rw [hf]
    | some d => simp only [List.append_nil]; rw [show_setup_info_display_none, hf]

/-- C17. Generated setup nodes.  `show_setup_info` returns normally and only
appends to the tree; every node it appends has start 0, length 0 and the
generated flag set; and when a tree is requested and setup info is found the
nodes appended are exactly the "Stream setup by" node and, below it, the
setup-frame and setup-method nodes. -/
theorem show_setup_info_nodes_generated (tvb : tvbuff_t) (pinfo : packet_info)
    (tree : Option Nat) (s : epan_state) :
    (show_setup_info tvb pinfo tree s).1 = .ok () ∧
      ∃ l, (show_setup_info tvb pinfo tree s).2.tree = s.tree ++ l ∧
        (∀ n ∈ l, n.start = 0 ∧ n.length = 0 ∧ n.generated = true) ∧
        (∀ r d, tree = some r → (show_setup_info_lookup pinfo s).1 = some d →
          l = rtp_setup_nodes r s.tree.length d ∧
            l.map (fun n => n.hfindex) =
              [.hf_rtp_setup, .hf_rtp_setup_frame, .hf_rtp_setup_method]) := by
  rw [show_setup_info_tree]
  refine ⟨rfl, _, rfl, ?_, ?_⟩
  · intro n hn
    cases tree with
    | none => simp at hn
    | some r =>
      cases hl : (show_setup_info_lookup pinfo s).1 with
      | none => simp [hl, rtp_setup_nodes_opt] at hn
      | some d =>
        simp only [hl, rtp_setup_nodes_opt, rtp_setup_nodes, List.mem_cons, List.mem_singleton,
          List.not_mem_nil, or_false] at hn
        rcases hn with rfl | rfl | rfl <;> simp
  · intro r d ht hd
    subst ht
    simp [hd, rtp_setup_nodes_opt, rtp_setup_nodes]

/-- C17 at a concrete input: the packet to 10.0.0.2 port 4002 against the
table holding that flow. -/
theorem show_setup_info_nodes_generated_witness :
    (show_setup_info rtp_plain_tvb (rtp_pinfo 8) (some 0) rtp_registered_state).1 = .ok () ∧
      ∃ l, (show_setup_info rtp_plain_tvb (rtp_pinfo 8) (some 0) rtp_registered_state).2.tree =
          rtp_registered_state.tree ++ l ∧
        (∀ n ∈ l, n.start = 0 ∧ n.length = 0 ∧ n.generated = true) ∧
        (∀ r d, some 0 = some r →
          (show_setup_info_lookup (rtp_pinfo 8) rtp_registered_state).1 = some d →
          l = rtp_setup_nodes r rtp_registered_state.tree.length d ∧
            l.map (fun n => n.hfindex) =
              [.hf_rtp_setup, .hf_rtp_setup_frame, .hf_rtp_setup_method]) :=
  show_setup_info_nodes_generated rtp_plain_tvb (rtp_pinfo 8) (some 0) rtp_registered_state

/-- C18 fails as stated: with no decoder registered for payload type 0,
`dissect_rtp_data` called with the request offset 416, length -1, reported
length -1 on a 16-byte buffer (the call `dissect_rtp` makes without a tree on
the packet whose extension header announces 100 words) stops with the bounds
condition, with or without a tree: the buffer refuses the sub-view before the
payload-type table is consulted, and no "Payload" field is added. -/
theorem dissect_rtp_data_unknown_payload_type_raises :
    rtp_config.plain.rtp_pt_dissector_table 0 = none ∧
      tvb_length rtp_ext_overrun_tvb = 16 ∧
      dissect_rtp_data rtp_config.plain rtp_ext_overrun_tvb (rtp_pinfo 1) none none 416 (-1) (-1)
          0 epan_state.init = (.error .OutOfBounds, epan_state.init) ∧
      dissect_rtp_data rtp_config.plain rtp_ext_overrun_tvb (rtp_pinfo 1) (some 0) (some 1) 416
          (-1) (-1) 0 epan_state.init = (.error .OutOfBounds, epan_state.init) := by
  have href : tvb_new_subset rtp_ext_overrun_tvb 416 (-1) (-1) = .error .OutOfBounds := by
    simp [tvb_new_subset, tvb_length, rtp_ext_overrun_tvb]
  refine ⟨rfl, rfl, ?_, ?_⟩ <;>
  · unfold dissect_rtp_data
    rw [bind_apply, bind_error _ _ _ _ .OutOfBounds (by unfold liftE; rw [href])]

/-- C18, amended.  Unknown payload type falls back to raw bytes.  Let the
payload-type table have no decoder for the payload type.  When the buffer
grants the payload sub-view, `dissect_rtp_data` returns normally and adds,
below the RTP subtree, exactly one `hf_rtp_data` ("Payload") field that
starts at offset 0 of the sub-view and covers all its captured bytes.  When
the buffer refuses the sub-view, `dissect_rtp_data` stops with the buffer's
condition and adds nothing. -/
theorem dissect_rtp_data_unknown_payload_type (cfg : rtp_config) (tvb : tvbuff_t)
    (pinfo : packet_info) (tree : Option Nat) (r offset : Nat) (data_len data_reported_len : Int)
    (payload_type : Nat) (s : epan_state)
    (hno : cfg.rtp_pt_dissector_table payload_type = none) :
    (∀ newtvb, tvb_new_subset tvb offset data_len data_reported_len = .ok newtvb →
      dissect_rtp_data cfg tvb pinfo tree (some r) offset data_len data_reported_len payload_type
          s =
        (.ok (),
          { s with tree := s.tree ++ [item_node r .hf_rtp_data 0 (tvb_length newtvb)] })) ∧
      (∀ e, tvb_new_subset tvb offset data_len data_reported_len = .error e →
        ∀ rtp_tree, dissect_rtp_data cfg tvb pinfo tree rtp_tree offset data_len
          data_reported_len payload_type s = (.error e, s)) := by
  constructor
  · intro newtvb hsub
    unfold dissect_rtp_data
    simp [Dissect.bind, liftE, hsub, dissector_try_port, hno, proto_tree_add_item_rest]
  · intro e href rtp_tree
    unfold dissect_rtp_data
    rw [bind_apply, bind_error _ _ _ _ e (by unfold liftE; rw [href])]

/-- C18 (amended) at a concrete input: the four payload bytes after a 12-byte
header, no decoder registered. -/
theorem dissect_rtp_data_unknown_payload_type_witness :
    dissect_rtp_data rtp_config.plain rtp_plain_tvb (rtp_pinfo 8) (some 0) (some 1) 12 4 4 0
        epan_state.init =
      (.ok (), { epan_state.init with tree := epan_state.init.tree ++
        [item_node 1 .hf_rtp_data 0 (tvb_length (⟨[1, 2, 3, 4], 4⟩ : tvbuff_t))] }) :=
  (dissect_rtp_data_unknown_payload_type rtp_config.plain rtp_plain_tvb (rtp_pinfo 8) (some 0) 1
    12 4 4 0 epan_state.init rfl).1 ⟨[1, 2, 3, 4], 4⟩ rfl

/-! ## Conversation tracker: lookups on a table with one more record -/

theorem p_get_proto_data_stored (s2 : epan_state) (fd fd2 : frame_data)
    (l extra : List (Nat × hf_id × rtp_conversation_info)) (d : rtp_conversation_info)
    (hnum : fd2.num = fd.num)
    (hnone : (l.find? (fun e => e.1 = fd.num ∧ e.2.1 = hf_id.proto_rtp)) = none)
    (hpfd : s2.pfd = l ++ (fd.num, hf_id.proto_rtp, d) :: extra) :
    p_get_proto_data s2 fd2 .proto_rtp = some d := by
  unfold p_get_proto_data
  rw [hpfd, hnum, List.find?_append, hnone]
  simp

/-- The first `show_setup_info` on a packet that resolves to a conversation:
the setup info is memoized against the packet and displayed. -/
theorem show_setup_info_first (tvb : tvbuff_t) (pinfo : packet_info) (r c : Nat)
    (d : rtp_conversation_info) (s : epan_state)
    (hnone : p_get_proto_data s pinfo.fd .proto_rtp = none)
    (hfind : find_conversation s.conversations pinfo.net_dst pinfo.net_src pinfo.ptype
      pinfo.destport pinfo.srcport NO_ADDR_B = some c)
    (hdata : conversation_get_proto_data s.conversations c .proto_rtp = some d) :
    show_setup_info tvb pinfo (some r) s =
      (.ok (), { s with
        pfd := s.pfd ++ [(pinfo.fd.num, .proto_rtp, d)],
        tree := s.tree ++ rtp_setup_nodes r s.tree.length d }) := by
  rw [show_setup_info_ok]
  simp [show_setup_info_lookup, hnone, hfind, hdata, p_add_proto_data, rtp_setup_nodes_opt]

/-- A later `show_setup_info` on a packet with memoized setup info: displayed
from the memoized copy, nothing else looked at or changed. -/
theorem show_setup_info_memoized (tvb : tvbuff_t) (pinfo : packet_info) (r : Nat)
    (d : rtp_conversation_info) (s : epan_state)
    (hget : p_get_proto_data s pinfo.fd .proto_rtp = some d) :
    show_setup_info tvb pinfo (some r) s =
      (.ok (), { s with tree := s.tree ++ rtp_setup_nodes r s.tree.length d }) := by
  rw [show_setup_info_ok]
  simp [show_setup_info_lookup, hget, rtp_setup_nodes_opt]

/-- C12. Replay idempotence of the setup annotation.  When `show_setup_info`
runs on a packet that has no memoized setup info and finds a conversation
with RTP metadata `d`, it stores a copy of `d` (method and frame number)
against the packet and emits the "Stream setup by <method> (frame <n>)"
nodes.  Every later call for the same frame, in any state that still holds
the stored copy, whatever its conversation table holds by then (the record
updated, replaced or gone), emits the same nodes from the copy and leaves the
conversation table and the per-packet data untouched. -/
theorem show_setup_info_replay (tvb : tvbuff_t) (pinfo : packet_info) (r c : Nat)
    (d : rtp_conversation_info) (s : epan_state)
    (hnone : p_get_proto_data s pinfo.fd .proto_rtp = none)
    (hfind : find_conversation s.conversations pinfo.net_dst pinfo.net_src pinfo.ptype
      pinfo.destport pinfo.srcport NO_ADDR_B = some c)
    (hdata : conversation_get_proto_data s.conversations c .proto_rtp = some d) :
    show_setup_info tvb pinfo (some r) s =
        (.ok (), { s with
          pfd := s.pfd ++ [(pinfo.fd.num, .proto_rtp, d)],
          tree := s.tree ++ rtp_setup_nodes r s.tree.length d }) ∧
      ((rtp_setup_nodes r s.tree.length d).map (fun n => n.text) =
        ["Stream setup by " ++ d.method ++ " (frame " ++ toString (to_gint d.frame_number) ++ ")",
          "", ""]) ∧
      ∀ (tvb2 : tvbuff_t) (pinfo2 : packet_info) (r2 : Nat) (s2 : epan_state)
        (extra : List (Nat × hf_id × rtp_conversation_info)),
        pinfo2.fd.num = pinfo.fd.num →
        s2.pfd = (show_setup_info tvb pinfo (some r) s).2.pfd ++ extra →
        show_setup_info tvb2 pinfo2 (some r2) s2 =
          (.ok (), { s2 with tree := s2.tree ++ rtp_setup_nodes r2 s2.tree.length d }) := by
  have h1 := show_setup_info_first tvb pinfo r c d s hnone hfind hdata
  refine ⟨h1, rfl, ?_⟩
  intro tvb2 pinfo2 r2 s2 extra hnum hpfd
  rw [h1] at hpfd
  apply show_setup_info_memoized
  apply p_get_proto_data_stored s2 pinfo.fd pinfo2.fd s.pfd extra d hnum
  · unfold p_get_proto_data at hnone
    simpa using hnone
  · simpa using hpfd

/-- C12 at a concrete input: frame 8, sent to 10.0.0.2 port 4002, against
the table holding that flow with method "SDP" of frame 7. -/
theorem show_setup_info_replay_witness :
    show_setup_info rtp_plain_tvb (rtp_pinfo 8) (some 0) rtp_registered_state =
        (.ok (), { rtp_registered_state with
          pfd := rtp_registered_state.pfd ++ [((rtp_pinfo 8).fd.num, .proto_rtp, ⟨"SDP", 7⟩)],
          tree := rtp_registered_state.tree ++
            rtp_setup_nodes 0 rtp_registered_state.tree.length ⟨"SDP", 7⟩ }) ∧
      ((rtp_setup_nodes 0 rtp_registered_state.tree.length ⟨"SDP", 7⟩).map (fun n => n.text) =
        ["Stream setup by " ++ "SDP" ++ " (frame " ++ toString (to_gint 7) ++ ")", "", ""]) ∧
      ∀ (tvb2 : tvbuff_t) (pinfo2 : packet_info) (r2 : Nat) (s2 : epan_state)
        (extra : List (Nat × hf_id × rtp_conversation_info)),
        pinfo2.fd.num = (rtp_pinfo 8).fd.num →
        s2.pfd = (show_setup_info rtp_plain_tvb (rtp_pinfo 8) (some 0)
          rtp_registered_state).2.pfd ++ extra →
        show_setup_info tvb2 pinfo2 (some r2) s2 =
          (.ok (), { s2 with tree := s2.tree ++ rtp_setup_nodes r2 s2.tree.length ⟨"SDP", 7⟩ }) :=
  show_setup_info_replay rtp_plain_tvb (rtp_pinfo 8) 0 0 ⟨"SDP", 7⟩ rtp_registered_state
    rfl rfl rfl

/-- The replay scenario in full: frame 8 is annotated, then frame 9 updates
the conversation to method "H245", then frame 8 is decoded again; the second
annotation of frame 8 still reads "Stream setup by SDP (frame 7)". -/
theorem show_setup_info_after_update :
    conversation_get_proto_data
        (rtp_add_address rtp_config.plain (sip_pinfo 9) [10, 0, 0, 2] 4002 0 "H245" 9
          (show_setup_info rtp_plain_tvb (rtp_pinfo 8) (some 0)
            rtp_registered_state).2).2.conversations 0 .proto_rtp = some ⟨"H245", 9⟩ ∧
      ((show_setup_info rtp_plain_tvb (revisit (rtp_pinfo 8)) (some 0)
          { (rtp_add_address rtp_config.plain (sip_pinfo 9) [10, 0, 0, 2] 4002 0 "H245" 9
              (show_setup_info rtp_plain_tvb (rtp_pinfo 8) (some 0)
                rtp_registered_state).2).2 with tree := [] }).2.tree.map (fun n => n.text) =
        ["Stream setup by SDP (frame 7)", "", ""]) := by
  rw [show_setup_info_first rtp_plain_tvb (rtp_pinfo 8) 0 0 ⟨"SDP", 7⟩ rtp_registered_state
    rfl rfl rfl]
  constructor
  · rfl
  · have key : ∀ s : epan_state, s.tree = [] →
        p_get_proto_data s (revisit (rtp_pinfo 8)).fd .proto_rtp = some ⟨"SDP", 7⟩ →
        (show_setup_info rtp_plain_tvb (revisit (rtp_pinfo 8)) (some 0) s).2.tree.map
          (fun n => n.text) = ["Stream setup by SDP (frame 7)", "", ""] := by
      intro s ht hg
      rw [show_setup_info_memoized _ _ _ _ _ hg]
      simp only [ht, List.nil_append]
      rfl
    exact key _ rfl rfl

/-! ## RTP: resolving a registered flow in both directions -/

/-- The lookup of `rtp_add_address` for a flow registered without the other
port: records with both wildcards, as given and with the two sides swapped. -/
theorem find_conversation_no_addr_port_b (t : List conversation_t) (a b : address)
    (ptype pa pb : Nat) :
    find_conversation t a b ptype pa pb (NO_ADDR_B ||| NO_PORT_B) =
      (conversation_lookup t (NO_ADDR2 ||| NO_PORT2) a pa b pb ptype).orElse fun _ =>
        conversation_lookup t (NO_ADDR2 ||| NO_PORT2) b pb a pa ptype := by
  have e1 : (NO_ADDR_B ||| NO_PORT_B) &&& (NO_ADDR_B ||| NO_PORT_B) ≠ 0 := by decide
  have e2 : (NO_ADDR_B ||| NO_PORT_B) &&& NO_PORT_B ≠ 0 := by decide
  have e3 : (NO_ADDR_B ||| NO_PORT_B) &&& NO_ADDR_B ≠ 0 := by decide
  unfold find_conversation
  simp only [if_neg e1, if_neg e2, if_neg e3]
  simp [Option.orElse]

theorem bind_assoc_apply {α β γ : Type} (m : Dissect α) (f : α → Dissect β) (g : β → Dissect γ)
    (s : epan_state) :
    Dissect.bind (Dissect.bind m f) g s = Dissect.bind m (fun a => Dissect.bind (f a) g) s := by
  simp only [Dissect.bind]
  rcases m s with ⟨r, s1⟩
  cases r <;> rfl

theorem keeps_pure {α β : Type} (proj : epan_state → β) (a : α) :
    keeps proj (pure a : Dissect α) := ⟨fun _ => rfl⟩

theorem keeps_liftE {α β : Type} (proj : epan_state → β) (r : Except exn α) :
    keeps proj (liftE r) := ⟨fun _ => rfl⟩

theorem keeps_bind {α β γ : Type} (proj : epan_state → γ) (m : Dissect α) (f : α → Dissect β)
    (hm : keeps proj m) (hf : ∀ a, keeps proj (f a)) : keeps proj (m >>= f) := by
  refine ⟨fun s => ?_⟩
  have h1 := hm.out s
  simp only [bind_apply, Dissect.bind]
  rcases hms : m s with ⟨r, s1⟩
  rw [hms] at h1
  cases r with
  | error e => exact h1
  | ok a => exact ((hf a).out s1).trans h1

theorem keeps_ite {α β : Type} (proj : epan_state → β) (c : Prop) [Decidable c]
    (a b : Dissect α) (ha : keeps proj a) (hb : keeps proj b) :
    keeps proj (if c then a else b) := by
  split_ifs <;> assumption

theorem keeps_bind_tail {α β γ : Type} (proj : epan_state → γ) (m : Dissect α)
    (f : α → Dissect β) (hf : ∀ a, keeps proj (f a)) (s : epan_state) :
    proj (Dissect.bind m f s).2 = proj (m s).2 := by
  simp only [Dissect.bind]
  rcases m s with ⟨r, s1⟩
  cases r with
  | error e => rfl
  | ok a => exact (hf a).out s1

theorem keeps_proto_tree_add {β : Type} (proj : epan_state → β) (hb : tree_blind proj)
    (tree : Option Nat) (hf : hf_id) (tvb : tvbuff_t) (start : Nat) (length : Int)
    (v : fvalue_t) : keeps proj (proto_tree_add tree hf tvb start length v) := by
  refine ⟨fun s => ?_⟩
  unfold proto_tree_add
  cases tree with
  | none => rfl
  | some p =>
    simp only []
    split_ifs <;> exact hb s _ s.pfd

theorem keeps_proto_tree_add_item {β : Type} (proj : epan_state → β) (hb : tree_blind proj)
    (tree : Option Nat) (hf : hf_id) (tvb : tvbuff_t) (start : Nat) (length : Int) :
    keeps proj (proto_tree_add_item tree hf tvb start length) :=
  keeps_proto_tree_add proj hb tree hf tvb start length .from_tvb

theorem keeps_proto_tree_add_uint {β : Type} (proj : epan_state → β) (hb : tree_blind proj)
    (tree : Option Nat) (hf : hf_id) (tvb : tvbuff_t) (start : Nat) (length : Int) (v : Nat) :
    keeps proj (proto_tree_add_uint tree hf tvb start length v) :=
  keeps_proto_tree_add proj hb tree hf tvb start length _

theorem keeps_proto_tree_add_boolean {β : Type} (proj : epan_state → β) (hb : tree_blind proj)
    (tree : Option Nat) (hf : hf_id) (tvb : tvbuff_t) (start : Nat) (length : Int) (v : Nat) :
    keeps proj (proto_tree_add_boolean tree hf tvb start length v) :=
  keeps_proto_tree_add proj hb tree hf tvb start length _

theorem keeps_proto_item_append_text {β : Type} (proj : epan_state → β) (hb : tree_blind proj)
    (ti : Option Nat) (txt : String) : keeps proj (proto_item_append_text ti txt) := by
  refine ⟨fun s => ?_⟩
  cases ti with
  | none => rfl
  | some i => exact hb s _ s.pfd

theorem keeps_proto_item_add_subtree {β : Type} (proj : epan_state → β) (hb : tree_blind proj)
    (ti : Option Nat) (ett : ett_id) : keeps proj (proto_item_add_subtree ti ett) := by
  refine ⟨fun s => ?_⟩
  cases ti with
  | none => rfl
  | some i => exact hb s _ s.pfd

theorem keeps_proto_tree_add_text {β : Type} (proj : epan_state → β) (hb : tree_blind proj)
    (tree : Option Nat) (tvb : tvbuff_t) (start : Nat) (length : Int) (txt : String) :
    keeps proj (proto_tree_add_text tree tvb start length txt) := by
  refine ⟨fun s => ?_⟩
  unfold proto_tree_add_text
  cases tree with
  | none => rfl
  | some p =>
    simp only []
    split_ifs <;> exact hb s _ s.pfd

theorem keeps_proto_tree_add_uint_format {β : Type} (proj : epan_state → β)
    (hb : tree_blind proj) (tree : Option Nat) (hf : hf_id) (tvb : tvbuff_t) (start : Nat)
    (length : Int) (v : Nat) (txt : String) :
    keeps proj (proto_tree_add_uint_format tree hf tvb start length v txt) := by
  unfold proto_tree_add_uint_format
  refine keeps_bind _ _ _ (keeps_proto_tree_add proj hb _ _ _ _ _ _) (fun ti => ?_)
  refine keeps_bind _ _ _ (keeps_proto_item_append_text proj hb _ _) (fun _ => ?_)
  exact keeps_pure _ _

theorem keeps_show_setup_info {β : Type} (proj : epan_state → β) (hb : tree_blind proj)
    (tvb : tvbuff_t) (pinfo : packet_info) (tree : Option Nat) :
    keeps proj (show_setup_info tvb pinfo tree) := by
  refine ⟨fun s => ?_⟩
  rw [show_setup_info_tree]
  exact hb s _ _

theorem keeps_dissect_rtp_fixed_header {β : Type} (proj : epan_state → β)
    (hb : tree_blind proj) (cfg : rtp_config) (tvb : tvbuff_t) (pinfo : packet_info)
    (tree : Option Nat) (o1 o2 seq ts ssrc : Nat) :
    keeps proj (dissect_rtp_fixed_header cfg tvb pinfo tree o1 o2 seq ts ssrc) := by
  unfold dissect_rtp_fixed_header
  simp only []
  repeat' first
    | exact keeps_pure _ _
    | exact keeps_proto_tree_add_item proj hb _ _ _ _ _
    | exact keeps_proto_tree_add_uint proj hb _ _ _ _ _ _
    | exact keeps_proto_tree_add_boolean proj hb _ _ _ _ _ _
    | exact keeps_proto_item_add_subtree proj hb _ _
    | exact keeps_show_setup_info proj hb _ _ _
    | apply keeps_bind
    | apply keeps_ite
    | intro _

theorem keeps_dissect_rtp_csrc_items {β : Type} (proj : epan_state → β) (hb : tree_blind proj)
    (tvb : tvbuff_t) (tree c : Option Nat) :
    ∀ n i offset, keeps proj (dissect_rtp_csrc_items tvb tree c n i offset) := by
  intro n
  induction n with
  | zero => intro i offset; exact keeps_pure _ _
  | succ n ih =>
    intro i offset
    unfold dissect_rtp_csrc_items
    simp only []
    repeat' first
      | exact keeps_pure _ _
      | exact keeps_liftE _ _
      | exact keeps_proto_tree_add_uint_format proj hb _ _ _ _ _ _ _
      | exact ih _ _
      | apply keeps_bind
      | apply keeps_ite
      | intro _

theorem keeps_dissect_rtp_csrc {β : Type} (proj : epan_state → β) (hb : tree_blind proj)
    (tvb : tvbuff_t) (tree rtp_tree : Option Nat) (cc offset : Nat) :
    keeps proj (dissect_rtp_csrc tvb tree rtp_tree cc offset) := by
  unfold dissect_rtp_csrc
  repeat' first
    | exact keeps_pure _ _
    | exact keeps_proto_tree_add_text proj hb _ _ _ _ _
    | exact keeps_proto_item_add_subtree proj hb _ _
    | exact keeps_dissect_rtp_csrc_items proj hb _ _ _ _ _ _
    | apply keeps_bind
    | apply keeps_ite
    | intro _

theorem keeps_dissect_rtp_hdr_ext_items {β : Type} (proj : epan_state → β)
    (hb : tree_blind proj) (tvb : tvbuff_t) (tree c : Option Nat) :
    ∀ n offset, keeps proj (dissect_rtp_hdr_ext_items tvb tree c n offset) := by
  intro n
  induction n with
  | zero => intro offset; exact keeps_pure _ _
  | succ n ih =>
    intro offset
    unfold dissect_rtp_hdr_ext_items
    simp only []
    repeat' first
      | exact keeps_pure _ _
      | exact keeps_liftE _ _
      | exact keeps_proto_tree_add_uint proj hb _ _ _ _ _ _
      | exact ih _
      | apply keeps_bind
      | apply keeps_ite
      | intro _

theorem keeps_dissect_rtp_hdr_extension {β : Type} (proj : epan_state → β)
    (hb : tree_blind proj) (tvb : tvbuff_t) (tree rtp_tree : Option Nat) (x cc offset : Nat) :
    keeps proj (dissect_rtp_hdr_extension tvb tree rtp_tree x cc offset) := by
  unfold dissect_rtp_hdr_extension
  simp only []
  repeat' first
    | exact keeps_pure _ _
    | exact keeps_liftE _ _
    | exact keeps_proto_tree_add_text proj hb _ _ _ _ _
    | exact keeps_proto_tree_add_uint proj hb _ _ _ _ _ _
    | exact keeps_proto_item_add_subtree proj hb _ _
    | exact keeps_dissect_rtp_hdr_ext_items proj hb _ _ _ _ _
    | apply keeps_bind
    | apply keeps_ite
    | intro _

theorem keeps_dissect_rtp_header {β : Type} (proj : epan_state → β) (hb : tree_blind proj)
    (cfg : rtp_config) (tvb : tvbuff_t) (pinfo : packet_info) (tree : Option Nat)
    (o1 o2 seq ts ssrc : Nat) :
    keeps proj (dissect_rtp_header cfg tvb pinfo tree o1 o2 seq ts ssrc) := by
  unfold dissect_rtp_header
  refine keeps_bind _ _ _ (keeps_dissect_rtp_fixed_header proj hb _ _ _ _ _ _ _ _ _) (fun _ => ?_)
  refine keeps_bind _ _ _ (keeps_dissect_rtp_csrc proj hb _ _ _ _ _) (fun _ => ?_)
  refine keeps_bind _ _ _ (keeps_dissect_rtp_hdr_extension proj hb _ _ _ _ _ _) (fun _ => ?_)
  exact keeps_pure _ _

theorem keeps_dissect_rtp_data {β : Type} (proj : epan_state → β) (hb : tree_blind proj)
    (cfg : rtp_config) (hsub : sub_decoders_keep cfg proj) (tvb : tvbuff_t)
    (pinfo : packet_info) (tree rtp_tree : Option Nat) (offset : Nat) (l r : Int) (pt : Nat) :
    keeps proj (dissect_rtp_data cfg tvb pinfo tree rtp_tree offset l r pt) := by
  unfold dissect_rtp_data
  refine keeps_bind _ _ _ (keeps_liftE _ _) (fun newtvb => ?_)
  refine keeps_bind _ _ _ ?_ (fun handled => ?_)
  · unfold dissector_try_port
    cases hd : cfg.rtp_pt_dissector_table pt with
    | none => exact keeps_pure _ _
    | some d => exact hsub pt d hd _ _ _
  · apply keeps_ite
    · refine keeps_bind _ _ _ (keeps_proto_tree_add_item proj hb _ _ _ _ _) (fun _ => ?_)
      exact keeps_pure _ _
    · exact keeps_pure _ _

theorem tree_blind_tap_part : tree_blind tap_part := fun _ _ _ => rfl

theorem tree_blind_column_part : tree_blind column_part := fun _ _ _ => rfl

/-! ## Values the header steps return -/

theorem yields_pure {α : Type} (a : α) (P : α → Prop) (h : P a) :
    yields (pure a : Dissect α) P := by
  refine ⟨fun s b hb => ?_⟩
  simp only [pure_apply] at hb
  cases hb
  exact h

theorem yields_mono {α : Type} (m : Dissect α) (P Q : α → Prop) (hm : yields m P)
    (h : ∀ a, P a → Q a) : yields m Q :=
  ⟨fun s a ha => h a (hm.out s a ha)⟩

theorem yields_liftE {α : Type} (r : Except exn α) : yields (liftE r) (fun a => r = .ok a) :=
  ⟨fun _ _ ha => ha⟩

theorem yields_bind_val {α β : Type} (m : Dissect α) (f : α → Dissect β) (Q : α → Prop)
    (P : β → Prop) (hm : yields m Q) (hf : ∀ a, Q a → yields (f a) P) : yields (m >>= f) P := by
  refine ⟨fun s b hb => ?_⟩
  simp only [bind_apply, Dissect.bind] at hb
  have h1 := hm.out s
  rcases hms : m s with ⟨r, s1⟩
  rw [hms] at hb h1
  cases r with
  | error e => simp at hb
  | ok a => exact (hf a (h1 a rfl)).out s1 b hb

theorem yields_bind {α β : Type} (m : Dissect α) (f : α → Dissect β) (P : β → Prop)
    (hf : ∀ a, yields (f a) P) : yields (m >>= f) P :=
  yields_bind_val m f (fun _ => True) P ⟨fun _ _ _ => trivial⟩ (fun a _ => hf a)

theorem yields_ite {α : Type} (c : Prop) [Decidable c] (a b : Dissect α) (P : α → Prop)
    (ha : c → yields a P) (hb : ¬ c → yields b P) : yields (if c then a else b) P := by
  split_ifs with h
  · exact ha h
  · exact hb h

theorem yields_dissect_rtp_fixed_header (cfg : rtp_config) (tvb : tvbuff_t)
    (pinfo : packet_info) (tree : Option Nat) (o1 o2 seq ts ssrc : Nat) :
    yields (dissect_rtp_fixed_header cfg tvb pinfo tree o1 o2 seq ts ssrc)
      (fun r => r.2 = 12) := by
  unfold dissect_rtp_fixed_header
  simp only []
  repeat' first
    | apply yields_bind
    | apply yields_ite
    | exact yields_pure _ _ rfl
    | intro _

theorem yields_dissect_rtp_csrc_items (tvb : tvbuff_t) (tree c : Option Nat) :
    ∀ n i offset, yields (dissect_rtp_csrc_items tvb tree c n i offset)
      (fun off => off = offset + 4 * n) := by
  intro n
  induction n with
  | zero => intro i offset; exact yields_pure _ _ rfl
  | succ n ih =>
    intro i offset
    unfold dissect_rtp_csrc_items
    simp only []
    repeat' first
      | exact yields_mono _ _ _ (ih _ _) (fun a h => by omega)
      | apply yields_bind
      | apply yields_ite
      | intro _

theorem yields_dissect_rtp_csrc (tvb : tvbuff_t) (tree rtp_tree : Option Nat)
    (cc offset : Nat) :
    yields (dissect_rtp_csrc tvb tree rtp_tree cc offset) (fun off => off = offset + 4 * cc) := by
  unfold dissect_rtp_csrc
  simp only []
  apply yields_ite
  · intro _
    repeat' first
      | exact yields_dissect_rtp_csrc_items _ _ _ _ _ _
      | apply yields_bind
      | apply yields_ite
      | intro _
  · intro h
    exact yields_pure _ _ (by omega)

theorem yields_dissect_rtp_hdr_ext_items (tvb : tvbuff_t) (tree c : Option Nat) :
    ∀ n offset, yields (dissect_rtp_hdr_ext_items tvb tree c n offset)
      (fun off => off = offset + 4 * n) := by
  intro n
  induction n with
  | zero => intro offset; exact yields_pure _ _ rfl
  | succ n ih =>
    intro offset
    unfold dissect_rtp_hdr_ext_items
    simp only []
    repeat' first
      | exact yields_mono _ _ _ (ih _) (fun a h => by omega)
      | apply yields_bind
      | apply yields_ite
      | intro _

theorem ntohs_at_of_ok (tvb : tvbuff_t) (offset v : Nat) (h : tvb_get_ntohs tvb offset = .ok v) :
    ntohs_at tvb offset = v := by
  simp [ntohs_at, h]

theorem ntohl_at_of_ok (tvb : tvbuff_t) (offset v : Nat) (h : tvb_get_ntohl tvb offset = .ok v) :
    ntohl_at tvb offset = v := by
  simp [ntohl_at, h]

theorem yields_dissect_rtp_hdr_extension (tvb : tvbuff_t) (tree rtp_tree : Option Nat)
    (x cc offset : Nat) :
    yields (dissect_rtp_hdr_extension tvb tree rtp_tree x cc offset)
      (fun off => off = offset + (if x ≠ 0 then 4 + 4 * ntohs_at tvb (offset + 2) else 0)) := by
  unfold dissect_rtp_hdr_extension
  simp only []
  apply yields_ite
  · intro hx
    have key : ∀ v, tvb_get_ntohs tvb (offset + 2) = .ok v →
        yields (if v > 0 then
            (if tree.isSome = true then
              (proto_tree_add_text rtp_tree tvb (offset + 2 + 2) ((cc * 4 : Nat) : Int)
                "Header extensions" >>= fun ti =>
                proto_item_add_subtree ti .ett_hdr_ext >>= fun y =>
                dissect_rtp_hdr_ext_items tvb tree y v (offset + 2 + 2))
            else (pure none >>= fun y => dissect_rtp_hdr_ext_items tvb tree y v (offset + 2 + 2)))
          else pure (offset + 2 + 2))
          (fun off => off = offset + (if x ≠ 0 then 4 + 4 * ntohs_at tvb (offset + 2) else 0)) := by
      intro v hv
      have hv2 := ntohs_at_of_ok tvb _ v hv
      apply yields_ite
      · intro _
        repeat' first
          | exact yields_mono _ _ _ (yields_dissect_rtp_hdr_ext_items _ _ _ _ _)
              (fun a h => by rw [if_pos hx, hv2]; omega)
          | apply yields_bind
          | apply yields_ite
          | intro _
      · intro h0
        refine yields_pure _ _ ?_
        rw [if_pos hx, hv2]; omega
    apply yields_ite <;>
    · intro _
      repeat' first
        | exact yields_bind_val _ _ _ _ (yields_liftE _) (fun v hv => yields_bind _ _ _ (fun _ => key v hv))
        | exact yields_bind_val _ _ _ _ (yields_liftE (tvb_get_ntohs tvb (offset + 2)))
            (fun v hv => yields_ite _ _ _ _
              (fun _ => yields_bind _ _ _ (fun _ => yields_bind _ _ _ (fun _ => key v hv)))
              (fun _ => yields_bind _ _ _ (fun _ => key v hv)))
        | apply yields_bind
        | intro _
  · intro hx
    refine yields_pure _ _ ?_
    rw [if_neg hx]; rfl

theorem yields_dissect_rtp_header (cfg : rtp_config) (tvb : tvbuff_t) (pinfo : packet_info)
    (tree : Option Nat) (o1 o2 seq ts ssrc : Nat) :
    yields (dissect_rtp_header cfg tvb pinfo tree o1 o2 seq ts ssrc)
      (fun r => r.2 = rtp_header_end tvb o1) := by
  unfold dissect_rtp_header
  refine yields_bind_val _ _ _ _ (yields_dissect_rtp_fixed_header _ _ _ _ _ _ _ _ _)
    (fun hdr h12 => ?_)
  refine yields_bind_val _ _ _ _ (yields_dissect_rtp_csrc _ _ _ _ _) (fun off1 h1 => ?_)
  refine yields_bind_val _ _ _ _ (yields_dissect_rtp_hdr_extension _ _ _ _ _ _)
    (fun off2 h2 => ?_)
  refine yields_pure _ _ ?_
  simp only [] at h12 h1 h2 ⊢
  rw [h2, h1, h12]
  unfold rtp_header_end
  rfl

/-! ## The decoder as header part followed by payload part -/

theorem bind_eq {α β : Type} (m : Dissect α) (f : α → Dissect β) :
    (m >>= f) = Dissect.bind m f := rfl

theorem bind_assoc {α β γ : Type} (m : Dissect α) (f : α → Dissect β) (g : β → Dissect γ) :
    Dissect.bind (Dissect.bind m f) g = Dissect.bind m (fun a => Dissect.bind (f a) g) := by
  funext s
  exact bind_assoc_apply m f g s

theorem pure_bind {α β : Type} (a : α) (g : α → Dissect β) :
    Dissect.bind (pure a) g = g a := rfl

theorem dissect_rtp_v2_split (cfg : rtp_config) (tvb : tvbuff_t) (pinfo : packet_info)
    (tree : Option Nat) (o1 o2 seq ts ssrc : Nat) (s : epan_state) :
    dissect_rtp_v2 cfg tvb pinfo tree o1 o2 seq ts ssrc s =
      Dissect.bind (dissect_rtp_header cfg tvb pinfo tree o1 o2 seq ts ssrc)
        (fun r => dissect_rtp_payload cfg tvb pinfo tree r.1 (RTP_PADDING o1)
          (RTP_PAYLOAD_TYPE o2) r.2)
        (dissect_rtp_columns (RTP_PAYLOAD_TYPE o2) ssrc seq ts (RTP_MARKER o2)
          (dissect_rtp_fill_info tvb (RTP_PADDING o1) (RTP_MARKER o2) (RTP_PAYLOAD_TYPE o2)
            seq ts ssrc s).2).2 := by
  unfold dissect_rtp_v2 dissect_rtp_header
  simp only []
  rw [bind_apply, bind_ok _ _ _ _ _ (dissect_rtp_fill_info_ok tvb _ _ _ _ _ _ s)]
  rw [bind_apply, bind_ok _ _ _ _ _ (dissect_rtp_columns_ok _ _ _ _ _ _)]
  simp only [bind_eq, bind_assoc, pure_bind]

/-! ## RTP: the tap record -/

theorem dissect_rtp_fill_info_record (tvb : tvbuff_t) (ps ms pt seq ts ssrc : Nat)
    (s : epan_state) :
    (dissect_rtp_fill_info tvb ps ms pt seq ts ssrc s).2.rtp_info =
      { info_padding_set := ps, info_padding_count := 0, info_marker_set := ms,
        info_payload_type := pt, info_seq_num := seq, info_timestamp := ts,
        info_sync_src := ssrc,
        info_all_data_present := decide (tvb_reported_length tvb ≤ tvb_length tvb),
        info_data_len :=
          (if tvb_reported_length tvb ≤ tvb_length tvb then tvb_reported_length tvb else 0),
        info_data := (if tvb_reported_length tvb ≤ tvb_length tvb then some tvb.data else none),
        info_payload_offset := s.rtp_info.info_payload_offset,
        info_payload_len := s.rtp_info.info_payload_len } := by
  unfold dissect_rtp_fill_info
  simp only [bind_apply, Dissect.bind, set_rtp_info_apply, tvb_length_remaining,
    tvb_reported_length_remaining, Nat.zero_le, if_true]
  by_cases h : tvb_reported_length tvb ≤ tvb_length tvb
  · have h2 : ((tvb_reported_length tvb : Int) - ((0 : Nat) : Int) ≥ 0 ∧
        (tvb_length tvb : Int) - ((0 : Nat) : Int) ≥ (tvb_reported_length tvb : Int) - ((0 : Nat) : Int)) := by
      omega
    simp [h, h2]
    rfl
  · have h2 : ¬ ((tvb_reported_length tvb : Int) - ((0 : Nat) : Int) ≥ 0 ∧
        (tvb_length tvb : Int) - ((0 : Nat) : Int) ≥ (tvb_reported_length tvb : Int) - ((0 : Nat) : Int)) := by
      omega
    simp [h, h2]
    rfl

theorem liftE_apply {α : Type} (r : Except exn α) (s : epan_state) : liftE r s = (r, s) := rfl

theorem keeps_dissect_rtp_padding_tail (cfg : rtp_config) (hsub : sub_decoders_keep cfg tap_part)
    (tvb : tvbuff_t) (pinfo : packet_info) (tree rtp_tree : Option Nat) (pt offset : Nat)
    (s : epan_state)
    (hok : (dissect_rtp_padding cfg tvb pinfo tree rtp_tree pt offset s).1 = .ok ()) :
    ∃ pc, tap_part (dissect_rtp_padding cfg tvb pinfo tree rtp_tree pt offset s).2 =
      ({ s.rtp_info with
          info_payload_offset := offset,
          info_payload_len := to_size_t cfg (tvb_length_remaining tvb offset),
          info_padding_count := pc }, s.tap_queue) := by
  unfold dissect_rtp_padding at hok ⊢
  cases hread : tvb_get_guint8 tvb ((tvb_reported_length tvb + 4294967296 - 1) % 4294967296) with
  | error e =>
    rw [bind_apply, bind_error _ _ s s e (by rw [liftE_apply, hread])] at hok
    simp at hok
  | ok pc =>
    refine ⟨pc, ?_⟩
    rw [bind_apply, bind_ok _ _ s s pc (by first | rw [liftE_apply, hread] | rw [liftE_apply])]
    simp only []
    rw [bind_apply]
    refine (keeps_bind_tail tap_part _ _ (fun _ => ?_) s).trans rfl
    repeat' first
      | exact keeps_pure _ _
      | exact keeps_dissect_rtp_data tap_part tree_blind_tap_part cfg hsub _ _ _ _ _ _ _ _
      | exact keeps_proto_tree_add_item tap_part tree_blind_tap_part _ _ _ _ _
      | apply keeps_bind
      | apply keeps_ite
      | intro _

/-- The tap record queued by the payload part of `dissect_rtp`, when it
returns and does not take the "padding, but not all data captured" exit. -/
theorem dissect_rtp_payload_tap (cfg : rtp_config) (hsub : sub_decoders_keep cfg tap_part)
    (tvb : tvbuff_t) (pinfo : packet_info) (tree rtp_tree : Option Nat) (ps pt offset : Nat)
    (s : epan_state)
    (hok : (dissect_rtp_payload cfg tvb pinfo tree rtp_tree ps pt offset s).1 = .ok ())
    (herr : pinfo.in_error_pkt = false)
    (hcap : ps ≠ 0 → tvb_reported_length tvb ≤ tvb_length tvb) :
    ∃ pc, (dissect_rtp_payload cfg tvb pinfo tree rtp_tree ps pt offset s).2.tap_queue =
        s.tap_queue ++ [{ s.rtp_info with
          info_payload_offset := offset,
          info_payload_len := to_size_t cfg (tvb_length_remaining tvb offset),
          info_padding_count := pc }] ∧
      (ps = 0 → pc = s.rtp_info.info_padding_count) := by
  unfold dissect_rtp_payload at hok ⊢
  by_cases hps : ps ≠ 0
  · have hnot : ¬ tvb_length tvb < tvb_reported_length tvb := by
      have := hcap hps
      omega
    rw [if_pos hps, if_neg hnot] at hok ⊢
    simp only [herr, Bool.not_false, if_true] at hok ⊢
    rcases hp : dissect_rtp_padding cfg tvb pinfo tree rtp_tree pt offset s with ⟨r, s2⟩
    cases r with
    | error e =>
      rw [bind_apply, bind_error _ _ _ _ _ hp] at hok
      simp at hok
    | ok u =>
      obtain ⟨pc, hpc⟩ := keeps_dissect_rtp_padding_tail cfg hsub tvb pinfo tree rtp_tree pt
        offset s (by rw [hp])
      rw [hp] at hpc
      simp only [tap_part, Prod.mk.injEq] at hpc
      refine ⟨pc, ?_, fun h => absurd h hps⟩
      rw [bind_apply, bind_ok _ _ _ _ _ hp]
      simp [tap_queue_packet, hpc.1, hpc.2]
  · have hps0 : ps = 0 := by omega
    rw [if_neg hps] at hok ⊢
    simp only [herr, Bool.not_false, if_true] at hok ⊢
    rcases hp : dissect_rtp_data cfg tvb pinfo tree rtp_tree offset (tvb_length_remaining tvb offset)
      (tvb_reported_length_remaining tvb offset) pt s with ⟨r, s2⟩
    cases r with
    | error e =>
      rw [bind_apply, bind_error _ _ _ _ _ hp] at hok
      simp at hok
    | ok u =>
      have hk := (keeps_dissect_rtp_data tap_part tree_blind_tap_part cfg hsub tvb pinfo tree
        rtp_tree offset (tvb_length_remaining tvb offset)
        (tvb_reported_length_remaining tvb offset) pt).out s
      rw [hp] at hk
      simp only [tap_part, Prod.mk.injEq] at hk
      refine ⟨s.rtp_info.info_padding_count, ?_, fun _ => rfl⟩
      rw [bind_apply, bind_ok _ _ _ _ _ hp]
      simp [Dissect.bind, set_rtp_info_apply, tap_queue_packet, hk.1, hk.2]

/-- A version-2 packet on which `dissect_rtp` returns has its whole fixed
header captured. -/
theorem dissect_rtp_ok_v2 (cfg : rtp_config) (tvb : tvbuff_t) (pinfo : packet_info)
    (tree : Option Nat) (b0 b1 : Nat) (s : epan_state)
    (h0 : tvb.data[0]? = some b0) (h1 : tvb.data[1]? = some b1)
    (hv : RTP_VERSION (b0 % 256) = 2)
    (hok : (dissect_rtp cfg tvb pinfo tree s).1 = .ok ()) :
    dissect_rtp cfg tvb pinfo tree s =
      dissect_rtp_v2 cfg tvb pinfo tree (b0 % 256) (b1 % 256) (ntohs_at tvb 2) (ntohl_at tvb 4)
        (ntohl_at tvb 8) s := by
  have e0 := tvb_get_guint8_ok _ _ _ h0
  have e1 := tvb_get_guint8_ok _ _ _ h1
  unfold dissect_rtp at hok ⊢
  simp only [bind_apply, Dissect.bind, liftE, e0, e1, hv, ne_eq, not_true_eq_false, if_false,
    Nat.zero_add] at hok ⊢
  cases h2 : tvb_get_ntohs tvb 2 with
  | error e => simp [h2] at hok
  | ok seq =>
    cases h4 : tvb_get_ntohl tvb 4 with
    | error e => simp [h2, h4] at hok
    | ok ts =>
      cases h8 : tvb_get_ntohl tvb 8 with
      | error e => simp [h2, h4, h8] at hok
      | ok ssrc =>
        simp [ntohs_at_of_ok _ _ _ h2, ntohl_at_of_ok _ _ _ h4, ntohl_at_of_ok _ _ _ h8]

/-- The tap record of a version-2 packet that `dissect_rtp` decodes to
completion outside an error packet, the "padding, but not all data captured"
exit apart: exactly one record is queued, and it is the reference record. -/
theorem dissect_rtp_tap_record (cfg : rtp_config) (tvb : tvbuff_t) (pinfo : packet_info)
    (tree : Option Nat) (b0 b1 : Nat) (s : epan_state)
    (h0 : tvb.data[0]? = some b0) (h1 : tvb.data[1]? = some b1)
    (hv : RTP_VERSION (b0 % 256) = 2)
    (hsub : sub_decoders_keep cfg tap_part)
    (hok : (dissect_rtp cfg tvb pinfo tree s).1 = .ok ())
    (herr : pinfo.in_error_pkt = false)
    (hcap : RTP_PADDING (b0 % 256) ≠ 0 → tvb_reported_length tvb ≤ tvb_length tvb) :
    ∃ pc, (dissect_rtp cfg tvb pinfo tree s).2.tap_queue =
        s.tap_queue ++ [rtp_tap_record cfg tvb (b0 % 256) (b1 % 256) pc] ∧
      (RTP_PADDING (b0 % 256) = 0 → pc = 0) := by
  have e2 := dissect_rtp_ok_v2 cfg tvb pinfo tree b0 b1 s h0 h1 hv hok
  rw [e2] at hok ⊢
  rw [dissect_rtp_v2_split] at hok ⊢
  have hfill := dissect_rtp_fill_info_record tvb (RTP_PADDING (b0 % 256)) (RTP_MARKER (b1 % 256))
    (RTP_PAYLOAD_TYPE (b1 % 256)) (ntohs_at tvb 2) (ntohl_at tvb 4) (ntohl_at tvb 8) s
  have hB : tap_part (dissect_rtp_columns (RTP_PAYLOAD_TYPE (b1 % 256)) (ntohl_at tvb 8)
      (ntohs_at tvb 2) (ntohl_at tvb 4) (RTP_MARKER (b1 % 256))
      (dissect_rtp_fill_info tvb (RTP_PADDING (b0 % 256)) (RTP_MARKER (b1 % 256))
        (RTP_PAYLOAD_TYPE (b1 % 256)) (ntohs_at tvb 2) (ntohl_at tvb 4) (ntohl_at tvb 8) s).2).2 =
      ((dissect_rtp_fill_info tvb (RTP_PADDING (b0 % 256)) (RTP_MARKER (b1 % 256))
        (RTP_PAYLOAD_TYPE (b1 % 256)) (ntohs_at tvb 2) (ntohl_at tvb 4) (ntohl_at tvb 8) s).2.rtp_info,
        s.tap_queue) := by
    rw [dissect_rtp_columns_frame, dissect_rtp_fill_info_frame]
    rfl
  generalize (dissect_rtp_columns (RTP_PAYLOAD_TYPE (b1 % 256)) (ntohl_at tvb 8)
      (ntohs_at tvb 2) (ntohl_at tvb 4) (RTP_MARKER (b1 % 256))
      (dissect_rtp_fill_info tvb (RTP_PADDING (b0 % 256)) (RTP_MARKER (b1 % 256))
        (RTP_PAYLOAD_TYPE (b1 % 256)) (ntohs_at tvb 2) (ntohl_at tvb 4) (ntohl_at tvb 8) s).2).2 = sB
    at hok hB ⊢
  have hkeep := (keeps_dissect_rtp_header tap_part tree_blind_tap_part cfg tvb pinfo tree
    (b0 % 256) (b1 % 256) (ntohs_at tvb 2) (ntohl_at tvb 4) (ntohl_at tvb 8)).out sB
  have hval := (yields_dissect_rtp_header cfg tvb pinfo tree (b0 % 256) (b1 % 256)
    (ntohs_at tvb 2) (ntohl_at tvb 4) (ntohl_at tvb 8)).out sB
  rcases hh : dissect_rtp_header cfg tvb pinfo tree (b0 % 256) (b1 % 256) (ntohs_at tvb 2)
    (ntohl_at tvb 4) (ntohl_at tvb 8) sB with ⟨r, s1⟩
  rw [hh] at hkeep hval
  cases r with
  | error e =>
    rw [bind_error _ _ _ _ _ hh] at hok
    simp at hok
  | ok hdr =>
    rw [bind_ok _ _ _ _ _ hh] at hok ⊢
    have hoff := hval hdr rfl
    simp only [] at hoff hkeep
    rw [hoff] at hok ⊢
    obtain ⟨pc, hq, hpc⟩ := dissect_rtp_payload_tap cfg hsub tvb pinfo tree hdr.1
      (RTP_PADDING (b0 % 256)) (RTP_PAYLOAD_TYPE (b1 % 256)) (rtp_header_end tvb (b0 % 256)) s1
      hok herr hcap
    have hs1 := hkeep.trans hB
    simp only [tap_part, Prod.mk.injEq] at hs1
    rw [hs1.1, hs1.2, hfill] at hq
    rw [hs1.1, hfill] at hpc
    refine ⟨pc, ?_, hpc⟩
    rw [hq]
    rfl

/-! ## RTP: decoding without a tree -/

theorem dissect_rtp_csrc_items_none (tvb : tvbuff_t) (c : Option Nat) :
    ∀ (n i offset : Nat) (s : epan_state), offset + 4 * n ≤ tvb_length tvb →
      dissect_rtp_csrc_items tvb none c n i offset s = (.ok (offset + 4 * n), s) := by
  intro n
  induction n with
  | zero => intro i offset s _; simp [dissect_rtp_csrc_items]
  | succ n ih =>
    intro i offset s h
    unfold dissect_rtp_csrc_items
    have hr := tvb_get_ntohl_ok tvb offset (by omega)
    have hi := fun s1 => ih (i + 1) (offset + 4) s1 (by omega)
    simp [Dissect.bind, liftE, hr, hi]
    omega

theorem dissect_rtp_hdr_ext_items_none (tvb : tvbuff_t) (c : Option Nat) :
    ∀ (n offset : Nat) (s : epan_state),
      dissect_rtp_hdr_ext_items tvb none c n offset s = (.ok (offset + 4 * n), s) := by
  intro n
  induction n with
  | zero => intro offset s; simp [dissect_rtp_hdr_ext_items]
  | succ n ih =>
    intro offset s
    unfold dissect_rtp_hdr_ext_items
    have hi := fun s1 => ih (offset + 4) s1
    simp [Dissect.bind, hi]
    omega

/-- Without a tree the header part only reads: the CSRC items and the two
16-bit words of the extension header. -/
theorem dissect_rtp_header_none (cfg : rtp_config) (tvb : tvbuff_t) (pinfo : packet_info)
    (o1 o2 seq ts ssrc : Nat) (s : epan_state)
    (h : 12 + 4 * RTP_CSRC_COUNT o1 ≤ tvb_length tvb)
    (hx : RTP_EXTENSION o1 ≠ 0 → 12 + 4 * RTP_CSRC_COUNT o1 + 4 ≤ tvb_length tvb) :
    dissect_rtp_header cfg tvb pinfo none o1 o2 seq ts ssrc s =
      (.ok (none, rtp_header_end tvb o1), s) := by
  unfold dissect_rtp_header dissect_rtp_fixed_header dissect_rtp_csrc dissect_rtp_hdr_extension
    rtp_header_end
  have hc := fun c s1 => dissect_rtp_csrc_items_none tvb c (RTP_CSRC_COUNT o1) 0 12 s1 h
  have he := fun c n o s1 => dissect_rtp_hdr_ext_items_none tvb c n o s1
  by_cases hxx : RTP_EXTENSION o1 ≠ 0
  · have hr := tvb_get_ntohs_ok tvb (12 + 4 * RTP_CSRC_COUNT o1 + 2) (by have := hx hxx; omega)
    by_cases hcc : RTP_CSRC_COUNT o1 > 0
    · by_cases hn : ntohs_at tvb (12 + 4 * RTP_CSRC_COUNT o1 + 2) > 0
      · simp [Dissect.bind, liftE, hc, he, hxx, hcc, hr, hn]
        omega
      · have h0 : ntohs_at tvb (12 + 4 * RTP_CSRC_COUNT o1 + 2) = 0 := by omega
        simp [Dissect.bind, liftE, hc, he, hxx, hcc, hr, h0]
    · have hcc0 : RTP_CSRC_COUNT o1 = 0 := by omega
      rw [hcc0] at hr ⊢
      by_cases hn : ntohs_at tvb (12 + 4 * 0 + 2) > 0
      · simp [Dissect.bind, liftE, he, hxx, hr, hn]
        omega
      · have h0 : ntohs_at tvb (12 + 4 * 0 + 2) = 0 := by omega
        simp [Dissect.bind, liftE, he, hxx, hr, h0]
  · have hx0 : RTP_EXTENSION o1 = 0 := by omega
    by_cases hcc : RTP_CSRC_COUNT o1 > 0
    · simp [Dissect.bind, hc, hx0, hcc]
    · have hcc0 : RTP_CSRC_COUNT o1 = 0 := by omega
      simp [Dissect.bind, hx0, hcc0]

/-- Without a tree, a version-2 packet whose header reads succeed is handed
to the payload part at the offset where the header ends. -/
theorem dissect_rtp_none_run (cfg : rtp_config) (tvb : tvbuff_t) (pinfo : packet_info)
    (b0 b1 : Nat) (s : epan_state)
    (h0 : tvb.data[0]? = some b0) (h1 : tvb.data[1]? = some b1)
    (hv : RTP_VERSION (b0 % 256) = 2)
    (h : 12 + 4 * RTP_CSRC_COUNT (b0 % 256) ≤ tvb_length tvb)
    (hx : RTP_EXTENSION (b0 % 256) ≠ 0 →
      12 + 4 * RTP_CSRC_COUNT (b0 % 256) + 4 ≤ tvb_length tvb) :
    dissect_rtp cfg tvb pinfo none s =
      dissect_rtp_payload cfg tvb pinfo none none (RTP_PADDING (b0 % 256))
        (RTP_PAYLOAD_TYPE (b1 % 256)) (rtp_header_end tvb (b0 % 256))
        (dissect_rtp_columns (RTP_PAYLOAD_TYPE (b1 % 256)) (ntohl_at tvb 8) (ntohs_at tvb 2)
          (ntohl_at tvb 4) (RTP_MARKER (b1 % 256))
          (dissect_rtp_fill_info tvb (RTP_PADDING (b0 % 256)) (RTP_MARKER (b1 % 256))
            (RTP_PAYLOAD_TYPE (b1 % 256)) (ntohs_at tvb 2) (ntohl_at tvb 4)
            (ntohl_at tvb 8) s).2).2 := by
  rw [dissect_rtp_eq_v2 cfg tvb pinfo none b0 b1 s h0 h1 hv (by omega), dissect_rtp_v2_split,
    bind_ok _ _ _ _ _ (dissect_rtp_header_none cfg tvb pinfo _ _ _ _ _ _ h hx)]

theorem tvb_new_subset_remaining (tvb : tvbuff_t) (offset : Nat) (h : offset ≤ tvb_length tvb) :
    tvb_new_subset tvb offset (tvb_length_remaining tvb offset)
        (tvb_reported_length_remaining tvb offset) =
      .ok ⟨(tvb.data.drop offset).take (tvb_length tvb - offset),
        if tvb_reported_length_remaining tvb offset = -1 then tvb_reported_length tvb - offset
        else (tvb_reported_length_remaining tvb offset).toNat⟩ := by
  unfold tvb_new_subset tvb_length_remaining
  have h1 : ¬ tvb_length tvb < offset := by omega
  have h2 : ¬ ((tvb_length tvb : Int) - offset = -1) := by omega
  have h3 : ¬ ((tvb_length tvb : Int) - offset < 0 ∨
      (tvb_length tvb : Int) < offset + ((tvb_length tvb : Int) - offset)) := by omega
  have h4 : ((tvb_length tvb : Int) - offset).toNat = tvb_length tvb - offset := by omega
  simp only [h, if_true, h1, if_false, h2, h3, h4]

theorem dissect_rtp_data_none (cfg : rtp_config) (tvb : tvbuff_t) (pinfo : packet_info)
    (offset : Nat) (l r : Int) (pt : Nat) (sub : tvbuff_t) (s : epan_state)
    (hno : cfg.rtp_pt_dissector_table pt = none)
    (hsub : tvb_new_subset tvb offset l r = .ok sub) :
    dissect_rtp_data cfg tvb pinfo none none offset l r pt s = (.ok (), s) := by
  unfold dissect_rtp_data
  simp [Dissect.bind, liftE, hsub, dissector_try_port, hno, proto_tree_add_item, proto_tree_add]

/-- Without a tree, without padding and without a decoder for the payload
type, the payload part returns and queues the tap record as soon as the
payload offset lies within the captured bytes. -/
theorem dissect_rtp_payload_none_plain (cfg : rtp_config) (tvb : tvbuff_t)
    (pinfo : packet_info) (pt offset : Nat) (s : epan_state)
    (hno : cfg.rtp_pt_dissector_table pt = none) (h : offset ≤ tvb_length tvb) :
    (dissect_rtp_payload cfg tvb pinfo none none 0 pt offset s).1 = .ok () := by
  unfold dissect_rtp_payload
  rw [if_neg (by simp), bind_apply]
  rw [bind_ok _ _ s s _ (dissect_rtp_data_none cfg tvb pinfo offset _ _ pt _ s hno
    (tvb_new_subset_remaining tvb offset h))]
  rw [bind_apply, bind_ok _ _ _ _ _ (set_rtp_info_apply _ _)]
  split_ifs <;> rfl

/-- The "padding, but not all data captured" exit without a tree: the
payload part returns at once and the state is untouched. -/
theorem dissect_rtp_payload_cut_padding (cfg : rtp_config) (tvb : tvbuff_t)
    (pinfo : packet_info) (ps pt offset : Nat) (s : epan_state) (hps : ps ≠ 0)
    (hcut : tvb_length tvb < tvb_reported_length tvb) (h : offset ≤ tvb_length tvb) :
    dissect_rtp_payload cfg tvb pinfo none none ps pt offset s = (.ok (), s) := by
  unfold dissect_rtp_payload
  rw [if_pos hps, if_pos hcut]
  have hsub : ∃ sub, tvb_new_subset tvb offset (-1) (-1) = .ok sub := by
    unfold tvb_new_subset
    have h1 : ¬ tvb_length tvb < offset := by omega
    have h3 : ¬ ((tvb_length tvb : Int) - offset < 0 ∨
        (tvb_length tvb : Int) < offset + ((tvb_length tvb : Int) - offset)) := by omega
    simp only [h1, if_false, if_true, h3]
    exact ⟨_, rfl⟩
  obtain ⟨sub, hsub⟩ := hsub
  simp [Dissect.bind, liftE, hsub, call_data_dissector, proto_tree_add]

/-! ## RTP: claims about the tap record -/

theorem sub_decoders_keep_plain {β : Type} (proj : epan_state → β) :
    sub_decoders_keep rtp_config.plain proj := by
  intro pt d h
  simp [rtp_config.plain] at h

theorem ntohs_at_bytes (tvb : tvbuff_t) (offset x y : Nat) (hx : tvb.data[offset]? = some x)
    (hy : tvb.data[offset + 1]? = some y) : ntohs_at tvb offset = x % 256 * 256 + y % 256 := by
  simp [ntohs_at, tvb_get_ntohs, hx, hy]

theorem ntohl_at_bytes (tvb : tvbuff_t) (offset x y z w : Nat) (hx : tvb.data[offset]? = some x)
    (hy : tvb.data[offset + 1]? = some y) (hz : tvb.data[offset + 2]? = some z)
    (hw : tvb.data[offset + 3]? = some w) :
    ntohl_at tvb offset = ((x % 256 * 256 + y % 256) * 256 + z % 256) * 256 + w % 256 := by
  simp [ntohl_at, tvb_get_ntohl, hx, hy, hz, hw]

/-- Without a tree and without a decoder for the payload type, `dissect_rtp`
returns on every version-2 packet without padding whose header is captured. -/
theorem dissect_rtp_none_ok (cfg : rtp_config) (tvb : tvbuff_t) (pinfo : packet_info)
    (b0 b1 : Nat) (s : epan_state)
    (h0 : tvb.data[0]? = some b0) (h1 : tvb.data[1]? = some b1)
    (hv : RTP_VERSION (b0 % 256) = 2) (hps : RTP_PADDING (b0 % 256) = 0)
    (hno : cfg.rtp_pt_dissector_table (RTP_PAYLOAD_TYPE (b1 % 256)) = none)
    (h : rtp_header_end tvb (b0 % 256) ≤ tvb_length tvb) :
    (dissect_rtp cfg tvb pinfo none s).1 = .ok () := by
  have hh : 12 + 4 * RTP_CSRC_COUNT (b0 % 256) ≤ tvb_length tvb := by
    unfold rtp_header_end at h; omega
  have hx : RTP_EXTENSION (b0 % 256) ≠ 0 →
      12 + 4 * RTP_CSRC_COUNT (b0 % 256) + 4 ≤ tvb_length tvb := by
    intro hx
    unfold rtp_header_end at h
    rw [if_pos hx] at h
    omega
  rw [dissect_rtp_none_run cfg tvb pinfo b0 b1 s h0 h1 hv hh hx, hps]
  exact dissect_rtp_payload_none_plain cfg tvb pinfo _ _ _ hno h

/-- C14 fails as stated: a version-2 packet with the padding bit set of which
only 13 of 20 reported bytes were captured is decoded to completion outside
an error packet (`dissect_rtp` returns normally through the "padding, but not
all the frame data was captured" exit), and no tap record is queued. -/
theorem rtp_cut_padding_no_tap_record :
    RTP_VERSION (0xA0 % 256) = 2 ∧ RTP_PADDING (0xA0 % 256) ≠ 0 ∧
      tvb_length rtp_cut_padding_tvb < tvb_reported_length rtp_cut_padding_tvb ∧
      (rtp_pinfo 1).in_error_pkt = false ∧
      (dissect_rtp rtp_config.plain rtp_cut_padding_tvb (rtp_pinfo 1) none epan_state.init).1 =
        .ok () ∧
      (dissect_rtp rtp_config.plain rtp_cut_padding_tvb (rtp_pinfo 1) none
        epan_state.init).2.tap_queue = [] := by
  have hx : ¬ RTP_EXTENSION (0xA0 % 256) ≠ 0 := by decide
  rw [dissect_rtp_none_run rtp_config.plain rtp_cut_padding_tvb (rtp_pinfo 1) 0xA0 0
    epan_state.init rfl rfl (by decide) (by decide) (fun h => absurd h hx)]
  rw [dissect_rtp_payload_cut_padding _ _ _ _ _ _ _ (by decide) (by decide) (by decide)]
  refine ⟨by decide, by decide, by decide, rfl, rfl, ?_⟩
  rw [(rtp_prologue_tree _ _ _ _ _ _ _ _).2]
  rfl

/-- C14, amended.  For every version-2 buffer that `dissect_rtp` decodes to
completion outside an error packet, the "padding, but not all the frame data
was captured" exit apart (padding bit set on a buffer with fewer captured
than reported bytes), and with payload decoders that leave the `rtp_info`
record and the tap queue alone: exactly one tap record is queued; its
sequence number is the big-endian 16-bit value at bytes 2-3, its timestamp
and SSRC the big-endian 32-bit values at bytes 4-7 and 8-11, its payload type
`byte1 & 0x7F`, its marker is set iff `byte1 & 0x80` is non-zero, and its
payload offset is `12 + 4*CC + (X ? 4 + 4*ext_len : 0)` with `CC = byte0 &
0x0F`, `X = byte0 & 0x10` and `ext_len` the 16-bit extension length field. -/
theorem rtp_tap_record_contents (cfg : rtp_config) (tvb : tvbuff_t) (pinfo : packet_info)
    (tree : Option Nat) (b0 b1 : Nat) (s : epan_state)
    (h0 : tvb.data[0]? = some b0) (h1 : tvb.data[1]? = some b1)
    (hv : RTP_VERSION (b0 % 256) = 2)
    (hsub : sub_decoders_keep cfg tap_part)
    (hok : (dissect_rtp cfg tvb pinfo tree s).1 = .ok ())
    (herr : pinfo.in_error_pkt = false)
    (hcap : RTP_PADDING (b0 % 256) ≠ 0 → tvb_reported_length tvb ≤ tvb_length tvb) :
    ∃ r, (dissect_rtp cfg tvb pinfo tree s).2.tap_queue = s.tap_queue ++ [r] ∧
      r.info_seq_num = ntohs_at tvb 2 ∧
      (∀ x y, tvb.data[2]? = some x → tvb.data[3]? = some y →
        r.info_seq_num = x % 256 * 256 + y % 256) ∧
      r.info_timestamp = ntohl_at tvb 4 ∧
      (∀ x y z w, tvb.data[4]? = some x → tvb.data[5]? = some y → tvb.data[6]? = some z →
        tvb.data[7]? = some w →
        r.info_timestamp = ((x % 256 * 256 + y % 256) * 256 + z % 256) * 256 + w % 256) ∧
      r.info_sync_src = ntohl_at tvb 8 ∧
      (∀ x y z w, tvb.data[8]? = some x → tvb.data[9]? = some y → tvb.data[10]? = some z →
        tvb.data[11]? = some w →
        r.info_sync_src = ((x % 256 * 256 + y % 256) * 256 + z % 256) * 256 + w % 256) ∧
      r.info_payload_type = (b1 % 256) &&& 0x7F ∧
      (r.info_marker_set ≠ 0 ↔ (b1 % 256) &&& 0x80 ≠ 0) ∧
      r.info_payload_offset = 12 + 4 * ((b0 % 256) &&& 0x0F) +
        (if (b0 % 256) &&& 0x10 ≠ 0 then
          4 + 4 * ntohs_at tvb (12 + 4 * ((b0 % 256) &&& 0x0F) + 2)
        else 0) := by
  obtain ⟨pc, hq, _⟩ := dissect_rtp_tap_record cfg tvb pinfo tree b0 b1 s h0 h1 hv hsub hok herr
    hcap
  refine ⟨_, hq, rfl, ?_, rfl, ?_, rfl, ?_, rfl, Iff.rfl, rfl⟩
  · intro x y hx hy
    exact ntohs_at_bytes tvb 2 x y hx hy
  · intro x y z w hx hy hz hw
    exact ntohl_at_bytes tvb 4 x y z w hx hy hz hw
  · intro x y z w hx hy hz hw
    exact ntohl_at_bytes tvb 8 x y z w hx hy hz hw

/-- C14 (amended) at a concrete input: the fully captured 16-byte packet
with sequence number 5, timestamp 900, SSRC 1234 and payload type 0, decoded
without a tree and with no payload decoder registered. -/
theorem rtp_tap_record_contents_witness :
    ∃ r, (dissect_rtp rtp_config.plain rtp_plain_tvb (rtp_pinfo 8) none
          epan_state.init).2.tap_queue = epan_state.init.tap_queue ++ [r] ∧
      r.info_seq_num = ntohs_at rtp_plain_tvb 2 ∧
      (∀ x y, rtp_plain_tvb.data[2]? = some x → rtp_plain_tvb.data[3]? = some y →
        r.info_seq_num = x % 256 * 256 + y % 256) ∧
      r.info_timestamp = ntohl_at rtp_plain_tvb 4 ∧
      (∀ x y z w, rtp_plain_tvb.data[4]? = some x → rtp_plain_tvb.data[5]? = some y →
        rtp_plain_tvb.data[6]? = some z → rtp_plain_tvb.data[7]? = some w →
        r.info_timestamp = ((x % 256 * 256 + y % 256) * 256 + z % 256) * 256 + w % 256) ∧
      r.info_sync_src = ntohl_at rtp_plain_tvb 8 ∧
      (∀ x y z w, rtp_plain_tvb.data[8]? = some x → rtp_plain_tvb.data[9]? = some y →
        rtp_plain_tvb.data[10]? = some z → rtp_plain_tvb.data[11]? = some w →
        r.info_sync_src = ((x % 256 * 256 + y % 256) * 256 + z % 256) * 256 + w % 256) ∧
      r.info_payload_type = (0 % 256) &&& 0x7F ∧
      (r.info_marker_set ≠ 0 ↔ (0 % 256) &&& 0x80 ≠ 0) ∧
      r.info_payload_offset = 12 + 4 * ((0x80 % 256) &&& 0x0F) +
        (if (0x80 % 256) &&& 0x10 ≠ 0 then
          4 + 4 * ntohs_at rtp_plain_tvb (12 + 4 * ((0x80 % 256) &&& 0x0F) + 2)
        else 0) :=
  rtp_tap_record_contents rtp_config.plain rtp_plain_tvb (rtp_pinfo 8) none 0x80 0
    epan_state.init rfl rfl (by decide) (sub_decoders_keep_plain tap_part)
    (dissect_rtp_none_ok rtp_config.plain rtp_plain_tvb (rtp_pinfo 8) 0x80 0 epan_state.init
      rfl rfl (by decide) (by decide) rfl (by decide))
    rfl (fun h => absurd h (by decide))

/-- C15. All-data-present flag.  In the tap record `dissect_rtp` queues (a
version-2 buffer decoded to completion outside an error packet, payload
decoders leaving the `rtp_info` record and the tap queue alone),
`info_all_data_present` is true exactly when the captured length is at least
the reported length; when it is true `info_data_len` is the reported length
and the raw data is exposed, and when it is false `info_data_len` is 0 and no
raw data is exposed. -/
theorem rtp_tap_all_data_present (cfg : rtp_config) (tvb : tvbuff_t) (pinfo : packet_info)
    (tree : Option Nat) (b0 b1 : Nat) (s : epan_state)
    (h0 : tvb.data[0]? = some b0) (h1 : tvb.data[1]? = some b1)
    (hv : RTP_VERSION (b0 % 256) = 2)
    (hsub : sub_decoders_keep cfg tap_part)
    (hok : (dissect_rtp cfg tvb pinfo tree s).1 = .ok ())
    (herr : pinfo.in_error_pkt = false)
    (hcap : RTP_PADDING (b0 % 256) ≠ 0 → tvb_reported_length tvb ≤ tvb_length tvb) :
    ∃ r, (dissect_rtp cfg tvb pinfo tree s).2.tap_queue = s.tap_queue ++ [r] ∧
      (r.info_all_data_present = true ↔ tvb_reported_length tvb ≤ tvb_length tvb) ∧
      (r.info_all_data_present = true →
        r.info_data_len = (tvb_reported_length tvb : Int) ∧ r.info_data = some tvb.data) ∧
      (r.info_all_data_present = false → r.info_data_len = 0 ∧ r.info_data = none) := by
  obtain ⟨pc, hq, _⟩ := dissect_rtp_tap_record cfg tvb pinfo tree b0 b1 s h0 h1 hv hsub hok herr
    hcap
  refine ⟨_, hq, ?_, ?_, ?_⟩
  · simp [rtp_tap_record]
  · intro h
    have h2 : tvb_reported_length tvb ≤ tvb_length tvb := by simpa [rtp_tap_record] using h
    simp [rtp_tap_record, h2]
  · intro h
    have h2 : ¬ tvb_reported_length tvb ≤ tvb_length tvb := by simpa [rtp_tap_record] using h
    simp [rtp_tap_record, h2]

/-- C15 at a concrete input: a packet without padding of which 13 of 20
reported bytes were captured, decoded without a tree. -/
theorem rtp_tap_all_data_present_witness :
    ∃ r, (dissect_rtp rtp_config.plain rtp_cut_tvb (rtp_pinfo 8) none
          epan_state.init).2.tap_queue = epan_state.init.tap_queue ++ [r] ∧
      (r.info_all_data_present = true ↔
        tvb_reported_length rtp_cut_tvb ≤ tvb_length rtp_cut_tvb) ∧
      (r.info_all_data_present = true →
        r.info_data_len = (tvb_reported_length rtp_cut_tvb : Int) ∧
          r.info_data = some rtp_cut_tvb.data) ∧
      (r.info_all_data_present = false → r.info_data_len = 0 ∧ r.info_data = none) :=
  rtp_tap_all_data_present rtp_config.plain rtp_cut_tvb (rtp_pinfo 8) none 0x80 0
    epan_state.init rfl rfl (by decide) (sub_decoders_keep_plain tap_part)
    (dissect_rtp_none_ok rtp_config.plain rtp_cut_tvb (rtp_pinfo 8) 0x80 0 epan_state.init
      rfl rfl (by decide) (by decide) rfl (by decide))
    rfl (fun h => absurd h (by decide))

/-! ## RTP: the info column -/

theorem keeps_set_rtp_info_col (f : rtp_info_t → rtp_info_t) :
    keeps column_part (set_rtp_info f) := ⟨fun _ => rfl⟩

theorem keeps_tap_queue_packet_col : keeps column_part tap_queue_packet := ⟨fun _ => rfl⟩

theorem keeps_call_data_dissector {β : Type} (proj : epan_state → β) (hb : tree_blind proj)
    (tvb : tvbuff_t) (tree : Option Nat) : keeps proj (call_data_dissector tvb tree) := by
  unfold call_data_dissector
  refine keeps_bind _ _ _ (keeps_proto_tree_add proj hb _ _ _ _ _ _) (fun _ => ?_)
  exact keeps_pure _ _

theorem keeps_dissect_rtp_padding_col (cfg : rtp_config)
    (hsub : sub_decoders_keep cfg column_part) (tvb : tvbuff_t) (pinfo : packet_info)
    (tree rtp_tree : Option Nat) (pt offset : Nat) :
    keeps column_part (dissect_rtp_padding cfg tvb pinfo tree rtp_tree pt offset) := by
  unfold dissect_rtp_padding
  simp only []
  repeat' first
    | exact keeps_pure _ _
    | exact keeps_liftE _ _
    | exact keeps_set_rtp_info_col _
    | exact keeps_dissect_rtp_data column_part tree_blind_column_part cfg hsub _ _ _ _ _ _ _ _
    | exact keeps_proto_tree_add_item column_part tree_blind_column_part _ _ _ _ _
    | apply keeps_bind
    | apply keeps_ite
    | intro _

theorem keeps_dissect_rtp_payload_col (cfg : rtp_config)
    (hsub : sub_decoders_keep cfg column_part) (tvb : tvbuff_t) (pinfo : packet_info)
    (tree rtp_tree : Option Nat) (ps pt offset : Nat) :
    keeps column_part (dissect_rtp_payload cfg tvb pinfo tree rtp_tree ps pt offset) := by
  unfold dissect_rtp_payload
  simp only []
  repeat' first
    | exact keeps_pure _ _
    | exact keeps_liftE _ _
    | exact keeps_set_rtp_info_col _
    | exact keeps_tap_queue_packet_col
    | exact keeps_dissect_rtp_padding_col cfg hsub _ _ _ _ _ _
    | exact keeps_dissect_rtp_data column_part tree_blind_column_part cfg hsub _ _ _ _ _ _ _ _
    | exact keeps_call_data_dissector column_part tree_blind_column_part _ _
    | exact keeps_proto_tree_add_text column_part tree_blind_column_part _ _ _ _ _
    | apply keeps_bind
    | apply keeps_ite
    | intro _

theorem val_to_str_mem (vs : List (Nat × String)) (hnd : (vs.map Prod.fst).Nodup) (v : Nat)
    (l : String) (h : (v, l) ∈ vs) : val_to_str v vs = l := by
  unfold val_to_str
  induction vs with
  | nil => simp at h
  | cons x xs ih =>
    simp only [List.map_cons, List.nodup_cons] at hnd
    rcases List.mem_cons.mp h with rfl | h
    · simp
    · have hne : x.1 ≠ v := by
        intro he
        apply hnd.1
        rw [he]
        exact List.mem_map.mpr ⟨(v, l), h, rfl⟩
      simp only [List.find?_cons, hne, decide_False]
      exact ih hnd.2 h

theorem val_to_str_not_mem (vs : List (Nat × String)) (v : Nat) (h : ∀ l, (v, l) ∉ vs) :
    val_to_str v vs = "Unknown (" ++ toString v ++ ")" := by
  unfold val_to_str
  have : vs.find? (fun e => decide (e.1 = v)) = none := by
    rw [List.find?_eq_none]
    intro e he hv
    simp only [decide_eq_true_eq] at hv
    apply h e.2
    rw [← hv]
    exact he
  simp only [this]

theorem rtp_payload_type_vals_nodup : (rtp_payload_type_vals.map Prod.fst).Nodup := by decide

/-- The columns right after `dissect_rtp_columns`, when columns are
requested. -/
theorem dissect_rtp_columns_cinfo (pt ssrc seq ts ms : Nat) (c : column_info) (s : epan_state)
    (hcol : s.cinfo = some c) :
    (dissect_rtp_columns pt ssrc seq ts ms s).2.cinfo =
      some ⟨"RTP", "Payload type=" ++ val_to_str pt rtp_payload_type_vals ++
        ", SSRC=" ++ toString ssrc ++ ", Seq=" ++ toString seq ++
        ", Time=" ++ toString ts ++ (if ms ≠ 0 then ", Mark" else "")⟩ := by
  unfold dissect_rtp_columns
  simp [check_col, hcol, Dissect.bind, col_set_protocol, col_set_info]

/-- C16. RTP info-column text.  On a version-2 buffer whose 12-byte fixed
header is captured, with summary columns requested and payload decoders that
leave the columns alone, `dissect_rtp` leaves the protocol column at "RTP"
and the info column at "Payload type=<label>, SSRC=<ssrc>, Seq=<seq>,
Time=<timestamp>", the numbers in decimal, followed by ", Mark" iff the
marker bit is set; this holds whether the decoder then returns or stops with
a condition.  The label is the `rtp_payload_type_vals` entry of the payload
type, or "Unknown (<pt>)" when there is none. -/
theorem rtp_info_column_text (cfg : rtp_config) (tvb : tvbuff_t) (pinfo : packet_info)
    (tree : Option Nat) (b0 b1 : Nat) (c : column_info) (s : epan_state)
    (h0 : tvb.data[0]? = some b0) (h1 : tvb.data[1]? = some b1)
    (hv : RTP_VERSION (b0 % 256) = 2) (h12 : 12 ≤ tvb_length tvb)
    (hcol : s.cinfo = some c)
    (hsub : sub_decoders_keep cfg column_part) :
    (dissect_rtp cfg tvb pinfo tree s).2.cinfo =
        some ⟨"RTP", "Payload type=" ++ val_to_str ((b1 % 256) &&& 0x7F) rtp_payload_type_vals ++
          ", SSRC=" ++ toString (ntohl_at tvb 8) ++ ", Seq=" ++ toString (ntohs_at tvb 2) ++
          ", Time=" ++ toString (ntohl_at tvb 4) ++
          (if (b1 % 256) &&& 0x80 ≠ 0 then ", Mark" else "")⟩ ∧
      (∀ l, ((b1 % 256) &&& 0x7F, l) ∈ rtp_payload_type_vals →
        val_to_str ((b1 % 256) &&& 0x7F) rtp_payload_type_vals = l) ∧
      ((∀ l, ((b1 % 256) &&& 0x7F, l) ∉ rtp_payload_type_vals) →
        val_to_str ((b1 % 256) &&& 0x7F) rtp_payload_type_vals =
          "Unknown (" ++ toString ((b1 % 256) &&& 0x7F) ++ ")") := by
  refine ⟨?_, fun l h => val_to_str_mem _ rtp_payload_type_vals_nodup _ l h,
    fun h => val_to_str_not_mem _ _ h⟩
  rw [dissect_rtp_eq_v2 cfg tvb pinfo tree b0 b1 s h0 h1 hv h12, dissect_rtp_v2_split]
  have hk : keeps column_part
      (dissect_rtp_header cfg tvb pinfo tree (b0 % 256) (b1 % 256) (ntohs_at tvb 2)
          (ntohl_at tvb 4) (ntohl_at tvb 8) >>=
        fun r => dissect_rtp_payload cfg tvb pinfo tree r.1 (RTP_PADDING (b0 % 256))
          (RTP_PAYLOAD_TYPE (b1 % 256)) r.2) :=
    keeps_bind _ _ _ (keeps_dissect_rtp_header column_part tree_blind_column_part _ _ _ _ _ _ _ _ _)
      (fun r => keeps_dissect_rtp_payload_col cfg hsub _ _ _ _ _ _ _)
  have h := hk.out (dissect_rtp_columns (RTP_PAYLOAD_TYPE (b1 % 256)) (ntohl_at tvb 8)
    (ntohs_at tvb 2) (ntohl_at tvb 4) (RTP_MARKER (b1 % 256))
    (dissect_rtp_fill_info tvb (RTP_PADDING (b0 % 256)) (RTP_MARKER (b1 % 256))
      (RTP_PAYLOAD_TYPE (b1 % 256)) (ntohs_at tvb 2) (ntohl_at tvb 4) (ntohl_at tvb 8) s).2).2
  simp only [column_part, bind_apply] at h
  rw [h]
  have hc : (dissect_rtp_fill_info tvb (RTP_PADDING (b0 % 256)) (RTP_MARKER (b1 % 256))
      (RTP_PAYLOAD_TYPE (b1 % 256)) (ntohs_at tvb 2) (ntohl_at tvb 4) (ntohl_at tvb 8) s).2.cinfo =
      some c := by
    rw [dissect_rtp_fill_info_frame]
    exact hcol
  exact dissect_rtp_columns_cinfo _ _ _ _ _ c _ hc

/-- C16 at the example of the specification: payload type 0, SSRC 1234,
sequence number 5, timestamp 900, marker clear. -/
theorem rtp_info_column_text_witness :
    (dissect_rtp rtp_config.plain rtp_plain_tvb (rtp_pinfo 8) none epan_state.init).2.cinfo =
      some ⟨"RTP", "Payload type=ITU-T G.711 PCMU, SSRC=1234, Seq=5, Time=900"⟩ :=
  (rtp_info_column_text rtp_config.plain rtp_plain_tvb (rtp_pinfo 8) none 0x80 0 ⟨"", ""⟩
    epan_state.init rfl rfl (by decide) (by decide) rfl
    (sub_decoders_keep_plain column_part)).1.trans (by decide)

/-! ## RTP: the payload sub-view -/

/-- The request of `rtp_payload_request` is the one the payload part hands
to `dissect_rtp_data`: when the buffer refuses it, the payload part stops
with that condition. -/
theorem dissect_rtp_payload_request_refused (cfg : rtp_config) (tvb : tvbuff_t)
    (pinfo : packet_info) (tree rtp_tree : Option Nat) (ps pt offset o : Nat) (l r : Int)
    (e : exn) (s : epan_state)
    (hreq : rtp_payload_request tvb ps offset = some (o, l, r))
    (href : tvb_new_subset tvb o l r = .error e) :
    (dissect_rtp_payload cfg tvb pinfo tree rtp_tree ps pt offset s).1 = .error e := by
  have hdata : ∀ s1, dissect_rtp_data cfg tvb pinfo tree rtp_tree o l r pt s1 = (.error e, s1) := by
    intro s1
    unfold dissect_rtp_data
    rw [bind_apply, bind_error _ _ s1 s1 e (by rw [liftE_apply, href])]
  unfold rtp_payload_request at hreq
  unfold dissect_rtp_payload
  by_cases hps : ps ≠ 0
  · rw [if_pos hps] at hreq ⊢
    by_cases hcut : tvb_length tvb < tvb_reported_length tvb
    · rw [if_pos hcut] at hreq
      cases hreq
    · rw [if_neg hcut] at hreq ⊢
      cases hread : tvb_get_guint8 tvb
        ((tvb_reported_length tvb + 4294967296 - 1) % 4294967296) with
      | error e2 => rw [hread] at hreq; cases hreq
      | ok pc =>
        rw [hread] at hreq
        simp only [] at hreq
        by_cases hd : tvb_reported_length_remaining tvb offset - (pc : Int) > 0
        · rw [if_pos hd] at hreq
          simp only [Option.some.injEq, Prod.mk.injEq] at hreq
          obtain ⟨rfl, rfl, rfl⟩ := hreq
          unfold dissect_rtp_padding
          simp only [bind_apply, Dissect.bind, liftE_apply, hread, set_rtp_info_apply, hd, if_true,
            hdata]
        · rw [if_neg hd] at hreq
          cases hreq
  · rw [if_neg hps] at hreq ⊢
    simp only [Option.some.injEq, Prod.mk.injEq] at hreq
    obtain ⟨rfl, rfl, rfl⟩ := hreq
    rw [bind_apply, bind_error _ _ _ _ _ (hdata s)]

/-- C19 fails as stated: on a fully captured 16-byte buffer (captured length
16, reported length 16) whose extension header announces 100 extension words,
`dissect_rtp` without a tree skips the announced words without reading them
and hands `dissect_rtp_data` the request offset 416, length -1, reported
length -1: the offset lies outside the parent's reported range, the buffer
refuses the request, and the decoder stops with the bounds condition. -/
theorem rtp_payload_request_out_of_range :
    tvb_length rtp_ext_overrun_tvb ≤ tvb_reported_length rtp_ext_overrun_tvb ∧
      RTP_VERSION (0x90 % 256) = 2 ∧
      rtp_header_end rtp_ext_overrun_tvb (0x90 % 256) = 416 ∧
      rtp_payload_request rtp_ext_overrun_tvb (RTP_PADDING (0x90 % 256)) 416 =
        some (416, -1, -1) ∧
      ¬ (416 ≤ tvb_reported_length rtp_ext_overrun_tvb) ∧
      tvb_new_subset rtp_ext_overrun_tvb 416 (-1) (-1) = .error .OutOfBounds ∧
      (dissect_rtp rtp_config.plain rtp_ext_overrun_tvb (rtp_pinfo 1) none epan_state.init).1 =
        .error .OutOfBounds := by
  have hend : rtp_header_end rtp_ext_overrun_tvb (0x90 % 256) = 416 := by decide
  have hreq : rtp_payload_request rtp_ext_overrun_tvb (RTP_PADDING (0x90 % 256)) 416 =
      some (416, -1, -1) := by decide
  have href : tvb_new_subset rtp_ext_overrun_tvb 416 (-1) (-1) = .error .OutOfBounds := by
    simp [tvb_new_subset, tvb_length, rtp_ext_overrun_tvb]
  refine ⟨by decide, by decide, hend, hreq, by decide, href, ?_⟩
  rw [dissect_rtp_none_run rtp_config.plain rtp_ext_overrun_tvb (rtp_pinfo 1) 0x90 0
    epan_state.init rfl rfl (by decide) (by decide) (fun _ => by decide), hend]
  exact dissect_rtp_payload_request_refused _ _ _ _ _ _ _ _ _ _ _ _ _ hreq href

/-- A payload sub-view request made at an offset within the captured bytes of
a buffer with captured length <= reported length is in range and is granted. -/
theorem rtp_payload_request_valid (tvb : tvbuff_t) (ps offset o : Nat) (l r : Int)
    (hinv : tvb_length tvb ≤ tvb_reported_length tvb)
    (hoff : offset ≤ tvb_length tvb)
    (hreq : rtp_payload_request tvb ps offset = some (o, l, r)) :
    o = offset ∧ 0 ≤ l ∧ l ≤ r ∧ (o : Int) + l ≤ tvb_length tvb ∧
      (o : Int) + r ≤ tvb_reported_length tvb ∧
      ∃ sub, tvb_new_subset tvb o l r = .ok sub ∧ (tvb_length sub : Int) = l ∧
        (tvb_reported_length sub : Int) = r ∧ tvb_length sub ≤ tvb_reported_length sub := by
  have hrem : tvb_reported_length_remaining tvb offset = (tvb_reported_length tvb : Int) - offset := by
    unfold tvb_reported_length_remaining
    rw [if_pos (by omega)]
  have hlen : tvb_length_remaining tvb offset = (tvb_length tvb : Int) - offset := by
    unfold tvb_length_remaining
    rw [if_pos hoff]
  have key : ∀ (l r : Int), 0 ≤ l → l ≤ r → (offset : Int) + l ≤ tvb_length tvb →
      (offset : Int) + r ≤ tvb_reported_length tvb →
      ∃ sub, tvb_new_subset tvb offset l r = .ok sub ∧ (tvb_length sub : Int) = l ∧
        (tvb_reported_length sub : Int) = r ∧ tvb_length sub ≤ tvb_reported_length sub := by
    intro l r h0 hlr hl hr
    unfold tvb_new_subset
    have h1 : ¬ tvb_length tvb < offset := by omega
    have h2 : ¬ (l = -1) := by omega
    have h3 : ¬ (l < 0 ∨ (tvb_length tvb : Int) < offset + l) := by omega
    have h4 : ¬ (r = -1) := by omega
    simp only [h1, if_false, h2, h3, h4]
    refine ⟨_, rfl, ?_, ?_, ?_⟩
    · simp only [tvb_length, List.length_take, List.length_drop] at hl ⊢
      omega
    · simp only [tvb_reported_length]
      omega
    · simp only [tvb_length, tvb_reported_length, List.length_take, List.length_drop] at hl ⊢
      omega
  unfold rtp_payload_request at hreq
  by_cases hps : ps ≠ 0
  · rw [if_pos hps] at hreq
    by_cases hcut : tvb_length tvb < tvb_reported_length tvb
    · rw [if_pos hcut] at hreq
      cases hreq
    · rw [if_neg hcut] at hreq
      cases hread : tvb_get_guint8 tvb
        ((tvb_reported_length tvb + 4294967296 - 1) % 4294967296) with
      | error e2 => rw [hread] at hreq; cases hreq
      | ok pc =>
        rw [hread] at hreq
        simp only [] at hreq
        by_cases hd : tvb_reported_length_remaining tvb offset - (pc : Int) > 0
        · rw [if_pos hd] at hreq
          simp only [Option.some.injEq, Prod.mk.injEq] at hreq
          obtain ⟨rfl, rfl, rfl⟩ := hreq
          rw [hrem] at hd ⊢
          exact ⟨rfl, by omega, le_refl _, by omega, by omega,
            key _ _ (by omega) (le_refl _) (by omega) (by omega)⟩
        · rw [if_neg hd] at hreq
          cases hreq
  · rw [if_neg hps] at hreq
    simp only [Option.some.injEq, Prod.mk.injEq] at hreq
    obtain ⟨rfl, rfl, rfl⟩ := hreq
    rw [hrem, hlen]
    exact ⟨rfl, by omega, by omega, by omega, by omega,
      key _ _ (by omega) (by omega) (by omega) (by omega)⟩

/-! ## RTP: with a tree requested the payload offset lies within the captured bytes -/

theorem yields_proto_tree_add_range (p : Nat) (hf : hf_id) (tvb : tvbuff_t) (start : Nat)
    (length : Int) (v : fvalue_t) (hl : 0 ≤ length) :
    yields (proto_tree_add (some p) hf tvb start length v)
      (fun _ => (start : Int) + length ≤ tvb_length tvb) := by
  refine ⟨fun s a ha => ?_⟩
  unfold proto_tree_add at ha
  have h1 : ¬ (length = -1) := by omega
  simp only [h1, if_false] at ha
  by_cases h : 0 ≤ length ∧ (start : Int) + length ≤ tvb_length tvb
  · exact h.2
  · rw [if_neg h] at ha
    simp [add_truncated_node] at ha

theorem tvb_get_ntohl_ok_le (tvb : tvbuff_t) (offset v : Nat)
    (h : tvb_get_ntohl tvb offset = .ok v) : offset + 4 ≤ tvb_length tvb := by
  unfold tvb_get_ntohl at h
  unfold tvb_length
  by_contra hc
  have : tvb.data[offset + 3]? = none := List.getElem?_eq_none (by omega)
  rw [this] at h
  split at h <;> simp_all

theorem tvb_get_ntohs_ok_le (tvb : tvbuff_t) (offset v : Nat)
    (h : tvb_get_ntohs tvb offset = .ok v) : offset + 2 ≤ tvb_length tvb := by
  unfold tvb_get_ntohs at h
  unfold tvb_length
  by_contra hc
  have : tvb.data[offset + 1]? = none := List.getElem?_eq_none (by omega)
  rw [this] at h
  split at h <;> simp_all

theorem yields_and {α : Type} (m : Dissect α) (P Q : α → Prop) (hp : yields m P)
    (hq : yields m Q) : yields m (fun a => P a ∧ Q a) :=
  ⟨fun s a ha => ⟨hp.out s a ha, hq.out s a ha⟩⟩

theorem yields_proto_tree_add_some (p : Nat) (hf : hf_id) (tvb : tvbuff_t) (start : Nat)
    (length : Int) (v : fvalue_t) :
    yields (proto_tree_add (some p) hf tvb start length v) (fun ti => ∃ i, ti = some i) := by
  refine ⟨fun s a ha => ?_⟩
  unfold proto_tree_add at ha
  simp only [] at ha
  split_ifs at ha <;> simp [add_node, add_truncated_node] at ha <;> exact ⟨_, ha.symm⟩

theorem yields_proto_item_add_subtree_some (i : Nat) (ett : ett_id) :
    yields (proto_item_add_subtree (some i) ett) (fun t => t = some i) := by
  refine ⟨fun s a ha => ?_⟩
  simp [proto_item_add_subtree] at ha
  exact ha.symm

theorem yields_dissect_rtp_fixed_header_le (cfg : rtp_config) (tvb : tvbuff_t)
    (pinfo : packet_info) (p o1 o2 seq ts ssrc : Nat) :
    yields (dissect_rtp_fixed_header cfg tvb pinfo (some p) o1 o2 seq ts ssrc)
      (fun _ => 12 ≤ tvb_length tvb) := by
  unfold dissect_rtp_fixed_header
  simp only [Option.isSome_some, if_true]
  refine yields_bind_val _ _ _ _ (yields_proto_tree_add_some p _ tvb _ _ _) (fun ti hti => ?_)
  obtain ⟨i, rfl⟩ := hti
  refine yields_bind_val _ _ _ _ (yields_proto_item_add_subtree_some i _) (fun rt hrt => ?_)
  subst hrt
  apply yields_ite <;>
  · intro _
    iterate 9 (refine yields_bind _ _ _ (fun _ => ?_))
    refine yields_bind_val _ _ _ _ (yields_proto_tree_add_range i _ tvb _ 4 _ (by omega))
      (fun _ h => ?_)
    exact yields_pure _ _ (by omega)

theorem yields_dissect_rtp_csrc_items_le (tvb : tvbuff_t) (tree c : Option Nat) :
    ∀ n i offset, yields (dissect_rtp_csrc_items tvb tree c n i offset)
      (fun off => n > 0 → off ≤ tvb_length tvb) := by
  intro n
  induction n with
  | zero => intro i offset; exact yields_pure _ _ (by omega)
  | succ n ih =>
    intro i offset
    unfold dissect_rtp_csrc_items
    simp only []
    refine yields_bind_val _ _ _ _ (yields_liftE _) (fun v hv => ?_)
    have hle := tvb_get_ntohl_ok_le tvb offset v hv
    have hrest : yields (dissect_rtp_csrc_items tvb tree c n (i + 1) (offset + 4))
        (fun off => n + 1 > 0 → off ≤ tvb_length tvb) := by
      refine yields_mono _ _ _ (yields_and _ _ _ (ih (i + 1) (offset + 4))
        (yields_dissect_rtp_csrc_items tvb tree c n (i + 1) (offset + 4))) (fun a h _ => ?_)
      by_cases hn : n > 0
      · exact h.1 hn
      · have := h.2
        omega
    repeat' first
      | exact hrest
      | apply yields_bind
      | apply yields_ite
      | intro _

theorem yields_dissect_rtp_csrc_le (tvb : tvbuff_t) (tree rtp_tree : Option Nat)
    (cc offset : Nat) :
    yields (dissect_rtp_csrc tvb tree rtp_tree cc offset)
      (fun off => cc > 0 → off ≤ tvb_length tvb) := by
  unfold dissect_rtp_csrc
  simp only []
  apply yields_ite
  · intro _
    repeat' first
      | exact yields_dissect_rtp_csrc_items_le _ _ _ _ _ _
      | apply yields_bind
      | apply yields_ite
      | intro _
  · intro h
    exact yields_pure _ _ (fun h2 => absurd h2 h)

theorem yields_dissect_rtp_hdr_ext_items_le (tvb : tvbuff_t) (p : Nat) (c : Option Nat) :
    ∀ n offset, yields (dissect_rtp_hdr_ext_items tvb (some p) c n offset)
      (fun off => n > 0 → off ≤ tvb_length tvb) := by
  intro n
  induction n with
  | zero => intro offset; exact yields_pure _ _ (by omega)
  | succ n ih =>
    intro offset
    unfold dissect_rtp_hdr_ext_items
    simp only [Option.isSome_some, if_true]
    refine yields_bind_val _ _ _ _ (yields_liftE _) (fun v hv => ?_)
    have hle := tvb_get_ntohl_ok_le tvb offset v hv
    have hrest : yields (dissect_rtp_hdr_ext_items tvb (some p) c n (offset + 4))
        (fun off => n + 1 > 0 → off ≤ tvb_length tvb) := by
      refine yields_mono _ _ _ (yields_and _ _ _ (ih (offset + 4))
        (yields_dissect_rtp_hdr_ext_items tvb (some p) c n (offset + 4))) (fun a h _ => ?_)
      by_cases hn : n > 0
      · exact h.1 hn
      · have := h.2
        omega
    repeat' first
      | exact hrest
      | apply yields_bind
      | intro _

theorem yields_dissect_rtp_hdr_extension_le (tvb : tvbuff_t) (p : Nat) (rtp_tree : Option Nat)
    (x cc offset : Nat) :
    yields (dissect_rtp_hdr_extension tvb (some p) rtp_tree x cc offset)
      (fun off => x ≠ 0 → off ≤ tvb_length tvb) := by
  unfold dissect_rtp_hdr_extension
  simp only [Option.isSome_some, if_true]
  apply yields_ite
  · intro hx
    iterate 3 (refine yields_bind _ _ _ (fun _ => ?_))
    refine yields_bind_val _ _ _ _ (yields_liftE _) (fun v hv => ?_)
    have hle := tvb_get_ntohs_ok_le tvb _ v hv
    iterate 2 (refine yields_bind _ _ _ (fun _ => ?_))
    apply yields_ite
    · intro hv0
      iterate 2 (refine yields_bind _ _ _ (fun _ => ?_))
      exact yields_mono _ _ _ (yields_dissect_rtp_hdr_ext_items_le tvb p _ v _)
        (fun a h _ => h hv0)
    · intro _
      exact yields_pure _ _ (fun _ => by omega)
  · intro hx
    exact yields_pure _ _ (fun h => absurd h hx)

/-- With a tree requested, a header part that returns has read or checked
every byte up to the payload offset: the offset lies within the captured
bytes. -/
theorem yields_dissect_rtp_header_le (cfg : rtp_config) (tvb : tvbuff_t) (pinfo : packet_info)
    (p o1 o2 seq ts ssrc : Nat) :
    yields (dissect_rtp_header cfg tvb pinfo (some p) o1 o2 seq ts ssrc)
      (fun r => r.2 ≤ tvb_length tvb) := by
  unfold dissect_rtp_header
  refine yields_bind_val _ _ _ _ (yields_and _ _ _
    (yields_dissect_rtp_fixed_header _ _ _ _ _ _ _ _ _)
    (yields_dissect_rtp_fixed_header_le _ _ _ _ _ _ _ _ _)) (fun hdr h12 => ?_)
  refine yields_bind_val _ _ _ _ (yields_and _ _ _ (yields_dissect_rtp_csrc _ _ _ _ _)
    (yields_dissect_rtp_csrc_le _ _ _ _ _)) (fun off1 h1 => ?_)
  refine yields_bind_val _ _ _ _ (yields_and _ _ _ (yields_dissect_rtp_hdr_extension _ _ _ _ _ _)
    (yields_dissect_rtp_hdr_extension_le _ _ _ _ _ _)) (fun off2 h2 => ?_)
  refine yields_pure _ _ ?_
  simp only [] at h12 h1 h2 ⊢
  obtain ⟨e12, l12⟩ := h12
  obtain ⟨e1, l1⟩ := h1
  obtain ⟨e2, l2⟩ := h2
  by_cases hx : RTP_EXTENSION o1 ≠ 0
  · exact l2 hx
  · rw [if_neg hx] at e2
    by_cases hcc : RTP_CSRC_COUNT o1 > 0
    · have := l1 hcc
      omega
    · omega

/-- Every payload sub-view request that the buffer grants lies, with its
captured and reported lengths, inside the parent buffer, and the sub-view has
exactly the requested lengths. -/
theorem rtp_payload_request_granted (tvb : tvbuff_t) (ps offset o : Nat) (l r : Int)
    (sub : tvbuff_t)
    (hinv : tvb_length tvb ≤ tvb_reported_length tvb)
    (hreq : rtp_payload_request tvb ps offset = some (o, l, r))
    (hgrant : tvb_new_subset tvb o l r = .ok sub) :
    0 ≤ l ∧ l ≤ r ∧ (o : Int) + l ≤ tvb_length tvb ∧ (o : Int) + r ≤ tvb_reported_length tvb ∧
      (tvb_length sub : Int) = l ∧ (tvb_reported_length sub : Int) = r ∧
      tvb_length sub ≤ tvb_reported_length sub := by
  have ho : o = offset := by
    unfold rtp_payload_request at hreq
    split_ifs at hreq
    · split at hreq
      · cases hreq
      · simp only [] at hreq
        split_ifs at hreq
        simp only [Option.some.injEq, Prod.mk.injEq] at hreq
        exact hreq.1.symm
    · simp only [Option.some.injEq, Prod.mk.injEq] at hreq
      exact hreq.1.symm
  have hoff : offset ≤ tvb_length tvb := by
    by_contra hc
    unfold tvb_new_subset at hgrant
    rw [if_pos (by omega)] at hgrant
    cases hgrant
  obtain ⟨_, h0, h1, h2, h3, sub2, hs, h4, h5, h6⟩ :=
    rtp_payload_request_valid tvb ps offset o l r hinv hoff hreq
  rw [hgrant] at hs
  cases hs
  exact ⟨h0, h1, h2, h3, h4, h5, h6⟩

/-- A sub-view request that keeps the buffer invariant is granted, and the
sub-view has exactly the requested captured and reported lengths. -/
theorem tvb_new_subset_in_range (tvb : tvbuff_t) (o : Nat) (l r : Int)
    (h : rtp_subview_in_range tvb o l r) :
    ∃ sub, tvb_new_subset tvb o l r = .ok sub ∧ (tvb_length sub : Int) = l ∧
      (tvb_reported_length sub : Int) = r ∧ tvb_length sub ≤ tvb_reported_length sub := by
  obtain ⟨h0, hlr, hl, hr⟩ := h
  unfold tvb_new_subset
  have h1 : ¬ tvb_length tvb < o := by omega
  have h2 : ¬ (l = -1) := by omega
  have h3 : ¬ (l < 0 ∨ (tvb_length tvb : Int) < o + l) := by omega
  have h4 : ¬ (r = -1) := by omega
  simp only [h1, if_false, h2, h3, h4]
  refine ⟨_, rfl, ?_, ?_, ?_⟩
  · simp only [tvb_length, List.length_take, List.length_drop] at hl ⊢
    omega
  · simp only [tvb_reported_length]
    omega
  · simp only [tvb_length, tvb_reported_length, List.length_take, List.length_drop] at hl ⊢
    omega

/-- The padding branch of `dissect_rtp` is `dissect_rtp_padding_with` run with
`dissect_rtp_data` as its callee. -/
theorem dissect_rtp_padding_eq_with (cfg : rtp_config) (tvb : tvbuff_t) (pinfo : packet_info)
    (tree rtp_tree : Option Nat) (pt offset : Nat) :
    dissect_rtp_padding cfg tvb pinfo tree rtp_tree pt offset =
      dissect_rtp_padding_with cfg
        (fun o l r => dissect_rtp_data cfg tvb pinfo tree rtp_tree o l r pt) tvb tree rtp_tree
        offset := rfl

/-- The payload part of `dissect_rtp` is `dissect_rtp_payload_with` run with
`dissect_rtp_data` as its callee. -/
theorem dissect_rtp_payload_eq_with (cfg : rtp_config) (tvb : tvbuff_t) (pinfo : packet_info)
    (tree rtp_tree : Option Nat) (ps pt offset : Nat) :
    dissect_rtp_payload cfg tvb pinfo tree rtp_tree ps pt offset =
      dissect_rtp_payload_with cfg
        (fun o l r => dissect_rtp_data cfg tvb pinfo tree rtp_tree o l r pt) tvb pinfo tree
        rtp_tree ps offset := rfl

/-- On a fully captured buffer, at an offset within it, the padding branch
calls its callee only with a request that keeps the buffer invariant: two
callees that agree on such requests give the same run. -/
theorem dissect_rtp_padding_with_congr (cfg : rtp_config)
    (data data2 : Nat → Int → Int → Dissect Unit) (tvb : tvbuff_t) (tree rtp_tree : Option Nat)
    (offset : Nat)
    (hinv : tvb_length tvb ≤ tvb_reported_length tvb)
    (hnot : ¬ tvb_length tvb < tvb_reported_length tvb)
    (hoff : offset ≤ tvb_length tvb)
    (h : ∀ l r, rtp_subview_in_range tvb offset l r → data offset l r = data2 offset l r) :
    dissect_rtp_padding_with cfg data tvb tree rtp_tree offset =
      dissect_rtp_padding_with cfg data2 tvb tree rtp_tree offset := by
  funext s
  have hrem : tvb_reported_length_remaining tvb offset =
      (tvb_reported_length tvb : Int) - offset := by
    unfold tvb_reported_length_remaining
    rw [if_pos (by omega)]
  unfold dissect_rtp_padding_with
  simp only [bind_apply]
  rcases hr : liftE (tvb_get_guint8 tvb
    ((tvb_reported_length tvb + 4294967296 - 1) % 4294967296)) s with ⟨res, s1⟩
  cases res with
  | error e => rw [bind_error _ _ _ _ _ hr, bind_error _ _ _ _ _ hr]
  | ok pc =>
    rw [bind_ok _ _ _ _ _ hr, bind_ok _ _ _ _ _ hr]
    by_cases hd : tvb_reported_length_remaining tvb offset - (pc : Int) > 0
    · have e := h (tvb_reported_length_remaining tvb offset - (pc : Int))
        (tvb_reported_length_remaining tvb offset - (pc : Int))
        ⟨by omega, le_refl _, by omega, by omega⟩
      simp only [hd, if_true, e]
    · simp only [hd, if_false]

/-- At an offset within the captured bytes of a buffer with captured length
<= reported length, the payload part calls its callee only with a request
that keeps the buffer invariant: two callees that agree on such requests give
the same run. -/
theorem dissect_rtp_payload_with_congr (cfg : rtp_config)
    (data data2 : Nat → Int → Int → Dissect Unit) (tvb : tvbuff_t) (pinfo : packet_info)
    (tree rtp_tree : Option Nat) (ps offset : Nat)
    (hinv : tvb_length tvb ≤ tvb_reported_length tvb)
    (hoff : offset ≤ tvb_length tvb)
    (h : ∀ l r, rtp_subview_in_range tvb offset l r → data offset l r = data2 offset l r) :
    dissect_rtp_payload_with cfg data tvb pinfo tree rtp_tree ps offset =
      dissect_rtp_payload_with cfg data2 tvb pinfo tree rtp_tree ps offset := by
  unfold dissect_rtp_payload_with
  by_cases hps : ps ≠ 0
  · rw [if_pos hps, if_pos hps]
    by_cases hcut : tvb_length tvb < tvb_reported_length tvb
    · rw [if_pos hcut, if_pos hcut]
    · rw [if_neg hcut, if_neg hcut]
      rw [dissect_rtp_padding_with_congr cfg data data2 tvb tree rtp_tree offset hinv hcut hoff h]
  · rw [if_neg hps, if_neg hps]
    have hrem : tvb_reported_length_remaining tvb offset =
        (tvb_reported_length tvb : Int) - offset := by
      unfold tvb_reported_length_remaining
      rw [if_pos (by omega)]
    have hlen : tvb_length_remaining tvb offset = (tvb_length tvb : Int) - offset := by
      unfold tvb_length_remaining
      rw [if_pos hoff]
    rw [h (tvb_length_remaining tvb offset) (tvb_reported_length_remaining tvb offset)
      ⟨by omega, by omega, by omega, by omega⟩]

/-- The request of `rtp_payload_request` is the only one the payload part
hands to its callee, on every input: two callees that agree on that request
give the same run, and any two callees do when there is no request. -/
theorem dissect_rtp_payload_with_request (cfg : rtp_config)
    (data data2 : Nat → Int → Int → Dissect Unit) (tvb : tvbuff_t) (pinfo : packet_info)
    (tree rtp_tree : Option Nat) (ps offset : Nat)
    (h : ∀ o l r, rtp_payload_request tvb ps offset = some (o, l, r) →
      data o l r = data2 o l r) :
    dissect_rtp_payload_with cfg data tvb pinfo tree rtp_tree ps offset =
      dissect_rtp_payload_with cfg data2 tvb pinfo tree rtp_tree ps offset := by
  unfold dissect_rtp_payload_with
  by_cases hps : ps ≠ 0
  · rw [if_pos hps, if_pos hps]
    by_cases hcut : tvb_length tvb < tvb_reported_length tvb
    · rw [if_pos hcut, if_pos hcut]
    · rw [if_neg hcut, if_neg hcut]
      have hp : dissect_rtp_padding_with cfg data tvb tree rtp_tree offset =
          dissect_rtp_padding_with cfg data2 tvb tree rtp_tree offset := by
        funext s
        unfold dissect_rtp_padding_with
        simp only [bind_apply]
        cases hread : tvb_get_guint8 tvb
          ((tvb_reported_length tvb + 4294967296 - 1) % 4294967296) with
        | error e =>
          have hr : liftE (Except.error e : Except exn Nat) s = (.error e, s) := rfl
          rw [bind_error _ _ _ _ _ hr, bind_error _ _ _ _ _ hr]
        | ok pc =>
          have hr : liftE (Except.ok pc : Except exn Nat) s = (.ok pc, s) := rfl
          rw [bind_ok _ _ _ _ _ hr, bind_ok _ _ _ _ _ hr]
          by_cases hd : tvb_reported_length_remaining tvb offset - (pc : Int) > 0
          · have e := h offset (tvb_reported_length_remaining tvb offset - (pc : Int))
              (tvb_reported_length_remaining tvb offset - (pc : Int)) (by
                unfold rtp_payload_request
                rw [if_pos hps, if_neg hcut, hread]
                simp only []
                rw [if_pos hd])
            simp only [hd, if_true, e]
          · simp only [hd, if_false]
      rw [hp]
  · rw [if_neg hps, if_neg hps]
    rw [h offset (tvb_length_remaining tvb offset) (tvb_reported_length_remaining tvb offset) (by
      unfold rtp_payload_request
      rw [if_neg hps])]

/-- C19, amended.  Let the parent buffer have captured length <= reported
length and let the header part of `dissect_rtp` return with payload offset
`hdr.2`, a tree being requested or, without a tree, the payload offset lying
within the captured bytes.  Then every sub-view request the payload part
hands to `dissect_rtp_data` (padding and no-padding branch) starts at that
offset and keeps the buffer invariant, captured length between 0 and reported
length, both ends inside the parent: the run of the payload part is the same
when `dissect_rtp_data` is replaced by any callee `data` that agrees with it
on these requests, so no other request reaches it.  Each such request is
granted, and the sub-view has exactly the requested captured and reported
lengths, so captured <= reported holds of it again. -/
theorem rtp_payload_subviews_in_range (cfg : rtp_config) (tvb : tvbuff_t) (pinfo : packet_info)
    (tree : Option Nat) (o1 o2 seq ts ssrc : Nat) (s : epan_state) (hdr : Option Nat × Nat)
    (data : Nat → Int → Int → Dissect Unit)
    (hinv : tvb_length tvb ≤ tvb_reported_length tvb)
    (hhdr : (dissect_rtp_header cfg tvb pinfo tree o1 o2 seq ts ssrc s).1 = .ok hdr)
    (htree : tree = none → hdr.2 ≤ tvb_length tvb)
    (hdata : ∀ l r, rtp_subview_in_range tvb hdr.2 l r →
      data hdr.2 l r =
        dissect_rtp_data cfg tvb pinfo tree hdr.1 hdr.2 l r (RTP_PAYLOAD_TYPE o2)) :
    hdr.2 = rtp_header_end tvb o1 ∧ hdr.2 ≤ tvb_length tvb ∧
      dissect_rtp_payload cfg tvb pinfo tree hdr.1 (RTP_PADDING o1) (RTP_PAYLOAD_TYPE o2) hdr.2 =
        dissect_rtp_payload_with cfg data tvb pinfo tree hdr.1 (RTP_PADDING o1) hdr.2 ∧
      ∀ l r, rtp_subview_in_range tvb hdr.2 l r →
        ∃ sub, tvb_new_subset tvb hdr.2 l r = .ok sub ∧ (tvb_length sub : Int) = l ∧
          (tvb_reported_length sub : Int) = r ∧ tvb_length sub ≤ tvb_reported_length sub := by
  have hend := (yields_dissect_rtp_header cfg tvb pinfo tree o1 o2 seq ts ssrc).out s hdr hhdr
  have hoff : hdr.2 ≤ tvb_length tvb := by
    cases tree with
    | none => exact htree rfl
    | some p => exact (yields_dissect_rtp_header_le cfg tvb pinfo p o1 o2 seq ts ssrc).out s hdr hhdr
  refine ⟨hend, hoff, ?_, fun l r h => tvb_new_subset_in_range tvb hdr.2 l r h⟩
  rw [dissect_rtp_payload_eq_with]
  exact dissect_rtp_payload_with_congr cfg _ data tvb pinfo tree hdr.1 (RTP_PADDING o1) hdr.2 hinv
    hoff (fun l r h => (hdata l r h).symm)

/-- C19 (amended) at a concrete input: the 16-byte packet with a 12-byte
header and no padding, decoded without a tree; the callee refuses every
request that does not keep the buffer invariant, and the run is the same. -/
theorem rtp_payload_subviews_in_range_witness :
    (12 : Nat) = rtp_header_end rtp_plain_tvb (0x80 % 256) ∧ 12 ≤ tvb_length rtp_plain_tvb ∧
      dissect_rtp_payload rtp_config.plain rtp_plain_tvb (rtp_pinfo 8) none none
          (RTP_PADDING (0x80 % 256)) (RTP_PAYLOAD_TYPE (0 % 256)) 12 =
        dissect_rtp_payload_with rtp_config.plain
          (fun o l r =>
            if rtp_subview_in_range rtp_plain_tvb o l r then
              dissect_rtp_data rtp_config.plain rtp_plain_tvb (rtp_pinfo 8) none none o l r
                (RTP_PAYLOAD_TYPE (0 % 256))
            else fun s => (.error .NullPointer, s))
          rtp_plain_tvb (rtp_pinfo 8) none none (RTP_PADDING (0x80 % 256)) 12 ∧
      ∀ l r, rtp_subview_in_range rtp_plain_tvb 12 l r →
        ∃ sub, tvb_new_subset rtp_plain_tvb 12 l r = .ok sub ∧ (tvb_length sub : Int) = l ∧
          (tvb_reported_length sub : Int) = r ∧ tvb_length sub ≤ tvb_reported_length sub :=
  rtp_payload_subviews_in_range rtp_config.plain rtp_plain_tvb (rtp_pinfo 8) none (0x80 % 256)
    (0 % 256) 5 900 1234 epan_state.init (none, 12)
    (fun o l r =>
      if rtp_subview_in_range rtp_plain_tvb o l r then
        dissect_rtp_data rtp_config.plain rtp_plain_tvb (rtp_pinfo 8) none none o l r
          (RTP_PAYLOAD_TYPE (0 % 256))
      else fun s => (.error .NullPointer, s))
    (by decide)
    (congrArg Prod.fst (dissect_rtp_header_none rtp_config.plain rtp_plain_tvb (rtp_pinfo 8)
      (0x80 % 256) (0 % 256) 5 900 1234 epan_state.init (by decide) (fun _ => by decide)))
    (fun _ => by decide) (fun _ _ h => if_pos h)

theorem nstime_lt_irrefl (a : nstime_t) : ¬ nstime_lt a a := by
  unfold nstime_lt; omega

theorem nstime_eq_of (a b : nstime_t) (h1 : a.secs = b.secs) (h2 : a.nsecs = b.nsecs) : a = b := by
  cases a; cases b; simp at h1 h2; simp [h1, h2]

theorem time_stat_update_num (stats : timestat_t) (d : nstime_t) (p : packet_info) :
    (time_stat_update stats d p).num = (stats.num + 1) % 4294967296 := by
  unfold time_stat_update
  simp only []
  split_ifs <;> rfl

/-- The minimum and its frame after one update: taken from the sample when
it is the first one or lies strictly below the minimum so far. -/
theorem time_stat_update_min (stats : timestat_t) (d : nstime_t) (p : packet_info) :
    ((time_stat_update stats d p).min, (time_stat_update stats d p).min_num) =
      if stats.num = 0 ∨ nstime_lt d stats.min then (d, p.fd.num)
      else (stats.min, stats.min_num) := by
  obtain ⟨num, min_num, max_num, ⟨mins, minn⟩, ⟨maxs, maxn⟩, ⟨tots, totn⟩⟩ := stats
  obtain ⟨ds, dn⟩ := d
  unfold time_stat_update nstime_lt
  dsimp only
  by_cases h0 : num = 0
  · simp only [h0, if_true, true_or]
    split_ifs <;> rfl
  · simp only [h0, if_false, false_or]
    split_ifs <;> rfl

/-- The maximum and its frame after one update: taken from the sample when
it is the first one or lies strictly above the maximum so far. -/
theorem time_stat_update_max (stats : timestat_t) (d : nstime_t) (p : packet_info) :
    ((time_stat_update stats d p).max, (time_stat_update stats d p).max_num) =
      if stats.num = 0 ∨ nstime_lt stats.max d then (d, p.fd.num)
      else (stats.max, stats.max_num) := by
  obtain ⟨num, min_num, max_num, ⟨mins, minn⟩, ⟨maxs, maxn⟩, ⟨tots, totn⟩⟩ := stats
  obtain ⟨ds, dn⟩ := d
  unfold time_stat_update nstime_lt
  dsimp only
  by_cases h0 : num = 0
  · simp only [h0, if_true, true_or]
    split_ifs <;> rfl
  · simp only [h0, if_false, false_or]
    split_ifs <;> dsimp only at * <;> first | rfl | (exfalso; omega)

theorem first_min_single (d : nstime_t) (p : packet_info) : first_min [(d, p)] d p.fd.num :=
  ⟨fun x hx => by simp at hx; subst hx; exact nstime_lt_irrefl d,
   ⟨0, (d, p), rfl, rfl, rfl, fun j y hj => by omega⟩⟩

theorem first_max_single (d : nstime_t) (p : packet_info) : first_max [(d, p)] d p.fd.num :=
  ⟨fun x hx => by simp at hx; subst hx; exact nstime_lt_irrefl d,
   ⟨0, (d, p), rfl, rfl, rfl, fun j y hj => by omega⟩⟩

theorem first_min_snoc (seen : List (nstime_t × packet_info)) (m : nstime_t) (num : Nat)
    (d : nstime_t) (p : packet_info) (h : first_min seen m num) :
    first_min (seen ++ [(d, p)]) (if nstime_lt d m then d else m)
      (if nstime_lt d m then p.fd.num else num) := by
  obtain ⟨hlow, i, x, hi, hx, hn, hfirst⟩ := h
  have hil : i < seen.length := (List.getElem?_eq_some_iff.mp hi).1
  by_cases hlt : nstime_lt d m
  · simp only [hlt, if_true]
    refine ⟨?_, seen.length, (d, p), by simp, rfl, rfl, ?_⟩
    · intro y hy
      rcases List.mem_append.mp hy with hy | hy
      · have := hlow y hy
        unfold nstime_lt at this hlt ⊢
        omega
      · simp at hy; subst hy; exact nstime_lt_irrefl d
    · intro j y hj hy
      rw [List.getElem?_append_left hj] at hy
      have hmem : y ∈ seen := List.mem_iff_getElem?.mpr ⟨j, hy⟩
      have := hlow y hmem
      intro he
      rw [he] at this
      exact this hlt
  · simp only [hlt, if_false]
    refine ⟨?_, i, x, ?_, hx, hn, ?_⟩
    · intro y hy
      rcases List.mem_append.mp hy with hy | hy
      · exact hlow y hy
      · simp at hy; subst hy; exact hlt
    · rw [List.getElem?_append_left hil]; exact hi
    · intro j y hj hy
      rw [List.getElem?_append_left (by omega)] at hy
      exact hfirst j y hj hy

theorem first_max_snoc (seen : List (nstime_t × packet_info)) (m : nstime_t) (num : Nat)
    (d : nstime_t) (p : packet_info) (h : first_max seen m num) :
    first_max (seen ++ [(d, p)]) (if nstime_lt m d then d else m)
      (if nstime_lt m d then p.fd.num else num) := by
  obtain ⟨hup, i, x, hi, hx, hn, hfirst⟩ := h
  have hil : i < seen.length := (List.getElem?_eq_some_iff.mp hi).1
  by_cases hlt : nstime_lt m d
  · simp only [hlt, if_true]
    refine ⟨?_, seen.length, (d, p), by simp, rfl, rfl, ?_⟩
    · intro y hy
      rcases List.mem_append.mp hy with hy | hy
      · have := hup y hy
        unfold nstime_lt at this hlt ⊢
        omega
      · simp at hy; subst hy; exact nstime_lt_irrefl d
    · intro j y hj hy
      rw [List.getElem?_append_left hj] at hy
      have hmem : y ∈ seen := List.mem_iff_getElem?.mpr ⟨j, hy⟩
      have := hup y hmem
      intro he
      rw [he] at this
      exact this hlt
  · simp only [hlt, if_false]
    refine ⟨?_, i, x, ?_, hx, hn, ?_⟩
    · intro y hy
      rcases List.mem_append.mp hy with hy | hy
      · exact hup y hy
      · simp at hy; subst hy; exact hlt
    · rw [List.getElem?_append_left hil]; exact hi
    · intro j y hj hy
      rw [List.getElem?_append_left (by omega)] at hy
      exact hfirst j y hj hy

theorem time_stat_inv_first (stats : timestat_t) (d : nstime_t) (p : packet_info)
    (h0 : stats.num = 0) : time_stat_inv (time_stat_update stats d p) [(d, p)] := by
  have hmin := time_stat_update_min stats d p
  have hmax := time_stat_update_max stats d p
  simp only [h0, true_or, if_true, Prod.mk.injEq] at hmin hmax
  refine ⟨by rw [time_stat_update_num, h0]; rfl, by simp, ?_, ?_⟩
  · rw [hmin.1, hmin.2]; exact first_min_single d p
  · rw [hmax.1, hmax.2]; exact first_max_single d p

theorem time_stat_inv_step (stats : timestat_t) (seen : List (nstime_t × packet_info))
    (d : nstime_t) (p : packet_info) (h : time_stat_inv stats seen)
    (hlen : seen.length + 1 < 4294967296) :
    time_stat_inv (time_stat_update stats d p) (seen ++ [(d, p)]) := by
  obtain ⟨hc, hs, hmin, hmax⟩ := h
  have h0 : ¬ stats.num = 0 := by omega
  have e1 := time_stat_update_min stats d p
  have e2 := time_stat_update_max stats d p
  simp only [h0, false_or] at e1 e2
  refine ⟨?_, by simp, ?_, ?_⟩
  · rw [time_stat_update_num, hc, List.length_append, List.length_singleton]
    exact Nat.mod_eq_of_lt hlen
  · have := first_min_snoc seen _ _ d p hmin
    by_cases hlt : nstime_lt d stats.min
    · simp only [hlt, if_true, Prod.mk.injEq] at e1 this
      rw [e1.1, e1.2]; exact this
    · simp only [hlt, if_false, Prod.mk.injEq] at e1 this
      rw [e1.1, e1.2]; exact this
  · have := first_max_snoc seen _ _ d p hmax
    by_cases hlt : nstime_lt stats.max d
    · simp only [hlt, if_true, Prod.mk.injEq] at e2 this
      rw [e2.1, e2.2]; exact this
    · simp only [hlt, if_false, Prod.mk.injEq] at e2 this
      rw [e2.1, e2.2]; exact this

theorem time_stat_inv_run (samples : List (nstime_t × packet_info)) :
    ∀ (stats : timestat_t) (seen : List (nstime_t × packet_info)),
      time_stat_inv stats seen → seen.length + samples.length < 4294967296 →
      time_stat_inv (time_stat_updates stats samples) (seen ++ samples) := by
  induction samples with
  | nil => intro stats seen h _; simpa [time_stat_updates] using h
  | cons x xs ih =>
    intro stats seen h hlen
    simp only [List.length_cons] at hlen
    have h1 := time_stat_inv_step stats seen x.1 x.2 h (by omega)
    have h2 := ih _ _ h1 (by simp; omega)
    simpa [time_stat_updates] using h2

/-- C26. The invariant of `time_stat_update`: starting from statistics with
`num = 0`, after the samples `d_1..d_n` seen in frames `f_1..f_n` have been
taken in (`1 <= n < 2^32`, the range of the `guint32` counter), `num = n`,
`min` and `max` are the least and the greatest sample in the lexicographic
order on (seconds, nanoseconds), and `min_num` / `max_num` are the frame
numbers of the first sample that attains the minimum / the maximum. -/
theorem time_stat_update_min_max (stats : timestat_t) (samples : List (nstime_t × packet_info))
    (h0 : stats.num = 0) (hn : 1 ≤ samples.length) (hlen : samples.length < 4294967296) :
    (time_stat_updates stats samples).num = samples.length ∧
      first_min samples (time_stat_updates stats samples).min
        (time_stat_updates stats samples).min_num ∧
      first_max samples (time_stat_updates stats samples).max
        (time_stat_updates stats samples).max_num := by
  cases samples with
  | nil => simp at hn
  | cons x xs =>
    have h1 := time_stat_inv_first stats x.1 x.2 h0
    have h2 := time_stat_inv_run xs _ _ h1 (by simp at hlen ⊢; omega)
    have e : time_stat_updates stats (x :: xs) =
        time_stat_updates (time_stat_update stats x.1 x.2) xs := rfl
    rw [e]
    simp only [List.singleton_append] at h2
    exact ⟨h2.count, h2.min_ok, h2.max_ok⟩

/-- C26 at a concrete input: samples 2.5 s, 1.25 s, 1.25 s in frames 7, 9, 12. -/
theorem time_stat_update_min_max_witness :
    (time_stat_updates timestat_zero timestat_samples).num = timestat_samples.length ∧
      first_min timestat_samples (time_stat_updates timestat_zero timestat_samples).min
        (time_stat_updates timestat_zero timestat_samples).min_num ∧
      first_max timestat_samples (time_stat_updates timestat_zero timestat_samples).max
        (time_stat_updates timestat_zero timestat_samples).max_num :=
  time_stat_update_min_max timestat_zero timestat_samples rfl (by decide) (by decide)

/-- One update adds the sample to the total, in nanoseconds, and carries one
second when the nanoseconds exceed 1,000,000,000: the nanoseconds of the
total stay between 0 and 1,000,000,000 inclusive. -/
theorem time_stat_update_tot (stats : timestat_t) (d : nstime_t) (p : packet_info)
    (hd : nstime_normal d)
    (h : 0 ≤ stats.tot.nsecs ∧ stats.tot.nsecs ≤ 1000000000) :
    nstime_nsec (time_stat_update stats d p).tot = nstime_nsec stats.tot + nstime_nsec d ∧
      0 ≤ (time_stat_update stats d p).tot.nsecs ∧
      (time_stat_update stats d p).tot.nsecs ≤ 1000000000 := by
  obtain ⟨num, min_num, max_num, ⟨mins, minn⟩, ⟨maxs, maxn⟩, ⟨tots, totn⟩⟩ := stats
  obtain ⟨ds, dn⟩ := d
  unfold nstime_normal at hd
  unfold time_stat_update nstime_nsec
  dsimp only at *
  split_ifs <;> dsimp only at * <;> omega

/-- The total after a run of updates on normalised samples: the sum of the
samples in nanoseconds, with nanoseconds between 0 and 1,000,000,000
inclusive. -/
theorem time_stat_updates_tot (samples : List (nstime_t × packet_info)) :
    ∀ (stats : timestat_t), (∀ x ∈ samples, nstime_normal x.1) →
      0 ≤ stats.tot.nsecs ∧ stats.tot.nsecs ≤ 1000000000 →
      nstime_nsec (time_stat_updates stats samples).tot =
          nstime_nsec stats.tot + (samples.map (fun x => nstime_nsec x.1)).sum ∧
        0 ≤ (time_stat_updates stats samples).tot.nsecs ∧
        (time_stat_updates stats samples).tot.nsecs ≤ 1000000000 := by
  induction samples with
  | nil => intro stats _ h; simpa [time_stat_updates] using h
  | cons x xs ih =>
    intro stats hs h
    obtain ⟨h1, h2, h3⟩ := time_stat_update_tot stats x.1 x.2 (hs x (by simp)) h
    obtain ⟨h4, h5, h6⟩ := ih (time_stat_update stats x.1 x.2)
      (fun y hy => hs y (by simp [hy])) ⟨h2, h3⟩
    have e : time_stat_updates stats (x :: xs) =
        time_stat_updates (time_stat_update stats x.1 x.2) xs := rfl
    rw [e]
    refine ⟨?_, h5, h6⟩
    rw [h4, h1]
    simp only [List.map_cons, List.sum_cons]
    omega

/-- C27 at its failing input: starting from a zero total, two normalised
samples of half a second each leave the total at 0 s and 1,000,000,000 ns:
the carry test is `tot.nsecs > 1000000000`, so the nanoseconds of the total
are not below one second, although the total still equals the sum of the
samples in nanoseconds. -/
theorem time_stat_update_total_not_normalised :
    timestat_zero.tot = ⟨0, 0⟩ ∧
      (∀ x ∈ timestat_half_seconds, nstime_normal x.1) ∧
      (time_stat_updates timestat_zero timestat_half_seconds).tot = ⟨0, 1000000000⟩ ∧
      ¬ ((time_stat_updates timestat_zero timestat_half_seconds).tot.nsecs < 1000000000) ∧
      nstime_nsec (time_stat_updates timestat_zero timestat_half_seconds).tot =
        (timestat_half_seconds.map (fun x => nstime_nsec x.1)).sum := by
  refine ⟨rfl, ?_, by decide, by decide, by decide⟩
  intro x hx
  simp [timestat_half_seconds] at hx
  rcases hx with rfl | rfl <;> (unfold nstime_normal; decide)

/-! ## uTP: the port binding -/

theorem ports_bound_to_add (handle pattern : Nat) (table : List (Nat × Nat))
    (h : ports_bound_to handle (table.filter (fun e => e.1 ≠ pattern)) = []) :
    ports_bound_to handle (dissector_add_uint table pattern handle) = [pattern] := by
  unfold dissector_add_uint
  unfold ports_bound_to at h ⊢
  simp only [List.filter_cons, decide_True, if_true, List.map_cons, h]

theorem ports_bound_to_filter_nil (handle : Nat) (table : List (Nat × Nat))
    (f : Nat × Nat → Bool) (h : ports_bound_to handle table = []) :
    ports_bound_to handle (table.filter f) = [] := by
  unfold ports_bound_to at h ⊢
  simp only [List.map_eq_nil_iff, List.filter_eq_nil_iff] at h ⊢
  intro e he
  exact h e (List.mem_filter.mp he).1

theorem ports_bound_to_fresh (handle : Nat) (table : List (Nat × Nat))
    (h : ∀ e ∈ table, e.2 < handle) : ports_bound_to handle table = [] := by
  unfold ports_bound_to
  simp only [List.map_eq_nil_iff, List.filter_eq_nil_iff]
  intro e he
  have := h e he
  simp
  omega

theorem ports_bound_to_delete (handle pattern : Nat) (table : List (Nat × Nat))
    (h : ports_bound_to handle table = [pattern]) :
    ports_bound_to handle (table.filter (fun e => e.1 ≠ pattern)) = [] := by
  unfold ports_bound_to at h ⊢
  simp only [List.map_eq_nil_iff, List.filter_eq_nil_iff]
  intro e he
  obtain ⟨he1, he2⟩ := List.mem_filter.mp he
  intro hh
  have hmem : e.1 ∈ List.map (fun e => e.1) (List.filter (fun e => decide (e.2 = handle)) table) :=
    List.mem_map.mpr ⟨e, List.mem_filter.mpr ⟨he1, hh⟩, rfl⟩
  rw [h] at hmem
  simp at hmem he2
  exact he2 hmem

theorem bt_utp_inv_handoff (s : bt_utp_handoff_state) (h : bt_utp_inv s) :
    bt_utp_inv (proto_reg_handoff_bt_utp s) ∧
      (proto_reg_handoff_bt_utp s).bt_utp_prefs_initialized = true ∧
      (proto_reg_handoff_bt_utp s).bt_utp_udp_port = s.global_bt_utp_udp_port ∧
      (proto_reg_handoff_bt_utp s).global_bt_utp_udp_port = s.global_bt_utp_udp_port := by
  obtain ⟨hc, hb⟩ := h
  unfold proto_reg_handoff_bt_utp
  cases hi : s.bt_utp_prefs_initialized with
  | false =>
    simp only [Bool.not_false, if_true, new_create_dissector_handle]
    refine ⟨⟨?_, fun _ => ⟨by simp, ?_⟩⟩, trivial, trivial, trivial⟩
    · intro e he
      simp only [dissector_add_uint, List.mem_cons, List.mem_filter] at he
      rcases he with rfl | ⟨he, _⟩
      · simp
      · have := hc e he
        simp
        omega
    · exact ports_bound_to_add _ _ _
        (ports_bound_to_filter_nil _ _ _ (ports_bound_to_fresh _ _ hc))
  | true =>
    obtain ⟨hlt, hbound⟩ := hb hi
    simp only [Bool.not_true, Bool.false_eq_true, if_false, dissector_delete_uint]
    refine ⟨⟨?_, fun _ => ⟨hlt, ?_⟩⟩, trivial, trivial, trivial⟩
    · intro e he
      simp only [dissector_add_uint, List.mem_cons, List.mem_filter] at he
      rcases he with rfl | ⟨⟨he, _⟩, _⟩
      · exact hlt
      · exact hc e he
    · exact ports_bound_to_add _ _ _
        (ports_bound_to_filter_nil _ _ _ (ports_bound_to_delete _ _ _ hbound))

theorem bt_utp_run_inv (events : List bt_utp_event) :
    ∀ (s : bt_utp_handoff_state) (latest : Option Nat), bt_utp_inv s →
      (∀ p, latest = some p → s.bt_utp_prefs_initialized = true ∧ s.bt_utp_udp_port = p) →
      bt_utp_inv (bt_utp_run s events) ∧
        (∀ p, bt_utp_latest_call_port s.global_bt_utp_udp_port latest events = some p →
          (bt_utp_run s events).bt_utp_prefs_initialized = true ∧
            (bt_utp_run s events).bt_utp_udp_port = p) ∧
        (bt_utp_event.handoff ∈ events →
          (bt_utp_latest_call_port s.global_bt_utp_udp_port latest events).isSome) ∧
        (latest.isSome →
          (bt_utp_latest_call_port s.global_bt_utp_udp_port latest events).isSome) := by
  induction events with
  | nil =>
    intro s latest hinv hl
    exact ⟨hinv, hl, by simp, by simp [bt_utp_latest_call_port]⟩
  | cons e es ih =>
    intro s latest hinv hl
    cases e with
    | set_udp_port port =>
      have hinv2 : bt_utp_inv { s with global_bt_utp_udp_port := port } := ⟨hinv.created, hinv.bound⟩
      obtain ⟨h1, h2, h3, h4⟩ := ih { s with global_bt_utp_udp_port := port } latest hinv2 hl
      refine ⟨h1, h2, ?_, h4⟩
      intro hmem
      simp only [List.mem_cons] at hmem
      rcases hmem with hmem | hmem
      · cases hmem
      · exact h3 hmem
    | handoff =>
      obtain ⟨hinv2, hi, hp, hg⟩ := bt_utp_inv_handoff s hinv
      obtain ⟨h1, h2, _, h4⟩ := ih (proto_reg_handoff_bt_utp s) (some s.global_bt_utp_udp_port)
        hinv2 (fun p hp2 => by
          simp only [Option.some.injEq] at hp2
          exact ⟨hi, by rw [hp, hp2]⟩)
      rw [hg] at h2 h4
      exact ⟨h1, h2, fun _ => h4 rfl, fun _ => h4 rfl⟩

/-- C28. The uTP port binding: from a state in which the statics are not yet
initialised and the "udp.port" table holds only handles created so far, after
any sequence of changes of the `udp_port` preference and calls of
`proto_reg_handoff_bt_utp` with at least one call, the uTP handle is bound in
the table to exactly one port, the value the preference held at the latest
call; no other port is bound to it any more. -/
theorem bt_utp_port_binding (s : bt_utp_handoff_state) (events : List bt_utp_event)
    (h0 : s.bt_utp_prefs_initialized = false)
    (htab : ∀ e ∈ s.udp_port, e.2 < s.handles)
    (hcall : bt_utp_event.handoff ∈ events) :
    ∃ port, bt_utp_latest_call_port s.global_bt_utp_udp_port none events = some port ∧
      ports_bound_to (bt_utp_run s events).bt_utp_handle (bt_utp_run s events).udp_port =
        [port] ∧
      ∀ q, (q, (bt_utp_run s events).bt_utp_handle) ∈ (bt_utp_run s events).udp_port →
        q = port := by
  have hinv : bt_utp_inv s := ⟨htab, fun h => by rw [h0] at h; cases h⟩
  obtain ⟨h1, h2, h3, _⟩ := bt_utp_run_inv events s none hinv (fun p hp => by cases hp)
  obtain ⟨port, hport⟩ := Option.isSome_iff_exists.mp (h3 hcall)
  obtain ⟨hi, hp⟩ := h2 port hport
  have hb := (h1.bound hi).2
  rw [hp] at hb
  refine ⟨port, hport, hb, ?_⟩
  intro q hq
  have hmem : q ∈ ports_bound_to (bt_utp_run s events).bt_utp_handle
      (bt_utp_run s events).udp_port := by
    unfold ports_bound_to
    exact List.mem_map.mpr ⟨_, List.mem_filter.mpr ⟨hq, by simp⟩, rfl⟩
  rw [hb] at hmem
  simpa using hmem

/-- C28 at a concrete input: calls with the ports 55627, 6881 and 53, the
last of which another decoder was bound to before. -/
theorem bt_utp_port_binding_witness :
    ∃ port, bt_utp_latest_call_port bt_utp_start.global_bt_utp_udp_port none bt_utp_events =
        some port ∧
      ports_bound_to (bt_utp_run bt_utp_start bt_utp_events).bt_utp_handle
        (bt_utp_run bt_utp_start bt_utp_events).udp_port = [port] ∧
      ∀ q, (q, (bt_utp_run bt_utp_start bt_utp_events).bt_utp_handle) ∈
        (bt_utp_run bt_utp_start bt_utp_events).udp_port → q = port :=
  bt_utp_port_binding bt_utp_start bt_utp_events rfl (by decide) (by decide)

/-! ## RTP: the setup method stored with a conversation -/

/-- The copy made when a conversation is created keeps the first
`MAX_RTP_SETUP_METHOD_SIZE` characters of the setup method. -/
theorem rtp_copy_setup_method_take (cfg : rtp_config) (m : String) :
    rtp_copy_setup_method cfg m = String.mk (m.data.take cfg.MAX_RTP_SETUP_METHOD_SIZE) ∧
      (rtp_copy_setup_method cfg m).length ≤ cfg.MAX_RTP_SETUP_METHOD_SIZE := by
  unfold rtp_copy_setup_method
  have hlen : m.length = m.data.length := rfl
  split_ifs with h
  · have h1 : m.data.take (m.length + 1) = m.data := List.take_of_length_le (by omega)
    have h2 : m.data.take cfg.MAX_RTP_SETUP_METHOD_SIZE = m.data :=
      List.take_of_length_le (by omega)
    rw [h1, h2]
    exact ⟨rfl, by show m.data.length ≤ _; omega⟩
  · refine ⟨rfl, ?_⟩
    show (m.data.take cfg.MAX_RTP_SETUP_METHOD_SIZE).length ≤ _
    simp

/-- C25 at its failing input: the flow 10.1.1.1 port 4000 is registered by
frame 7 with method "SDP" and registered again by the unvisited frame 9 with
the 10-character method "Signalling", `MAX_RTP_SETUP_METHOD_SIZE` being 7.
The update path copies the method with `strcpy`, without a bound: the 10
characters and their terminator are written into the `method` array of 8
characters, past its end, so that what the conversation's RTP metadata then
holds is not the prefix "Signall", which the create path stores for the same
method. -/
theorem rtp_add_address_update_overruns_method :
    (sip_pinfo 9).fd.visited = false ∧
      rtp_config.plain.MAX_RTP_SETUP_METHOD_SIZE = 7 ∧
      "Signalling".length = 10 ∧
      (rtp_add_address rtp_config.plain (sip_pinfo 7) [10, 1, 1, 1] 4000 0 "SDP" 7
        epan_state.init).1 = .ok () ∧
      (rtp_add_address rtp_config.plain (sip_pinfo 9) [10, 1, 1, 1] 4000 0 "Signalling" 9
        (rtp_add_address rtp_config.plain (sip_pinfo 7) [10, 1, 1, 1] 4000 0 "SDP" 7
          epan_state.init).2).1 = .error .BufferOverrun ∧
      conversation_get_proto_data (rtp_add_address rtp_config.plain (sip_pinfo 9) [10, 1, 1, 1]
          4000 0 "Signalling" 9 epan_state.init).2.conversations 0 .proto_rtp =
        some ⟨"Signall", 9⟩ := by
  refine ⟨rfl, rfl, by decide, ?_, ?_, ?_⟩
  · rw [rtp_add_address_creates rtp_config.plain (sip_pinfo 7) [10, 1, 1, 1] 4000 0 "SDP" 7
      epan_state.init rfl rfl]
  · exact rtp_add_address_twice_overrun rtp_config.plain (sip_pinfo 7) (sip_pinfo 9) [10, 1, 1, 1]
      4000 0 "SDP" "Signalling" 7 9 epan_state.init rfl rfl rfl rfl (by decide)
  · rw [rtp_add_address_creates rtp_config.plain (sip_pinfo 9) [10, 1, 1, 1] 4000 0
      "Signalling" 9 epan_state.init rfl rfl]
    rfl

/-! ## RTP: the heuristic entry point -/

/-- With the first octet captured and of version 2, `dissect_rtp` goes on to
read the rest of the fixed header: it does not take the "Unknown RTP version"
branch. -/
theorem dissect_rtp_version_2 (cfg : rtp_config) (tvb : tvbuff_t) (pinfo : packet_info)
    (tree : Option Nat) (b0 : Nat) (s : epan_state)
    (h0 : tvb.data[0]? = some b0) (hv : RTP_VERSION (b0 % 256) = 2) :
    dissect_rtp cfg tvb pinfo tree s =
      (do
        let octet2 ← liftE (tvb_get_guint8 tvb 1)
        let seq_num ← liftE (tvb_get_ntohs tvb 2)
        let timestamp ← liftE (tvb_get_ntohl tvb 4)
        let sync_src ← liftE (tvb_get_ntohl tvb 8)
        dissect_rtp_v2 cfg tvb pinfo tree (b0 % 256) octet2 seq_num timestamp sync_src) s := by
  unfold dissect_rtp
  simp only [bind_apply]
  rw [bind_ok _ _ s s (b0 % 256) (by rw [liftE_apply, tvb_get_guint8_ok _ _ _ h0])]
  simp only [hv, ne_eq, not_true_eq_false, if_false, Nat.zero_add, bind_apply]

/-- The three ways through `dissect_rtp_heur` once both octets it reads are
captured. -/
theorem dissect_rtp_heur_cases (cfg : rtp_config) (tvb : tvbuff_t) (pinfo : packet_info)
    (tree : Option Nat) (b0 b1 : Nat) (s : epan_state)
    (h0 : tvb.data[0]? = some b0) (h1 : tvb.data[1]? = some b1) :
    dissect_rtp_heur cfg tvb pinfo tree s =
      if cfg.global_rtp_heur = true ∧ RTP_VERSION (b0 % 256) = 2 ∧
          RTP_PAYLOAD_TYPE (b1 % 256) ≤ PT_H263 then
        Dissect.bind (dissect_rtp cfg tvb pinfo tree) (fun _ => pure true) s
      else (.ok false, s) := by
  unfold dissect_rtp_heur
  cases hh : cfg.global_rtp_heur with
  | false => simp
  | true =>
    simp only [Bool.not_true, Bool.false_eq_true, if_false, bind_apply, true_and]
    rw [bind_ok _ _ s s (b0 % 256) (by rw [liftE_apply, tvb_get_guint8_ok _ _ _ h0])]
    by_cases hv : RTP_VERSION (b0 % 256) = 2
    · simp only [hv, ne_eq, not_true_eq_false, if_false, true_and, bind_apply, Nat.zero_add]
      rw [bind_ok _ _ s s (b1 % 256) (by rw [liftE_apply, tvb_get_guint8_ok _ _ _ h1])]
      split_ifs <;> rfl
    · simp only [hv, ne_eq, not_false_eq_true, if_true, false_and, if_false]
      rfl

theorem dissect_rtp_heur_off (cfg : rtp_config) (tvb : tvbuff_t) (pinfo : packet_info)
    (tree : Option Nat) (s : epan_state) (h : cfg.global_rtp_heur = false) :
    dissect_rtp_heur cfg tvb pinfo tree s = (.ok false, s) := by
  unfold dissect_rtp_heur
  simp [h]

theorem bind_pure_true_fst {α : Type} (m : Dissect α) (s : epan_state) :
    (Dissect.bind m (fun _ => (pure true : Dissect Bool)) s).1 ≠ .ok false ∧
      ((Dissect.bind m (fun _ => (pure true : Dissect Bool)) s).1 = .ok true ↔
        ∃ a, (m s).1 = .ok a) := by
  unfold Dissect.bind
  rcases h : m s with ⟨r, s1⟩
  cases r with
  | error e => simp
  | ok a => simp [pure]

/-- C29 fails as stated: with the heuristic enabled, the fully captured
2-byte buffer `80 00` has version 2 and payload type 0 <= 34, yet
`dissect_rtp_heur` does not return TRUE: `dissect_rtp` stops with the bounds
condition when it reads the sequence number, and the condition passes through
`dissect_rtp_heur`. -/
theorem rtp_heur_short_buffer_raises :
    rtp_config.heuristic.global_rtp_heur = true ∧
      tvb_length rtp_two_byte_tvb = 2 ∧
      RTP_VERSION (0x80 % 256) = 2 ∧ RTP_PAYLOAD_TYPE (0 % 256) ≤ PT_H263 ∧
      (dissect_rtp_heur rtp_config.heuristic rtp_two_byte_tvb (rtp_pinfo 1) none
        epan_state.init).1 = .error .OutOfBounds := by
  refine ⟨rfl, rfl, by decide, by decide, ?_⟩
  rw [dissect_rtp_heur_cases rtp_config.heuristic rtp_two_byte_tvb (rtp_pinfo 1) none 0x80 0
    epan_state.init rfl rfl]
  rw [if_pos ⟨rfl, by decide, by decide⟩]
  rw [bind_error _ _ epan_state.init epan_state.init .OutOfBounds]
  rw [dissect_rtp_version_2 rtp_config.heuristic rtp_two_byte_tvb (rtp_pinfo 1) none 0x80
    epan_state.init rfl (by decide)]
  simp only [bind_apply]
  rw [bind_ok _ _ epan_state.init epan_state.init 0 (by rfl)]
  rw [bind_apply, bind_error _ _ epan_state.init epan_state.init .OutOfBounds (by rfl)]

/-- C29, amended.  `dissect_rtp_heur` returns FALSE and leaves the state
untouched, for every buffer, when the heuristic preference is disabled.  When
it is enabled and the first two bytes `b0`, `b1` are captured, it returns
FALSE without dissecting iff the acceptance test fails (the top two bits of
`b0` are not 2, or `b1 & 0x7F > PT_H263 = 34`); when the test holds the call
is the run of `dissect_rtp` followed by `return TRUE`, `dissect_rtp` takes its
version-2 branch, not the "Unknown RTP version" branch, and TRUE is returned
iff `dissect_rtp` returns: a condition `dissect_rtp` stops with passes through. -/
theorem rtp_heur_acceptance (cfg : rtp_config) (tvb : tvbuff_t) (pinfo : packet_info)
    (tree : Option Nat) (b0 b1 : Nat) (s : epan_state)
    (h0 : tvb.data[0]? = some b0) (h1 : tvb.data[1]? = some b1) :
    (cfg.global_rtp_heur = false →
      ∀ tvb2, dissect_rtp_heur cfg tvb2 pinfo tree s = (.ok false, s)) ∧
    (cfg.global_rtp_heur = true →
      (¬ (RTP_VERSION (b0 % 256) = 2 ∧ RTP_PAYLOAD_TYPE (b1 % 256) ≤ PT_H263) →
        dissect_rtp_heur cfg tvb pinfo tree s = (.ok false, s)) ∧
      (RTP_VERSION (b0 % 256) = 2 ∧ RTP_PAYLOAD_TYPE (b1 % 256) ≤ PT_H263 →
        dissect_rtp_heur cfg tvb pinfo tree s =
          Dissect.bind (dissect_rtp cfg tvb pinfo tree) (fun _ => pure true) s ∧
        dissect_rtp cfg tvb pinfo tree s =
          (do
            let octet2 ← liftE (tvb_get_guint8 tvb 1)
            let seq_num ← liftE (tvb_get_ntohs tvb 2)
            let timestamp ← liftE (tvb_get_ntohl tvb 4)
            let sync_src ← liftE (tvb_get_ntohl tvb 8)
            dissect_rtp_v2 cfg tvb pinfo tree (b0 % 256) octet2 seq_num timestamp sync_src) s) ∧
      ((dissect_rtp_heur cfg tvb pinfo tree s).1 = .ok false ↔
        ¬ (RTP_VERSION (b0 % 256) = 2 ∧ RTP_PAYLOAD_TYPE (b1 % 256) ≤ PT_H263)) ∧
      ((dissect_rtp_heur cfg tvb pinfo tree s).1 = .ok true ↔
        (RTP_VERSION (b0 % 256) = 2 ∧ RTP_PAYLOAD_TYPE (b1 % 256) ≤ PT_H263) ∧
          (dissect_rtp cfg tvb pinfo tree s).1 = .ok ())) := by
  have hc := dissect_rtp_heur_cases cfg tvb pinfo tree b0 b1 s h0 h1
  refine ⟨fun h tvb2 => dissect_rtp_heur_off cfg tvb2 pinfo tree s h, fun hh => ?_⟩
  simp only [hh, true_and] at hc
  obtain ⟨hne, hiff⟩ := bind_pure_true_fst (dissect_rtp cfg tvb pinfo tree) s
  by_cases hcond : RTP_VERSION (b0 % 256) = 2 ∧ RTP_PAYLOAD_TYPE (b1 % 256) ≤ PT_H263
  · rw [if_pos hcond] at hc
    refine ⟨fun hn => absurd hcond hn,
      fun _ => ⟨hc, dissect_rtp_version_2 cfg tvb pinfo tree b0 s h0 hcond.1⟩, ?_, ?_⟩
    · rw [hc]
      exact ⟨fun h => absurd h hne, fun h => absurd hcond h⟩
    · rw [hc, hiff]
      constructor
      · rintro ⟨a, ha⟩
        exact ⟨hcond, ha⟩
      · rintro ⟨_, ha⟩
        exact ⟨(), ha⟩
  · rw [if_neg hcond] at hc
    refine ⟨fun _ => hc, fun h => absurd h hcond, ?_, ?_⟩
    · rw [hc]
      exact ⟨fun _ => hcond, fun _ => rfl⟩
    · rw [hc]
      constructor
      · intro h; cases h
      · rintro ⟨h, _⟩; exact absurd h hcond

/-- C29 at a concrete input: the 16-byte version-2 packet of payload type 0,
heuristic enabled, no tree. -/
theorem rtp_heur_acceptance_witness :
    (rtp_config.heuristic.global_rtp_heur = false →
      ∀ tvb2, dissect_rtp_heur rtp_config.heuristic tvb2 (rtp_pinfo 1) none epan_state.init =
        (.ok false, epan_state.init)) ∧
    (rtp_config.heuristic.global_rtp_heur = true →
      (¬ (RTP_VERSION (0x80 % 256) = 2 ∧ RTP_PAYLOAD_TYPE (0 % 256) ≤ PT_H263) →
        dissect_rtp_heur rtp_config.heuristic rtp_plain_tvb (rtp_pinfo 1) none epan_state.init =
          (.ok false, epan_state.init)) ∧
      (RTP_VERSION (0x80 % 256) = 2 ∧ RTP_PAYLOAD_TYPE (0 % 256) ≤ PT_H263 →
        dissect_rtp_heur rtp_config.heuristic rtp_plain_tvb (rtp_pinfo 1) none epan_state.init =
          Dissect.bind (dissect_rtp rtp_config.heuristic rtp_plain_tvb (rtp_pinfo 1) none)
            (fun _ => pure true) epan_state.init ∧
        dissect_rtp rtp_config.heuristic rtp_plain_tvb (rtp_pinfo 1) none epan_state.init =
          (do
            let octet2 ← liftE (tvb_get_guint8 rtp_plain_tvb 1)
            let seq_num ← liftE (tvb_get_ntohs rtp_plain_tvb 2)
            let timestamp ← liftE (tvb_get_ntohl rtp_plain_tvb 4)
            let sync_src ← liftE (tvb_get_ntohl rtp_plain_tvb 8)
            dissect_rtp_v2 rtp_config.heuristic rtp_plain_tvb (rtp_pinfo 1) none (0x80 % 256)
              octet2 seq_num timestamp sync_src) epan_state.init) ∧
      ((dissect_rtp_heur rtp_config.heuristic rtp_plain_tvb (rtp_pinfo 1) none
          epan_state.init).1 = .ok false ↔
        ¬ (RTP_VERSION (0x80 % 256) = 2 ∧ RTP_PAYLOAD_TYPE (0 % 256) ≤ PT_H263)) ∧
      ((dissect_rtp_heur rtp_config.heuristic rtp_plain_tvb (rtp_pinfo 1) none
          epan_state.init).1 = .ok true ↔
        (RTP_VERSION (0x80 % 256) = 2 ∧ RTP_PAYLOAD_TYPE (0 % 256) ≤ PT_H263) ∧
          (dissect_rtp rtp_config.heuristic rtp_plain_tvb (rtp_pinfo 1) none
            epan_state.init).1 = .ok ())) :=
  rtp_heur_acceptance rtp_config.heuristic rtp_plain_tvb (rtp_pinfo 1) none 0x80 0
    epan_state.init rfl rfl

/-! ## RTP: the tap queue after a returning call -/

theorem rtp_last_byte_of_ok (tvb : tvbuff_t) (pc : Nat)
    (h : tvb_get_guint8 tvb ((tvb_reported_length tvb + 4294967296 - 1) % 4294967296) = .ok pc) :
    rtp_last_byte tvb = pc := by
  unfold rtp_last_byte
  rw [h]

/-- The static record and the tap queue after the padding branch: the record
holds the payload offset, the remaining captured length and the padding count
read from the last byte; nothing is queued. -/
theorem dissect_rtp_padding_tap (cfg : rtp_config) (hsub : sub_decoders_keep cfg tap_part)
    (tvb : tvbuff_t) (pinfo : packet_info) (tree rtp_tree : Option Nat) (pt offset : Nat)
    (s : epan_state)
    (hok : (dissect_rtp_padding cfg tvb pinfo tree rtp_tree pt offset s).1 = .ok ()) :
    tap_part (dissect_rtp_padding cfg tvb pinfo tree rtp_tree pt offset s).2 =
      ({ s.rtp_info with
          info_payload_offset := offset,
          info_payload_len := to_size_t cfg (tvb_length_remaining tvb offset),
          info_padding_count := rtp_last_byte tvb }, s.tap_queue) := by
  unfold dissect_rtp_padding at hok ⊢
  cases hread : tvb_get_guint8 tvb ((tvb_reported_length tvb + 4294967296 - 1) % 4294967296) with
  | error e =>
    rw [bind_apply, bind_error _ _ s s e (by rw [liftE_apply, hread])] at hok
    simp at hok
  | ok pc =>
    rw [rtp_last_byte_of_ok tvb pc hread]
    rw [bind_apply, bind_ok _ _ s s pc (by first | rw [liftE_apply, hread] | rw [liftE_apply])]
    simp only []
    rw [bind_apply]
    refine (keeps_bind_tail tap_part _ _ (fun _ => ?_) s).trans rfl
    repeat' first
      | exact keeps_pure _ _
      | exact keeps_dissect_rtp_data tap_part tree_blind_tap_part cfg hsub _ _ _ _ _ _ _ _
      | exact keeps_proto_tree_add_item tap_part tree_blind_tap_part _ _ _ _ _
      | apply keeps_bind
      | apply keeps_ite
      | intro _

/-- The tap queue after the payload part of `dissect_rtp`, when it returns. -/
theorem dissect_rtp_payload_tap_queue (cfg : rtp_config) (hsub : sub_decoders_keep cfg tap_part)
    (tvb : tvbuff_t) (pinfo : packet_info) (tree rtp_tree : Option Nat) (ps pt offset : Nat)
    (s : epan_state)
    (hok : (dissect_rtp_payload cfg tvb pinfo tree rtp_tree ps pt offset s).1 = .ok ()) :
    (dissect_rtp_payload cfg tvb pinfo tree rtp_tree ps pt offset s).2.tap_queue =
      s.tap_queue ++
        (if pinfo.in_error_pkt = true ∨ (ps ≠ 0 ∧ tvb_length tvb < tvb_reported_length tvb) then []
        else [{ s.rtp_info with
          info_payload_offset := offset,
          info_payload_len := to_size_t cfg (tvb_length_remaining tvb offset),
          info_padding_count :=
            (if ps ≠ 0 then rtp_last_byte tvb else s.rtp_info.info_padding_count) }]) := by
  unfold dissect_rtp_payload at hok ⊢
  by_cases hps : ps ≠ 0
  · by_cases hcut : tvb_length tvb < tvb_reported_length tvb
    · rw [if_pos hps, if_pos hcut]
      rw [if_pos (Or.inr ⟨hps, hcut⟩), List.append_nil]
      have hk : keeps tap_part
          (do
            if tree.isSome then
              let _ ← proto_tree_add_text rtp_tree tvb 0 0
                "Frame has padding, but not all the frame data was captured"
              pure ()
            else pure ()
            let sub ← liftE (tvb_new_subset tvb offset (-1) (-1))
            call_data_dissector sub rtp_tree : Dissect Unit) := by
        repeat' first
          | exact keeps_pure _ _
          | exact keeps_liftE _ _
          | exact keeps_proto_tree_add_text tap_part tree_blind_tap_part _ _ _ _ _
          | exact keeps_call_data_dissector tap_part tree_blind_tap_part _ _
          | apply keeps_bind
          | apply keeps_ite
          | intro _
      have := hk.out s
      simp only [tap_part, Prod.mk.injEq] at this
      exact this.2
    · rw [if_pos hps, if_neg hcut] at hok ⊢
      rcases hp : dissect_rtp_padding cfg tvb pinfo tree rtp_tree pt offset s with ⟨r, s2⟩
      cases r with
      | error e =>
        rw [bind_apply, bind_error _ _ _ _ _ hp] at hok
        simp at hok
      | ok u =>
        have hpc := dissect_rtp_padding_tap cfg hsub tvb pinfo tree rtp_tree pt offset s
          (by rw [hp])
        rw [hp] at hpc
        simp only [tap_part, Prod.mk.injEq] at hpc
        rw [bind_apply, bind_ok _ _ _ _ _ hp]
        cases herr : pinfo.in_error_pkt with
        | true => simp [hpc.2]
        | false => simp [tap_queue_packet, hpc.1, hpc.2, hps, hcut]
  · have hps0 : ps = 0 := by omega
    rw [if_neg hps] at hok ⊢
    rcases hp : dissect_rtp_data cfg tvb pinfo tree rtp_tree offset (tvb_length_remaining tvb offset)
      (tvb_reported_length_remaining tvb offset) pt s with ⟨r, s2⟩
    cases r with
    | error e =>
      rw [bind_apply, bind_error _ _ _ _ _ hp] at hok
      simp at hok
    | ok u =>
      have hk := (keeps_dissect_rtp_data tap_part tree_blind_tap_part cfg hsub tvb pinfo tree
        rtp_tree offset (tvb_length_remaining tvb offset)
        (tvb_reported_length_remaining tvb offset) pt).out s
      rw [hp] at hk
      simp only [tap_part, Prod.mk.injEq] at hk
      rw [bind_apply, bind_ok _ _ _ _ _ hp]
      cases herr : pinfo.in_error_pkt with
      | true => simp [Dissect.bind, set_rtp_info_apply, hk.2]
      | false => simp [Dissect.bind, set_rtp_info_apply, tap_queue_packet, hk.1, hk.2, hps0]

/-- The tap queue after a returning call of `dissect_rtp` on a version-2
packet, with or without a tree: the queue before the call followed by the
records of `rtp_tap_expected`. -/
theorem dissect_rtp_tap_queue (cfg : rtp_config) (tvb : tvbuff_t) (pinfo : packet_info)
    (tree : Option Nat) (b0 b1 : Nat) (s : epan_state)
    (h0 : tvb.data[0]? = some b0) (h1 : tvb.data[1]? = some b1)
    (hv : RTP_VERSION (b0 % 256) = 2)
    (hsub : sub_decoders_keep cfg tap_part)
    (hok : (dissect_rtp cfg tvb pinfo tree s).1 = .ok ()) :
    (dissect_rtp cfg tvb pinfo tree s).2.tap_queue =
      s.tap_queue ++ rtp_tap_expected cfg tvb pinfo (b0 % 256) (b1 % 256) := by
  have e2 := dissect_rtp_ok_v2 cfg tvb pinfo tree b0 b1 s h0 h1 hv hok
  rw [e2] at hok ⊢
  rw [dissect_rtp_v2_split] at hok ⊢
  have hfill := dissect_rtp_fill_info_record tvb (RTP_PADDING (b0 % 256)) (RTP_MARKER (b1 % 256))
    (RTP_PAYLOAD_TYPE (b1 % 256)) (ntohs_at tvb 2) (ntohl_at tvb 4) (ntohl_at tvb 8) s
  have hB : tap_part (dissect_rtp_columns (RTP_PAYLOAD_TYPE (b1 % 256)) (ntohl_at tvb 8)
      (ntohs_at tvb 2) (ntohl_at tvb 4) (RTP_MARKER (b1 % 256))
      (dissect_rtp_fill_info tvb (RTP_PADDING (b0 % 256)) (RTP_MARKER (b1 % 256))
        (RTP_PAYLOAD_TYPE (b1 % 256)) (ntohs_at tvb 2) (ntohl_at tvb 4) (ntohl_at tvb 8) s).2).2 =
      ((dissect_rtp_fill_info tvb (RTP_PADDING (b0 % 256)) (RTP_MARKER (b1 % 256))
        (RTP_PAYLOAD_TYPE (b1 % 256)) (ntohs_at tvb 2) (ntohl_at tvb 4) (ntohl_at tvb 8) s).2.rtp_info,
        s.tap_queue) := by
    rw [dissect_rtp_columns_frame, dissect_rtp_fill_info_frame]
    rfl
  generalize (dissect_rtp_columns (RTP_PAYLOAD_TYPE (b1 % 256)) (ntohl_at tvb 8)
      (ntohs_at tvb 2) (ntohl_at tvb 4) (RTP_MARKER (b1 % 256))
      (dissect_rtp_fill_info tvb (RTP_PADDING (b0 % 256)) (RTP_MARKER (b1 % 256))
        (RTP_PAYLOAD_TYPE (b1 % 256)) (ntohs_at tvb 2) (ntohl_at tvb 4) (ntohl_at tvb 8) s).2).2 = sB
    at hok hB ⊢
  have hkeep := (keeps_dissect_rtp_header tap_part tree_blind_tap_part cfg tvb pinfo tree
    (b0 % 256) (b1 % 256) (ntohs_at tvb 2) (ntohl_at tvb 4) (ntohl_at tvb 8)).out sB
  have hval := (yields_dissect_rtp_header cfg tvb pinfo tree (b0 % 256) (b1 % 256)
    (ntohs_at tvb 2) (ntohl_at tvb 4) (ntohl_at tvb 8)).out sB
  rcases hh : dissect_rtp_header cfg tvb pinfo tree (b0 % 256) (b1 % 256) (ntohs_at tvb 2)
    (ntohl_at tvb 4) (ntohl_at tvb 8) sB with ⟨r, s1⟩
  rw [hh] at hkeep hval
  cases r with
  | error e =>
    rw [bind_error _ _ _ _ _ hh] at hok
    simp at hok
  | ok hdr =>
    rw [bind_ok _ _ _ _ _ hh] at hok ⊢
    have hoff := hval hdr rfl
    simp only [] at hoff hkeep
    rw [hoff] at hok ⊢
    have hq := dissect_rtp_payload_tap_queue cfg hsub tvb pinfo tree hdr.1
      (RTP_PADDING (b0 % 256)) (RTP_PAYLOAD_TYPE (b1 % 256)) (rtp_header_end tvb (b0 % 256)) s1 hok
    have hs1 := hkeep.trans hB
    simp only [tap_part, Prod.mk.injEq] at hs1
    rw [hs1.1, hs1.2, hfill] at hq
    rw [hq]
    unfold rtp_tap_expected
    by_cases hc : pinfo.in_error_pkt = true ∨
        (RTP_PADDING (b0 % 256) ≠ 0 ∧ tvb_length tvb < tvb_reported_length tvb)
    · rw [if_pos hc, if_pos hc]
    · rw [if_neg hc, if_neg hc]
      by_cases hps : RTP_PADDING (b0 % 256) ≠ 0
      · simp only [if_pos hps]
        rfl
      · simp only [if_neg hps]
        rfl

/-! ## RTP: the padding branch, step by step -/

/-- The padding branch is the read of the last byte, the update of the static
record, the payload (if any is left without the padding) and the padding
fields. -/
theorem dissect_rtp_padding_eq (cfg : rtp_config) (tvb : tvbuff_t) (pinfo : packet_info)
    (tree rtp_tree : Option Nat) (pt offset : Nat) :
    dissect_rtp_padding cfg tvb pinfo tree rtp_tree pt offset =
      (do
        let padding_count ← liftE (tvb_get_guint8 tvb
          ((tvb_reported_length tvb + 4294967296 - 1) % 4294967296))
        let data_len : Int := tvb_reported_length_remaining tvb offset - padding_count
        set_rtp_info (fun r => { r with
          info_payload_offset := offset,
          info_payload_len := to_size_t cfg (tvb_length_remaining tvb offset),
          info_padding_count := padding_count })
        let st : Nat × Nat ←
          if data_len > 0 then do
            dissect_rtp_data cfg tvb pinfo tree rtp_tree offset data_len data_len pt
            pure (offset + data_len.toNat, padding_count)
          else if data_len < 0 then
            pure (offset, to_guint (tvb_reported_length_remaining tvb offset))
          else
            pure (offset, padding_count)
        rtp_padding_fields tvb tree rtp_tree st.1 st.2) := rfl

/-- The padding fields with a tree when the padding is at least one byte and
ends at the end of the buffer. -/
theorem rtp_padding_fields_ok (tvb : tvbuff_t) (p r offset pc : Nat) (s : epan_state)
    (hlen : tvb.data.length < 4294967296) (hpc : 1 ≤ pc)
    (hend : offset + pc = tvb.data.length) :
    rtp_padding_fields tvb (some p) (some r) offset pc s =
      (.ok (), { s with tree := s.tree ++ rtp_padding_nodes r offset pc }) := by
  unfold rtp_padding_fields
  by_cases hR : pc > 1
  · simp only [hR, if_true, bind_apply, Dissect.bind, pure_apply, Option.isSome_some]
    have hmod : (offset + (pc - 1)) % 4294967296 = offset + (pc - 1) := by omega
    rw [proto_tree_add_item_ok _ _ _ _ _ _ (by omega) (by simp [tvb_length]; omega)]
    simp only [hmod]
    rw [proto_tree_add_item_ok _ _ _ _ _ _ (by omega) (by simp [tvb_length]; omega)]
    simp [rtp_padding_nodes, hR]
  · simp only [hR, if_false, bind_apply, Dissect.bind, pure_apply, Option.isSome_some, if_true]
    rw [proto_tree_add_item_ok _ _ _ _ _ _ (by omega) (by simp [tvb_length]; omega)]
    have : pc - 1 = 0 := by omega
    simp [rtp_padding_nodes, hR, this]

/-- The padding fields with a tree when no byte is left for them: the padding
count field is asked for at the end of the buffer, outside the captured bytes,
and the decoder stops with the bounds condition. -/
theorem rtp_padding_fields_zero (tvb : tvbuff_t) (p r : Nat) (s : epan_state) :
    rtp_padding_fields tvb (some p) (some r) tvb.data.length 0 s =
      (.error .OutOfBounds, { s with tree := s.tree ++
        [⟨r, .hf_rtp_padding_count, tvb.data.length, 1, .from_tvb, "", none, true, false⟩] }) := by
  unfold rtp_padding_fields
  simp only [show ¬ (0 > 1) by omega, if_false, bind_apply, Dissect.bind, pure_apply,
    Option.isSome_some, if_true]
  rw [proto_tree_add_item_truncated _ _ _ _ _ _ (by omega) (by simp [tvb_length])]

/-- Without a tree the padding fields are not shown. -/
theorem rtp_padding_fields_none (tvb : tvbuff_t) (rtp_tree : Option Nat) (offset pc : Nat)
    (s : epan_state) :
    rtp_padding_fields tvb none rtp_tree offset pc s = (.ok (), s) := by
  unfold rtp_padding_fields
  simp only [Option.isSome_none, Bool.false_eq_true, if_false, bind_apply, Dissect.bind]
  split_ifs <;> rfl

theorem rtp_last_index (tvb : tvbuff_t) (hfull : tvb.reported_length = tvb.data.length)
    (hlen : tvb.data.length < 4294967296) (hpos : 0 < tvb.data.length) :
    (tvb_reported_length tvb + 4294967296 - 1) % 4294967296 = tvb.data.length - 1 := by
  simp only [tvb_reported_length, hfull]; omega

/-- The padding branch on a fully captured buffer when the padding count `pc`
leaves payload bytes: the static record is updated, the payload of
`R - pc` bytes is handed to `dissect_rtp_data`, and the padding fields follow
at offset `L - pc`. -/
theorem dissect_rtp_padding_with_data (cfg : rtp_config) (tvb : tvbuff_t) (pinfo : packet_info)
    (tree rtp_tree : Option Nat) (pt o pc : Nat) (s : epan_state)
    (hfull : tvb.reported_length = tvb.data.length)
    (hlen : tvb.data.length < 4294967296)
    (hread : tvb_get_guint8 tvb (tvb.data.length - 1) = .ok pc)
    (hpc : o + pc < tvb.data.length) :
    dissect_rtp_padding cfg tvb pinfo tree rtp_tree pt o s =
      Dissect.bind
        (dissect_rtp_data cfg tvb pinfo tree rtp_tree o ((tvb.data.length : Int) - o - pc)
          ((tvb.data.length : Int) - o - pc) pt)
        (fun _ => rtp_padding_fields tvb tree rtp_tree (tvb.data.length - pc) pc)
        { s with rtp_info := { s.rtp_info with
          info_payload_offset := o,
          info_payload_len := to_size_t cfg ((tvb.data.length : Int) - o),
          info_padding_count := pc } } := by
  have hidx := rtp_last_index tvb hfull hlen (by omega)
  have hrem : tvb_reported_length_remaining tvb o = (tvb.data.length : Int) - o := by
    simp only [tvb_reported_length_remaining, tvb_reported_length, hfull]
    rw [if_pos (by omega)]
  have hrem2 : tvb_length_remaining tvb o = (tvb.data.length : Int) - o := by
    simp only [tvb_length_remaining, tvb_length]
    rw [if_pos (by omega)]
  have hpos : (tvb.data.length : Int) - o - (pc : Int) > 0 := by omega
  have hto : o + ((tvb.data.length : Int) - o - (pc : Int)).toNat = tvb.data.length - pc := by
    omega
  rw [dissect_rtp_padding_eq]
  simp only [bind_apply, hidx]
  rw [bind_ok _ _ s s pc (by rw [liftE_apply, hread])]
  simp only [hrem, hrem2, hpos, if_true, bind_apply]
  rw [bind_ok _ _ _ _ _ (set_rtp_info_apply _ _)]
  rw [hto]
  rfl

/-- The padding branch on a fully captured buffer when the padding count `pc`
leaves no payload byte: the static record is updated and the padding fields
take all `R` remaining bytes (the count is clipped to `R` when it exceeds it). -/
theorem dissect_rtp_padding_no_data (cfg : rtp_config) (tvb : tvbuff_t) (pinfo : packet_info)
    (tree rtp_tree : Option Nat) (pt o pc : Nat) (s : epan_state)
    (hfull : tvb.reported_length = tvb.data.length)
    (hlen : tvb.data.length < 4294967296)
    (hpos : 0 < tvb.data.length)
    (ho : o ≤ tvb.data.length)
    (hread : tvb_get_guint8 tvb (tvb.data.length - 1) = .ok pc)
    (hpc : tvb.data.length ≤ o + pc) :
    dissect_rtp_padding cfg tvb pinfo tree rtp_tree pt o s =
      rtp_padding_fields tvb tree rtp_tree o (tvb.data.length - o)
        { s with rtp_info := { s.rtp_info with
          info_payload_offset := o,
          info_payload_len := to_size_t cfg ((tvb.data.length : Int) - o),
          info_padding_count := pc } } := by
  have hidx := rtp_last_index tvb hfull hlen hpos
  have hrem : tvb_reported_length_remaining tvb o = (tvb.data.length : Int) - o := by
    simp only [tvb_reported_length_remaining, tvb_reported_length, hfull]
    rw [if_pos (by omega)]
  have hrem2 : tvb_length_remaining tvb o = (tvb.data.length : Int) - o := by
    simp only [tvb_length_remaining, tvb_length]
    rw [if_pos (by omega)]
  have hg : to_guint ((tvb.data.length : Int) - o) = tvb.data.length - o := by
    unfold to_guint; omega
  have hneg : ¬ ((tvb.data.length : Int) - o - (pc : Int) > 0) := by omega
  rw [dissect_rtp_padding_eq]
  simp only [bind_apply, hidx]
  rw [bind_ok _ _ s s pc (by rw [liftE_apply, hread])]
  simp only [hrem, hrem2, hneg, if_false, bind_apply]
  rw [bind_ok _ _ _ _ _ (set_rtp_info_apply _ _)]
  by_cases hlt : (tvb.data.length : Int) - o - (pc : Int) < 0
  · simp only [hlt, if_true, hg]
    rfl
  · have he : pc = tvb.data.length - o := by omega
    simp only [hlt, if_false]
    rw [← he]
    rfl

/-! ## RTP: where the padding count field is put -/

/-- Adding a field other than `hf` leaves the ranges of the fields `hf`
as they were. -/
theorem keeps_fields_where_add (hf hf2 : hf_id) (hne : hf2 ≠ hf) (tree : Option Nat)
    (tvb : tvbuff_t) (start : Nat) (length : Int) (v : fvalue_t) :
    keeps (fields_where hf) (proto_tree_add tree hf2 tvb start length v) := by
  refine ⟨fun s => ?_⟩
  unfold proto_tree_add
  cases tree with
  | none => rfl
  | some p =>
    simp only []
    split_ifs <;>
      simp [fields_where, add_node, add_truncated_node, List.filter_append, hne]

theorem keeps_fields_where_dissect_rtp_data (hf : hf_id) (hne : hf_id.hf_rtp_data ≠ hf)
    (cfg : rtp_config) (hsub : sub_decoders_keep cfg (fields_where hf)) (tvb : tvbuff_t)
    (pinfo : packet_info) (tree rtp_tree : Option Nat) (offset : Nat) (l r : Int) (pt : Nat) :
    keeps (fields_where hf) (dissect_rtp_data cfg tvb pinfo tree rtp_tree offset l r pt) := by
  unfold dissect_rtp_data
  refine keeps_bind _ _ _ (keeps_liftE _ _) (fun newtvb => ?_)
  refine keeps_bind _ _ _ ?_ (fun handled => ?_)
  · unfold dissector_try_port
    cases hd : cfg.rtp_pt_dissector_table pt with
    | none => exact keeps_pure _ _
    | some d => exact hsub pt d hd _ _ _
  · apply keeps_ite
    · refine keeps_bind _ _ _ (keeps_fields_where_add hf _ hne _ _ _ _ _) (fun _ => ?_)
      exact keeps_pure _ _
    · exact keeps_pure _ _

theorem fields_where_append (hf : hf_id) (s : epan_state) (l : List proto_node) :
    fields_where hf { s with tree := s.tree ++ l } =
      fields_where hf s ++ (l.filter (fun n => n.hfindex = hf)).map node_range := by
  simp [fields_where, List.filter_append]

theorem fields_where_append_none (hf : hf_id) (s : epan_state) (l : List proto_node)
    (h : ∀ n ∈ l, n.hfindex ≠ hf) :
    fields_where hf { s with tree := s.tree ++ l } = fields_where hf s := by
  rw [fields_where_append]
  have : l.filter (fun n => n.hfindex = hf) = [] := by
    rw [List.filter_eq_nil_iff]
    intro n hn
    simpa using h n hn
  rw [this]
  simp

theorem fields_where_padding_nodes (r offset pc : Nat) :
    ((rtp_padding_nodes r offset pc).filter
        (fun n => n.hfindex = hf_id.hf_rtp_padding_count)).map node_range =
      [(offset + (pc - 1), 1)] := by
  unfold rtp_padding_nodes
  split_ifs <;> simp [item_node, node_range]

/-- The padding branch with a tree on a fully captured buffer, when it
returns: the padding count read from the last byte is at least 1, at least one
byte follows the header, and exactly one padding count field is added, the
last byte of the buffer. -/
theorem dissect_rtp_padding_count_field (cfg : rtp_config) (tvb : tvbuff_t)
    (pinfo : packet_info) (p r pt o pc : Nat) (s : epan_state)
    (hsub : sub_decoders_keep cfg (fields_where .hf_rtp_padding_count))
    (hfull : tvb.reported_length = tvb.data.length)
    (hlen : tvb.data.length < 4294967296)
    (hpos : 0 < tvb.data.length)
    (ho : o ≤ tvb.data.length)
    (hread : tvb_get_guint8 tvb (tvb.data.length - 1) = .ok pc)
    (hok : (dissect_rtp_padding cfg tvb pinfo (some p) (some r) pt o s).1 = .ok ()) :
    1 ≤ pc ∧ o < tvb.data.length ∧
      fields_where .hf_rtp_padding_count
          (dissect_rtp_padding cfg tvb pinfo (some p) (some r) pt o s).2 =
        fields_where .hf_rtp_padding_count s ++ [(tvb.data.length - 1, 1)] := by
  by_cases hpc : o + pc < tvb.data.length
  · rw [dissect_rtp_padding_with_data cfg tvb pinfo _ _ pt o pc s hfull hlen hread hpc] at hok ⊢
    have hk := (keeps_fields_where_dissect_rtp_data .hf_rtp_padding_count (by simp) cfg hsub tvb
      pinfo (some p) (some r) o ((tvb.data.length : Int) - o - pc)
      ((tvb.data.length : Int) - o - pc) pt).out
      { s with rtp_info := { s.rtp_info with
        info_payload_offset := o,
        info_payload_len := to_size_t cfg ((tvb.data.length : Int) - o),
        info_padding_count := pc } }
    rcases hd : dissect_rtp_data cfg tvb pinfo (some p) (some r) o
      ((tvb.data.length : Int) - o - pc) ((tvb.data.length : Int) - o - pc) pt
      { s with rtp_info := { s.rtp_info with
        info_payload_offset := o,
        info_payload_len := to_size_t cfg ((tvb.data.length : Int) - o),
        info_padding_count := pc } } with ⟨res, s2⟩
    rw [hd] at hk
    cases res with
    | error e =>
      rw [bind_error _ _ _ _ _ hd] at hok
      simp at hok
    | ok u =>
      rw [bind_ok _ _ _ _ _ hd] at hok ⊢
      by_cases h1 : 1 ≤ pc
      · rw [rtp_padding_fields_ok tvb p r _ pc s2 hlen h1 (by omega)]
        refine ⟨h1, by omega, ?_⟩
        rw [fields_where_append, fields_where_padding_nodes, hk]
        have e : tvb.data.length - pc + (pc - 1) = tvb.data.length - 1 := by omega
        rw [e]
        rfl
      · have h0 : pc = 0 := by omega
        subst h0
        rw [Nat.sub_zero, rtp_padding_fields_zero] at hok
        simp at hok
  · rw [dissect_rtp_padding_no_data cfg tvb pinfo _ _ pt o pc s hfull hlen hpos ho hread
      (by omega)] at hok ⊢
    by_cases h1 : 1 ≤ tvb.data.length - o
    · rw [rtp_padding_fields_ok tvb p r o _ _ hlen h1 (by omega)]
      refine ⟨by omega, by omega, ?_⟩
      rw [fields_where_append, fields_where_padding_nodes]
      have e : o + (tvb.data.length - o - 1) = tvb.data.length - 1 := by omega
      rw [e]
      rfl
    · have h0 : tvb.data.length - o = 0 := by omega
      have e : o = tvb.data.length := by omega
      rw [h0] at hok
      rw [e, rtp_padding_fields_zero] at hok
      simp at hok

/-- A call of `dissect_rtp_v2` with a tree that returns has decoded its
header within the captured bytes. -/
theorem dissect_rtp_v2_ok_header_le (cfg : rtp_config) (tvb : tvbuff_t) (pinfo : packet_info)
    (p o1 o2 seq ts ssrc : Nat) (s : epan_state)
    (hok : (dissect_rtp_v2 cfg tvb pinfo (some p) o1 o2 seq ts ssrc s).1 = .ok ()) :
    rtp_header_end tvb o1 ≤ tvb_length tvb := by
  rw [dissect_rtp_v2_split] at hok
  generalize (dissect_rtp_columns (RTP_PAYLOAD_TYPE o2) ssrc seq ts (RTP_MARKER o2)
      (dissect_rtp_fill_info tvb (RTP_PADDING o1) (RTP_MARKER o2) (RTP_PAYLOAD_TYPE o2)
        seq ts ssrc s).2).2 = sB at hok
  have hval := (yields_dissect_rtp_header cfg tvb pinfo (some p) o1 o2 seq ts ssrc).out sB
  have hle := (yields_dissect_rtp_header_le cfg tvb pinfo p o1 o2 seq ts ssrc).out sB
  rcases hh : dissect_rtp_header cfg tvb pinfo (some p) o1 o2 seq ts ssrc sB with ⟨r, s1⟩
  rw [hh] at hval hle
  cases r with
  | error e =>
    rw [bind_error _ _ _ _ _ hh] at hok
    simp at hok
  | ok hdr =>
    have h1 := hval hdr rfl
    have h2 := hle hdr rfl
    simp only [] at h1 h2
    omega

/-- A call of `dissect_rtp` with a tree on a version-2 packet that returns is
the payload part run at the end of the header, below the RTP subtree, from a
state whose tree holds the nodes of the header after those it held before. -/
theorem dissect_rtp_tree_header (cfg : rtp_config) (tvb : tvbuff_t) (pinfo : packet_info)
    (p b0 b1 : Nat) (s : epan_state)
    (h0 : tvb.data[0]? = some b0) (h1 : tvb.data[1]? = some b1)
    (hv : RTP_VERSION (b0 % 256) = 2)
    (hok : (dissect_rtp cfg tvb pinfo (some p) s).1 = .ok ()) :
    rtp_header_end tvb (b0 % 256) ≤ tvb_length tvb ∧
    ∃ sh pre, dissect_rtp cfg tvb pinfo (some p) s =
        dissect_rtp_payload cfg tvb pinfo (some p) (some s.tree.length) (RTP_PADDING (b0 % 256))
          (RTP_PAYLOAD_TYPE (b1 % 256)) (rtp_header_end tvb (b0 % 256)) sh ∧
      sh.tree = s.tree ++ pre ∧ (∀ n ∈ pre, rtp_header_node_ok n) := by
  have e2 := dissect_rtp_ok_v2 cfg tvb pinfo (some p) b0 b1 s h0 h1 hv hok
  rw [e2] at hok ⊢
  have hle := dissect_rtp_v2_ok_header_le cfg tvb pinfo p _ _ _ _ _ s hok
  refine ⟨hle, ?_⟩
  have hend : 12 + 4 * RTP_CSRC_COUNT (b0 % 256) ≤ rtp_header_end tvb (b0 % 256) := by
    unfold rtp_header_end; omega
  rw [dissect_rtp_v2_header cfg tvb pinfo p _ _ s (by omega)] at hok ⊢
  obtain ⟨⟨l, hl, hq⟩, _⟩ := rtp_csrc_state_tree cfg tvb pinfo p (b0 % 256) (b1 % 256) s
  by_cases hx : RTP_EXTENSION (b0 % 256) = 0
  · have he : rtp_header_end tvb (b0 % 256) = 12 + 4 * RTP_CSRC_COUNT (b0 % 256) := by
      simp [rtp_header_end, hx]
    rw [hx, bind_ok _ _ _ _ _ (dissect_rtp_hdr_extension_none tvb _ _ _ _ _)]
    rw [← he]
    exact ⟨_, l, rfl, hl, hq⟩
  · have he : rtp_header_end tvb (b0 % 256) = 12 + 4 * RTP_CSRC_COUNT (b0 % 256) + 4 +
        4 * ntohs_at tvb (12 + 4 * RTP_CSRC_COUNT (b0 % 256) + 2) := by
      simp [rtp_header_end, hx]; omega
    rw [bind_ok _ _ _ _ _ (dissect_rtp_hdr_extension_ok tvb p _ _ _ _ _ hx (by omega))]
    rw [← he]
    refine ⟨_, l ++ rtp_hdr_ext_nodes tvb s.tree.length
      (rtp_csrc_state cfg tvb pinfo p (b0 % 256) (b1 % 256) s).tree.length
      (RTP_CSRC_COUNT (b0 % 256)) (12 + 4 * RTP_CSRC_COUNT (b0 % 256)), rfl, ?_, ?_⟩
    · simp [hl]
    · intro n hn
      rcases List.mem_append.mp hn with hn | hn
      · exact hq n hn
      · exact rtp_hdr_ext_nodes_ok tvb _ _ _ _ n hn

/-- Wherever the padding branch runs to its end, the padding count is shown
at the last byte: for every fully captured RTP version-2 buffer with the
padding bit set on which `dissect_rtp`, called with a tree, returns (payload
decoders leaving the padding count fields alone), the call adds exactly one
"Padding count" field, the 1-byte range at offset `reported_length - 1`; the
last byte is then at least 1 and at least one byte follows the header. -/
theorem rtp_padding_count_at_last_byte (cfg : rtp_config) (tvb : tvbuff_t)
    (pinfo : packet_info) (p b0 b1 b : Nat) (s : epan_state)
    (h0 : tvb.data[0]? = some b0) (h1 : tvb.data[1]? = some b1)
    (hv : RTP_VERSION (b0 % 256) = 2) (hps : RTP_PADDING (b0 % 256) ≠ 0)
    (hfull : tvb.reported_length = tvb.data.length)
    (hlen : tvb.data.length < 4294967296)
    (hb : tvb.data[tvb.data.length - 1]? = some b)
    (hsub : sub_decoders_keep cfg (fields_where .hf_rtp_padding_count))
    (hok : (dissect_rtp cfg tvb pinfo (some p) s).1 = .ok ()) :
    fields_where .hf_rtp_padding_count (dissect_rtp cfg tvb pinfo (some p) s).2 =
        fields_where .hf_rtp_padding_count s ++ [(tvb_reported_length tvb - 1, 1)] ∧
      1 ≤ b % 256 ∧ rtp_header_end tvb (b0 % 256) < tvb_reported_length tvb := by
  obtain ⟨hle, sh, pre, hrun, htree, hpre⟩ :=
    dissect_rtp_tree_header cfg tvb pinfo p b0 b1 s h0 h1 hv hok
  have hpos : 0 < tvb.data.length := by
    have := (List.getElem?_eq_some_iff.mp h0).1
    omega
  have hnot : ¬ tvb_length tvb < tvb_reported_length tvb := by
    simp [tvb_length, tvb_reported_length, hfull]
  have hsh : fields_where .hf_rtp_padding_count sh = fields_where .hf_rtp_padding_count s := by
    have := fields_where_append_none .hf_rtp_padding_count s pre (fun n hn => (hpre n hn).2.2.1)
    rw [← this]
    simp [fields_where, htree]
  rw [hrun] at hok ⊢
  unfold dissect_rtp_payload at hok ⊢
  rw [if_pos hps, if_neg hnot] at hok ⊢
  rcases hp : dissect_rtp_padding cfg tvb pinfo (some p) (some s.tree.length)
    (RTP_PAYLOAD_TYPE (b1 % 256)) (rtp_header_end tvb (b0 % 256)) sh with ⟨r, s2⟩
  cases r with
  | error e =>
    rw [bind_apply, bind_error _ _ _ _ _ hp] at hok
    simp at hok
  | ok u =>
    obtain ⟨hpc, ho, hf⟩ := dissect_rtp_padding_count_field cfg tvb pinfo p s.tree.length
      (RTP_PAYLOAD_TYPE (b1 % 256)) (rtp_header_end tvb (b0 % 256)) (b % 256) sh hsub hfull hlen
      hpos (by simpa [tvb_length] using hle) (tvb_get_guint8_ok _ _ _ hb) (by rw [hp])
    rw [hp] at hf
    simp only [] at hf
    rw [bind_apply, bind_ok _ _ _ _ _ hp]
    refine ⟨?_, hpc, by simpa [tvb_reported_length, hfull] using ho⟩
    have hq : ∀ s3 : epan_state,
        fields_where .hf_rtp_padding_count
          ((if !pinfo.in_error_pkt then tap_queue_packet else pure ()) s3).2 =
        fields_where .hf_rtp_padding_count s3 := by
      intro s3
      split_ifs <;> rfl
    rw [hq, hf, hsh]
    simp [tvb_reported_length, hfull]

/-! ## RTP: the padding branch without a tree -/

theorem tvb_new_subset_ok (tvb : tvbuff_t) (offset : Nat) (l r : Int)
    (h0 : 0 ≤ l) (h : (offset : Int) + l ≤ tvb_length tvb) :
    ∃ sub, tvb_new_subset tvb offset l r = .ok sub := by
  unfold tvb_new_subset
  have h1 : ¬ tvb_length tvb < offset := by omega
  have h2 : ¬ l = -1 := by omega
  have h3 : ¬ (l < 0 ∨ (tvb_length tvb : Int) < offset + l) := by omega
  simp only [h1, if_false, h2, h3]
  exact ⟨_, rfl⟩

/-- Without a tree and without a decoder for the payload type, the padding
branch on a fully captured buffer returns whenever the header ends within the
buffer. -/
theorem dissect_rtp_padding_none_ok (cfg : rtp_config) (tvb : tvbuff_t) (pinfo : packet_info)
    (pt o pc : Nat) (s : epan_state)
    (hno : cfg.rtp_pt_dissector_table pt = none)
    (hfull : tvb.reported_length = tvb.data.length)
    (hlen : tvb.data.length < 4294967296)
    (hpos : 0 < tvb.data.length)
    (ho : o ≤ tvb.data.length)
    (hread : tvb_get_guint8 tvb (tvb.data.length - 1) = .ok pc) :
    (dissect_rtp_padding cfg tvb pinfo none none pt o s).1 = .ok () := by
  by_cases hpc : o + pc < tvb.data.length
  · rw [dissect_rtp_padding_with_data cfg tvb pinfo _ _ pt o pc s hfull hlen hread hpc]
    obtain ⟨sub, hsub⟩ := tvb_new_subset_ok tvb o ((tvb.data.length : Int) - o - pc)
      ((tvb.data.length : Int) - o - pc) (by omega) (by simp only [tvb_length]; omega)
    rw [bind_ok _ _ _ _ _ (dissect_rtp_data_none cfg tvb pinfo o _ _ pt sub _ hno hsub)]
    rw [rtp_padding_fields_none]
  · rw [dissect_rtp_padding_no_data cfg tvb pinfo _ _ pt o pc s hfull hlen hpos ho hread
      (by omega)]
    rw [rtp_padding_fields_none]

/-- Without a tree and without a decoder for the payload type, the padding
branch on a fully captured buffer returns wherever the header ended, also
past the end of the buffer. -/
theorem dissect_rtp_padding_none_any (cfg : rtp_config) (tvb : tvbuff_t) (pinfo : packet_info)
    (pt o pc : Nat) (s : epan_state)
    (hno : cfg.rtp_pt_dissector_table pt = none)
    (hfull : tvb.reported_length = tvb.data.length)
    (hlen : tvb.data.length < 4294967296)
    (hpos : 0 < tvb.data.length)
    (hread : tvb_get_guint8 tvb (tvb.data.length - 1) = .ok pc) :
    (dissect_rtp_padding cfg tvb pinfo none none pt o s).1 = .ok () := by
  by_cases ho : o ≤ tvb.data.length
  · exact dissect_rtp_padding_none_ok cfg tvb pinfo pt o pc s hno hfull hlen hpos ho hread
  · have hidx := rtp_last_index tvb hfull hlen hpos
    have hrem : tvb_reported_length_remaining tvb o = -1 := by
      simp only [tvb_reported_length_remaining, tvb_reported_length, hfull]
      rw [if_neg (by omega)]
    have hneg : ¬ ((-1 : Int) - (pc : Int) > 0) := by omega
    have hlt : (-1 : Int) - (pc : Int) < 0 := by omega
    rw [dissect_rtp_padding_eq]
    simp only [bind_apply, hidx]
    rw [bind_ok _ _ s s pc (by rw [liftE_apply, hread])]
    simp only [hrem, hneg, hlt, if_false, if_true, bind_apply]
    rw [bind_ok _ _ _ _ _ (set_rtp_info_apply _ _)]
    rw [bind_apply, bind_ok _ _ _ _ _ (pure_apply _ _)]
    rw [rtp_padding_fields_none]

/-- Without a tree and without a decoder for the payload type, `dissect_rtp`
returns on a fully captured version-2 packet with the padding bit set as soon
as the reads of the header that do not depend on the tree succeed: the CSRC
items and the length of the header extension. -/
theorem dissect_rtp_none_padding_any (cfg : rtp_config) (tvb : tvbuff_t) (pinfo : packet_info)
    (b0 b1 : Nat) (s : epan_state)
    (h0 : tvb.data[0]? = some b0) (h1 : tvb.data[1]? = some b1)
    (hv : RTP_VERSION (b0 % 256) = 2) (hps : RTP_PADDING (b0 % 256) ≠ 0)
    (hno : cfg.rtp_pt_dissector_table (RTP_PAYLOAD_TYPE (b1 % 256)) = none)
    (hfull : tvb.reported_length = tvb.data.length)
    (hlen : tvb.data.length < 4294967296)
    (hh : 12 + 4 * RTP_CSRC_COUNT (b0 % 256) ≤ tvb_length tvb)
    (hx : RTP_EXTENSION (b0 % 256) ≠ 0 →
      12 + 4 * RTP_CSRC_COUNT (b0 % 256) + 4 ≤ tvb_length tvb) :
    (dissect_rtp cfg tvb pinfo none s).1 = .ok () := by
  have hpos : 0 < tvb.data.length := by
    have := (List.getElem?_eq_some_iff.mp h0).1
    omega
  have hnot : ¬ tvb_length tvb < tvb_reported_length tvb := by
    simp [tvb_length, tvb_reported_length, hfull]
  have hlast : ∃ pc, tvb_get_guint8 tvb (tvb.data.length - 1) = .ok pc := by
    have hi : tvb.data.length - 1 < tvb.data.length := by omega
    exact ⟨_, tvb_get_guint8_ok tvb _ _ (List.getElem?_eq_getElem hi)⟩
  obtain ⟨pc, hread⟩ := hlast
  rw [dissect_rtp_none_run cfg tvb pinfo b0 b1 s h0 h1 hv hh hx]
  unfold dissect_rtp_payload
  rw [if_pos hps, if_neg hnot, bind_apply]
  have hp := dissect_rtp_padding_none_any cfg tvb pinfo (RTP_PAYLOAD_TYPE (b1 % 256))
    (rtp_header_end tvb (b0 % 256)) pc
    (dissect_rtp_columns (RTP_PAYLOAD_TYPE (b1 % 256)) (ntohl_at tvb 8) (ntohs_at tvb 2)
      (ntohl_at tvb 4) (RTP_MARKER (b1 % 256))
      (dissect_rtp_fill_info tvb (RTP_PADDING (b0 % 256)) (RTP_MARKER (b1 % 256))
        (RTP_PAYLOAD_TYPE (b1 % 256)) (ntohs_at tvb 2) (ntohl_at tvb 4)
        (ntohl_at tvb 8) s).2).2
    hno hfull hlen hpos hread
  rcases hr : dissect_rtp_padding cfg tvb pinfo none none (RTP_PAYLOAD_TYPE (b1 % 256))
    (rtp_header_end tvb (b0 % 256))
    (dissect_rtp_columns (RTP_PAYLOAD_TYPE (b1 % 256)) (ntohl_at tvb 8) (ntohs_at tvb 2)
      (ntohl_at tvb 4) (RTP_MARKER (b1 % 256))
      (dissect_rtp_fill_info tvb (RTP_PADDING (b0 % 256)) (RTP_MARKER (b1 % 256))
        (RTP_PAYLOAD_TYPE (b1 % 256)) (ntohs_at tvb 2) (ntohl_at tvb 4)
        (ntohl_at tvb 8) s).2).2 with ⟨res, s2⟩
  rw [hr] at hp
  simp only [] at hp
  subst hp
  rw [bind_ok _ _ _ _ _ hr]
  split_ifs <;> rfl

/-- Without a tree and without a decoder for the payload type, `dissect_rtp`
returns on a fully captured version-2 packet with the padding bit set whose
header ends within the buffer. -/
theorem dissect_rtp_none_padding_ok (cfg : rtp_config) (tvb : tvbuff_t) (pinfo : packet_info)
    (b0 b1 : Nat) (s : epan_state)
    (h0 : tvb.data[0]? = some b0) (h1 : tvb.data[1]? = some b1)
    (hv : RTP_VERSION (b0 % 256) = 2) (hps : RTP_PADDING (b0 % 256) ≠ 0)
    (hno : cfg.rtp_pt_dissector_table (RTP_PAYLOAD_TYPE (b1 % 256)) = none)
    (hfull : tvb.reported_length = tvb.data.length)
    (hlen : tvb.data.length < 4294967296)
    (h : rtp_header_end tvb (b0 % 256) ≤ tvb_length tvb) :
    (dissect_rtp cfg tvb pinfo none s).1 = .ok () := by
  have hh : 12 + 4 * RTP_CSRC_COUNT (b0 % 256) ≤ tvb_length tvb := by
    unfold rtp_header_end at h; omega
  have hx : RTP_EXTENSION (b0 % 256) ≠ 0 →
      12 + 4 * RTP_CSRC_COUNT (b0 % 256) + 4 ≤ tvb_length tvb := by
    intro hx
    unfold rtp_header_end at h
    rw [if_pos hx] at h
    omega
  exact dissect_rtp_none_padding_any cfg tvb pinfo b0 b1 s h0 h1 hv hps hno hfull hlen hh hx

/-- With no decoder registered for the payload type, `dissect_rtp_data` shows
the payload sub-view as one raw "Payload" field below the RTP subtree. -/
theorem dissect_rtp_data_raw (cfg : rtp_config) (tvb : tvbuff_t) (pinfo : packet_info)
    (tree : Option Nat) (r offset : Nat) (data_len data_reported_len : Int) (payload_type : Nat)
    (newtvb : tvbuff_t) (s : epan_state)
    (hno : cfg.rtp_pt_dissector_table payload_type = none)
    (hsub : tvb_new_subset tvb offset data_len data_reported_len = .ok newtvb) :
    dissect_rtp_data cfg tvb pinfo tree (some r) offset data_len data_reported_len payload_type
        s =
      (.ok (), { s with tree := s.tree ++ [item_node r .hf_rtp_data 0 (tvb_length newtvb)] }) := by
  unfold dissect_rtp_data
  simp [Dissect.bind, liftE, hsub, dissector_try_port, hno, proto_tree_add_item_rest]

/-- The run of `dissect_rtp` with a tree on the 13-byte packet whose padding
count is 0: the payload byte is shown, the padding count field is asked for
past the end of the buffer, and the decoder stops there. -/
theorem dissect_rtp_padding_zero_run :
    dissect_rtp rtp_config.plain rtp_padding_zero_tvb (rtp_pinfo 1) (some 0) epan_state.init =
      (.error .OutOfBounds,
        { (rtp_csrc_state rtp_config.plain rtp_padding_zero_tvb (rtp_pinfo 1) 0 (0xA0 % 256)
            (0 % 256) epan_state.init) with
          rtp_info := { (rtp_csrc_state rtp_config.plain rtp_padding_zero_tvb (rtp_pinfo 1) 0
              (0xA0 % 256) (0 % 256) epan_state.init).rtp_info with
            info_payload_offset := 12, info_payload_len := to_size_t rtp_config.plain 1,
            info_padding_count := 0 },
          tree := (rtp_csrc_state rtp_config.plain rtp_padding_zero_tvb (rtp_pinfo 1) 0
              (0xA0 % 256) (0 % 256) epan_state.init).tree ++
            [item_node 0 .hf_rtp_data 0 1,
             ⟨0, .hf_rtp_padding_count, 13, 1, .from_tvb, "", none, true, false⟩] }) := by
  have hx : RTP_EXTENSION (0xA0 % 256) = 0 := by decide
  have hcc : RTP_CSRC_COUNT (0xA0 % 256) = 0 := by decide
  have hps : RTP_PADDING (0xA0 % 256) ≠ 0 := by decide
  have hnot : ¬ tvb_length rtp_padding_zero_tvb < tvb_reported_length rtp_padding_zero_tvb := by
    decide
  rw [dissect_rtp_eq_v2 rtp_config.plain rtp_padding_zero_tvb (rtp_pinfo 1) (some 0) 0xA0 0
    epan_state.init rfl rfl (by decide) (by decide)]
  rw [dissect_rtp_v2_header rtp_config.plain rtp_padding_zero_tvb (rtp_pinfo 1) 0 _ _
    epan_state.init (by decide)]
  rw [hx, bind_ok _ _ _ _ _ (dissect_rtp_hdr_extension_none _ _ _ _ _ _), hcc]
  unfold dissect_rtp_payload
  rw [if_pos hps, if_neg hnot, bind_apply]
  rw [bind_error _ _ _ _ .OutOfBounds]
  rw [dissect_rtp_padding_with_data rtp_config.plain rtp_padding_zero_tvb (rtp_pinfo 1) _ _ _ 12
    0 _ rfl (by decide) rfl (by decide)]
  rw [bind_ok _ _ _ _ _ (dissect_rtp_data_raw rtp_config.plain rtp_padding_zero_tvb
    (rtp_pinfo 1) (some 0) _ 12
    ((rtp_padding_zero_tvb.data.length : Int) - (12 : Nat) - (0 : Nat))
    ((rtp_padding_zero_tvb.data.length : Int) - (12 : Nat) - (0 : Nat)) _ ⟨[0], 1⟩ _ rfl rfl)]
  have e13 : rtp_padding_zero_tvb.data.length - 0 = rtp_padding_zero_tvb.data.length := rfl
  rw [e13, rtp_padding_fields_zero]
  simp [tvb_length, rtp_padding_zero_tvb, epan_state.init]

/-- C23 at its failing input: on the fully captured 13-byte version-2 packet
with the padding bit set and last byte 0, `dissect_rtp` with a tree shows the
one byte after the header as payload and then asks for the "Padding count"
field at offset 13, the reported length, not at offset 12, the last byte: the
range lies outside the buffer, the field is flagged as truncated, and the
decoder stops with the bounds condition. -/
theorem rtp_padding_count_zero_past_end :
    tvb_length rtp_padding_zero_tvb = tvb_reported_length rtp_padding_zero_tvb ∧
      tvb_reported_length rtp_padding_zero_tvb = 13 ∧
      RTP_VERSION (0xA0 % 256) = 2 ∧ RTP_PADDING (0xA0 % 256) ≠ 0 ∧
      rtp_padding_zero_tvb.data[12]? = some 0 ∧
      (dissect_rtp rtp_config.plain rtp_padding_zero_tvb (rtp_pinfo 1) (some 0)
        epan_state.init).1 = .error .OutOfBounds ∧
      (dissect_rtp rtp_config.plain rtp_padding_zero_tvb (rtp_pinfo 1) (some 0)
        epan_state.init).2.tree.filter (fun n => n.hfindex = hf_id.hf_rtp_padding_count) =
        [⟨0, .hf_rtp_padding_count, 13, 1, .from_tvb, "", none, true, false⟩] := by
  have hps : RTP_PADDING (0xA0 % 256) ≠ 0 := by decide
  obtain ⟨⟨l, hl, hq⟩, _⟩ := rtp_csrc_state_tree rtp_config.plain rtp_padding_zero_tvb
    (rtp_pinfo 1) 0 (0xA0 % 256) (0 % 256) epan_state.init
  have hrun := dissect_rtp_padding_zero_run
  rw [hrun]
  refine ⟨rfl, rfl, by decide, hps, rfl, rfl, ?_⟩
  simp only [hl, List.filter_append]
  have hnil : l.filter (fun n => n.hfindex = hf_id.hf_rtp_padding_count) = [] := by
    rw [List.filter_eq_nil_iff]
    intro n hn
    simpa using (hq n hn).2.2.1
  rw [hnil]
  simp [epan_state.init, item_node]

/-- The fully captured 22-byte packet whose last byte is 255: the padding
count field is the byte at offset 21. -/
theorem rtp_padding_count_at_last_byte_witness :
    fields_where .hf_rtp_padding_count
        (dissect_rtp rtp_config.plain rtp_padding_255_tvb (rtp_pinfo 1) (some 0)
          epan_state.init).2 =
      fields_where .hf_rtp_padding_count epan_state.init ++
        [(tvb_reported_length rtp_padding_255_tvb - 1, 1)] ∧
      1 ≤ 255 % 256 ∧
      rtp_header_end rtp_padding_255_tvb (0xA0 % 256) < tvb_reported_length rtp_padding_255_tvb :=
  rtp_padding_count_at_last_byte rtp_config.plain rtp_padding_255_tvb (rtp_pinfo 1) 0 0xA0 0 255
    epan_state.init rfl rfl (by decide) (by decide) rfl (by decide) rfl
    (sub_decoders_keep_plain _) (dissect_rtp_padding_255 0 epan_state.init).1

/-! ## RTP: claims about the tap record and the tree -/

/-- A 32-bit read that does not fit in the captured bytes raises the bounds
condition. -/
theorem tvb_get_ntohl_cut (tvb : tvbuff_t) (offset : Nat) (h : tvb_length tvb < offset + 4) :
    tvb_get_ntohl tvb offset = .error .OutOfBounds := by
  unfold tvb_get_ntohl
  have h3 : tvb.data[offset + 3]? = none :=
    List.getElem?_eq_none (by simp only [tvb_length] at h; omega)
  rw [h3]
  split
  · simp_all
  · rfl

/-- A header extension whose first word is not in the captured bytes: with a
tree the word is read for its field, and the read stops the decoder with the
bounds condition. -/
theorem dissect_rtp_hdr_extension_word_cut (tvb : tvbuff_t) (p r x cc offset : Nat)
    (s : epan_state) (hx : x ≠ 0)
    (h : offset + 4 ≤ tvb_length tvb)
    (hn : ntohs_at tvb (offset + 2) > 0)
    (hcut : tvb_length tvb < offset + 8) :
    (dissect_rtp_hdr_extension tvb (some p) (some r) x cc offset s).1 =
      .error .OutOfBounds := by
  unfold dissect_rtp_hdr_extension
  have h1 := tvb_get_ntohs_ok tvb offset (by omega)
  have h2 := tvb_get_ntohs_ok tvb (offset + 2) (by omega)
  have ht := fun s1 => proto_tree_add_text_any r tvb (offset + 2 + 2) ((cc : Int) * 4)
    "Header extensions" s1 (by omega)
  obtain ⟨k, hk⟩ : ∃ k, ntohs_at tvb (offset + 2) = k + 1 :=
    ⟨_, (Nat.succ_pred_eq_of_pos hn).symm⟩
  have hr := tvb_get_ntohl_cut tvb (offset + 2 + 2) (by omega)
  simp (disch := omega) [hx, hk, Dissect.bind, liftE, h1, h2, proto_tree_add_uint,
    proto_tree_add_ok, ht, proto_item_add_subtree, dissect_rtp_hdr_ext_items, hr]

/-- With a tree, a version-2 packet whose header extension declares a word
that is not in the captured bytes stops `dissect_rtp` with the bounds
condition before the payload part, and nothing is queued for the tap. -/
theorem dissect_rtp_ext_word_cut (cfg : rtp_config) (tvb : tvbuff_t) (pinfo : packet_info)
    (p b0 b1 : Nat) (s : epan_state)
    (h0 : tvb.data[0]? = some b0) (h1 : tvb.data[1]? = some b1)
    (hv : RTP_VERSION (b0 % 256) = 2)
    (hx : RTP_EXTENSION (b0 % 256) ≠ 0)
    (h : 12 + 4 * RTP_CSRC_COUNT (b0 % 256) + 4 ≤ tvb_length tvb)
    (hn : ntohs_at tvb (12 + 4 * RTP_CSRC_COUNT (b0 % 256) + 2) > 0)
    (hcut : tvb_length tvb < 12 + 4 * RTP_CSRC_COUNT (b0 % 256) + 8) :
    (dissect_rtp cfg tvb pinfo (some p) s).1 = .error .OutOfBounds ∧
      (dissect_rtp cfg tvb pinfo (some p) s).2.tap_queue = s.tap_queue := by
  rw [dissect_rtp_eq_v2 cfg tvb pinfo (some p) b0 b1 s h0 h1 hv (by omega)]
  rw [dissect_rtp_v2_header cfg tvb pinfo p _ _ s (by omega)]
  have he := dissect_rtp_hdr_extension_word_cut tvb p s.tree.length (RTP_EXTENSION (b0 % 256))
    (RTP_CSRC_COUNT (b0 % 256)) (12 + 4 * RTP_CSRC_COUNT (b0 % 256))
    (rtp_csrc_state cfg tvb pinfo p (b0 % 256) (b1 % 256) s) hx h hn hcut
  have hk := (keeps_dissect_rtp_hdr_extension tap_part tree_blind_tap_part tvb (some p)
    (some s.tree.length) (RTP_EXTENSION (b0 % 256)) (RTP_CSRC_COUNT (b0 % 256))
    (12 + 4 * RTP_CSRC_COUNT (b0 % 256))).out (rtp_csrc_state cfg tvb pinfo p (b0 % 256)
      (b1 % 256) s)
  have hq := (rtp_csrc_state_tree cfg tvb pinfo p (b0 % 256) (b1 % 256) s).2
  rcases hr : dissect_rtp_hdr_extension tvb (some p) (some s.tree.length)
    (RTP_EXTENSION (b0 % 256)) (RTP_CSRC_COUNT (b0 % 256))
    (12 + 4 * RTP_CSRC_COUNT (b0 % 256))
    (rtp_csrc_state cfg tvb pinfo p (b0 % 256) (b1 % 256) s) with ⟨res, s2⟩
  rw [hr] at he hk
  simp only [] at he
  subst he
  rw [bind_error _ _ _ _ _ hr]
  simp only [tap_part, Prod.mk.injEq] at hk
  exact ⟨rfl, by rw [hk.2, hq]⟩

/-- C24 fails as stated: on the fully captured 16-byte version-2 packet with
the padding and extension bits set whose header extension declares one word
beyond the end of the buffer, `dissect_rtp` called with a tree reads that word
for its field, stops with the bounds condition and queues no tap record, while
`dissect_rtp` called with tree = NULL skips the read, returns and queues one
record. -/
theorem rtp_tap_record_depends_on_tree :
    RTP_VERSION (0xB0 % 256) = 2 ∧
      (dissect_rtp rtp_config.plain rtp_ext_word_cut_tvb (rtp_pinfo 1) (some 0)
        epan_state.init).1 = .error .OutOfBounds ∧
      (dissect_rtp rtp_config.plain rtp_ext_word_cut_tvb (rtp_pinfo 1) (some 0)
        epan_state.init).2.tap_queue = [] ∧
      (dissect_rtp rtp_config.plain rtp_ext_word_cut_tvb (rtp_pinfo 1) none
        epan_state.init).1 = .ok () ∧
      (dissect_rtp rtp_config.plain rtp_ext_word_cut_tvb (rtp_pinfo 1) none
        epan_state.init).2.tap_queue =
        [rtp_tap_record rtp_config.plain rtp_ext_word_cut_tvb (0xB0 % 256) (0 % 256) 1] := by
  have hnone : (dissect_rtp rtp_config.plain rtp_ext_word_cut_tvb (rtp_pinfo 1) none
      epan_state.init).1 = .ok () :=
    dissect_rtp_none_padding_any rtp_config.plain rtp_ext_word_cut_tvb (rtp_pinfo 1) 0xB0 0
      epan_state.init rfl rfl (by decide) (by decide) rfl rfl (by decide) (by decide)
      (by decide)
  have hcut := dissect_rtp_ext_word_cut rtp_config.plain rtp_ext_word_cut_tvb (rtp_pinfo 1) 0
    0xB0 0 epan_state.init rfl rfl (by decide) (by decide) (by decide) (by decide) (by decide)
  refine ⟨by decide, hcut.1, hcut.2, hnone, ?_⟩
  rw [dissect_rtp_tap_queue rtp_config.plain rtp_ext_word_cut_tvb (rtp_pinfo 1) none 0xB0 0
    epan_state.init rfl rfl (by decide) (sub_decoders_keep_plain _) hnone]
  rfl

/-- C24, amended.  For every RTP version-2 buffer and packet info (payload
decoders leaving the static record and the tap queue alone): whenever
`dissect_rtp` returns both when called with tree = NULL and when called with a
tree, the two calls leave the same tap queue: each queues a record iff the
other does (none inside an error packet or through the "padding, but not all
the frame data was captured" exit, else one), and the two records are equal. -/
theorem rtp_tap_record_tree_independent (cfg : rtp_config) (tvb : tvbuff_t)
    (pinfo : packet_info) (p b0 b1 : Nat) (s : epan_state)
    (h0 : tvb.data[0]? = some b0) (h1 : tvb.data[1]? = some b1)
    (hv : RTP_VERSION (b0 % 256) = 2)
    (hsub : sub_decoders_keep cfg tap_part)
    (hok1 : (dissect_rtp cfg tvb pinfo (some p) s).1 = .ok ())
    (hok2 : (dissect_rtp cfg tvb pinfo none s).1 = .ok ()) :
    (dissect_rtp cfg tvb pinfo (some p) s).2.tap_queue =
        (dissect_rtp cfg tvb pinfo none s).2.tap_queue ∧
      (dissect_rtp cfg tvb pinfo none s).2.tap_queue =
        s.tap_queue ++ rtp_tap_expected cfg tvb pinfo (b0 % 256) (b1 % 256) := by
  rw [dissect_rtp_tap_queue cfg tvb pinfo (some p) b0 b1 s h0 h1 hv hsub hok1,
    dissect_rtp_tap_queue cfg tvb pinfo none b0 b1 s h0 h1 hv hsub hok2]
  exact ⟨rfl, rfl⟩

/-- C24 at a concrete input: the fully captured 22-byte packet with padding
count 255, which both calls decode to completion. -/
theorem rtp_tap_record_tree_independent_witness :
    (dissect_rtp rtp_config.plain rtp_padding_255_tvb (rtp_pinfo 1) (some 0)
        epan_state.init).2.tap_queue =
        (dissect_rtp rtp_config.plain rtp_padding_255_tvb (rtp_pinfo 1) none
          epan_state.init).2.tap_queue ∧
      (dissect_rtp rtp_config.plain rtp_padding_255_tvb (rtp_pinfo 1) none
          epan_state.init).2.tap_queue =
        epan_state.init.tap_queue ++
          rtp_tap_expected rtp_config.plain rtp_padding_255_tvb (rtp_pinfo 1) (0xA0 % 256) (0 % 256) :=
  rtp_tap_record_tree_independent rtp_config.plain rtp_padding_255_tvb (rtp_pinfo 1) 0 0xA0 0
    epan_state.init rfl rfl (by decide) (sub_decoders_keep_plain _)
    (dissect_rtp_padding_255 0 epan_state.init).1
    (dissect_rtp_none_padding_ok rtp_config.plain rtp_padding_255_tvb (rtp_pinfo 1) 0xA0 0
      epan_state.init rfl rfl (by decide) (by decide) rfl rfl (by decide) (by decide))

/-! ## RTP: the padding count of the tap record -/

theorem rtp_last_byte_lt (tvb : tvbuff_t) : rtp_last_byte tvb < 256 := by
  unfold rtp_last_byte tvb_get_guint8
  split
  · rename_i v h
    split at h
    · simp only [Except.ok.injEq] at h
      omega
    · cases h
  · omega

/-- C30 fails as stated: on the fully captured 22-byte version-2 packet with
the padding bit set, a 12-byte header and last byte 255, `dissect_rtp` clips
the padding to the 10 remaining bytes (9 bytes of padding data and the
padding count field), but the tap record it queues carries the unclipped
count 255, larger than `info_payload_len` = 10. -/
theorem rtp_tap_padding_count_unclipped :
    tvb_length rtp_padding_255_tvb = tvb_reported_length rtp_padding_255_tvb ∧
      RTP_VERSION (0xA0 % 256) = 2 ∧ RTP_PADDING (0xA0 % 256) ≠ 0 ∧
      rtp_header_end rtp_padding_255_tvb (0xA0 % 256) = 12 ∧
      (dissect_rtp rtp_config.plain rtp_padding_255_tvb (rtp_pinfo 1) (some 0)
        epan_state.init).1 = .ok () ∧
      (dissect_rtp rtp_config.plain rtp_padding_255_tvb (rtp_pinfo 1) (some 0)
        epan_state.init).2.tap_queue.map (fun r => (r.info_padding_count, r.info_payload_len)) =
        [(255, 10)] ∧
      rtp_effective_padding rtp_padding_255_tvb 12 255 = 10 ∧
      fields_where .hf_rtp_padding_data
        (dissect_rtp rtp_config.plain rtp_padding_255_tvb (rtp_pinfo 1) (some 0)
          epan_state.init).2 = [(12, 9)] ∧
      fields_where .hf_rtp_padding_count
        (dissect_rtp rtp_config.plain rtp_padding_255_tvb (rtp_pinfo 1) (some 0)
          epan_state.init).2 = [(21, 1)] := by
  obtain ⟨hok, pre, htree, hpre⟩ := dissect_rtp_padding_255 0 epan_state.init
  have hq := dissect_rtp_tap_queue rtp_config.plain rtp_padding_255_tvb (rtp_pinfo 1) (some 0)
    0xA0 0 epan_state.init rfl rfl (by decide) (sub_decoders_keep_plain _) hok
  have hd : pre.filter (fun n => n.hfindex = hf_id.hf_rtp_padding_data) = [] := by
    rw [List.filter_eq_nil_iff]
    intro n hn
    simpa using (hpre n hn).2.1
  have hc : pre.filter (fun n => n.hfindex = hf_id.hf_rtp_padding_count) = [] := by
    rw [List.filter_eq_nil_iff]
    intro n hn
    simpa using (hpre n hn).2.2.1
  refine ⟨rfl, by decide, by decide, by decide, hok, ?_, by decide, ?_, ?_⟩
  · rw [hq]
    decide
  · unfold fields_where
    rw [htree]
    simp [List.filter_append, hd, epan_state.init, item_node, node_range]
  · unfold fields_where
    rw [htree]
    simp [List.filter_append, hc, epan_state.init, item_node, node_range]

/-- On a fully captured buffer, at an offset within it, the padding count the
padding fields are shown with is the count read, clipped to the bytes that
remain. -/
theorem rtp_effective_padding_eq (tvb : tvbuff_t) (o pc : Nat)
    (hfull : tvb.reported_length = tvb.data.length)
    (hlen : tvb.data.length < 4294967296)
    (ho : o ≤ tvb.data.length) :
    rtp_effective_padding tvb o pc = min pc (tvb.data.length - o) := by
  unfold rtp_effective_padding tvb_reported_length_remaining to_guint
  simp only [tvb_reported_length, hfull]
  rw [if_pos ho]
  split_ifs <;> omega

/-- The count `rtp_effective_padding` is the one the padding branch of
`dissect_rtp` hands to its padding fields: the branch is the read of the last
byte, the update of the static record, the payload when data is left, and the
padding fields shown with that count. -/
theorem dissect_rtp_padding_effective (cfg : rtp_config) (tvb : tvbuff_t) (pinfo : packet_info)
    (tree rtp_tree : Option Nat) (pt offset : Nat) (s : epan_state) :
    dissect_rtp_padding cfg tvb pinfo tree rtp_tree pt offset s =
      (do
        let padding_count ← liftE (tvb_get_guint8 tvb
          ((tvb_reported_length tvb + 4294967296 - 1) % 4294967296))
        let data_len : Int := tvb_reported_length_remaining tvb offset - padding_count
        set_rtp_info (fun r => { r with
          info_payload_offset := offset,
          info_payload_len := to_size_t cfg (tvb_length_remaining tvb offset),
          info_padding_count := padding_count })
        let offset1 : Nat ←
          if data_len > 0 then do
            dissect_rtp_data cfg tvb pinfo tree rtp_tree offset data_len data_len pt
            pure (offset + data_len.toNat)
          else
            pure offset
        rtp_padding_fields tvb tree rtp_tree offset1
          (rtp_effective_padding tvb offset padding_count)) s := by
  rw [dissect_rtp_padding_eq]
  simp only [bind_apply]
  rcases hr : liftE (tvb_get_guint8 tvb
    ((tvb_reported_length tvb + 4294967296 - 1) % 4294967296)) s with ⟨res, s1⟩
  cases res with
  | error e => rw [bind_error _ _ _ _ _ hr, bind_error _ _ _ _ _ hr]
  | ok pc =>
    rw [bind_ok _ _ _ _ _ hr, bind_ok _ _ _ _ _ hr]
    simp only [bind_apply]
    rw [bind_ok _ _ _ _ _ (set_rtp_info_apply _ _), bind_ok _ _ _ _ _ (set_rtp_info_apply _ _)]
    unfold rtp_effective_padding
    by_cases hd : tvb_reported_length_remaining tvb offset - (pc : Int) > 0
    · have hn : ¬ (tvb_reported_length_remaining tvb offset - (pc : Int) < 0) := by omega
      simp only [hd, hn, if_true, if_false, bind_apply, Dissect.bind, pure_apply]
    · by_cases hn : tvb_reported_length_remaining tvb offset - (pc : Int) < 0
      · simp only [hd, hn, if_true, if_false, bind_apply, Dissect.bind, pure_apply]
      · simp only [hd, hn, if_false, bind_apply, Dissect.bind, pure_apply]

theorem fields_where_padding_data_nodes (r offset pc : Nat) :
    ((rtp_padding_nodes r offset pc).filter
        (fun n => n.hfindex = hf_id.hf_rtp_padding_data)).map node_range =
      if pc > 1 then [(offset, (pc : Int) - 1)] else [] := by
  unfold rtp_padding_nodes
  split_ifs <;> simp [item_node, node_range]

/-- The padding branch with a tree on a fully captured buffer, when it
returns: the padding data field covers all but the last of the `e` bytes of
padding at the end of the buffer, `e` being the padding count clipped to the
bytes after the header. -/
theorem dissect_rtp_padding_data_field (cfg : rtp_config) (tvb : tvbuff_t)
    (pinfo : packet_info) (p r pt o pc : Nat) (s : epan_state)
    (hsub : sub_decoders_keep cfg (fields_where .hf_rtp_padding_data))
    (hfull : tvb.reported_length = tvb.data.length)
    (hlen : tvb.data.length < 4294967296)
    (hpos : 0 < tvb.data.length)
    (ho : o ≤ tvb.data.length)
    (hread : tvb_get_guint8 tvb (tvb.data.length - 1) = .ok pc)
    (hok : (dissect_rtp_padding cfg tvb pinfo (some p) (some r) pt o s).1 = .ok ()) :
    fields_where .hf_rtp_padding_data
        (dissect_rtp_padding cfg tvb pinfo (some p) (some r) pt o s).2 =
      fields_where .hf_rtp_padding_data s ++
        (if rtp_effective_padding tvb o pc > 1 then
          [(tvb.data.length - rtp_effective_padding tvb o pc,
            (rtp_effective_padding tvb o pc : Int) - 1)]
        else []) := by
  rw [rtp_effective_padding_eq tvb o pc hfull hlen ho]
  by_cases hpc : o + pc < tvb.data.length
  · have hmin : min pc (tvb.data.length - o) = pc := by omega
    rw [hmin]
    rw [dissect_rtp_padding_with_data cfg tvb pinfo _ _ pt o pc s hfull hlen hread hpc] at hok ⊢
    have hk := (keeps_fields_where_dissect_rtp_data .hf_rtp_padding_data (by simp) cfg hsub tvb
      pinfo (some p) (some r) o ((tvb.data.length : Int) - o - pc)
      ((tvb.data.length : Int) - o - pc) pt).out
      { s with rtp_info := { s.rtp_info with
        info_payload_offset := o,
        info_payload_len := to_size_t cfg ((tvb.data.length : Int) - o),
        info_padding_count := pc } }
    rcases hd : dissect_rtp_data cfg tvb pinfo (some p) (some r) o
      ((tvb.data.length : Int) - o - pc) ((tvb.data.length : Int) - o - pc) pt
      { s with rtp_info := { s.rtp_info with
        info_payload_offset := o,
        info_payload_len := to_size_t cfg ((tvb.data.length : Int) - o),
        info_padding_count := pc } } with ⟨res, s2⟩
    rw [hd] at hk
    cases res with
    | error e =>
      rw [bind_error _ _ _ _ _ hd] at hok
      simp at hok
    | ok u =>
      rw [bind_ok _ _ _ _ _ hd] at hok ⊢
      by_cases h1 : 1 ≤ pc
      · rw [rtp_padding_fields_ok tvb p r _ pc s2 hlen h1 (by omega)]
        rw [fields_where_append, fields_where_padding_data_nodes, hk]
        rfl
      · have h0 : pc = 0 := by omega
        subst h0
        rw [Nat.sub_zero, rtp_padding_fields_zero] at hok
        simp at hok
  · have hmin : min pc (tvb.data.length - o) = tvb.data.length - o := by omega
    rw [hmin]
    rw [dissect_rtp_padding_no_data cfg tvb pinfo _ _ pt o pc s hfull hlen hpos ho hread
      (by omega)] at hok ⊢
    by_cases h1 : 1 ≤ tvb.data.length - o
    · rw [rtp_padding_fields_ok tvb p r o _ _ hlen h1 (by omega)]
      rw [fields_where_append, fields_where_padding_data_nodes]
      have e : tvb.data.length - (tvb.data.length - o) = o := by omega
      rw [e]
      rfl
    · have h0 : tvb.data.length - o = 0 := by omega
      have e : o = tvb.data.length := by omega
      rw [h0] at hok
      rw [e, rtp_padding_fields_zero] at hok
      simp at hok

/-- The padding data fields a returning call of `dissect_rtp` with a tree
adds on a fully captured version-2 buffer with the padding bit set. -/
theorem rtp_padding_data_shown (cfg : rtp_config) (tvb : tvbuff_t)
    (pinfo : packet_info) (p b0 b1 : Nat) (s : epan_state)
    (h0 : tvb.data[0]? = some b0) (h1 : tvb.data[1]? = some b1)
    (hv : RTP_VERSION (b0 % 256) = 2) (hps : RTP_PADDING (b0 % 256) ≠ 0)
    (hfull : tvb.reported_length = tvb.data.length)
    (hlen : tvb.data.length < 4294967296)
    (hsub : sub_decoders_keep cfg (fields_where .hf_rtp_padding_data))
    (hok : (dissect_rtp cfg tvb pinfo (some p) s).1 = .ok ()) :
    fields_where .hf_rtp_padding_data (dissect_rtp cfg tvb pinfo (some p) s).2 =
      fields_where .hf_rtp_padding_data s ++
        (if rtp_effective_padding tvb (rtp_header_end tvb (b0 % 256)) (rtp_last_byte tvb) > 1 then
          [(tvb.data.length -
              rtp_effective_padding tvb (rtp_header_end tvb (b0 % 256)) (rtp_last_byte tvb),
            (rtp_effective_padding tvb (rtp_header_end tvb (b0 % 256)) (rtp_last_byte tvb) : Int)
              - 1)]
        else []) := by
  obtain ⟨hle, sh, pre, hrun, htree, hpre⟩ :=
    dissect_rtp_tree_header cfg tvb pinfo p b0 b1 s h0 h1 hv hok
  have hpos : 0 < tvb.data.length := by
    have := (List.getElem?_eq_some_iff.mp h0).1
    omega
  have hnot : ¬ tvb_length tvb < tvb_reported_length tvb := by
    simp [tvb_length, tvb_reported_length, hfull]
  have hidx := rtp_last_index tvb hfull hlen hpos
  have hread : tvb_get_guint8 tvb (tvb.data.length - 1) = .ok (rtp_last_byte tvb) := by
    have hi : tvb.data.length - 1 < tvb.data.length := by omega
    unfold rtp_last_byte
    rw [hidx, tvb_get_guint8_ok tvb _ _ (List.getElem?_eq_getElem hi)]
  have hsh : fields_where .hf_rtp_padding_data sh = fields_where .hf_rtp_padding_data s := by
    have := fields_where_append_none .hf_rtp_padding_data s pre (fun n hn => (hpre n hn).2.1)
    rw [← this]
    simp [fields_where, htree]
  rw [hrun] at hok ⊢
  unfold dissect_rtp_payload at hok ⊢
  rw [if_pos hps, if_neg hnot] at hok ⊢
  rcases hp : dissect_rtp_padding cfg tvb pinfo (some p) (some s.tree.length)
    (RTP_PAYLOAD_TYPE (b1 % 256)) (rtp_header_end tvb (b0 % 256)) sh with ⟨r, s2⟩
  cases r with
  | error e =>
    rw [bind_apply, bind_error _ _ _ _ _ hp] at hok
    simp at hok
  | ok u =>
    have hf := dissect_rtp_padding_data_field cfg tvb pinfo p s.tree.length
      (RTP_PAYLOAD_TYPE (b1 % 256)) (rtp_header_end tvb (b0 % 256)) (rtp_last_byte tvb) sh hsub
      hfull hlen hpos (by simpa [tvb_length] using hle) hread (by rw [hp])
    rw [hp] at hf
    simp only [] at hf
    rw [bind_apply, bind_ok _ _ _ _ _ hp]
    have hq : ∀ s3 : epan_state,
        fields_where .hf_rtp_padding_data
          ((if !pinfo.in_error_pkt then tap_queue_packet else pure ()) s3).2 =
        fields_where .hf_rtp_padding_data s3 := by
      intro s3
      split_ifs <;> rfl
    rw [hq, hf, hsh]

/-- C30, amended.  For every fully captured RTP version-2 buffer with the
padding bit set on which `dissect_rtp` returns outside an error packet, the
header ending within the buffer (as it always does when a tree is given;
payload decoders leaving the static record, the tap queue and the padding
fields alone): one tap record is queued; its `info_padding_count` is the
value of the last byte of the buffer, unclipped, and its `info_payload_len`
the number `R` of bytes after the header.  With a tree, the padding fields
shown cover the last `e` bytes of the buffer, `e` being the last byte clipped
to `R`: padding data of `e - 1` bytes when `e > 1`, then the padding count at
the last byte.  The count of the tap record equals `e`, and is at most
`info_payload_len`, exactly when the last byte does not exceed `R`. -/
theorem rtp_tap_padding_count_is_last_byte (cfg : rtp_config) (tvb : tvbuff_t)
    (pinfo : packet_info) (tree : Option Nat) (b0 b1 : Nat) (s : epan_state)
    (h0 : tvb.data[0]? = some b0) (h1 : tvb.data[1]? = some b1)
    (hv : RTP_VERSION (b0 % 256) = 2) (hps : RTP_PADDING (b0 % 256) ≠ 0)
    (hfull : tvb.reported_length = tvb.data.length)
    (hlen : tvb.data.length < 4294967296)
    (hsize : tvb.data.length ≤ cfg.SIZE_MAX)
    (hsub : sub_decoders_keep cfg tap_part)
    (hsubd : sub_decoders_keep cfg (fields_where .hf_rtp_padding_data))
    (hsubc : sub_decoders_keep cfg (fields_where .hf_rtp_padding_count))
    (herr : pinfo.in_error_pkt = false)
    (hend : tree = none → rtp_header_end tvb (b0 % 256) ≤ tvb.data.length)
    (hok : (dissect_rtp cfg tvb pinfo tree s).1 = .ok ()) :
    rtp_header_end tvb (b0 % 256) ≤ tvb.data.length ∧
      rtp_effective_padding tvb (rtp_header_end tvb (b0 % 256)) (rtp_last_byte tvb) =
        min (rtp_last_byte tvb) (tvb.data.length - rtp_header_end tvb (b0 % 256)) ∧
      (∀ p, tree = some p →
        fields_where .hf_rtp_padding_data (dissect_rtp cfg tvb pinfo tree s).2 =
          fields_where .hf_rtp_padding_data s ++
            (if rtp_effective_padding tvb (rtp_header_end tvb (b0 % 256)) (rtp_last_byte tvb) > 1
            then
              [(tvb.data.length -
                  rtp_effective_padding tvb (rtp_header_end tvb (b0 % 256)) (rtp_last_byte tvb),
                (rtp_effective_padding tvb (rtp_header_end tvb (b0 % 256))
                  (rtp_last_byte tvb) : Int) - 1)]
            else []) ∧
        fields_where .hf_rtp_padding_count (dissect_rtp cfg tvb pinfo tree s).2 =
          fields_where .hf_rtp_padding_count s ++ [(tvb.data.length - 1, 1)] ∧
        1 ≤ rtp_effective_padding tvb (rtp_header_end tvb (b0 % 256)) (rtp_last_byte tvb)) ∧
      ∃ r, (dissect_rtp cfg tvb pinfo tree s).2.tap_queue = s.tap_queue ++ [r] ∧
        r.info_padding_count = rtp_last_byte tvb ∧
        r.info_payload_len = tvb.data.length - rtp_header_end tvb (b0 % 256) ∧
        (r.info_padding_count =
            rtp_effective_padding tvb (rtp_header_end tvb (b0 % 256)) (rtp_last_byte tvb) ↔
          rtp_last_byte tvb ≤ tvb.data.length - rtp_header_end tvb (b0 % 256)) ∧
        (r.info_padding_count ≤ r.info_payload_len ↔
          rtp_last_byte tvb ≤ tvb.data.length - rtp_header_end tvb (b0 % 256)) := by
  have hle : rtp_header_end tvb (b0 % 256) ≤ tvb.data.length := by
    cases tree with
    | none => exact hend rfl
    | some p =>
      have := (dissect_rtp_tree_header cfg tvb pinfo p b0 b1 s h0 h1 hv hok).1
      simpa [tvb_length] using this
  have heff := rtp_effective_padding_eq tvb (rtp_header_end tvb (b0 % 256)) (rtp_last_byte tvb)
    hfull hlen hle
  have hq := dissect_rtp_tap_queue cfg tvb pinfo tree b0 b1 s h0 h1 hv hsub hok
  have hnot : ¬ tvb_length tvb < tvb_reported_length tvb := by
    simp [tvb_length, tvb_reported_length, hfull]
  have hcond : ¬ (pinfo.in_error_pkt = true ∨
      (RTP_PADDING (b0 % 256) ≠ 0 ∧ tvb_length tvb < tvb_reported_length tvb)) := by
    rw [herr]
    simp [hnot]
  unfold rtp_tap_expected at hq
  rw [if_neg hcond, if_pos hps] at hq
  have hpl : (rtp_tap_record cfg tvb (b0 % 256) (b1 % 256) (rtp_last_byte tvb)).info_payload_len =
      tvb.data.length - rtp_header_end tvb (b0 % 256) := by
    show to_size_t cfg (tvb_length_remaining tvb (rtp_header_end tvb (b0 % 256))) = _
    unfold to_size_t tvb_length_remaining
    simp only [tvb_length]
    rw [if_pos hle]
    have h1 : ((tvb.data.length : Int) - (rtp_header_end tvb (b0 % 256) : Nat)) %
        ((cfg.SIZE_MAX : Int) + 1) =
        (tvb.data.length : Int) - (rtp_header_end tvb (b0 % 256) : Nat) :=
      Int.emod_eq_of_lt (by omega) (by omega)
    rw [h1]
    omega
  refine ⟨hle, heff, ?_, _, hq, rfl, hpl, ?_, ?_⟩
  · intro p hp
    subst hp
    have hb : ∃ b, tvb.data[tvb.data.length - 1]? = some b := by
      have hpos : 0 < tvb.data.length := by
        have := (List.getElem?_eq_some_iff.mp h0).1
        omega
      have hi : tvb.data.length - 1 < tvb.data.length := by omega
      exact ⟨_, List.getElem?_eq_getElem hi⟩
    obtain ⟨b, hb⟩ := hb
    obtain ⟨hc, hb1, hR⟩ := rtp_padding_count_at_last_byte cfg tvb pinfo p b0 b1 b s h0 h1 hv hps
      hfull hlen hb hsubc hok
    have hd := rtp_padding_data_shown cfg tvb pinfo p b0 b1 s h0 h1 hv hps hfull hlen hsubd hok
    have hlast : rtp_last_byte tvb = b % 256 := by
      have hpos : 0 < tvb.data.length := by
        have := (List.getElem?_eq_some_iff.mp h0).1
        omega
      unfold rtp_last_byte
      rw [rtp_last_index tvb hfull hlen hpos, tvb_get_guint8_ok tvb _ _ hb]
    refine ⟨hd, ?_, ?_⟩
    · simpa [tvb_reported_length, hfull] using hc
    · rw [heff, hlast]
      simp only [tvb_reported_length, hfull] at hR
      omega
  · show rtp_last_byte tvb = _ ↔ _
    rw [heff]
    omega
  · rw [hpl]
    show rtp_last_byte tvb ≤ _ ↔ _
    exact Iff.rfl

/-- C30 (amended) at a concrete input: the 22-byte packet with padding count
255 and 10 bytes after the header, decoded with a tree. -/
theorem rtp_tap_padding_count_is_last_byte_witness :
    rtp_header_end rtp_padding_255_tvb (0xA0 % 256) ≤ rtp_padding_255_tvb.data.length ∧
      rtp_effective_padding rtp_padding_255_tvb (rtp_header_end rtp_padding_255_tvb (0xA0 % 256))
          (rtp_last_byte rtp_padding_255_tvb) =
        min (rtp_last_byte rtp_padding_255_tvb)
          (rtp_padding_255_tvb.data.length - rtp_header_end rtp_padding_255_tvb (0xA0 % 256)) ∧
      (∀ p, some 0 = some p →
        fields_where .hf_rtp_padding_data (dissect_rtp rtp_config.plain rtp_padding_255_tvb
            (rtp_pinfo 1) (some 0) epan_state.init).2 =
          fields_where .hf_rtp_padding_data epan_state.init ++
            (if rtp_effective_padding rtp_padding_255_tvb
                (rtp_header_end rtp_padding_255_tvb (0xA0 % 256))
                (rtp_last_byte rtp_padding_255_tvb) > 1
            then
              [(rtp_padding_255_tvb.data.length -
                  rtp_effective_padding rtp_padding_255_tvb
                    (rtp_header_end rtp_padding_255_tvb (0xA0 % 256))
                    (rtp_last_byte rtp_padding_255_tvb),
                (rtp_effective_padding rtp_padding_255_tvb
                  (rtp_header_end rtp_padding_255_tvb (0xA0 % 256))
                  (rtp_last_byte rtp_padding_255_tvb) : Int) - 1)]
            else []) ∧
        fields_where .hf_rtp_padding_count (dissect_rtp rtp_config.plain rtp_padding_255_tvb
            (rtp_pinfo 1) (some 0) epan_state.init).2 =
          fields_where .hf_rtp_padding_count epan_state.init ++
            [(rtp_padding_255_tvb.data.length - 1, 1)] ∧
        1 ≤ rtp_effective_padding rtp_padding_255_tvb
          (rtp_header_end rtp_padding_255_tvb (0xA0 % 256))
          (rtp_last_byte rtp_padding_255_tvb)) ∧
      ∃ r, (dissect_rtp rtp_config.plain rtp_padding_255_tvb (rtp_pinfo 1) (some 0)
          epan_state.init).2.tap_queue = epan_state.init.tap_queue ++ [r] ∧
        r.info_padding_count = rtp_last_byte rtp_padding_255_tvb ∧
        r.info_payload_len =
          rtp_padding_255_tvb.data.length - rtp_header_end rtp_padding_255_tvb (0xA0 % 256) ∧
        (r.info_padding_count =
            rtp_effective_padding rtp_padding_255_tvb
              (rtp_header_end rtp_padding_255_tvb (0xA0 % 256))
              (rtp_last_byte rtp_padding_255_tvb) ↔
          rtp_last_byte rtp_padding_255_tvb ≤
            rtp_padding_255_tvb.data.length -
              rtp_header_end rtp_padding_255_tvb (0xA0 % 256)) ∧
        (r.info_padding_count ≤ r.info_payload_len ↔
          rtp_last_byte rtp_padding_255_tvb ≤
            rtp_padding_255_tvb.data.length -
              rtp_header_end rtp_padding_255_tvb (0xA0 % 256)) :=
  rtp_tap_padding_count_is_last_byte rtp_config.plain rtp_padding_255_tvb (rtp_pinfo 1) (some 0)
    0xA0 0 epan_state.init rfl rfl (by decide) (by decide) rfl (by decide) (by decide)
    (sub_decoders_keep_plain _) (sub_decoders_keep_plain _) (sub_decoders_keep_plain _) rfl
    (fun h => by cases h) (dissect_rtp_padding_255 0 epan_state.init).1

/-! ## RTP: the ranges of the CSRC list and of the header extension -/

/-- The tree once the fixed header and the CSRC list are decoded: the nodes
before the CSRC list, then the CSRC nodes. -/
theorem rtp_csrc_state_nodes (cfg : rtp_config) (tvb : tvbuff_t) (pinfo : packet_info)
    (p o1 o2 : Nat) (s : epan_state) :
    ∃ l0 base, (rtp_csrc_state cfg tvb pinfo p o1 o2 s).tree =
        s.tree ++ l0 ++ rtp_csrc_nodes tvb s.tree.length base (RTP_CSRC_COUNT o1) 12 ∧
      ∀ n ∈ l0, rtp_fixed_node n := by
  have ht := rtp_prologue_tree tvb (RTP_PADDING o1) (RTP_MARKER o2) (RTP_PAYLOAD_TYPE o2)
    (ntohs_at tvb 2) (ntohl_at tvb 4) (ntohl_at tvb 8) s
  simp only [rtp_csrc_state]
  obtain ⟨l, hl, hq⟩ := rtp_after_setup_eq cfg tvb pinfo s.tree.length
    { (dissect_rtp_columns (RTP_PAYLOAD_TYPE o2) (ntohl_at tvb 8) (ntohs_at tvb 2)
        (ntohl_at tvb 4) (RTP_MARKER o2)
        (dissect_rtp_fill_info tvb (RTP_PADDING o1) (RTP_MARKER o2) (RTP_PAYLOAD_TYPE o2)
          (ntohs_at tvb 2) (ntohl_at tvb 4) (ntohl_at tvb 8) s).2).2 with
      tree := (dissect_rtp_columns (RTP_PAYLOAD_TYPE o2) (ntohl_at tvb 8) (ntohs_at tvb 2)
        (ntohl_at tvb 4) (RTP_MARKER o2)
        (dissect_rtp_fill_info tvb (RTP_PADDING o1) (RTP_MARKER o2) (RTP_PAYLOAD_TYPE o2)
          (ntohs_at tvb 2) (ntohl_at tvb 4) (ntohl_at tvb 8) s).2).2.tree ++
        [⟨p, .proto_rtp, 0, tvb_length tvb, .from_tvb, "", some .ett_rtp, false, false⟩] }
  rw [hl]
  simp only [ht.1, ht.2, List.append_assoc]
  refine ⟨[⟨p, .proto_rtp, 0, tvb_length tvb, .from_tvb, "", some .ett_rtp, false, false⟩] ++ l ++
    rtp_fixed_field_nodes s.tree.length o1 o2 (ntohs_at tvb 2) (ntohl_at tvb 4) (ntohl_at tvb 8),
    _, by simp only [List.append_assoc]; rfl, ?_⟩
  intro n hn
  simp only [List.mem_append, List.mem_cons, List.mem_singleton, List.not_mem_nil, or_false,
    List.singleton_append] at hn
  rcases hn with (rfl | hn) | hn
  · simp [rtp_fixed_node]
  · obtain ⟨_, _, _, h4⟩ := hq n hn
    refine ⟨?_, ?_, ?_⟩ <;> rcases h4 with h | h | h <;> simp [h]
  · simp only [rtp_fixed_field_nodes, List.mem_cons, List.mem_singleton, List.not_mem_nil,
      or_false] at hn
    rcases hn with rfl | rfl | rfl | rfl | rfl | rfl | rfl | rfl | rfl <;>
      simp [rtp_fixed_node, value_node]

/-- With a tree, no padding and no decoder for the payload type, a version-2
packet whose header extension is captured is decoded to completion: the tree
is that of the fixed header and the CSRC list, followed by the nodes of the
header extension (the "Header extensions" node declared `csrc_count * 4`
bytes long) and the raw payload field. -/
theorem dissect_rtp_hdr_ext_tree (cfg : rtp_config) (tvb : tvbuff_t) (pinfo : packet_info)
    (p b0 b1 : Nat) (s : epan_state)
    (h0 : tvb.data[0]? = some b0) (h1 : tvb.data[1]? = some b1)
    (hv : RTP_VERSION (b0 % 256) = 2) (hps : RTP_PADDING (b0 % 256) = 0)
    (hx : RTP_EXTENSION (b0 % 256) ≠ 0)
    (hno : cfg.rtp_pt_dissector_table (RTP_PAYLOAD_TYPE (b1 % 256)) = none)
    (hcap : rtp_header_end tvb (b0 % 256) ≤ tvb_length tvb) :
    (dissect_rtp cfg tvb pinfo (some p) s).1 = .ok () ∧
      (dissect_rtp cfg tvb pinfo (some p) s).2.tree =
        (rtp_csrc_state cfg tvb pinfo p (b0 % 256) (b1 % 256) s).tree ++
          rtp_hdr_ext_nodes tvb s.tree.length
            (rtp_csrc_state cfg tvb pinfo p (b0 % 256) (b1 % 256) s).tree.length
            (RTP_CSRC_COUNT (b0 % 256)) (12 + 4 * RTP_CSRC_COUNT (b0 % 256)) ++
          [item_node s.tree.length .hf_rtp_data 0
            ((tvb_length tvb - rtp_header_end tvb (b0 % 256) : Nat) : Int)] := by
  have he : rtp_header_end tvb (b0 % 256) = 12 + 4 * RTP_CSRC_COUNT (b0 % 256) + 4 +
      4 * ntohs_at tvb (12 + 4 * RTP_CSRC_COUNT (b0 % 256) + 2) := by
    simp [rtp_header_end, hx]; omega
  rw [dissect_rtp_eq_v2 cfg tvb pinfo (some p) b0 b1 s h0 h1 hv (by omega)]
  rw [dissect_rtp_v2_header cfg tvb pinfo p _ _ s (by omega)]
  rw [bind_ok _ _ _ _ _ (dissect_rtp_hdr_extension_ok tvb p _ _ _ _ _ hx (by omega))]
  rw [← he, hps]
  unfold dissect_rtp_payload
  rw [if_neg (by simp), bind_apply]
  rw [bind_ok _ _ _ _ _ (dissect_rtp_data_raw cfg tvb pinfo (some p) s.tree.length _ _ _ _ _ _ hno
    (tvb_new_subset_remaining tvb _ hcap))]
  rw [bind_apply, bind_ok _ _ _ _ _ (set_rtp_info_apply _ _)]
  have hl : tvb_length (⟨(tvb.data.drop (rtp_header_end tvb (b0 % 256))).take
      (tvb_length tvb - rtp_header_end tvb (b0 % 256)),
      if tvb_reported_length_remaining tvb (rtp_header_end tvb (b0 % 256)) = -1 then
        tvb_reported_length tvb - rtp_header_end tvb (b0 % 256)
      else (tvb_reported_length_remaining tvb (rtp_header_end tvb (b0 % 256))).toNat⟩ : tvbuff_t) =
      tvb_length tvb - rtp_header_end tvb (b0 % 256) := by
    simp [tvb_length]
  rw [hl]
  split_ifs <;> exact ⟨rfl, rfl⟩

/-- C22 at its failing input: a fully captured 29-byte version-2 packet with
the extension bit set, one CSRC item (CC = 1) and extension length n = 2,
decoded with a tree to completion.  The "Contributing Source identifiers"
node covers the 4 bytes of its one CSRC child, but the "Header extensions"
node is the range (20, 4), `csrc_count * 4` bytes, while its two "Header
extension" children occupy the 8 bytes (20, 4) and (24, 4). -/
theorem rtp_hdr_ext_node_has_csrc_length :
    RTP_VERSION (0x91 % 256) = 2 ∧ RTP_EXTENSION (0x91 % 256) ≠ 0 ∧
      RTP_CSRC_COUNT (0x91 % 256) = 1 ∧ ntohs_at rtp_csrc_two_ext_tvb 18 = 2 ∧
      tvb_length rtp_csrc_two_ext_tvb = 29 ∧
      (dissect_rtp rtp_config.plain rtp_csrc_two_ext_tvb (rtp_pinfo 1) (some 0)
        epan_state.init).1 = .ok () ∧
      subtrees_where .ett_csrc_list
        (dissect_rtp rtp_config.plain rtp_csrc_two_ext_tvb (rtp_pinfo 1) (some 0)
          epan_state.init).2 = [(12, 4)] ∧
      fields_where .hf_rtp_csrc_item
        (dissect_rtp rtp_config.plain rtp_csrc_two_ext_tvb (rtp_pinfo 1) (some 0)
          epan_state.init).2 = [(12, 4)] ∧
      subtrees_where .ett_hdr_ext
        (dissect_rtp rtp_config.plain rtp_csrc_two_ext_tvb (rtp_pinfo 1) (some 0)
          epan_state.init).2 = [(20, 4)] ∧
      fields_where .hf_rtp_hdr_ext
        (dissect_rtp rtp_config.plain rtp_csrc_two_ext_tvb (rtp_pinfo 1) (some 0)
          epan_state.init).2 = [(20, 4), (24, 4)] := by
  have hcc : RTP_CSRC_COUNT (0x91 % 256) = 1 := by decide
  have hn : ntohs_at rtp_csrc_two_ext_tvb 18 = 2 := by decide
  obtain ⟨hok, htree⟩ := dissect_rtp_hdr_ext_tree rtp_config.plain rtp_csrc_two_ext_tvb
    (rtp_pinfo 1) 0 0x91 0 epan_state.init rfl rfl (by decide) (by decide) (by decide) rfl
    (by decide)
  obtain ⟨l0, base, hl, hq⟩ := rtp_csrc_state_nodes rtp_config.plain rtp_csrc_two_ext_tvb
    (rtp_pinfo 1) 0 (0x91 % 256) (0 % 256) epan_state.init
  have h1 : ∀ a ∈ l0, a.hfindex = hf_id.hf_text_only →
      ¬ a.tree_type = some ett_id.ett_csrc_list := fun a ha h => absurd h (hq a ha).1
  have h2 : ∀ a ∈ l0, a.hfindex = hf_id.hf_text_only →
      ¬ a.tree_type = some ett_id.ett_hdr_ext := fun a ha h => absurd h (hq a ha).1
  have h3 : l0.filter (fun n => n.hfindex = hf_id.hf_rtp_csrc_item) = [] := by
    rw [List.filter_eq_nil_iff]
    intro n hn
    simpa using (hq n hn).2.1
  have h4 : l0.filter (fun n => n.hfindex = hf_id.hf_rtp_hdr_ext) = [] := by
    rw [List.filter_eq_nil_iff]
    intro n hn
    simpa using (hq n hn).2.2
  rw [hl, hcc] at htree
  refine ⟨by decide, by decide, hcc, hn, rfl, hok, ?_, ?_, ?_, ?_⟩
  · unfold subtrees_where
    rw [htree]
    simp [List.filter_append, epan_state.init, rtp_csrc_nodes, rtp_csrc_item_nodes,
      rtp_hdr_ext_nodes, rtp_hdr_ext_word_nodes, hn, text_node, value_node, item_node, node_range]
    exact h1
  · unfold fields_where
    rw [htree]
    simp [List.filter_append, h3, epan_state.init, rtp_csrc_nodes, rtp_csrc_item_nodes,
      rtp_hdr_ext_nodes, rtp_hdr_ext_word_nodes, hn, text_node, value_node, item_node, node_range]
  · unfold subtrees_where
    rw [htree]
    simp [List.filter_append, epan_state.init, rtp_csrc_nodes, rtp_csrc_item_nodes,
      rtp_hdr_ext_nodes, rtp_hdr_ext_word_nodes, hn, text_node, value_node, item_node, node_range]
    exact h2
  · unfold fields_where
    rw [htree]
    simp [List.filter_append, h4, epan_state.init, rtp_csrc_nodes, rtp_csrc_item_nodes,
      rtp_hdr_ext_nodes, rtp_hdr_ext_word_nodes, hn, text_node, value_node, item_node, node_range]

end Epan
